import Mathlib

/-!
# T-scan: the statistics tree, the scans over the words, the lexicons and the CSV rows

A verification development over `src/tscan.cxx`.  The C++ classes are read as
records and their member functions as functions from records to records.

Conventions of the embedding:

* `int` fields are unbounded integers (`Int`); signed overflow is undefined
  behaviour in C++ and lies outside the model.
* `double` values are read in exact arithmetic: `none` is NaN, `some q` is the
  finite value `q`.  Where the rounding of an addition matters (the order of two
  merges), the additions are rounded to binary64 (`round64`, `mergeR`).
* `std::map<K,int>` is an association list compared by its bindings (`find`);
  `std::multimap<K,int>` is a key-ordered list in which an inserted pair goes
  after the pairs with an equal key.
* a pointer to a child node is recorded by the child's `index`.
* a lexicon (`std::map<string,V>`) is the list of its bindings, read with `List.lookup`;
  the input of a loader is the list of its non-empty lines, each by its parts.
* functions and types that the source uses and that are declared outside `tscan.cxx` are
  parameters or inputs of the definitions that use them.
* a stream of CSV output is the list of the strings or fields written to it.
-/

namespace TScan

/-! ## Enumerations used as map keys -/

/-- The values of `CGN::Type` (tag heads) that the source names. -/
inductive CGNType
  | N | ADJ | WW | VG | TSW | LET | SPEC | BW | VNW | LID | TW | VZ | UNASS
  deriving DecidableEq, Repr

/-- The values of `NER::Type` that the source names. -/
inductive NERType
  | NONER | LOC_B | EVE_B | MISC_B | ORG_B | PER_B | PRO_B
  deriving DecidableEq, Repr

/-- The values of `Afk::Type` that the source names. -/
inductive AfkType
  | NO_A | OVERHEID_A | ZORG_A | ONDERWIJS_A | JURIDISCH_A | OVERIGE_A
  | INTERNATIONAAL_A | MEDIA_A | GENERIEK_A
  deriving DecidableEq, Repr

/-- A dependency-relation kind (`DD_type`), by the integer value of its enumerator. -/
abbrev DD_type := Nat

/-- The frequency tier of a word (`top_val`). -/
inductive top_val
  | top1000 | top2000 | top3000 | top5000 | top10000 | top20000 | notFound
  deriving DecidableEq, Repr

/-! ## Doubles -/

/-- A C++ `double` in exact arithmetic: `none` is NaN. -/
abbrev double := Option ℚ

/-- The test `std::isnan`. -/
def isnan (d : double) : Bool := d.isNone

/-- Addition of two doubles: NaN is absorbing. -/
def dadd : double → double → double
  | some a, some b => some (a + b)
  | _, _ => none

/-! ## The fields of `structStats` -/

/-- The `int` members of `structStats` that `merge` updates with an unguarded
`x += ss->x`, in the order of `structStats::merge`. -/
inductive Counter
  | wordCnt | charCnt | charCntExNames | morphCnt | morphCntExNames | nameCnt | infBvCnt
  | infNwCnt | infVrijCnt | vdBvCnt | vdNwCnt | vdVrijCnt | odBvCnt | odNwCnt | odVrijCnt
  | passiveCnt | modalCnt | timeVCnt | koppelCnt | archaicsCnt | contentCnt | nominalCnt
  | adjCnt | vgCnt | vnwCnt | lidCnt | vzCnt | bwCnt | twCnt | nounCnt | verbCnt | tswCnt
  | specCnt | letCnt | betrCnt | bijwCnt | complCnt | mvFinInbedCnt | infinComplCnt
  | mvInbedCnt | losBetrCnt | losBijwCnt | tempConnCnt | opsomWgConnCnt | opsomZinConnCnt
  | contrastConnCnt | compConnCnt | causeConnCnt | timeSitCnt | spaceSitCnt | causeSitCnt
  | emoSitCnt | prepExprCnt | propNegCnt | morphNegCnt | multiNegCnt | wordOverlapCnt
  | lemmaOverlapCnt | f50Cnt | f65Cnt | f77Cnt | f80Cnt | top1000Cnt | top2000Cnt | top3000Cnt
  | top5000Cnt | top10000Cnt | top20000Cnt | top1000ContentCnt | top2000ContentCnt
  | top3000ContentCnt | top5000ContentCnt | top10000ContentCnt | top20000ContentCnt | intensCnt
  | intensBvnwCnt | intensBvbwCnt | intensBwCnt | intensCombiCnt | intensNwCnt | intensTussCnt
  | intensWwCnt | generalNounCnt | generalNounSepCnt | generalNounRelCnt | generalNounActCnt
  | generalNounKnowCnt | generalNounDiscCnt | generalNounDeveCnt | generalVerbCnt
  | generalVerbSepCnt | generalVerbRelCnt | generalVerbActCnt | generalVerbKnowCnt
  | generalVerbDiscCnt | generalVerbDeveCnt | generalAdverbCnt | specificAdverbCnt | smainCnt
  | ssubCnt | sv1Cnt | clauseCnt | correctedClauseCnt | smainCnjCnt | ssubCnjCnt | sv1CnjCnt
  | presentCnt | pastCnt | subjonctCnt | pron1Cnt | pron2Cnt | pron3Cnt | persRefCnt
  | pronRefCnt | strictNounCnt | broadNounCnt | strictAdjCnt | broadAdjCnt | subjectiveAdjCnt
  | abstractWwCnt | concreteWwCnt | undefinedWwCnt | undefinedATPCnt | stateCnt | actionCnt
  | processCnt | humanAdjCnt | emoAdjCnt | nonhumanAdjCnt | shapeAdjCnt | colorAdjCnt
  | matterAdjCnt | soundAdjCnt | nonhumanOtherAdjCnt | techAdjCnt | timeAdjCnt | placeAdjCnt
  | specPosAdjCnt | specNegAdjCnt | posAdjCnt | negAdjCnt | evaluativeAdjCnt | epiPosAdjCnt
  | epiNegAdjCnt | abstractAdjCnt | undefinedNounCnt | uncoveredNounCnt | undefinedAdjCnt
  | uncoveredAdjCnt | uncoveredVerbCnt | humanCnt | nonHumanCnt | artefactCnt | concrotherCnt
  | substanceConcCnt | foodcareCnt | timeCnt | placeCnt | measureCnt | dynamicConcCnt
  | substanceAbstrCnt | dynamicAbstrCnt | nonDynamicCnt | institutCnt | npCnt | indefNpCnt
  | npSize | vcModCnt | vcModSingleCnt | adjNpModCnt | npModCnt | dLevel_gt4 | impCnt
  | questCnt | nerCnt | compoundCnt | compound3Cnt | charCntNoun | charCntNonComp | charCntComp
  | charCntHead | charCntSat | charCntNounCorr | charCntCorr | top1000CntNoun
  | top1000CntNonComp | top1000CntComp | top1000CntHead | top1000CntSat | top1000CntNounCorr
  | top1000CntCorr | top5000CntNoun | top5000CntNonComp | top5000CntComp | top5000CntHead
  | top5000CntSat | top5000CntNounCorr | top5000CntCorr | top20000CntNoun | top20000CntNonComp
  | top20000CntComp | top20000CntHead | top20000CntSat | top20000CntNounCorr | top20000CntCorr
  deriving DecidableEq, Repr

/-- The `double` members of `structStats` that `merge` updates with an unguarded
`x += ss->x`, in the order of `structStats::merge`. -/
inductive RealSum
  | word_freq | word_freq_n | lemma_freq | lemma_freq_n
  | word_freq_log_noun | word_freq_log_non_comp | word_freq_log_comp | word_freq_log_head
  | word_freq_log_sat | word_freq_log_head_sat | word_freq_log_noun_corr | word_freq_log_corr
  deriving DecidableEq, Repr

/-- A `std::map<K,int>` as an association list; a key is bound at most once in
every map built with `mapAdd` from the empty map. -/
abbrev CountMap (K : Type) := List (K × Int)

/-- The binding of `k`, the `m.find(k)` of the source (`none` is `m.end()`). -/
def CountMap.find {K : Type} [DecidableEq K] : CountMap K → K → Option Int
  | [], _ => none
  | (k1, v) :: rest, k => if k1 = k then some v else CountMap.find rest k

/-- One round of the loop of `aggregate`: `out[k] = v` when `k` is unbound in
`out`, `oi->second += v` otherwise. -/
def mapAdd {K : Type} [DecidableEq K] : CountMap K → K → Int → CountMap K
  | [], k, v => [(k, v)]
  | (k1, v1) :: rest, k, v =>
      if k1 = k then (k1, v1 + v) :: rest else (k1, v1) :: mapAdd rest k v

/-- The template `aggregate( M& out, const M& in )` (lines 854-867). -/
def aggregate {K : Type} [DecidableEq K] (out inp : CountMap K) : CountMap K :=
  inp.foldl (fun o kv => mapAdd o kv.1 kv.2) out

/-- The values bound to `k` by the pairs of `inp`, in order. -/
def valuesAt {K : Type} [DecidableEq K] (inp : CountMap K) (k : K) : List Int :=
  (inp.filter (fun kv => kv.1 = k)).map (fun kv => kv.2)

/-- A `std::multimap<DD_type,int>`: pairs in key order. -/
abbrev DistMap := List (DD_type × Int)

/-- The call `out.insert( make_pair(k, v) )`: the pair goes after the last pair
whose key is at most `k`. -/
def mmInsert : DistMap → DD_type → Int → DistMap
  | [], k, v => [(k, v)]
  | (k1, v1) :: rest, k, v =>
      if k1 ≤ k then (k1, v1) :: mmInsert rest k v else (k, v) :: (k1, v1) :: rest

/-- The overload `aggregate( multimap& out, const multimap& in )` (lines 869-876). -/
def aggregateDist (out inp : DistMap) : DistMap :=
  inp.foldl (fun o kv => mmInsert o kv.1 kv.2) out

/-- The function `sentStats::getMeanAL` (lines 3229-3242): NaN on an empty multimap, else
the mean of the distances. -/
def getMeanAL (distances : DistMap) : double :=
  if 0 < distances.length then
    some ((distances.foldl (fun result kv => result + (kv.2 : ℚ)) 0) / distances.length)
  else none

/-- The function `sentStats::getHighestAL` (lines 3244-3253): the largest distance, at
least 0. -/
def getHighestAL (distances : DistMap) : double :=
  some (distances.foldl (fun result kv => if (kv.2 : ℚ) > result then (kv.2 : ℚ) else result) 0)

/-- The `double` members of `structStats` that the constructors set after the merge of the
children (the mean frequency logarithms) or that `calculate_MTLDs` sets (lines 3204-3219). -/
inductive NodeDouble
  | word_freq_log | word_freq_log_n | lemma_freq_log | lemma_freq_log_n
  | word_mtld | lemma_mtld | name_mtld | content_mtld | temp_conn_mtld | reeks_wg_conn_mtld
  | reeks_zin_conn_mtld | contr_conn_mtld | comp_conn_mtld | cause_conn_mtld
  | cause_sit_mtld | ruimte_sit_mtld | tijd_sit_mtld | emotion_sit_mtld
  deriving DecidableEq, Repr

/-- The members of `structStats` that `structStats::merge` reads or writes, and in `dval`
the `double` members that the row functions write besides.  The members `meanAL` and
`highestAL` are the member functions `getMeanAL()` and `getHighestAL()` of the class of
the node, read as functions of the distance multimap: those of `sentStats`
(lines 3229-3253) for a sentence, which are the defaults, and for a paragraph or a
document those that `tscan/stats.h` declares, outside the source file. -/
structure structStats where
  index : Nat
  parseFailCnt : Int
  sentCnt : Int
  dLevel : Int
  cnt : Counter → Int
  dsum : RealSum → double
  avg_prob10 : double
  entropy : double
  perplexity : double
  sv : List Nat
  heads : CountMap CGNType
  unique_names : CountMap String
  unique_contents : CountMap String
  unique_words : CountMap String
  unique_lemmas : CountMap String
  unique_tijd_sits : CountMap String
  unique_ruimte_sits : CountMap String
  unique_cause_sits : CountMap String
  unique_emotion_sits : CountMap String
  unique_temp_conn : CountMap String
  unique_reeks_wg_conn : CountMap String
  unique_reeks_zin_conn : CountMap String
  unique_contr_conn : CountMap String
  unique_comp_conn : CountMap String
  unique_cause_conn : CountMap String
  ners : CountMap NERType
  afks : CountMap AfkType
  distances : DistMap
  al_gem : double
  al_max : double
  dval : NodeDouble → double := fun _ => none
  meanAL : DistMap → double := getMeanAL
  highestAL : DistMap → double := getHighestAL

/-- The NaN-guarded update of lines 1604-1621, written three times in the source:
`if ( !isnan(ss->x) ){ if ( isnan(x) ) x = ss->x; else x += ss->x; }`. -/
def nanGuardedAdd (x ssx : double) : double :=
  if !isnan ssx then
    if isnan x then ssx else dadd x ssx
  else x

/-- The function `structStats::merge( structStats *ss )` (lines 1519-1789); `p` is `*this`.
The calls `getMeanAL()` and `getHighestAL()` of lines 1787-1788 are calls of the member
functions of `p`; the members that `merge` does not write stay as they are in `p`. -/
def merge (p ss : structStats) : structStats :=
  let distances := aggregateDist p.distances ss.distances
  { index := p.index
    parseFailCnt := if ss.parseFailCnt = -1 then -1 else p.parseFailCnt + ss.parseFailCnt
    sentCnt := if ss.cnt .wordCnt ≠ 0 then p.sentCnt + ss.sentCnt else p.sentCnt
    dLevel :=
      if ss.dLevel ≥ 0 then
        if p.dLevel < 0 then ss.dLevel else p.dLevel + ss.dLevel
      else p.dLevel
    cnt := fun c => p.cnt c + ss.cnt c
    dsum := fun r => dadd (p.dsum r) (ss.dsum r)
    avg_prob10 := nanGuardedAdd p.avg_prob10 ss.avg_prob10
    entropy := nanGuardedAdd p.entropy ss.entropy
    perplexity := nanGuardedAdd p.perplexity ss.perplexity
    sv := p.sv ++ [ss.index]
    heads := aggregate p.heads ss.heads
    unique_names := aggregate p.unique_names ss.unique_names
    unique_contents := aggregate p.unique_contents ss.unique_contents
    unique_words := aggregate p.unique_words ss.unique_words
    unique_lemmas := aggregate p.unique_lemmas ss.unique_lemmas
    unique_tijd_sits := aggregate p.unique_tijd_sits ss.unique_tijd_sits
    unique_ruimte_sits := aggregate p.unique_ruimte_sits ss.unique_ruimte_sits
    unique_cause_sits := aggregate p.unique_cause_sits ss.unique_cause_sits
    unique_emotion_sits := aggregate p.unique_emotion_sits ss.unique_emotion_sits
    unique_temp_conn := aggregate p.unique_temp_conn ss.unique_temp_conn
    unique_reeks_wg_conn := aggregate p.unique_reeks_wg_conn ss.unique_reeks_wg_conn
    unique_reeks_zin_conn := aggregate p.unique_reeks_zin_conn ss.unique_reeks_zin_conn
    unique_contr_conn := aggregate p.unique_contr_conn ss.unique_contr_conn
    unique_comp_conn := aggregate p.unique_comp_conn ss.unique_comp_conn
    unique_cause_conn := aggregate p.unique_cause_conn ss.unique_cause_conn
    ners := aggregate p.ners ss.ners
    afks := aggregate p.afks ss.afks
    distances := distances
    al_gem := p.meanAL distances
    al_max := p.highestAL distances
    dval := p.dval
    meanAL := p.meanAL
    highestAL := p.highestAL }

/-- The loop `for each child: merge( child )` of `parStats::parStats` (lines 4712-4716) and
of `docStats::docStats`: the children are merged into the parent in document order. -/
def mergeAll (p : structStats) (children : List structStats) : structStats :=
  children.foldl merge p

/-- Two nodes agree on every member that `merge` writes by integer arithmetic or by
insertion, other than the child list `sv` and `parseFailCnt`: equal integer counters, maps
with the same bindings, and multimaps with the same pairs (as multisets). -/
def agreeOnData (X Y : structStats) : Prop :=
  X.index = Y.index ∧ X.sentCnt = Y.sentCnt ∧ X.dLevel = Y.dLevel
  ∧ (∀ c, X.cnt c = Y.cnt c)
  ∧ (∀ k, X.heads.find k = Y.heads.find k)
  ∧ (∀ k, X.unique_names.find k = Y.unique_names.find k)
  ∧ (∀ k, X.unique_contents.find k = Y.unique_contents.find k)
  ∧ (∀ k, X.unique_words.find k = Y.unique_words.find k)
  ∧ (∀ k, X.unique_lemmas.find k = Y.unique_lemmas.find k)
  ∧ (∀ k, X.unique_tijd_sits.find k = Y.unique_tijd_sits.find k)
  ∧ (∀ k, X.unique_ruimte_sits.find k = Y.unique_ruimte_sits.find k)
  ∧ (∀ k, X.unique_cause_sits.find k = Y.unique_cause_sits.find k)
  ∧ (∀ k, X.unique_emotion_sits.find k = Y.unique_emotion_sits.find k)
  ∧ (∀ k, X.unique_temp_conn.find k = Y.unique_temp_conn.find k)
  ∧ (∀ k, X.unique_reeks_wg_conn.find k = Y.unique_reeks_wg_conn.find k)
  ∧ (∀ k, X.unique_reeks_zin_conn.find k = Y.unique_reeks_zin_conn.find k)
  ∧ (∀ k, X.unique_contr_conn.find k = Y.unique_contr_conn.find k)
  ∧ (∀ k, X.unique_comp_conn.find k = Y.unique_comp_conn.find k)
  ∧ (∀ k, X.unique_cause_conn.find k = Y.unique_cause_conn.find k)
  ∧ (∀ k, X.ners.find k = Y.ners.find k)
  ∧ (∀ k, X.afks.find k = Y.afks.find k)
  ∧ X.distances.Perm Y.distances

/-- A node whose integer counters and plain sums are zero, whose NaN-guarded sums are
NaN and whose maps are empty. -/
def zeroNode : structStats :=
  { index := 0
    parseFailCnt := 0
    sentCnt := 0
    dLevel := 0
    cnt := fun _ => 0
    dsum := fun _ => some 0
    avg_prob10 := none
    entropy := none
    perplexity := none
    sv := []
    heads := []
    unique_names := []
    unique_contents := []
    unique_words := []
    unique_lemmas := []
    unique_tijd_sits := []
    unique_ruimte_sits := []
    unique_cause_sits := []
    unique_emotion_sits := []
    unique_temp_conn := []
    unique_reeks_wg_conn := []
    unique_reeks_zin_conn := []
    unique_contr_conn := []
    unique_comp_conn := []
    unique_cause_conn := []
    ners := []
    afks := []
    distances := []
    al_gem := none
    al_max := some 0 }

/-- An example child: one occurrence of "de" and one dependency distance. -/
def nodeDe : structStats :=
  { zeroNode with unique_words := [("de", 1)], distances := [(2, 3)] }

/-- An example child that failed to parse: "de" twice, "kat" once, one distance. -/
def nodeDeKat : structStats :=
  { zeroNode with
    parseFailCnt := 1
    unique_words := [("de", 2), ("kat", 1)]
    distances := [(1, 5)] }

/-- An example parent with language-model sums: `avg_prob10` and `perplexity` present,
`entropy` absent. -/
def nodeLmParent : structStats :=
  { zeroNode with avg_prob10 := some 2, entropy := none, perplexity := some 3 }

/-- An example child with language-model sums: `entropy` and `perplexity` present,
`avg_prob10` absent. -/
def nodeLmChild : structStats :=
  { zeroNode with avg_prob10 := none, entropy := some 5, perplexity := some 4 }

/-- The assignment `x = v` to an integer counter. -/
def setCnt (c : Counter) (v : Int) (s : structStats) : structStats :=
  { s with cnt := Function.update s.cnt c v }

/-- The statement `++x` (or `x++`) on an integer counter. -/
def bump (c : Counter) (s : structStats) : structStats :=
  setCnt c (s.cnt c + 1) s

/-! ## The clause count of a sentence -/

/-- The function `sentStats::resolveFiniteVerbs` (lines 3846-3853).  The query
`getNodesByCat( alpDoc, cat )` on the parse of the sentence is the parameter
`getNodesByCat`; only the size of its result is used. -/
def resolveFiniteVerbs {Node : Type} (getNodesByCat : String → List Node)
    (s : structStats) : structStats :=
  let s := setCnt .smainCnt (getNodesByCat "smain").length s
  let s := setCnt .ssubCnt (getNodesByCat "ssub").length s
  let s := setCnt .sv1Cnt (getNodesByCat "sv1").length s
  let s := setCnt .clauseCnt (s.cnt .smainCnt + s.cnt .ssubCnt + s.cnt .sv1Cnt) s
  setCnt .correctedClauseCnt (if s.cnt .clauseCnt > 0 then s.cnt .clauseCnt else 1) s

/-! ## The word loop of the sentence constructor -/

/-- The values of `SEM::Type` that the source names. -/
inductive SEMType
  | NO_SEMTYPE | UNFOUND_NOUN | UNFOUND_ADJ | UNFOUND_VERB
  | UNDEFINED_NOUN | UNDEFINED_ADJ | UNDEFINED_VERB
  | CONCRETE_HUMAN_NOUN | CONCRETE_NONHUMAN_NOUN | CONCRETE_ARTEFACT_NOUN
  | CONCRETE_SUBSTANCE_NOUN | CONCRETE_FOOD_CARE_NOUN | CONCRETE_OTHER_NOUN
  | BROAD_CONCRETE_PLACE_NOUN | BROAD_CONCRETE_TIME_NOUN | BROAD_CONCRETE_MEASURE_NOUN
  | CONCRETE_DYNAMIC_NOUN | ABSTRACT_SUBSTANCE_NOUN | ABSTRACT_DYNAMIC_NOUN
  | ABSTRACT_NONDYNAMIC_NOUN | INSTITUT_NOUN
  | HUMAN_ADJ | EMO_ADJ | NONHUMAN_SHAPE_ADJ | NONHUMAN_COLOR_ADJ | NONHUMAN_MATTER_ADJ
  | NONHUMAN_SOUND_ADJ | NONHUMAN_OTHER_ADJ | TECH_ADJ | TIME_ADJ | PLACE_ADJ
  | SPEC_POS_ADJ | SPEC_NEG_ADJ | POS_ADJ | NEG_ADJ | EVALUATIVE_ADJ | EPI_POS_ADJ
  | EPI_NEG_ADJ | ABSTRACT_ADJ
  | ABSTRACT_STATE | CONCRETE_STATE | UNDEFINED_STATE | ABSTRACT_ACTION | CONCRETE_ACTION
  | UNDEFINED_ACTION | ABSTRACT_PROCESS | CONCRETE_PROCESS | UNDEFINED_PROCESS
  | ABSTRACT_UNDEFINED | CONCRETE_UNDEFINED
  deriving DecidableEq, Repr

/-- The values of `General::Type`.  The type is declared in `general.h`, which is not part
of the source file; the source names `NO_GENERAL` only, the other values are kept by a
number. -/
inductive GeneralType
  | NO_GENERAL | general (code : Nat)
  deriving DecidableEq, Repr

/-- The values of `Adverb::Type` that the source names. -/
inductive AdverbType
  | NO_ADVERB | GENERAL | SPECIFIC
  deriving DecidableEq, Repr

/-- The values of the position of a word (`CGN::Position`) that the source names. -/
inductive CGNPosition
  | NOPOS | NOMIN | PRENOM | VRIJ
  deriving DecidableEq, Repr

/-- The struct `noun` (lines 72-79): an entry of the noun lexicon. -/
structure noun where
  type : SEMType
  is_compound : Bool
  head : String
  satellite : String
  satellite_clean : String
  compound_parts : Int
  deriving DecidableEq, Repr

/-- The values of `Intensify::Type`. -/
inductive IntensifyType
  | NO_INTENSIFY | BVNW | BVBW | BW | COMBI | NW | TUSS | WW
  deriving DecidableEq, Repr

/-- The values of the word property (`CGN::Prop`) that the source names. -/
inductive CGNProp
  | JUSTAWORD | ISLET | ISNAME | ISVD | ISINF | ISOD | ISPVVERL | ISPVTGW | ISSUBJ
  | ISPPRON1 | ISPPRON2 | ISPPRON3 | ISAANW
  deriving DecidableEq, Repr

/-- The values of `Conn::Type`. -/
inductive ConnType
  | NOCONN | TEMPOREEL | OPSOMMEND_WG | OPSOMMEND_ZIN | CONTRASTIEF | COMPARATIEF | CAUSAAL
  deriving DecidableEq, Repr

/-- The values of `Situation::Type`. -/
inductive SituationType
  | NO_SIT | TIME_SIT | SPACE_SIT | CAUSAL_SIT | EMO_SIT
  deriving DecidableEq, Repr

/-- The verb forms (`wwform`) that the source names. -/
inductive WWform
  | NO_VERB | PASSIVE_VERB | MODAL_VERB | TIME_VERB | COPULA | HEAD_VERB
  deriving DecidableEq, Repr

/-- The members of `wordStats` read by the guards and the tier switch of the word loop of
the sentence constructor, and those read or written by the scans over the words of a
sentence and of a document, and by the lookups of the word in the lexicons.  The defaults
of `wwform`, `connType`, `isMultiConn`, `sitType`, `position`, `sem_type`, `is_compound`
and `compound_parts` are the initialisers of the constructor (lines 1250-1262); the
members `charCnt`, `charCntHead`, `charCntSat`, `top_freq_head` and `top_freq_sat` are set
in its body.  The accessors of the source are read as `text()` = `word`,
`ltext()` = `l_word`, `Lemma()` = `lemma_`
(the member `lemma`), `llemma()` = `l_lemma`, `postag()` = `tag`,
`wordProperty()` = `prop`. -/
structure wordStats where
  index : Nat
  prop : CGNProp
  isContent : Bool
  top_freq : top_val
  word : String := ""
  l_word : String := ""
  lemma_ : String := ""
  l_lemma : String := ""
  tag : CGNType := .UNASS
  wwform : WWform := .NO_VERB
  connType : ConnType := .NOCONN
  isMultiConn : Bool := false
  sitType : SituationType := .NO_SIT
  full_lemma : String := ""
  position : CGNPosition := .NOPOS
  sem_type : SEMType := .NO_SEMTYPE
  is_compound : Bool := false
  compound_parts : Int := 0
  compound_head : String := ""
  compound_sat : String := ""
  charCnt : Int := 0
  charCntHead : Int := 0
  charCntSat : Int := 0
  top_freq_head : top_val := .notFound
  top_freq_sat : top_val := .notFound
  intensify_type : IntensifyType := .NO_INTENSIFY

/-- The switch on `ws->top_freq` of lines 4252-4274.  There is no `break` between
the cases: control entering at one tier falls through every looser tier. -/
def countTopFreq (ws : wordStats) (s : structStats) : structStats :=
  let from20000 (s : structStats) : structStats :=
    let s := bump .top20000Cnt s
    if ws.isContent then bump .top20000ContentCnt s else s
  let from10000 (s : structStats) : structStats :=
    let s := bump .top10000Cnt s
    from20000 (if ws.isContent then bump .top10000ContentCnt s else s)
  let from5000 (s : structStats) : structStats :=
    let s := bump .top5000Cnt s
    from10000 (if ws.isContent then bump .top5000ContentCnt s else s)
  let from3000 (s : structStats) : structStats :=
    let s := bump .top3000Cnt s
    from5000 (if ws.isContent then bump .top3000ContentCnt s else s)
  let from2000 (s : structStats) : structStats :=
    let s := bump .top2000Cnt s
    from3000 (if ws.isContent then bump .top2000ContentCnt s else s)
  let from1000 (s : structStats) : structStats :=
    let s := bump .top1000Cnt s
    from2000 (if ws.isContent then bump .top1000ContentCnt s else s)
  match ws.top_freq with
  | .top1000 => from1000 s
  | .top2000 => from2000 s
  | .top3000 => from3000 s
  | .top5000 => from5000 s
  | .top10000 => from10000 s
  | .top20000 => from20000 s
  | .notFound => s

/-- The statement `sv.push_back( ws )`. -/
def pushWord (ws : wordStats) (s : structStats) : structStats :=
  { s with sv := s.sv ++ [ws.index] }

/-- One round of the word loop of `sentStats::sentStats` (lines 4043-4653), restricted
to its guards, to the pushes onto `sv` and to the statements that write `wordCnt` and the
twelve tier counters (with the `letCnt++` of a punctuation word); the other statements of
the body write other members.  A word is skipped when the sentence is not parsed
(`if ( parseFailCnt ) continue`), and a punctuation word is not counted as a word. -/
def sentWordStep (s : structStats) (ws : wordStats) : structStats :=
  if s.parseFailCnt ≠ 0 then pushWord ws s
  else if ws.prop = .ISLET then pushWord ws (bump .letCnt s)
  else pushWord ws (countTopFreq ws (bump .wordCnt s))

/-- The word loop of `sentStats::sentStats` over the constructed words of the sentence,
started in the state `s` reached after the parse section.  No statement of the
constructor outside this loop writes `wordCnt` or a tier counter. -/
def sentWordLoop (s : structStats) (words : List wordStats) : structStats :=
  words.foldl sentWordStep s

/-- The rank of a tier: a smaller rank is a stricter tier, `notFound` is beyond all. -/
def tierRank : top_val → Nat
  | .top1000 => 0
  | .top2000 => 1
  | .top3000 => 2
  | .top5000 => 3
  | .top10000 => 4
  | .top20000 => 5
  | .notFound => 6

/-- Each tier with its counter and its content-word counter. -/
def tierCounters : List (top_val × Counter × Counter) :=
  [(.top1000, .top1000Cnt, .top1000ContentCnt), (.top2000, .top2000Cnt, .top2000ContentCnt),
   (.top3000, .top3000Cnt, .top3000ContentCnt), (.top5000, .top5000Cnt, .top5000ContentCnt),
   (.top10000, .top10000Cnt, .top10000ContentCnt),
   (.top20000, .top20000Cnt, .top20000ContentCnt)]

/-- The nesting of the tier counters of a node:
`top1000Cnt <= top2000Cnt <= top3000Cnt <= top5000Cnt <= top10000Cnt <= top20000Cnt <= wordCnt`. -/
def tierChain (s : structStats) : Prop :=
  s.cnt .top1000Cnt ≤ s.cnt .top2000Cnt ∧ s.cnt .top2000Cnt ≤ s.cnt .top3000Cnt
  ∧ s.cnt .top3000Cnt ≤ s.cnt .top5000Cnt ∧ s.cnt .top5000Cnt ≤ s.cnt .top10000Cnt
  ∧ s.cnt .top10000Cnt ≤ s.cnt .top20000Cnt ∧ s.cnt .top20000Cnt ≤ s.cnt .wordCnt

/-- An example word: a content word of the strictest tier. -/
def wordTop1000 : wordStats :=
  { index := 0, prop := .JUSTAWORD, isContent := true, top_freq := .top1000 }

/-- An example word: a function word of tier `top5000`. -/
def wordTop5000 : wordStats :=
  { index := 1, prop := .JUSTAWORD, isContent := false, top_freq := .top5000 }

/-- An example word: a punctuation mark. -/
def wordPunct : wordStats :=
  { index := 2, prop := .ISLET, isContent := false, top_freq := .notFound }

/-- The parse of a sentence without finite clause: every category query is empty. -/
def noClauses : String → List Nat := fun _ => []

/-! ## MTLD -/

/-- The local variables of `calculate_mtld`. -/
structure MtldState where
  token_count : Int
  unique_tokens : List String
  token_factor : ℚ
  token_ttr : ℚ

/-- The body of the loop of `calculate_mtld` (lines 3070-3105) at index `i` of a
vector of size `n`, on the token `tok`; `mtld_threshold` is `settings.mtld_threshold`.
The set `unique_tokens` is a duplicate-free list.  The source is read with `KOIZUMI`
and `DEBUG_MTLD` undefined, as the file leaves them. -/
def mtldStep (mtld_threshold : ℚ) (n : Nat) (st : MtldState) (i : Nat) (tok : String) :
    MtldState :=
  let token_count := st.token_count + 1
  let unique_tokens := st.unique_tokens.insert tok
  let token_ttr : ℚ := (unique_tokens.length : ℚ) / (token_count : ℚ)
  if token_ttr ≤ mtld_threshold then
    { token_count := 0
      unique_tokens := []
      token_factor := st.token_factor + 1
      token_ttr := 1 }
  else if i = n - 1 then
    let threshold := (1 - token_ttr) / (1 - mtld_threshold)
    { token_count := token_count
      unique_tokens := unique_tokens
      token_factor := st.token_factor + threshold
      token_ttr := token_ttr }
  else
    { token_count := token_count
      unique_tokens := unique_tokens
      token_factor := st.token_factor
      token_ttr := token_ttr }

/-- The loop `for ( size_t i=0; i < v.size(); ++i )` of `calculate_mtld`, from index `i`
on, over the remaining tokens. -/
def mtldLoop (mtld_threshold : ℚ) (n : Nat) : Nat → List String → MtldState → MtldState
  | _, [], st => st
  | i, tok :: rest, st =>
      mtldLoop mtld_threshold n (i + 1) rest (mtldStep mtld_threshold n st i tok)

/-- The state of `calculate_mtld` before its loop. -/
def mtldInit : MtldState :=
  { token_count := 0, unique_tokens := [], token_factor := 0, token_ttr := 1 }

/-- The function `calculate_mtld` (lines 3062-3112). -/
def calculate_mtld (mtld_threshold : ℚ) (v : List String) : ℚ :=
  if v.length = 0 then 0
  else
    let st := mtldLoop mtld_threshold v.length 0 v mtldInit
    let token_factor := if st.token_factor = 0 then 1 else st.token_factor
    (v.length : ℚ) / token_factor

/-- The function `average_mtld` (lines 3114-3132).  The vector is passed by reference
and is left reversed: the result is the returned value with the final vector. -/
def average_mtld (mtld_threshold : ℚ) (tokens : List String) : ℚ × List String :=
  let mtld1 := calculate_mtld mtld_threshold tokens
  let tokens := tokens.reverse
  let mtld2 := calculate_mtld mtld_threshold tokens
  let result := (mtld1 + mtld2) / 2
  (result, tokens)

/-- The state of the loop of `calculate_mtld` while no token has repeated: no factor has
been closed and every token counted so far is in the set. -/
def mtldFresh (st : MtldState) : Prop :=
  st.token_factor = 0 ∧ (st.unique_tokens.length : Int) = st.token_count

/-- The default of `settings.mtld_threshold` (line 709). -/
def default_mtld_threshold : ℚ := 72 / 100

/-! ## Argument overlap -/

/-- The set `vnw_1s` of `argument_overlap`. -/
def vnw_1s : List String := ["ik", "mij", "me", "mijn"]

/-- The set `vnw_2s` of `argument_overlap`. -/
def vnw_2s : List String := ["jij", "je", "jou", "jouw"]

/-- The set `vnw_3sm` of `argument_overlap`. -/
def vnw_3sm : List String := ["hij", "hem", "zijn"]

/-- The set `vnw_3sf` of `argument_overlap`. -/
def vnw_3sf : List String := ["zij", "ze", "haar"]

/-- The set `vnw_1p` of `argument_overlap`. -/
def vnw_1p : List String := ["wij", "we", "ons", "onze"]

/-- The set `vnw_2p` of `argument_overlap`. -/
def vnw_2p : List String := ["jullie"]

/-- The set `vnw_3p` of `argument_overlap`. -/
def vnw_3p : List String := ["zij", "ze", "hen", "hun"]

/-- The loop of `argument_overlap` (lines 1198-1242) over the remaining elements of the
buffer: the first element that passes one of the eight tests increments the counter and
ends the loop (`break`). -/
def argumentOverlapLoop (w_or_l : String) : List String → Int → Int
  | [], arg_overlap_cnt => arg_overlap_cnt
  | b :: rest, arg_overlap_cnt =>
      if w_or_l = b then arg_overlap_cnt + 1
      else if w_or_l ∈ vnw_1s ∧ b ∈ vnw_1s then arg_overlap_cnt + 1
      else if w_or_l ∈ vnw_2s ∧ b ∈ vnw_2s then arg_overlap_cnt + 1
      else if w_or_l ∈ vnw_3sm ∧ b ∈ vnw_3sm then arg_overlap_cnt + 1
      else if w_or_l ∈ vnw_3sf ∧ b ∈ vnw_3sf then arg_overlap_cnt + 1
      else if w_or_l ∈ vnw_1p ∧ b ∈ vnw_1p then arg_overlap_cnt + 1
      else if w_or_l ∈ vnw_2p ∧ b ∈ vnw_2p then arg_overlap_cnt + 1
      else if w_or_l ∈ vnw_3p ∧ b ∈ vnw_3p then arg_overlap_cnt + 1
      else argumentOverlapLoop w_or_l rest arg_overlap_cnt

/-- The function `argument_overlap` (lines 1172-1243); the result is the value left in
the counter passed by reference. -/
def argument_overlap (w_or_l : String) (buffer : List String) (arg_overlap_cnt : Int) : Int :=
  if buffer.isEmpty then arg_overlap_cnt
  else argumentOverlapLoop w_or_l buffer arg_overlap_cnt

/-- The seven pronoun classes, in the order of the source. -/
def pronounClasses : List (List String) :=
  [vnw_1s, vnw_2s, vnw_3sm, vnw_3sf, vnw_1p, vnw_2p, vnw_3p]

/-- The relation between a word and a buffer element that the claim states: equal
strings, or both in one pronoun class. -/
def overlapMatch (w b : String) : Prop :=
  b = w ∨ ∃ cls ∈ pronounClasses, w ∈ cls ∧ b ∈ cls

instance overlapMatchDecidable (w b : String) : Decidable (overlapMatch w b) := by
  unfold overlapMatch
  infer_instance

/-! ## The scans over the words of a sentence -/

/-- The struct `cf_data` (lines 67-70): an entry of a frequency lexicon. -/
structure cf_data where
  count : Int
  freq : double

/-- The members of `settingData` read by the scans and by the lookups of a word; a
`std::set<string>` is a list of its elements, a `std::map<string,V>` a list of its
bindings, read with `List.lookup`. -/
structure settingData where
  overlapSize : Nat := 50
  intensify : List (String × IntensifyType) := []
  adj_sem : List (String × SEMType) := []
  noun_sem : List (String × noun) := []
  verb_sem : List (String × SEMType) := []
  general_nouns : List (String × GeneralType) := []
  general_verbs : List (String × GeneralType) := []
  adverbs : List (String × AdverbType) := []
  afkos : List (String × AfkType) := []
  word_freq_lex : List (String × cf_data) := []
  word_total : Int := 0
  lemma_freq_lex : List (String × cf_data) := []
  lemma_total : Int := 0
  top_freq_lex : List (String × top_val) := []
  temporals1 : CGNType → List String := fun _ => []
  causals1 : CGNType → List String := fun _ => []
  opsommers_wg : CGNType → List String := fun _ => []
  opsommers_zin : CGNType → List String := fun _ => []
  contrast1 : CGNType → List String := fun _ => []
  compars1 : CGNType → List String := fun _ => []
  multi_temporals : List String := []
  multi_causals : List String := []
  multi_opsommers_wg : List String := []
  multi_opsommers_zin : List String := []
  multi_contrast : List String := []
  multi_compars : List String := []
  multi_causal_sits : List String := []
  multi_space_sits : List String := []
  multi_time_sits : List String := []
  multi_emotion_sits : List String := []
  vzexpr2 : List String := []
  vzexpr3 : List String := []
  vzexpr4 : List String := []

/-- A sentence node: the members of `structStats` and the words that the pointers of
its `sv` point to, in order. -/
structure sentStats where
  stats : structStats
  sv : List wordStats

/-- The call `sv[k]->setConnType( t )`; `none` when `k` is not an index of `sv`
(the access is undefined in the source). -/
def setConnTypeAt (sv : List wordStats) (k : Nat) (t : ConnType) : Option (List wordStats) :=
  match sv[k]? with
  | some w => some (sv.set k { w with connType := t })
  | none => none

/-- The call `sv[k]->setMultiConn()`. -/
def setMultiConnAt (sv : List wordStats) (k : Nat) : Option (List wordStats) :=
  match sv[k]? with
  | some w => some (sv.set k { w with isMultiConn := true })
  | none => none

/-- The call `sv[k]->setSitType( t )`. -/
def setSitTypeAt (sv : List wordStats) (k : Nat) (t : SituationType) :
    Option (List wordStats) :=
  match sv[k]? with
  | some w => some (sv.set k { w with sitType := t })
  | none => none

/-- The function `sentStats::checkMultiConnectives` (lines 3344-3366). -/
def checkMultiConnectives (settings : settingData) (mword : String) : ConnType :=
  if mword ∈ settings.multi_temporals then .TEMPOREEL
  else if mword ∈ settings.multi_opsommers_wg then .OPSOMMEND_WG
  else if mword ∈ settings.multi_opsommers_zin then .OPSOMMEND_ZIN
  else if mword ∈ settings.multi_contrast then .CONTRASTIEF
  else if mword ∈ settings.multi_compars then .COMPARATIEF
  else if mword ∈ settings.multi_causals then .CAUSAAL
  else .NOCONN

/-- The function `sentStats::checkMultiSituations` (lines 3368-3385). -/
def checkMultiSituations (settings : settingData) (mword : String) : SituationType :=
  if mword ∈ settings.multi_time_sits then .TIME_SIT
  else if mword ∈ settings.multi_space_sits then .SPACE_SIT
  else if mword ∈ settings.multi_causal_sits then .CAUSAL_SIT
  else if mword ∈ settings.multi_emotion_sits then .EMO_SIT
  else .NO_SIT

/-! ### The token "als" -/

/-- The set `compAlsSet` of `checkAls`. -/
def compAlsSet : List String := ["net", "evenmin", "zo", "zomin"]

/-- The set `opsomAlsSet` of `checkAls`. -/
def opsomAlsSet : List String := ["zowel"]

/-- The backward loop `for ( size_t i = index-1; i+1 != 0; --i )` of `checkAls`, with
`i + 1` as the first argument.  The result is `some (some sv)` when a trigger word is
found (the function then returns true), `some none` when the loop ends without. -/
def checkAlsLookback (index : Nat) : Nat → List wordStats → Option (Option (List wordStats))
  | 0, _ => some none
  | i + 1, sv =>
      match sv[i]? with
      | none => none
      | some w =>
          if w.l_word ∈ compAlsSet then
            match setConnTypeAt sv i .COMPARATIEF with
            | none => none
            | some sv1 => (setConnTypeAt sv1 index .COMPARATIEF).map some
          else if w.l_word ∈ opsomAlsSet then
            match setConnTypeAt sv i .OPSOMMEND_WG with
            | none => none
            | some sv1 => (setConnTypeAt sv1 index .OPSOMMEND_WG).map some
          else checkAlsLookback index i sv

/-- The last test of `checkAls` (lines 3334-3339): the look-ahead at a numeral. -/
def checkAlsNumeral (sv : List wordStats) (index : Nat) : Option (Bool × List wordStats) :=
  if index < sv.length then
    match sv[index + 1]? with
    | none => none
    | some next =>
        if next.tag = .TW then
          (setConnTypeAt sv index .COMPARATIEF).map (fun sv1 => (true, sv1))
        else some (false, sv)
  else some (false, sv)

/-- The function `sentStats::checkAls` (lines 3289-3342): the returned flag with the
words after the call. -/
def checkAls (sv : List wordStats) (index : Nat) : Option (Bool × List wordStats) :=
  match sv[index]? with
  | none => none
  | some w =>
      if w.l_word = "als" then
        if index = 0 then
          match setConnTypeAt sv 0 .CAUSAAL with
          | none => none
          | some sv1 => checkAlsNumeral sv1 index
        else
          match checkAlsLookback index index sv with
          | none => none
          | some (some sv1) => some (true, sv1)
          | some none =>
              if w.tag = .VG then
                match sv[index - 1]? with
                | none => none
                | some prev =>
                    if prev.tag = .ADJ then
                      (setConnTypeAt sv index .COMPARATIEF).map (fun sv1 => (true, sv1))
                    else
                      (setConnTypeAt sv index .CAUSAAL).map (fun sv1 => (true, sv1))
              else checkAlsNumeral sv index
      else some (false, sv)

/-! ### Connectives -/

/-- The array `neg_longA` (the set `negatives_long`). -/
def negatives_long : List String := ["afgezien van", "zomin als", "met uitzondering van"]

/-- The four statements of `resolveConnectives` on a hit of the two words at `i`. -/
def tagConn2 (sv : List wordStats) (i : Nat) (conn : ConnType) : Option (List wordStats) := do
  let sv ← setMultiConnAt sv i
  let sv ← setMultiConnAt sv (i + 1)
  let sv ← setConnTypeAt sv i conn
  setConnTypeAt sv (i + 1) .NOCONN

/-- The six statements of `resolveConnectives` on a hit of the three words at `i`. -/
def tagConn3 (sv : List wordStats) (i : Nat) (conn : ConnType) : Option (List wordStats) := do
  let sv ← setMultiConnAt sv i
  let sv ← setMultiConnAt sv (i + 1)
  let sv ← setMultiConnAt sv (i + 2)
  let sv ← setConnTypeAt sv i conn
  let sv ← setConnTypeAt sv (i + 1) .NOCONN
  setConnTypeAt sv (i + 2) .NOCONN

/-- The probe of a window: the tagging statements when `conn` is a connective type. -/
def probeConn2 (sv : List wordStats) (i : Nat) (conn : ConnType) : Option (List wordStats) :=
  if conn ≠ .NOCONN then tagConn2 sv i conn else some sv

/-- The probe of a three-word window. -/
def probeConn3 (sv : List wordStats) (i : Nat) (conn : ConnType) : Option (List wordStats) :=
  if conn ≠ .NOCONN then tagConn3 sv i conn else some sv

/-- The statement `if ( negatives_long.find( mw ) != negatives_long.end() ) propNegCnt++`. -/
def countNegLong (mw : String) (s : structStats) : structStats :=
  if mw ∈ negatives_long then bump .propNegCnt s else s

/-- The body of the main loop of `resolveConnectives` (lines 3420-3450) at index `i`. -/
def connRound (settings : settingData) (st : sentStats) (i : Nat) : Option sentStats := do
  let w0 ← st.sv[i]?
  let w1 ← st.sv[i + 1]?
  let multiword2 := w0.l_word ++ " " ++ w1.l_word
  let (isAls, sv) ← checkAls st.sv i
  let sv ← if !isAls then probeConn2 sv i (checkMultiConnectives settings multiword2)
           else some sv
  let stats := countNegLong multiword2 st.stats
  let w2 ← sv[i + 2]?
  let multiword3 := multiword2 ++ " " ++ w2.l_word
  let sv ← probeConn3 sv i (checkMultiConnectives settings multiword3)
  let stats := countNegLong multiword3 stats
  pure { stats := stats, sv := sv }

/-- The main loop of `resolveConnectives` over the given start positions, in order. -/
def connLoop (settings : settingData) : List Nat → sentStats → Option sentStats
  | [], st => some st
  | i :: rest, st =>
      match connRound settings st i with
      | none => none
      | some st1 => connLoop settings rest st1

/-- The statements after the main loop of `resolveConnectives` (lines 3452-3465): the
last two words. -/
def connLastTwo (settings : settingData) (st : sentStats) : Option sentStats := do
  let wa ← st.sv[st.sv.length - 2]?
  let wb ← st.sv[st.sv.length - 1]?
  let multiword2 := wa.l_word ++ " " ++ wb.l_word
  let sv ← probeConn2 st.sv (st.sv.length - 2) (checkMultiConnectives settings multiword2)
  pure { stats := countNegLong multiword2 st.stats, sv := sv }

/-- One round of the counting loop of `resolveConnectives` (lines 3467-3496). -/
def connCount (s : structStats) (w : wordStats) : structStats :=
  match w.connType with
  | .TEMPOREEL =>
      bump .tempConnCnt { s with unique_temp_conn := mapAdd s.unique_temp_conn w.l_word 1 }
  | .OPSOMMEND_WG =>
      bump .opsomWgConnCnt
        { s with unique_reeks_wg_conn := mapAdd s.unique_reeks_wg_conn w.l_word 1 }
  | .OPSOMMEND_ZIN =>
      bump .opsomZinConnCnt
        { s with unique_reeks_zin_conn := mapAdd s.unique_reeks_zin_conn w.l_word 1 }
  | .CONTRASTIEF =>
      bump .contrastConnCnt
        { s with unique_contr_conn := mapAdd s.unique_contr_conn w.l_word 1 }
  | .COMPARATIEF =>
      bump .compConnCnt { s with unique_comp_conn := mapAdd s.unique_comp_conn w.l_word 1 }
  | .CAUSAAL =>
      bump .causeConnCnt { s with unique_cause_conn := mapAdd s.unique_cause_conn w.l_word 1 }
  | .NOCONN => s

/-- The function `sentStats::resolveConnectives` (lines 3417-3497). -/
def resolveConnectives (settings : settingData) (st : sentStats) : Option sentStats := do
  let st ←
    if st.sv.length > 1 then
      match connLoop settings (List.range (st.sv.length - 2)) st with
      | none => none
      | some st1 => connLastTwo settings st1
    else some st
  pure { stats := st.sv.foldl connCount st.stats, sv := st.sv }

/-! ### Situations -/

/-- The statements of `resolveSituations` on a hit of the two lemmas at `i`. -/
def tagSit2 (sv : List wordStats) (i : Nat) (sit : SituationType) : Option (List wordStats) := do
  let sv ← setSitTypeAt sv i .NO_SIT
  setSitTypeAt sv (i + 1) sit

/-- The statements of `resolveSituations` on a hit of the three lemmas at `i`. -/
def tagSit3 (sv : List wordStats) (i : Nat) (sit : SituationType) : Option (List wordStats) := do
  let sv ← setSitTypeAt sv i .NO_SIT
  let sv ← setSitTypeAt sv (i + 1) .NO_SIT
  setSitTypeAt sv (i + 2) sit

/-- The statements of `resolveSituations` on a hit of the four lemmas at `i`. -/
def tagSit4 (sv : List wordStats) (i : Nat) (sit : SituationType) : Option (List wordStats) := do
  let sv ← setSitTypeAt sv i .NO_SIT
  let sv ← setSitTypeAt sv (i + 1) .NO_SIT
  let sv ← setSitTypeAt sv (i + 2) .NO_SIT
  setSitTypeAt sv (i + 3) sit

/-- The body of the main loop of `resolveSituations` (lines 3502-3537) at index `i`: the
words after the body and the value of `i` after the body (before the `++i` of the loop). -/
def sitRound (settings : settingData) (sv : List wordStats) (i : Nat) :
    Option (List wordStats × Nat) := do
  let w0 ← sv[i]?
  let w1 ← sv[i + 1]?
  let w2 ← sv[i + 2]?
  let w3 ← sv[i + 3]?
  let multiword2 := w0.lemma_ ++ " " ++ w1.lemma_
  let multiword3 := multiword2 ++ " " ++ w2.lemma_
  let multiword4 := multiword3 ++ " " ++ w3.lemma_
  if checkMultiSituations settings multiword4 ≠ .NO_SIT then
    (tagSit4 sv i (checkMultiSituations settings multiword4)).map (fun sv1 => (sv1, i + 3))
  else if checkMultiSituations settings multiword3 ≠ .NO_SIT then
    (tagSit3 sv i (checkMultiSituations settings multiword3)).map (fun sv1 => (sv1, i + 2))
  else if checkMultiSituations settings multiword2 ≠ .NO_SIT then
    (tagSit2 sv i (checkMultiSituations settings multiword2)).map (fun sv1 => (sv1, i + 1))
  else some (sv, i)

/-- The main loop `for ( size_t i=0; (i+3) < sv.size(); ++i )` of `resolveSituations`
from index `i` on, run for at most `fuel` rounds: `none` when the rounds do not suffice
(or an access is out of bounds). -/
def sitLoop (settings : settingData) : Nat → Nat → List wordStats → Option (List wordStats)
  | 0, i, sv => if i + 3 < sv.length then none else some sv
  | fuel + 1, i, sv =>
      if i + 3 < sv.length then
        match sitRound settings sv i with
        | none => none
        | some (sv1, i1) => sitLoop settings fuel (i1 + 1) sv1
      else some sv

/-- The statements after the main loop of `resolveSituations` (lines 3538-3584): the last
two and three words. -/
def sitTail (settings : settingData) (sv : List wordStats) : Option (List wordStats) :=
  if sv.length > 2 then do
    let wa ← sv[sv.length - 3]?
    let wb ← sv[sv.length - 2]?
    let wc ← sv[sv.length - 1]?
    let multiword3 := wa.lemma_ ++ " " ++ wb.lemma_ ++ " " ++ wc.lemma_
    if checkMultiSituations settings multiword3 ≠ .NO_SIT then
      tagSit3 sv (sv.length - 3) (checkMultiSituations settings multiword3)
    else
      let multiword2 := wa.lemma_ ++ " " ++ wb.lemma_
      if checkMultiSituations settings multiword2 ≠ .NO_SIT then
        tagSit2 sv (sv.length - 3) (checkMultiSituations settings multiword2)
      else
        let multiword2 := wb.lemma_ ++ " " ++ wc.lemma_
        if checkMultiSituations settings multiword2 ≠ .NO_SIT then
          tagSit2 sv (sv.length - 2) (checkMultiSituations settings multiword2)
        else some sv
  else do
    let wb ← sv[sv.length - 2]?
    let wc ← sv[sv.length - 1]?
    let multiword2 := wb.lemma_ ++ " " ++ wc.lemma_
    if checkMultiSituations settings multiword2 ≠ .NO_SIT then
      tagSit2 sv (sv.length - 2) (checkMultiSituations settings multiword2)
    else some sv

/-- One round of the counting loop of `resolveSituations` (lines 3586-3607). -/
def sitCount (s : structStats) (w : wordStats) : structStats :=
  match w.sitType with
  | .TIME_SIT =>
      bump .timeSitCnt { s with unique_tijd_sits := mapAdd s.unique_tijd_sits w.lemma_ 1 }
  | .CAUSAL_SIT =>
      bump .causeSitCnt { s with unique_cause_sits := mapAdd s.unique_cause_sits w.lemma_ 1 }
  | .SPACE_SIT =>
      bump .spaceSitCnt { s with unique_ruimte_sits := mapAdd s.unique_ruimte_sits w.lemma_ 1 }
  | .EMO_SIT =>
      bump .emoSitCnt
        { s with unique_emotion_sits := mapAdd s.unique_emotion_sits w.lemma_ 1 }
  | .NO_SIT => s

/-- The function `sentStats::resolveSituations` (lines 3499-3608); the main loop gets as
many rounds as the sentence has words. -/
def resolveSituations (settings : settingData) (st : sentStats) : Option sentStats := do
  let sv ←
    if st.sv.length > 1 then
      match sitLoop settings st.sv.length 0 st.sv with
      | none => none
      | some sv1 => sitTail settings sv1
    else some st.sv
  pure { stats := sv.foldl sitCount st.stats, sv := sv }

/-! ### Intensifier and preposition expressions -/

/-- The subtraction `a - b` of two `size_t` values (64 bits), which wraps around. -/
def sizeSub (a b : Nat) : Nat := (a + 2 ^ 64 - b) % 2 ^ 64

/-- The local `max_length_intensify` of `resolveMultiWordIntensify`. -/
def max_length_intensify : Nat := 5

/-- The inner loop `for ( size_t j = 1; i + j < sv.size() && j < max_length_intensify;
++j )` of `resolveMultiWordIntensify` over the remaining values of `j`: `some (some j)`
when the expression ending at token `i + j` is in the lexicon, `some none` when the loop
ends without a hit. -/
def intensInner (settings : settingData) (sv : List wordStats) (i : Nat) :
    List Nat → String → Option (Option Nat)
  | [], _ => some none
  | j :: rest, multiword =>
      if i + j < sv.length then
        match sv[i + j]? with
        | none => none
        | some w =>
            let multiword := multiword ++ " " ++ w.word
            if (settings.intensify.lookup multiword).isSome then some (some j)
            else intensInner settings sv i rest multiword
      else some none

/-- The statements `intensCombiCnt += j + 1; intensCnt += j + 1`, with `n` for `j + 1`. -/
def addIntens (n : Nat) (s : structStats) : structStats :=
  let s := setCnt .intensCombiCnt (s.cnt .intensCombiCnt + n) s
  setCnt .intensCnt (s.cnt .intensCnt + n) s

/-- The outer loop `for ( size_t i = 0; i < sv.size() - 1; ++i )` of
`resolveMultiWordIntensify` from index `i` on, run for at most `fuel` rounds. -/
def intensLoop (settings : settingData) (sv : List wordStats) :
    Nat → Nat → structStats → Option structStats
  | 0, i, s => if i < sizeSub sv.length 1 then none else some s
  | fuel + 1, i, s =>
      if i < sizeSub sv.length 1 then
        match sv[i]? with
        | none => none
        | some w =>
            match intensInner settings sv i (List.range' 1 (max_length_intensify - 1)) w.word with
            | none => none
            | some (some j) => intensLoop settings sv fuel (i + j + 1) (addIntens (j + 1) s)
            | some none => intensLoop settings sv fuel (i + 1) s
      else some s

/-- The function `sentStats::resolveMultiWordIntensify` (lines 3674-3697); the loop gets
one round more than the sentence has words. -/
def resolveMultiWordIntensify (settings : settingData) (st : sentStats) : Option sentStats :=
  (intensLoop settings st.sv (st.sv.length + 1) 0 st.stats).map
    (fun s => { stats := s, sv := st.sv })

/-- The tokens `i`, ..., `i + n - 1` of the sentence joined by single spaces, as raw
surface forms; the empty string when the sentence has no such tokens. -/
def surfaceExpr (sv : List wordStats) (i : Nat) : Nat → String
  | 0 => ""
  | 1 => (sv[i]?.map (fun w => w.word)).getD ""
  | n + 2 => surfaceExpr sv i (n + 1) ++ " " ++ (sv[i + n + 1]?.map (fun w => w.word)).getD ""

/-- The body of the loop of `resolvePrepExpr` (lines 3737-3759) at index `i`: the node
after the body and the value of `i` after the body (before the `++i` of the loop). -/
def prepRound (settings : settingData) (sv : List wordStats) (i : Nat) (s : structStats) :
    Option (structStats × Nat) := do
  let w0 ← sv[i]?
  let w1 ← sv[i + 1]?
  let mw2 := w0.l_word ++ " " ++ w1.l_word
  if mw2 ∈ settings.vzexpr2 then some (bump .prepExprCnt s, i + 1)
  else if i < sv.length - 2 then do
    let w2 ← sv[i + 2]?
    let mw3 := mw2 ++ " " ++ w2.l_word
    if mw3 ∈ settings.vzexpr3 then some (bump .prepExprCnt s, i + 2)
    else if i < sv.length - 3 then do
      let w3 ← sv[i + 3]?
      let mw4 := mw3 ++ " " ++ w3.l_word
      if mw4 ∈ settings.vzexpr4 then some (bump .prepExprCnt s, i + 3)
      else some (s, i)
    else some (s, i)
  else some (s, i)

/-- The loop `for ( size_t i=0; i < sv.size()-1; ++i )` of `resolvePrepExpr` from index
`i` on, run for at most `fuel` rounds. -/
def prepLoop (settings : settingData) (sv : List wordStats) :
    Nat → Nat → structStats → Option structStats
  | 0, i, s => if i < sv.length - 1 then none else some s
  | fuel + 1, i, s =>
      if i < sv.length - 1 then
        match prepRound settings sv i s with
        | none => none
        | some (s1, i1) => prepLoop settings sv fuel (i1 + 1) s1
      else some s

/-- The function `sentStats::resolvePrepExpr` (lines 3734-3762); the loop gets as many
rounds as the sentence has words.  Inside `if ( sv.size() > 2 )` the subtractions
`sv.size() - 1`, `- 2` and `- 3` do not wrap. -/
def resolvePrepExpr (settings : settingData) (st : sentStats) : Option sentStats :=
  if st.sv.length > 2 then
    (prepLoop settings st.sv st.sv.length 0 st.stats).map (fun s => { stats := s, sv := st.sv })
  else some st

/-! ## Overlap at document level -/

/-- The function `wordStats::isOverlapCandidate` (lines 1379-1397). -/
def isOverlapCandidate (w : wordStats) : Bool :=
  decide ((w.tag = .VNW ∧ w.prop ≠ .ISAANW) ∨ w.tag = .N ∨ w.prop = .ISNAME
    ∨ (w.tag = .WW ∧ w.wwform = .HEAD_VERB))

/-- The two buffers of `calculate_doc_overlap` with the two counters of `docStats` that
it writes. -/
structure DocOverlap where
  wordbuffer : List String
  lemmabuffer : List String
  doc_word_overlapCnt : Int
  doc_lemma_overlapCnt : Int

/-- The body of the loop of `calculate_doc_overlap` (lines 4777-4817) on one word; `none`
when `erase( begin() )` is called on an empty buffer (undefined in the source). -/
def docOverlapStep (settings : settingData) (st : DocOverlap) (w : wordStats) :
    Option DocOverlap :=
  if w.prop = .ISLET then some st
  else
    let erased : Option DocOverlap :=
      if st.wordbuffer.length ≥ settings.overlapSize then
        let st1 : DocOverlap :=
          if isOverlapCandidate w then
            { st with
              doc_word_overlapCnt :=
                argument_overlap w.l_word st.wordbuffer st.doc_word_overlapCnt
              doc_lemma_overlapCnt :=
                argument_overlap w.l_lemma st.lemmabuffer st.doc_lemma_overlapCnt }
          else st
        match st1.wordbuffer, st1.lemmabuffer with
        | _ :: wordbuffer, _ :: lemmabuffer =>
            some { st1 with wordbuffer := wordbuffer, lemmabuffer := lemmabuffer }
        | _, _ => none
      else some st
    erased.map (fun st2 =>
      { st2 with
        wordbuffer := st2.wordbuffer ++ [w.l_word]
        lemmabuffer := st2.lemmabuffer ++ [w.l_lemma] })

/-- The loop of `calculate_doc_overlap` over the remaining words. -/
def docOverlapLoop (settings : settingData) : List wordStats → DocOverlap → Option DocOverlap
  | [], st => some st
  | w :: rest, st =>
      match docOverlapStep settings st w with
      | none => none
      | some st1 => docOverlapLoop settings rest st1

/-- The function `docStats::calculate_doc_overlap` (lines 4768-4819) on the words `wv2`
that `collectWords()` returns and the two counters of the document: the counters after
the call, with the final buffers. -/
def calculate_doc_overlap (settings : settingData) (wv2 : List wordStats)
    (doc_word_overlapCnt doc_lemma_overlapCnt : Int) : Option DocOverlap :=
  if wv2.length < settings.overlapSize then
    some { wordbuffer := [], lemmabuffer := []
           doc_word_overlapCnt := doc_word_overlapCnt
           doc_lemma_overlapCnt := doc_lemma_overlapCnt }
  else
    docOverlapLoop settings wv2
      { wordbuffer := [], lemmabuffer := []
        doc_word_overlapCnt := doc_word_overlapCnt
        doc_lemma_overlapCnt := doc_lemma_overlapCnt }

/-- The words of a list that are not punctuation. -/
def nonPunct (ws : List wordStats) : List wordStats :=
  ws.filter (fun w => decide (w.prop ≠ .ISLET))

/-- The last `n` elements of a list (all of them when it has fewer). -/
def lastN {α : Type} (n : Nat) (l : List α) : List α := l.drop (l.length - n)

/-! ## The logarithm of a frequency -/

/-- The function `freqLog` (lines 1130-1132) over the real numbers:
`log10(((freq + 1) / double(total)) * 1e9)`. -/
noncomputable def freqLog (freq total : Int) : ℝ :=
  Real.logb 10 ((((freq + 1 : Int) : ℝ) / (total : ℝ)) * 10 ^ 9)

/-- The test of the backward loop of `checkAls`: the word is a trigger word of a
comparative or of an enumerative "als". -/
def isAlsTrigger (w : wordStats) : Bool :=
  decide (w.l_word ∈ compAlsSet ∨ w.l_word ∈ opsomAlsSet)

/-- The trigger word nearest to position `index` among the words before it. -/
def nearestAlsTrigger (sv : List wordStats) (index : Nat) : Option wordStats :=
  (sv.take index).reverse.find? isAlsTrigger

/-- A word with its connective type and its multi-word flag cleared. -/
def connErase (w : wordStats) : wordStats :=
  { w with connType := .NOCONN, isMultiConn := false }

/-- Two word lists that differ at most in the connective types and the multi-word
flags of their words. -/
def sameUpToConn (sv sv1 : List wordStats) : Prop :=
  sv1.map connErase = sv.map connErase

/-- An example word with the given index, text (also its lowercase form and its lemma)
and tag. -/
def exampleWord (index : Nat) (text : String) (tag : CGNType) : wordStats :=
  { index := index, prop := .JUSTAWORD, isContent := false, top_freq := .notFound
    word := text, l_word := text, lemma_ := text, l_lemma := text, tag := tag }

/-- An example sentence: the words with the given texts, all with tag `SPEC`, and a zero
node. -/
def exampleSentence (texts : List String) : sentStats :=
  { stats := zeroNode, sv := texts.enum.map (fun p => exampleWord p.1 p.2 .SPEC) }

/-- The connective type of the word at position `k`, when there is one. -/
def connTypeAt (sv : List wordStats) (k : Nat) : Option ConnType :=
  sv[k]?.map (fun w => w.connType)

/-- The lowercase form of the word at position `k`, the empty string when there is none. -/
def lwordAt (sv : List wordStats) (k : Nat) : String :=
  (sv[k]?.map (fun w => w.l_word)).getD ""

/-- The words after the six statements of `tagConn3`, when the three positions exist. -/
def taggedConn3 (sv : List wordStats) (i : Nat) (conn : ConnType) : List wordStats :=
  (((((sv.modify (fun w => { w with isMultiConn := true }) i).modify
    (fun w => { w with isMultiConn := true }) (i + 1)).modify
    (fun w => { w with isMultiConn := true }) (i + 2)).modify
    (fun w => { w with connType := conn }) i).modify
    (fun w => { w with connType := .NOCONN }) (i + 1)).modify
    (fun w => { w with connType := .NOCONN }) (i + 2)

/-- The words after the four statements of `tagConn2`, when the two positions exist. -/
def taggedConn2 (sv : List wordStats) (i : Nat) (conn : ConnType) : List wordStats :=
  (((sv.modify (fun w => { w with isMultiConn := true }) i).modify
    (fun w => { w with isMultiConn := true }) (i + 1)).modify
    (fun w => { w with connType := conn }) i).modify
    (fun w => { w with connType := .NOCONN }) (i + 1)

/-- Example settings for the connective scan: two temporal expressions and a causal one. -/
def exampleConnSettings : settingData :=
  { multi_temporals := ["na afloop", "op dat moment"], multi_causals := ["afloop van"] }

/-- Example settings for the situation scan: "a b c" is a time expression and "b c d" a
space expression. -/
def overlapSitSettings : settingData :=
  { multi_time_sits := ["a b c"], multi_space_sits := ["b c d"] }

/-- The test `settings.intensify.find( multiword ) != settings.intensify.end()`. -/
def inIntensify (settings : settingData) (multiword : String) : Bool :=
  (settings.intensify.lookup multiword).isSome

/-- Example settings for the intensifier scan: the expression "heel erg". -/
def exampleIntensSettings : settingData :=
  { intensify := [("heel erg", .COMBI)] }

/-- Example settings for the preposition-expression scan: "a b" and "c d" of two tokens,
"a b c" of three. -/
def examplePrepSettings : settingData :=
  { vzexpr2 := ["a b", "c d"], vzexpr3 := ["a b c"] }

/-- Settings with a document overlap window of one word. -/
def docOverlapSettings : settingData := { overlapSize := 1 }

/-! ## The constructor of a word: the POS test and the frequencies -/

/-- The value of a `double` that holds a frequency logarithm: NaN, an infinity, or the
logarithm to base 10 of a positive rational number, kept by its argument. -/
inductive logDouble
  | nan | posInf | negInf | log10 (x : ℚ)
  deriving DecidableEq

/-- The real number that a frequency logarithm stands for, when it is one. -/
noncomputable def logDouble.value : logDouble → Option ℝ
  | .log10 x => some (Real.logb 10 (x : ℝ))
  | _ => none

/-- The function `freqLog` (lines 1130-1132) with the special values of `double`:
`(freq + 1) / double(total)` is an infinity or NaN when `total` is 0, and `log10` gives NaN
on a negative argument, minus infinity on 0 and the logarithm on a positive one. -/
def freqLogDouble (freq total : Int) : logDouble :=
  if total = 0 then
    if 0 < freq + 1 then .posInf else .nan
  else if (((freq + 1 : Int) : ℚ) / (total : ℚ)) * 10 ^ 9 < 0 then .nan
  else if (((freq + 1 : Int) : ℚ) / (total : ℚ)) * 10 ^ 9 = 0 then .negInf
  else .log10 ((((freq + 1 : Int) : ℚ) / (total : ℚ)) * 10 ^ 9)

/-- The function `wordStats::wordFreqLookup` (lines 1119-1126). -/
def wordFreqLookup (settings : settingData) (w : String) : Int :=
  match settings.word_freq_lex.lookup w with
  | some d => d.count
  | none => 0

/-- The frequency members of `wordStats`, with the initialisers of the constructor
(lines 1256-1258). -/
structure wordFreq where
  word_freq : Int := 0
  lemma_freq : Int := 0
  word_freq_log : logDouble := .nan
  lemma_freq_log : logDouble := .nan
  deriving DecidableEq

/-- The function `wordStats::freqLookup` (lines 1135-1155). -/
def freqLookup (settings : settingData) (l_word full_lemma l_lemma : String)
    (w : wordFreq) : wordFreq :=
  let w := { w with word_freq := wordFreqLookup settings l_word }
  let w := { w with word_freq_log := freqLogDouble w.word_freq settings.word_total }
  let it : Option cf_data :=
    if full_lemma ≠ "" then settings.lemma_freq_lex.lookup full_lemma else none
  let it : Option cf_data :=
    if it.isNone then settings.lemma_freq_lex.lookup l_lemma else it
  match it with
  | some d =>
      { w with lemma_freq := d.count,
               lemma_freq_log := freqLogDouble d.count settings.lemma_total }
  | none =>
      { w with lemma_freq := 0,
               lemma_freq_log := freqLogDouble 0 settings.lemma_total }

/-- What the constructor `wordStats::wordStats` reads of the FoLiA word and gets from the
member functions that are not in the source file: the number of Frog POS annotations of the
word (`posV.size()`), the feature `head` of the annotation, the property set by
`setCGNProps`, the result of `checkContent()`, and the lowercase forms. -/
structure wordSource where
  posCount : Nat
  posHead : String
  prop : CGNProp
  isContent : Bool
  l_word : String
  full_lemma : String
  l_lemma : String

/-- The constructor `wordStats::wordStats` (lines 1245-1364), restricted to the statements
that can leave it early and to those that write the frequency members: the return on
`fail`, the throw on a word without exactly one Frog POS annotation, and the call of
`freqLookup` for a content word that is not punctuation. -/
def wordStatsFreq (settings : settingData) (src : wordSource) (fail : Bool) :
    Except String wordFreq :=
  if fail then .ok {}
  else if src.posCount ≠ 1 then .error "word doesn't have Frog POS tag info"
  else if src.prop ≠ .ISLET then
    if src.isContent then
      .ok (freqLookup settings src.l_word src.full_lemma src.l_lemma {})
    else .ok {}
  else .ok {}

/-- The state of the parse after the parse section of `sentStats::sentStats`
(lines 3966-4013): parsed (`parseFailCnt = 0`), failed (`parseFailCnt = 1`), or no parser
in use (`parseFailCnt` stays -1). -/
inductive ParseState
  | parsed | failed | notUsed
  deriving DecidableEq, Repr

/-- The value of `parseFailCnt` after the parse section. -/
def ParseState.parseFailCnt : ParseState → Int
  | .parsed => 0
  | .failed => 1
  | .notUsed => -1

/-- The loop over the words in the parse section (lines 3990-3999), run when the parse
gave a document: it throws at a word without exactly one Frog POS annotation and collects
the indices of the punctuation marks. -/
def collectPuncts : List wordSource → Nat → Except String (List Nat)
  | [], _ => .ok []
  | w :: rest, i =>
      if w.posCount ≠ 1 then .error "word doesn't have Frog POS tag info"
      else
        match collectPuncts rest (i + 1) with
        | .error e => .error e
        | .ok puncts => .ok (if w.posHead = "LET" then i :: puncts else puncts)

/-- The calls `new wordStats( i, w[i], alpWord, puncts, parseFailCnt==1 )` of the word
loop of `sentStats::sentStats` (line 4049), in order; an exception of a constructor leaves
the loop. -/
def constructWords (settings : settingData) (fail : Bool) :
    List wordSource → Except String (List wordFreq)
  | [] => .ok []
  | src :: rest =>
      match wordStatsFreq settings src fail with
      | .error e => .error e
      | .ok ws =>
          match constructWords settings fail rest with
          | .error e => .error e
          | .ok sv => .ok (ws :: sv)

/-- What `np_length` reads of the first element `cv[i]->index(0)` of a chunk: the number
of its Frog POS annotations, the feature `head` of the annotation and its text. -/
structure detSource where
  posCount : Nat
  posHead : String
  text : String

/-- What `np_length` reads of a chunk of the sentence (`s->select<folia::Chunk>()`): its
class, its size and its first element, `none` when `index(0)` is null. -/
structure chunkSource where
  cls : String
  size : Nat
  det : Option detSource

/-- The loop of `np_length` (lines 3271-3286) over the remaining chunks, on the values of
`npcount`, `indefcount` and `size`: it throws at an NP chunk whose first element does not
have exactly one Frog POS annotation. -/
def np_lengthLoop : List chunkSource → Int × Int × Int → Except String (Int × Int × Int)
  | [], acc => .ok acc
  | c :: rest, (npcount, indefcount, size) =>
      if c.cls = "NP" then
        match c.det with
        | some det =>
            if det.posCount ≠ 1 then .error "word doesn't have Frog POS tag info"
            else if det.posHead = "LID" ∧ det.text = "een" then
              np_lengthLoop rest (npcount + 1, indefcount + 1, size + c.size)
            else np_lengthLoop rest (npcount + 1, indefcount, size + c.size)
        | none => np_lengthLoop rest (npcount + 1, indefcount, size + c.size)
      else np_lengthLoop rest (npcount, indefcount, size)

/-- The function `np_length` (lines 3268-3287) on the chunks of the sentence: the values of
`npcount`, `indefcount` and `size` after the call; `size` is set to 0 first. -/
def np_length (cv : List chunkSource) (npcount indefcount : Int) :
    Except String (Int × Int × Int) :=
  np_lengthLoop cv (npcount, indefcount, 0)

/-- The constructor `sentStats::sentStats` (lines 3954-4690) as far as it can fail on the
POS annotation of a word: the loop of the parse section, run when the parse succeeded, the
construction of the words, and the call `np_length( s, npCnt, indefNpCnt, npSize )` that
ends the constructor (line 4689), made in every state of the parse.  The result is
`parseFailCnt` with the constructed words and the values of `npCnt`, `indefNpCnt` and
`npSize`, which are 0 before the call. -/
def sentStatsWords (settings : settingData) (st : ParseState) (w : List wordSource)
    (cv : List chunkSource) : Except String (Int × List wordFreq × (Int × Int × Int)) :=
  match (if st = .parsed then collectPuncts w 0 else .ok []) with
  | .error e => .error e
  | .ok _ =>
      match constructWords settings (decide (st.parseFailCnt = 1)) w with
      | .error e => .error e
      | .ok sv =>
          match np_length cv 0 0 with
          | .error e => .error e
          | .ok np => .ok (st.parseFailCnt, sv, np)

/-- A function word (an article) with its single POS annotation. -/
def sourceDe : wordSource :=
  { posCount := 1, posHead := "LID", prop := .JUSTAWORD, isContent := false,
    l_word := "de", full_lemma := "", l_lemma := "de" }

/-- A content word (a noun) with its single POS annotation. -/
def sourceKat : wordSource :=
  { posCount := 1, posHead := "N", prop := .JUSTAWORD, isContent := true,
    l_word := "kat", full_lemma := "", l_lemma := "kat" }

/-- A word without POS annotation. -/
def sourceNoPos : wordSource :=
  { posCount := 0, posHead := "", prop := .JUSTAWORD, isContent := true,
    l_word := "kat", full_lemma := "", l_lemma := "kat" }

/-- Settings with empty frequency lexicons and a total of 1000. -/
def freqSettings : settingData := { word_total := 1000, lemma_total := 1000 }

/-- An NP chunk of one word whose first element has no POS annotation. -/
def chunkNoPos : chunkSource :=
  { cls := "NP", size := 1, det := some { posCount := 0, posHead := "", text := "kat" } }

/-- An NP chunk of two words that starts with the article "een". -/
def chunkEenKat : chunkSource :=
  { cls := "NP", size := 2, det := some { posCount := 1, posHead := "LID", text := "een" } }

/-! ## The lexicons: lookup -/

/-- The function `wordStats::checkSemProps` (lines 986-1052), without the lines written to
the problem file.  An iterator of a lexicon is the value it points to, `none` at `end()`. -/
def checkSemProps (settings : settingData) (w : wordStats) : SEMType :=
  if w.prop = .ISNAME then
    match settings.noun_sem.lookup w.lemma_ with
    | some n => n.type
    | none => .UNFOUND_NOUN
  else if w.tag = .ADJ then
    let sit : Option SEMType := settings.adj_sem.lookup w.l_lemma
    let sit : Option SEMType := if sit.isNone then settings.adj_sem.lookup w.l_word else sit
    match sit with
    | some sem => sem
    | none => .UNFOUND_ADJ
  else if w.tag = .WW then
    let sit : Option SEMType :=
      if w.full_lemma ≠ "" then settings.verb_sem.lookup w.full_lemma else none
    let sit : Option SEMType :=
      if sit.isNone then
        if w.position = .PRENOM ∧ (w.prop = .ISVD ∨ w.prop = .ISOD) then
          settings.adj_sem.lookup w.l_word
        else sit
      else sit
    let sit : Option SEMType := if sit.isNone then settings.verb_sem.lookup w.l_lemma else sit
    match sit with
    | some sem => sem
    | none => .UNFOUND_VERB
  else .NO_SEMTYPE

/-- The function `wordStats::checkNoun` (lines 963-984), without the line written to the
problem file. -/
def checkNoun (settings : settingData) (w : wordStats) : wordStats :=
  if w.tag = .N then
    match settings.noun_sem.lookup w.lemma_ with
    | some n =>
        let w := { w with sem_type := n.type }
        if n.is_compound then
          { w with is_compound := n.is_compound, compound_parts := n.compound_parts,
                   compound_head := n.head, compound_sat := n.satellite_clean }
        else w
    | none => { w with sem_type := .UNFOUND_NOUN }
  else w

/-- The function `wordStats::checkIntensify` (lines 1054-1066); `checkModifier` is the
result of `checkModifier(alpWord)`, a function that is not in the source file. -/
def checkIntensify (settings : settingData) (checkModifier : Bool) (w : wordStats) :
    IntensifyType :=
  match settings.intensify.lookup w.lemma_ with
  | some res =>
      if res = .BVBW then
        if !checkModifier then .NO_INTENSIFY else res
      else res
  | none => .NO_INTENSIFY

/-- The function `wordStats::checkGeneralNoun` (lines 1068-1076). -/
def checkGeneralNoun (settings : settingData) (w : wordStats) : GeneralType :=
  if w.tag = .N then
    match settings.general_nouns.lookup w.lemma_ with
    | some t => t
    | none => .NO_GENERAL
  else .NO_GENERAL

/-- The function `wordStats::checkGeneralVerb` (lines 1078-1086). -/
def checkGeneralVerb (settings : settingData) (w : wordStats) : GeneralType :=
  if w.tag = .WW then
    match settings.general_verbs.lookup w.lemma_ with
    | some t => t
    | none => .NO_GENERAL
  else .NO_GENERAL

/-- The function `checkAdverbType` (lines 1088-1096); the constructor calls it with the
surface form `word` (line 1345). -/
def checkAdverbType (settings : settingData) (word : String) (tag : CGNType) : AdverbType :=
  if tag = .BW then
    match settings.adverbs.lookup word with
    | some t => t
    | none => .NO_ADVERB
  else .NO_ADVERB

/-- The function `wordStats::checkAfk` (lines 1098-1106). -/
def checkAfk (settings : settingData) (w : wordStats) : AfkType :=
  if w.tag = .N ∨ w.tag = .SPEC then
    match settings.afkos.lookup w.word with
    | some t => t
    | none => .NO_A
  else .NO_A

/-- The chain of lookups of a verb in `checkSemProps`: the verb lexicon at `full_lemma`
when it is not empty, the adjective lexicon at the lowercase word for a prenominal
participle, the verb lexicon at the lowercase lemma. -/
def verbChain (settings : settingData) (w : wordStats) : List (Option SEMType) :=
  [ if w.full_lemma ≠ "" then settings.verb_sem.lookup w.full_lemma else none,
    if w.position = .PRENOM ∧ (w.prop = .ISVD ∨ w.prop = .ISOD) then
      settings.adj_sem.lookup w.l_word
    else none,
    settings.verb_sem.lookup w.l_lemma ]

/-- The first hit of a chain of lookups. -/
def firstHit {V : Type} : List (Option V) → Option V
  | [] => none
  | some v :: _ => some v
  | none :: rest => firstHit rest

/-! ## The lexicons: loading

The input of a loader is the list of the lines of its file that are not empty after
`TiCC::trim`, each given by the parts that `TiCC::split_at` returns for it.  The functions
of the libraries that a loader calls (`TiCC::lowercase`, `TiCC::trim`, the `classify`
functions) are not part of the source file and are parameters. -/

/-- The assignment `m[k] = v` on a `std::map<string,V>`. -/
def mapSet {V : Type} (m : List (String × V)) (k : String) (v : V) : List (String × V) :=
  (k, v) :: m.filter (fun e => e.1 != k)

/-- One line of `fillN` (lines 140-169): `none` when the line reads a part that it does not
have (a line of 3 parts marked as a compound).  The member `compound_parts` of an entry
that is not a compound is not initialised in the source and never read; it is 0 here. -/
def fillNLine (classifyNoun : String → SEMType) (atoi : String → Int)
    (m : List (String × noun)) (parts : List String) : Option (List (String × noun)) :=
  if parts.length ≠ 3 ∧ parts.length ≠ 7 then some m
  else
    match parts with
    | [p0, p1, p2] =>
        if p2 = "1" then none
        else some (mapSet m p0 ⟨classifyNoun p1, false, "", "", "", 0⟩)
    | [p0, p1, p2, p3, p4, p5, p6] =>
        if p2 = "1" then some (mapSet m p0 ⟨classifyNoun p1, true, p3, p4, p5, atoi p6⟩)
        else some (mapSet m p0 ⟨classifyNoun p1, false, "", "", "", 0⟩)
    | _ => some m

/-- The function `fillN` (lines 140-169). -/
def fillN (classifyNoun : String → SEMType) (atoi : String → Int) :
    List (String × noun) → List (List String) → Option (List (String × noun))
  | m, [] => some m
  | m, parts :: rest =>
      match fillNLine classifyNoun atoi m parts with
      | none => none
      | some m1 => fillN classifyNoun atoi m1 rest

/-- One line of `fillWW` (lines 182-202). -/
def fillWWLine (classifyWW : String → String → SEMType) (m : List (String × SEMType))
    (parts : List String) : List (String × SEMType) :=
  match parts with
  | [p0, p1, p2] =>
      if classifyWW p1 p2 ≠ .UNFOUND_VERB then mapSet m p0 (classifyWW p1 p2) else m
  | _ => m

/-- The function `fillWW` (lines 182-202). -/
def fillWW (classifyWW : String → String → SEMType) (m : List (String × SEMType))
    (lines : List (List String)) : List (String × SEMType) :=
  lines.foldl (fillWWLine classifyWW) m

/-- One line of `fillADJ` (lines 204-234); `classifyADJ1` and `classifyADJ2` are the two
overloads of `SEM::classifyADJ`. -/
def fillADJLine (lowercase : String → String) (classifyADJ1 : String → SEMType)
    (classifyADJ2 : String → String → SEMType) (m : List (String × SEMType))
    (parts : List String) : List (String × SEMType) :=
  match parts with
  | [p0, p1] =>
      if classifyADJ1 p1 ≠ .UNFOUND_ADJ then mapSet m (lowercase p0) (classifyADJ1 p1) else m
  | [p0, p1, p2] =>
      if classifyADJ2 p1 p2 ≠ .UNFOUND_ADJ then mapSet m (lowercase p0) (classifyADJ2 p1 p2)
      else m
  | _ => m

/-- The function `fillADJ` (lines 204-234). -/
def fillADJ (lowercase : String → String) (classifyADJ1 : String → SEMType)
    (classifyADJ2 : String → String → SEMType) (m : List (String × SEMType))
    (lines : List (List String)) : List (String × SEMType) :=
  lines.foldl (fillADJLine lowercase classifyADJ1 classifyADJ2) m

/-- One line of `fill_intensify` (lines 250-274). -/
def fill_intensifyLine (lowercase trim : String → String)
    (classify : String → IntensifyType) (m : List (String × IntensifyType))
    (parts : List String) : List (String × IntensifyType) :=
  match parts with
  | [p0, p1] =>
      if classify (lowercase p1) ≠ .NO_INTENSIFY then
        mapSet m (trim (lowercase p0)) (classify (lowercase p1))
      else m
  | _ => m

/-- The function `fill_intensify` (lines 250-274). -/
def fill_intensify (lowercase trim : String → String) (classify : String → IntensifyType)
    (m : List (String × IntensifyType)) (lines : List (List String)) :
    List (String × IntensifyType) :=
  lines.foldl (fill_intensifyLine lowercase trim classify) m

/-- One line of `fill_general` (lines 287-311). -/
def fill_generalLine (lowercase trim : String → String)
    (classify : String → GeneralType) (m : List (String × GeneralType))
    (parts : List String) : List (String × GeneralType) :=
  match parts with
  | [p0, p1] =>
      if classify (lowercase p1) ≠ .NO_GENERAL then
        mapSet m (trim (lowercase p0)) (classify (lowercase p1))
      else m
  | _ => m

/-- The function `fill_general` (lines 287-311). -/
def fill_general (lowercase trim : String → String) (classify : String → GeneralType)
    (m : List (String × GeneralType)) (lines : List (List String)) :
    List (String × GeneralType) :=
  lines.foldl (fill_generalLine lowercase trim classify) m

/-- One line of `fill_adverbs` (lines 324-348). -/
def fill_adverbsLine (lowercase trim : String → String)
    (classify : String → AdverbType) (m : List (String × AdverbType))
    (parts : List String) : List (String × AdverbType) :=
  match parts with
  | [p0, p1] =>
      if classify (lowercase p1) ≠ .NO_ADVERB then
        mapSet m (trim (lowercase p0)) (classify (lowercase p1))
      else m
  | _ => m

/-- The function `fill_adverbs` (lines 324-348). -/
def fill_adverbs (lowercase trim : String → String) (classify : String → AdverbType)
    (m : List (String × AdverbType)) (lines : List (List String)) :
    List (String × AdverbType) :=
  lines.foldl (fill_adverbsLine lowercase trim classify) m

/-- Two lines that differ in the letter case of their first part (the key) only. -/
def caseVariant (lowercase : String → String) (l1 l2 : List String) : Prop :=
  l1.length = l2.length ∧ l1.tail = l2.tail
    ∧ l1.head?.map lowercase = l2.head?.map lowercase

/-- Lowercasing of the letters A to Z, an instance of the parameter `lowercase`. -/
def asciiLower (s : String) : String := String.mk (s.data.map Char.toLower)

/-- Settings with a verb lexicon loaded by `fillWW` and an adjective lexicon loaded by
`fillADJ`, each from one line. -/
def verbLexSettings : settingData :=
  { verb_sem := fillWW (fun _ _ => .CONCRETE_ACTION) [] [["lopen", "actie", "concreet"]]
    adj_sem := fillADJ asciiLower (fun _ => .HUMAN_ADJ) (fun _ _ => .HUMAN_ADJ) []
      [["Gelopen", "mens"]] }

/-- A past participle in prenominal position: "gelopen" with lemma "lopen". -/
def wordGelopen : wordStats :=
  { index := 0, prop := .ISVD, isContent := true, top_freq := .notFound, word := "Gelopen",
    l_word := "gelopen", lemma_ := "lopen", l_lemma := "lopen", tag := .WW,
    position := .PRENOM }

/-- The lowercase forms of a word as the constructor sets them (lines 1268 and 1279):
`l_word` is the lowercased surface form and `l_lemma` the lowercased lemma. -/
def lowerForms (lowercase : String → String) (w : wordStats) : Prop :=
  w.l_word = lowercase w.word ∧ w.l_lemma = lowercase w.lemma_

/-- Two words that differ in the letter case of their surface form and of their lemma
only. -/
def caseVariantWord (lowercase : String → String) (w1 w2 : wordStats) : Prop :=
  lowerForms lowercase w1 ∧ lowerForms lowercase w2
    ∧ lowercase w1.word = lowercase w2.word ∧ lowercase w1.lemma_ = lowercase w2.lemma_
    ∧ w1.tag = w2.tag ∧ w1.prop = w2.prop ∧ w1.position = w2.position
    ∧ w1.full_lemma = w2.full_lemma

/-- A noun lexicon loaded by `fillN` from the line of the given key. -/
def nounLex (key : String) : List (String × noun) :=
  (fillN (fun _ => .CONCRETE_ARTEFACT_NOUN) (fun _ => 0) [] [[key, "artefact", "0"]]).getD []

/-- Settings with a noun lexicon loaded from the entry "fiets" and an intensifier lexicon
loaded from the entry "Heel". -/
def caseSettings : settingData :=
  { noun_sem := nounLex "fiets"
    intensify := fill_intensify asciiLower id (fun _ => .BW) [] [["Heel", "bw"]] }

/-- An example word with the given lemma and tag; its lowercase lemma is made by
`asciiLower`. -/
def lemmaWord (lemma_ : String) (tag : CGNType) : wordStats :=
  { index := 0, prop := .JUSTAWORD, isContent := true, top_freq := .notFound,
    word := lemma_, l_word := asciiLower lemma_, lemma_ := lemma_,
    l_lemma := asciiLower lemma_, tag := tag }

/-! ## The connectives of one word -/

/-- The function `wordStats::checkConnective` (lines 878-925).  The expression
`settings.temporals1[tag]` is the set stored under `tag`, empty when there is none. -/
def checkConnective (settings : settingData) (w : wordStats) : ConnType :=
  if w.tag ≠ .VG ∧ w.tag ≠ .VZ ∧ w.tag ≠ .BW then .NOCONN
  else if w.l_word ∈ settings.temporals1 w.tag then .TEMPOREEL
  else if w.l_word ∈ settings.temporals1 .UNASS then .TEMPOREEL
  else if w.l_word ∈ settings.opsommers_wg w.tag then .OPSOMMEND_WG
  else if w.l_word ∈ settings.opsommers_wg .UNASS then .OPSOMMEND_WG
  else if w.l_word ∈ settings.opsommers_zin w.tag then .OPSOMMEND_ZIN
  else if w.l_word ∈ settings.opsommers_zin .UNASS then .OPSOMMEND_ZIN
  else if w.l_word ∈ settings.contrast1 w.tag then .CONTRASTIEF
  else if w.l_word ∈ settings.contrast1 .UNASS then .CONTRASTIEF
  else if w.l_word ∈ settings.compars1 w.tag then .COMPARATIEF
  else if w.l_word ∈ settings.compars1 .UNASS then .COMPARATIEF
  else if w.l_word ∈ settings.causals1 w.tag then .CAUSAAL
  else if w.l_word ∈ settings.causals1 .UNASS then .CAUSAAL
  else .NOCONN

/-- A line of a connective file that is not empty after `TiCC::trim`: the trimmed line, its
parts at a tab (`vec`) and the parts of `vec[0]` at a space (`dum`). -/
structure connLine where
  line : String
  vec : List String
  dum : List String

/-- The call `s.insert( x )` on a `std::set<string>`. -/
def setInsert (s : List String) (x : String) : List String :=
  if x ∈ s then s else s ++ [x]

/-- One line of `fill_connectors` (lines 452-500) on the map `c1` of the single words and
the set `cM` of the multi-word entries; `toCGN` is `CGN::toCGN`, which is not in the source
file. -/
def fill_connectorsLine (toCGN : String → CGNType)
    (c : (CGNType → List String) × List String) (l : connLine) :
    (CGNType → List String) × List String :=
  if l.line.front = '#' then c
  else
    match l.vec with
    | [v0] =>
        if l.dum.length < 1 ∨ l.dum.length > 4 then c
        else if l.dum.length = 1 then
          (Function.update c.1 .UNASS (setInsert (c.1 .UNASS) v0), c.2)
        else (c.1, setInsert c.2 v0)
    | [v0, v1] =>
        if l.dum.length < 1 ∨ l.dum.length > 4 then c
        else if l.dum.length = 1 then
          (Function.update c.1 (toCGN v1) (setInsert (c.1 (toCGN v1)) v0), c.2)
        else if l.dum.length > 1 ∧ toCGN v1 ≠ .UNASS then c
        else (c.1, setInsert c.2 v0)
    | _ => c

/-- The function `fill_connectors` (lines 452-500): `cM` is cleared first. -/
def fill_connectors (toCGN : String → CGNType) (c1 : CGNType → List String)
    (lines : List connLine) : (CGNType → List String) × List String :=
  lines.foldl (fill_connectorsLine toCGN) (c1, [])

/-- The single-word connective lexicons in the order in which `checkConnective` reads
them, each with its connective type. -/
def connLexicons (settings : settingData) : List ((CGNType → List String) × ConnType) :=
  [(settings.temporals1, .TEMPOREEL), (settings.opsommers_wg, .OPSOMMEND_WG),
   (settings.opsommers_zin, .OPSOMMEND_ZIN), (settings.contrast1, .CONTRASTIEF),
   (settings.compars1, .COMPARATIEF), (settings.causals1, .CAUSAAL)]

/-- A lexicon holds the word under the tag or under the wildcard `UNASS`. -/
def holdsWord (tag : CGNType) (l_word : String) (lex : (CGNType → List String) × ConnType) :
    Bool :=
  decide (l_word ∈ lex.1 tag ∨ l_word ∈ lex.1 .UNASS)

/-- The line of a connective file that holds the single word `e` and no tag. -/
def untaggedLine (e : String) : connLine := { line := e, vec := [e], dum := [e] }

/-- A model of `CGN::toCGN` on the names of the tags used in the examples. -/
def exampleToCGN (s : String) : CGNType :=
  if s = "VG" then .VG else if s = "BW" then .BW else if s = "VZ" then .VZ else .UNASS

/-- Settings whose temporal and causal lexicons are each loaded from the untagged line
"toen". -/
def wildcardSettings : settingData :=
  { temporals1 := (fill_connectors exampleToCGN (fun _ => []) [untaggedLine "toen"]).1
    causals1 := (fill_connectors exampleToCGN (fun _ => []) [untaggedLine "toen"]).1 }

/-- Settings whose causal lexicon is loaded from the untagged line "dus". -/
def causalSettings : settingData :=
  { causals1 := (fill_connectors exampleToCGN (fun _ => []) [untaggedLine "dus"]).1 }

/-! ## The frequency tiers -/

/-- The tier that `fill_topvals` computes from the count of the lines read so far
(lines 417-428). -/
def tierOfCount (line_count : Nat) : top_val :=
  if line_count > 10000 then .top20000
  else if line_count > 5000 then .top10000
  else if line_count > 3000 then .top5000
  else if line_count > 2000 then .top3000
  else if line_count > 1000 then .top2000
  else .top1000

/-- The loop of `fill_topvals` (lines 408-439) from a count of lines: every line that is
not empty is counted, a line that does not have 4 parts is skipped after it is counted. -/
def fill_topvalsLoop :
    List (String × top_val) → Nat → List (List String) → List (String × top_val)
  | m, _, [] => m
  | m, line_count, parts :: rest =>
      match parts with
      | [p0, _, _, _] =>
          fill_topvalsLoop (mapSet m p0 (tierOfCount (line_count + 1))) (line_count + 1) rest
      | _ => fill_topvalsLoop m (line_count + 1) rest

/-- The function `fill_topvals` (lines 408-439). -/
def fill_topvals (m : List (String × top_val)) (lines : List (List String)) :
    List (String × top_val) :=
  fill_topvalsLoop m 0 lines

/-- The function `wordStats::topFreqLookup` (lines 1109-1116). -/
def topFreqLookup (settings : settingData) (w : String) : top_val :=
  match settings.top_freq_lex.lookup w with
  | some v => v
  | none => .notFound

/-- The word of a line: its first part. -/
def lineKey (parts : List String) : String := parts.headD ""

/-- The tier of the line of rank `n` (counted from 1) in the words of the tiers: the first
1000 lines, the next 1000, the next 1000, the next 2000, the next 5000, and all later
lines. -/
def rankTier (n : Nat) : top_val :=
  if n ≤ 1000 then .top1000
  else if n ≤ 2000 then .top2000
  else if n ≤ 3000 then .top3000
  else if n ≤ 5000 then .top5000
  else if n ≤ 10000 then .top10000
  else .top20000

/-- The word of the example line of rank `i + 1`: the letter a, `i` times. -/
def exampleKey (i : Nat) : String := String.mk (List.replicate i 'a')

/-- A frequency list of 20001 well-formed lines with pairwise distinct words. -/
def bigTopLines : List (List String) :=
  (List.range 20001).map (fun i => [exampleKey i, "0", "0", "0"])

/-- Settings whose tier lexicon is loaded from the list of 20001 lines. -/
def bigTopSettings : settingData := { top_freq_lex := fill_topvals [] bigTopLines }

/-! ## The CSV rows

The stream of a header function is the list of the strings written to it; the stream of a
row function is the list of the fields written to it, each of which the source follows by
a comma. -/

/-- A field of a CSV row.  The structs `proportion` and `density` and their output
operators are declared in a header that is not part of the source file: a field written
from one of them is kept by the two arguments of its constructor.  The other fields are
the literal text "NA", a `double`, an `int` or a string. -/
inductive Cell
  | NA
  | proportion (d1 d2 : double)
  | density (d1 d2 : double)
  | num (d : double)
  | int (i : Int)
  | str (s : String)
  deriving DecidableEq

/-- The names of the dependency kinds (`DD_type`) that the row functions use; the values
of the enumerators are declared outside the source file. -/
inductive DDName
  | SUB_VERB | OBJ1_VERB | OBJ2_VERB | VERB_PP | NOUN_DET | PREP_OBJ1 | VERB_VC | COMP_BODY
  | CRD_CNJ | VERB_COMP | NOUN_VC | VERB_SVP | VERB_PREDC_N | VERB_PREDC_A | VERB_MOD_A
  | VERB_MOD_BW | VERB_NOUN
  deriving DecidableEq, Repr

/-- What a row function reads outside the members of `structStats` in the model: the
results of `isSentence()` and `isDocument()` (declared outside the source file), the text
of the node, the results of the virtual functions `rarity`, `word_overlapCnt` and
`lemma_overlapCnt`, and the values of the enumerators of `DD_type`. -/
structure csvEnv where
  isSentence : Bool
  isDocument : Bool
  text : String
  rarity : String
  word_overlapCnt : Int
  lemma_overlapCnt : Int
  dd : DDName → DD_type

/-- The conversion of an `int` to `double`. -/
def ofInt (i : Int) : double := some (i : ℚ)

/-- The template `at` (lines 1822-1830): the value bound to a key, 0 when there is none. -/
def mapAt {K : Type} [DecidableEq K] (m : CountMap K) (key : K) : Int :=
  match m.find key with
  | some v => v
  | none => 0

/-- The function `MMtoString( mm, t )` (lines 1791-1804): the mean of the distances of
kind `t`, the text "NA" when there is none. -/
def MMtoString (mm : DistMap) (t : DD_type) : Cell :=
  let len := (mm.filter (fun kv => kv.1 = t)).length
  if len > 0 then
    .num (some ((((mm.filter (fun kv => kv.1 = t)).foldl (fun result kv => result + kv.2)
      (0 : Int) : Int) : ℚ) / (len : ℚ)))
  else .NA

/-- The function `toMString` (lines 1832-1837). -/
def toMString (d : double) : Cell :=
  if isnan d then .NA else .num d

/-- The number of commas in the strings written to a stream: its number of fields. -/
def fieldCount (os : List String) : Nat :=
  (os.map (fun chunk => chunk.data.count (Char.ofNat 44))).sum

/-- The function `escape_quotes` (lines 2150-2165): every double quote is written twice. -/
def escape_quotes (before : String) : String :=
  String.mk (before.data.flatMap
    (fun c => if c = Char.ofNat 34 then [Char.ofNat 34, c] else [c]))

/-- The function `structStats::wordDifficultiesHeader` (lines 2196-2206): the strings written to
the stream, in order. -/
def wordDifficultiesHeader : List String :=
  ["Let_per_wrd,Wrd_per_let,Let_per_wrd_zn,Wrd_per_let_zn,",
   "Morf_per_wrd,Wrd_per_morf,Morf_per_wrd_zn,Wrd_per_morf_zn,", "Namen_p,Namen_d,",
   "Freq50_staph,Freq65_Staph,Freq77_Staph,Freq80_Staph,",
   "Wrd_freq_log,Wrd_freq_zn_log,Lem_freq_log,Lem_freq_zn_log,",
   "Freq1000,Freq2000,Freq3000,", "Freq5000,Freq10000,Freq20000,",
   "Freq1000_inhwrd,Freq2000_inhwrd,Freq3000_inhwrd,",
   "Freq5000_inhwrd,Freq10000_inhwrd,Freq20000_inhwrd,"]

/-- The function `structStats::wordDifficultiesToCSV` (lines 2208-2242): the fields written to the
stream, each followed by a comma, in order. -/
def wordDifficultiesToCSV (s : structStats) : List Cell :=
  [ .proportion (ofInt (s.cnt .charCnt)) (ofInt (s.cnt .wordCnt)),
    .proportion (ofInt (s.cnt .wordCnt)) (ofInt (s.cnt .charCnt)),
    .proportion (ofInt (s.cnt .charCntExNames)) (ofInt (s.cnt .wordCnt - s.cnt .nameCnt)),
    .proportion (ofInt (s.cnt .wordCnt - s.cnt .nameCnt)) (ofInt (s.cnt .charCntExNames)),
    .proportion (ofInt (s.cnt .morphCnt)) (ofInt (s.cnt .wordCnt)),
    .proportion (ofInt (s.cnt .wordCnt)) (ofInt (s.cnt .morphCnt)),
    .proportion (ofInt (s.cnt .morphCntExNames)) (ofInt (s.cnt .wordCnt - s.cnt .nameCnt)),
    .proportion (ofInt (s.cnt .wordCnt - s.cnt .nameCnt)) (ofInt (s.cnt .morphCntExNames)),
    .proportion (ofInt (s.cnt .nameCnt)) (ofInt (s.cnt .nameCnt + s.cnt .nounCnt)),
    .density (ofInt (s.cnt .nameCnt)) (ofInt (s.cnt .wordCnt)),
    .proportion (ofInt (s.cnt .f50Cnt)) (ofInt (s.cnt .wordCnt)),
    .proportion (ofInt (s.cnt .f65Cnt)) (ofInt (s.cnt .wordCnt)),
    .proportion (ofInt (s.cnt .f77Cnt)) (ofInt (s.cnt .wordCnt)),
    .proportion (ofInt (s.cnt .f80Cnt)) (ofInt (s.cnt .wordCnt)),
    .num (s.dval .word_freq_log),
    .num (s.dval .word_freq_log_n),
    .num (s.dval .lemma_freq_log),
    .num (s.dval .lemma_freq_log_n),
    .proportion (ofInt (s.cnt .top1000Cnt)) (ofInt (s.cnt .wordCnt)),
    .proportion (ofInt (s.cnt .top2000Cnt)) (ofInt (s.cnt .wordCnt)),
    .proportion (ofInt (s.cnt .top3000Cnt)) (ofInt (s.cnt .wordCnt)),
    .proportion (ofInt (s.cnt .top5000Cnt)) (ofInt (s.cnt .wordCnt)),
    .proportion (ofInt (s.cnt .top10000Cnt)) (ofInt (s.cnt .wordCnt)),
    .proportion (ofInt (s.cnt .top20000Cnt)) (ofInt (s.cnt .wordCnt)),
    .proportion (ofInt (s.cnt .top1000ContentCnt)) (ofInt (s.cnt .contentCnt)),
    .proportion (ofInt (s.cnt .top2000ContentCnt)) (ofInt (s.cnt .contentCnt)),
    .proportion (ofInt (s.cnt .top3000ContentCnt)) (ofInt (s.cnt .contentCnt)),
    .proportion (ofInt (s.cnt .top5000ContentCnt)) (ofInt (s.cnt .contentCnt)),
    .proportion (ofInt (s.cnt .top10000ContentCnt)) (ofInt (s.cnt .contentCnt)),
    .proportion (ofInt (s.cnt .top20000ContentCnt)) (ofInt (s.cnt .contentCnt)) ]

/-- The function `structStats::compoundHeader` (lines 2244-2259): the strings written to
the stream, in order. -/
def compoundHeader : List String :=
  ["Samenst_d,Samenst_p,Samenst3_d,Samenst3_p,",
   "Let_per_wrd_nw,Let_per_wrd_nsam,Let_per_wrd_sam,",
   "Let_per_wrd_hfdwrd,Let_per_wrd_satwrd,", "Let_per_wrd_nw_corr,Let_per_wrd_corr,",
   "Wrd_freq_log_nw,Wrd_freq_log_ong_nw,Wrd_freq_log_sam_nw,",
   "Wrd_freq_log_hfdwrd,Wrd_freq_log_satwrd,Wrd_freq_log_(hfd_sat),",
   "Wrd_freq_log_nw_corr,Wrd_freq_log_corr,", "Freq1000_nw,Freq5000_nw,Freq20000_nw,",
   "Freq1000_nsam_nw,Freq5000_nsam_nw,Freq20000_nsam_nw,",
   "Freq1000_sam_nw,Freq5000_sam_nw,Freq20000_sam_nw,",
   "Freq1000_hfdwrd_nw,Freq5000_hfdwrd_nw,Freq20000_hfdwrd_nw,",
   "Freq1000_satwrd_nw,Freq5000_satwrd_nw,Freq20000_satwrd_nw,",
   "Freq1000_nw_corr,Freq5000_nw_corr,Freq20000_nw_corr,",
   "Freq1000_corr,Freq5000_corr,Freq20000_corr,"]

/-- The local `nonCompoundCnt` of `compoundToCSV`. -/
def nonCompoundCnt (s : structStats) : Int :=
  s.cnt .nounCnt - s.cnt .compoundCnt

/-- The function `structStats::compoundToCSV` (lines 2261-2303): the fields written to the
stream, each followed by a comma, in order. -/
def compoundToCSV (s : structStats) : List Cell :=
  [ .density (ofInt (s.cnt .compoundCnt)) (ofInt (s.cnt .wordCnt)),
    .proportion (ofInt (s.cnt .compoundCnt)) (ofInt (s.cnt .nounCnt)),
    .density (ofInt (s.cnt .compound3Cnt)) (ofInt (s.cnt .wordCnt)),
    .proportion (ofInt (s.cnt .compound3Cnt)) (ofInt (s.cnt .nounCnt)),
    .proportion (ofInt (s.cnt .charCntNoun)) (ofInt (s.cnt .nounCnt)),
    .proportion (ofInt (s.cnt .charCntNonComp)) (ofInt (nonCompoundCnt s)),
    .proportion (ofInt (s.cnt .charCntComp)) (ofInt (s.cnt .compoundCnt)),
    .proportion (ofInt (s.cnt .charCntHead)) (ofInt (s.cnt .compoundCnt)),
    .proportion (ofInt (s.cnt .charCntSat)) (ofInt (s.cnt .compoundCnt)),
    .proportion (ofInt (s.cnt .charCntNounCorr)) (ofInt (s.cnt .nounCnt)),
    .proportion (ofInt (s.cnt .charCntCorr)) (ofInt (s.cnt .wordCnt)),
    .proportion (s.dsum .word_freq_log_noun) (ofInt (s.cnt .nounCnt)),
    .proportion (s.dsum .word_freq_log_non_comp) (ofInt (nonCompoundCnt s)),
    .proportion (s.dsum .word_freq_log_comp) (ofInt (s.cnt .compoundCnt)),
    .proportion (s.dsum .word_freq_log_head) (ofInt (s.cnt .compoundCnt)),
    .proportion (s.dsum .word_freq_log_sat) (ofInt (s.cnt .compoundCnt)),
    .proportion (s.dsum .word_freq_log_head_sat) (ofInt (s.cnt .compoundCnt)),
    .proportion (s.dsum .word_freq_log_noun_corr) (ofInt (s.cnt .nounCnt)),
    .proportion (s.dsum .word_freq_log_corr) (ofInt (s.cnt .contentCnt)),
    .proportion (ofInt (s.cnt .top1000CntNoun)) (ofInt (s.cnt .nounCnt)),
    .proportion (ofInt (s.cnt .top5000CntNoun)) (ofInt (s.cnt .nounCnt)),
    .proportion (ofInt (s.cnt .top20000CntNoun)) (ofInt (s.cnt .nounCnt)),
    .proportion (ofInt (s.cnt .top1000CntNonComp)) (ofInt (nonCompoundCnt s)),
    .proportion (ofInt (s.cnt .top5000CntNonComp)) (ofInt (nonCompoundCnt s)),
    .proportion (ofInt (s.cnt .top20000CntNonComp)) (ofInt (nonCompoundCnt s)),
    .proportion (ofInt (s.cnt .top1000CntComp)) (ofInt (s.cnt .compoundCnt)),
    .proportion (ofInt (s.cnt .top5000CntComp)) (ofInt (s.cnt .compoundCnt)),
    .proportion (ofInt (s.cnt .top20000CntComp)) (ofInt (s.cnt .compoundCnt)),
    .proportion (ofInt (s.cnt .top1000CntHead)) (ofInt (s.cnt .compoundCnt)),
    .proportion (ofInt (s.cnt .top5000CntHead)) (ofInt (s.cnt .compoundCnt)),
    .proportion (ofInt (s.cnt .top20000CntHead)) (ofInt (s.cnt .compoundCnt)),
    .proportion (ofInt (s.cnt .top1000CntSat)) (ofInt (s.cnt .compoundCnt)),
    .proportion (ofInt (s.cnt .top5000CntSat)) (ofInt (s.cnt .compoundCnt)),
    .proportion (ofInt (s.cnt .top20000CntSat)) (ofInt (s.cnt .compoundCnt)),
    .proportion (ofInt (s.cnt .top1000CntNounCorr)) (ofInt (s.cnt .nounCnt)),
    .proportion (ofInt (s.cnt .top5000CntNounCorr)) (ofInt (s.cnt .nounCnt)),
    .proportion (ofInt (s.cnt .top20000CntNounCorr)) (ofInt (s.cnt .nounCnt)),
    .proportion (ofInt (s.cnt .top1000CntCorr)) (ofInt (s.cnt .wordCnt)),
    .proportion (ofInt (s.cnt .top5000CntCorr)) (ofInt (s.cnt .wordCnt)),
    .proportion (ofInt (s.cnt .top20000CntCorr)) (ofInt (s.cnt .wordCnt)) ]

/-- The function `structStats::sentDifficultiesHeader` (lines 2305-2331): the strings written
to the stream, in order. -/
def sentDifficultiesHeader (env : csvEnv) : List String :=
  ["Wrd_per_zin,Wrd_per_dz,Zin_per_wrd,Dzin_per_wrd,", "Wrd_per_nwg,",
   "Betr_bijzin_per_zin,Bijw_bijzin_per_zin,", "Compl_bijzin_per_zin,Fin_bijzin_per_zin,",
   "Mv_fin_inbed_per_zin,Infin_compl_per_zin,", "Bijzin_per_zin,Mv_inbed_per_zin,",
   "Betr_bijzin_los,Bijw_compl_bijzin_los,",
   "Pv_hzin_per_zin,Pv_bijzin_per_zin,Pv_ww1_per_zin,", "Hzin_conj,Bijzin_conj,Ww1_conj,",
   "Pv_Alpino_per_zin,", "Pv_Frog_d,Pv_Frog_per_zin,"]
  ++ (if env.isSentence then ["D_level,"] else ["D_level,D_level_gt4_p,"])
  ++
  ["Nom_d,Lijdv_d,Lijdv_dz,Ontk_zin_d,Ontk_zin_dz,",
   "Ontk_morf_d,Ontk_morf_dz,Ontk_tot_d,Ontk_tot_dz,", "Meerv_ontk_d,Meerv_ontk_dz,",
   "AL_sub_ww,AL_ob_ww,AL_indirob_ww,AL_ww_vzg,", "AL_lidw_znw,AL_vz_znw,AL_ww_wwvc,",
   "AL_vg_wwbijzin,AL_vg_conj,AL_vg_wwhoofdzin,AL_znw_bijzin,AL_ww_schdw,",
   "AL_ww_znwpred,AL_ww_bnwpred,AL_ww_bnwbwp,AL_ww_bwbwp,AL_ww_znwbwp,", "AL_gem,AL_max,"]

/-- The local `bijzinCnt` of `sentDifficultiesToCSV` (line 2345), a double that holds a sum of
integers. -/
def bijzinCnt (s : structStats) : Int :=
  s.cnt .betrCnt + s.cnt .bijwCnt + s.cnt .complCnt

/-- The local `frogClauseCnt` of `sentDifficultiesToCSV` (line 2374), a double that holds a
sum of integers. -/
def frogClauseCnt (s : structStats) : Int :=
  s.cnt .pastCnt + s.cnt .presentCnt

/-- The function `structStats::sentDifficultiesToCSV` (lines 2333-2414): the fields written to the
stream, each followed by a comma, in order. -/
def sentDifficultiesToCSV (env : csvEnv) (s : structStats) : List Cell :=
  (if s.parseFailCnt > 0 then [ .NA ]
   else [ .proportion (ofInt (s.cnt .wordCnt)) (ofInt (s.sentCnt)) ])
  ++ [ .proportion (ofInt (s.cnt .wordCnt)) (ofInt (s.cnt .correctedClauseCnt)),
      .proportion (ofInt (s.sentCnt)) (ofInt (s.cnt .wordCnt)),
      .proportion (ofInt (s.cnt .correctedClauseCnt)) (ofInt (s.cnt .wordCnt)),
      .proportion (ofInt (s.cnt .wordCnt)) (ofInt (s.cnt .npCnt)) ]
  ++ (if s.parseFailCnt > 0 then
        [ .NA, .NA, .NA, .NA, .NA, .NA, .NA, .NA, .NA, .NA ]
      else
        [ .proportion (ofInt (s.cnt .betrCnt)) (ofInt (s.sentCnt)),
          .proportion (ofInt (s.cnt .bijwCnt)) (ofInt (s.sentCnt)),
          .proportion (ofInt (s.cnt .complCnt)) (ofInt (s.sentCnt)),
          .proportion (ofInt (bijzinCnt s)) (ofInt (s.sentCnt)),
          .proportion (ofInt (s.cnt .mvFinInbedCnt)) (ofInt (s.sentCnt)),
          .proportion (ofInt (s.cnt .infinComplCnt)) (ofInt (s.sentCnt)),
          .proportion (ofInt (bijzinCnt s + s.cnt .infinComplCnt)) (ofInt (s.sentCnt)),
          .proportion (ofInt (s.cnt .mvInbedCnt)) (ofInt (s.sentCnt)),
          .proportion (ofInt (s.cnt .losBetrCnt)) (ofInt (s.sentCnt)),
          .proportion (ofInt (s.cnt .losBijwCnt)) (ofInt (s.sentCnt)) ])
  ++ (if s.parseFailCnt > 0 then
        [ .NA, .NA, .NA, .NA, .NA, .NA, .NA ]
      else
        [ .proportion (ofInt (s.cnt .smainCnt)) (ofInt (s.sentCnt)),
          .proportion (ofInt (s.cnt .ssubCnt)) (ofInt (s.sentCnt)),
          .proportion (ofInt (s.cnt .sv1Cnt)) (ofInt (s.sentCnt)),
          .proportion (ofInt (s.cnt .smainCnjCnt)) (ofInt (s.sentCnt)),
          .proportion (ofInt (s.cnt .ssubCnjCnt)) (ofInt (s.sentCnt)),
          .proportion (ofInt (s.cnt .sv1CnjCnt)) (ofInt (s.sentCnt)),
          .proportion (ofInt (s.cnt .clauseCnt)) (ofInt (s.sentCnt)) ])
  ++ [ .density (ofInt (frogClauseCnt s)) (ofInt (s.cnt .wordCnt)),
      .proportion (ofInt (frogClauseCnt s)) (ofInt (s.sentCnt)) ]
  ++ [ .proportion (ofInt (s.dLevel)) (ofInt (s.sentCnt)) ]
  ++ (if !env.isSentence then [ .proportion (ofInt (s.cnt .dLevel_gt4)) (ofInt (s.sentCnt)) ]
      else [])
  ++ [ .density (ofInt (s.cnt .nominalCnt)) (ofInt (s.cnt .wordCnt)),
      .density (ofInt (s.cnt .passiveCnt)) (ofInt (s.cnt .wordCnt)),
      .proportion (ofInt (s.cnt .passiveCnt)) (ofInt (s.cnt .correctedClauseCnt)),
      .density (ofInt (s.cnt .propNegCnt)) (ofInt (s.cnt .wordCnt)),
      .proportion (ofInt (s.cnt .propNegCnt)) (ofInt (s.cnt .correctedClauseCnt)),
      .density (ofInt (s.cnt .morphNegCnt)) (ofInt (s.cnt .wordCnt)),
      .proportion (ofInt (s.cnt .morphNegCnt)) (ofInt (s.cnt .correctedClauseCnt)),
      .density (ofInt (s.cnt .propNegCnt + s.cnt .morphNegCnt)) (ofInt (s.cnt .wordCnt)),
      .proportion (ofInt (s.cnt .propNegCnt + s.cnt .morphNegCnt))
        (ofInt (s.cnt .correctedClauseCnt)),
      .density (ofInt (s.cnt .multiNegCnt)) (ofInt (s.cnt .wordCnt)),
      .proportion (ofInt (s.cnt .multiNegCnt)) (ofInt (s.cnt .correctedClauseCnt)),
      MMtoString s.distances (env.dd .SUB_VERB),
      MMtoString s.distances (env.dd .OBJ1_VERB),
      MMtoString s.distances (env.dd .OBJ2_VERB),
      MMtoString s.distances (env.dd .VERB_PP),
      MMtoString s.distances (env.dd .NOUN_DET),
      MMtoString s.distances (env.dd .PREP_OBJ1),
      MMtoString s.distances (env.dd .VERB_VC),
      MMtoString s.distances (env.dd .COMP_BODY),
      MMtoString s.distances (env.dd .CRD_CNJ),
      MMtoString s.distances (env.dd .VERB_COMP),
      MMtoString s.distances (env.dd .NOUN_VC),
      MMtoString s.distances (env.dd .VERB_SVP),
      MMtoString s.distances (env.dd .VERB_PREDC_N),
      MMtoString s.distances (env.dd .VERB_PREDC_A),
      MMtoString s.distances (env.dd .VERB_MOD_A),
      MMtoString s.distances (env.dd .VERB_MOD_BW),
      MMtoString s.distances (env.dd .VERB_NOUN),
      toMString s.al_gem,
      toMString s.al_max ]

/-- The function `structStats::infoHeader` (lines 2416-2430): the strings written to
the stream, in order. -/
def infoHeader : List String :=
  ["Bijw_bep_d,Bijw_bep_dz,", "Bijw_bep_alg_d,Bijw_bep_alg_dz,", "Bijv_bep_d,Bijv_bep_dz,",
   "Attr_bijv_nw_d,Attr_bijv_nw_dz,", "Ov_bijv_bep_d,Ov_bijv_bep_dz,",
   "TTR_wrd,MTLD_wrd,TTR_lem,MTLD_lem,", "TTR_namen,MTLD_namen,TTR_inhwrd,MTLD_inhwrd,",
   "Inhwrd_d,Inhwrd_dz,", "Zeldz_index,", "Vnw_ref_d,Vnw_ref_dz,",
   "Arg_over_vzin_d,Arg_over_vzin_dz,Lem_over_vzin_d,Lem_over_vzin_dz,",
   "Arg_over_buf_d,Arg_over_buf_dz,Lem_over_buf_d,Lem_over_buf_dz,",
   "Onbep_nwg_p,Onbep_nwg_dz,"]

/-- The function `structStats::informationDensityToCSV` (lines 2432-2484): the fields written to the
stream, each followed by a comma, in order. -/
def informationDensityToCSV (settings : settingData) (env : csvEnv) (s : structStats) :
    List Cell :=
  [ .density (ofInt (s.cnt .vcModCnt)) (ofInt (s.cnt .wordCnt)),
    .proportion (ofInt (s.cnt .vcModCnt)) (ofInt (s.cnt .correctedClauseCnt)),
    .density (ofInt (s.cnt .vcModSingleCnt)) (ofInt (s.cnt .wordCnt)),
    .proportion (ofInt (s.cnt .vcModSingleCnt)) (ofInt (s.cnt .correctedClauseCnt)),
    .density (ofInt (s.cnt .npModCnt)) (ofInt (s.cnt .wordCnt)),
    .proportion (ofInt (s.cnt .npModCnt)) (ofInt (s.cnt .correctedClauseCnt)),
    .density (ofInt (s.cnt .adjNpModCnt)) (ofInt (s.cnt .wordCnt)),
    .proportion (ofInt (s.cnt .adjNpModCnt)) (ofInt (s.cnt .correctedClauseCnt)),
    .density (ofInt (s.cnt .npModCnt - s.cnt .adjNpModCnt)) (ofInt (s.cnt .wordCnt)),
    .proportion (ofInt (s.cnt .npModCnt - s.cnt .adjNpModCnt)) (ofInt (s.cnt .correctedClauseCnt)),
    .proportion (ofInt (s.unique_words.length : Int)) (ofInt (s.cnt .wordCnt)),
    .num (s.dval .word_mtld),
    .proportion (ofInt (s.unique_lemmas.length : Int)) (ofInt (s.cnt .wordCnt)),
    .num (s.dval .lemma_mtld),
    .proportion (ofInt (s.unique_names.length : Int)) (ofInt (s.cnt .nameCnt)),
    .num (s.dval .name_mtld),
    .proportion (ofInt (s.unique_contents.length : Int)) (ofInt (s.cnt .contentCnt)),
    .num (s.dval .content_mtld),
    .density (ofInt (s.cnt .contentCnt)) (ofInt (s.cnt .wordCnt)),
    .proportion (ofInt (s.cnt .contentCnt)) (ofInt (s.cnt .correctedClauseCnt)),
    .str env.rarity,
    .density (ofInt (s.cnt .pronRefCnt)) (ofInt (s.cnt .wordCnt)),
    .proportion (ofInt (s.cnt .pronRefCnt)) (ofInt (s.cnt .correctedClauseCnt)) ]
  ++ (if env.isSentence then
        if s.index = 0 then [ .NA, .NA, .NA, .NA ]
        else
          [ .density (ofInt (s.cnt .wordOverlapCnt)) (ofInt (s.cnt .wordCnt)),
            .NA,
            .density (ofInt (s.cnt .lemmaOverlapCnt)) (ofInt (s.cnt .wordCnt)),
            .NA ]
      else
        [ .density (ofInt (s.cnt .wordOverlapCnt)) (ofInt (s.cnt .wordCnt)),
          .proportion (ofInt (s.cnt .wordOverlapCnt)) (ofInt (s.cnt .correctedClauseCnt)),
          .density (ofInt (s.cnt .lemmaOverlapCnt)) (ofInt (s.cnt .wordCnt)),
          .proportion (ofInt (s.cnt .lemmaOverlapCnt)) (ofInt (s.cnt .correctedClauseCnt)) ])
  ++ (if !env.isDocument then [ .NA, .NA, .NA, .NA ]
      else
        [ .density (ofInt (env.word_overlapCnt))
            (ofInt ((s.cnt .wordCnt - (settings.overlapSize : Int)) % 2 ^ 32)),
          .proportion (ofInt (env.word_overlapCnt)) (ofInt (s.cnt .correctedClauseCnt)),
          .density (ofInt (env.lemma_overlapCnt))
            (ofInt ((s.cnt .wordCnt - (settings.overlapSize : Int)) % 2 ^ 32)),
          .proportion (ofInt (env.lemma_overlapCnt)) (ofInt (s.cnt .correctedClauseCnt)) ])
  ++ [ .proportion (ofInt (s.cnt .indefNpCnt)) (ofInt (s.cnt .npCnt)),
      .proportion (ofInt (s.cnt .indefNpCnt)) (ofInt (s.cnt .correctedClauseCnt)) ]

/-- The function `structStats::coherenceHeader` (lines 2486-2498): the strings written to
the stream, in order. -/
def coherenceHeader : List String :=
  ["Conn_temp_d,Conn_temp_dz,Conn_temp_TTR,Conn_temp_MTLD,",
   "Conn_reeks_wg_d,Conn_reeks_wg_dz,Conn_reeks_wg_TTR,Conn_reeks_wg_MTLD,",
   "Conn_reeks_zin_d,Conn_reeks_zin_dz,Conn_reeks_zin_TTR,Conn_reeks_zin_MTLD,",
   "Conn_contr_d,Conn_contr_dz,Conn_contr_TTR,Conn_contr_MTLD,",
   "Conn_comp_d,Conn_comp_dz,Conn_comp_TTR,Conn_comp_MTLD,",
   "Conn_caus_d,Conn_caus_dz,Conn_caus_TTR,Conn_caus_MTLD,",
   "Causaal_d,Ruimte_d,Tijd_d,Emotie_d,", "Causaal_TTR,Causaal_MTLD,",
   "Ruimte_TTR,Ruimte_MTLD,", "Tijd_TTR,Tijd_MTLD,", "Emotie_TTR,Emotie_MTLD,"]

/-- The function `structStats::coherenceToCSV` (lines 2500-2537): the fields written to the
stream, each followed by a comma, in order. -/
def coherenceToCSV (s : structStats) : List Cell :=
  [ .density (ofInt (s.cnt .tempConnCnt)) (ofInt (s.cnt .wordCnt)),
    .proportion (ofInt (s.cnt .tempConnCnt)) (ofInt (s.cnt .correctedClauseCnt)),
    .proportion (ofInt (s.unique_temp_conn.length : Int)) (ofInt (s.cnt .tempConnCnt)),
    .num (s.dval .temp_conn_mtld),
    .density (ofInt (s.cnt .opsomWgConnCnt)) (ofInt (s.cnt .wordCnt)),
    .proportion (ofInt (s.cnt .opsomWgConnCnt)) (ofInt (s.cnt .correctedClauseCnt)),
    .proportion (ofInt (s.unique_reeks_wg_conn.length : Int)) (ofInt (s.cnt .opsomWgConnCnt)),
    .num (s.dval .reeks_zin_conn_mtld),
    .density (ofInt (s.cnt .opsomZinConnCnt)) (ofInt (s.cnt .wordCnt)),
    .proportion (ofInt (s.cnt .opsomZinConnCnt)) (ofInt (s.cnt .correctedClauseCnt)),
    .proportion (ofInt (s.unique_reeks_zin_conn.length : Int)) (ofInt (s.cnt .opsomZinConnCnt)),
    .num (s.dval .reeks_zin_conn_mtld),
    .density (ofInt (s.cnt .contrastConnCnt)) (ofInt (s.cnt .wordCnt)),
    .proportion (ofInt (s.cnt .contrastConnCnt)) (ofInt (s.cnt .correctedClauseCnt)),
    .proportion (ofInt (s.unique_contr_conn.length : Int)) (ofInt (s.cnt .contrastConnCnt)),
    .num (s.dval .contr_conn_mtld),
    .density (ofInt (s.cnt .compConnCnt)) (ofInt (s.cnt .wordCnt)),
    .proportion (ofInt (s.cnt .compConnCnt)) (ofInt (s.cnt .correctedClauseCnt)),
    .proportion (ofInt (s.unique_comp_conn.length : Int)) (ofInt (s.cnt .compConnCnt)),
    .num (s.dval .comp_conn_mtld),
    .density (ofInt (s.cnt .causeConnCnt)) (ofInt (s.cnt .wordCnt)),
    .proportion (ofInt (s.cnt .causeConnCnt)) (ofInt (s.cnt .correctedClauseCnt)),
    .proportion (ofInt (s.unique_cause_conn.length : Int)) (ofInt (s.cnt .causeConnCnt)),
    .num (s.dval .cause_conn_mtld),
    .density (ofInt (s.cnt .causeSitCnt)) (ofInt (s.cnt .wordCnt)),
    .density (ofInt (s.cnt .spaceSitCnt)) (ofInt (s.cnt .wordCnt)),
    .density (ofInt (s.cnt .timeSitCnt)) (ofInt (s.cnt .wordCnt)),
    .density (ofInt (s.cnt .emoSitCnt)) (ofInt (s.cnt .wordCnt)),
    .proportion (ofInt (s.unique_cause_sits.length : Int)) (ofInt (s.cnt .causeSitCnt)),
    .num (s.dval .cause_sit_mtld),
    .proportion (ofInt (s.unique_ruimte_sits.length : Int)) (ofInt (s.cnt .spaceSitCnt)),
    .num (s.dval .ruimte_sit_mtld),
    .proportion (ofInt (s.unique_tijd_sits.length : Int)) (ofInt (s.cnt .timeSitCnt)),
    .num (s.dval .tijd_sit_mtld),
    .proportion (ofInt (s.unique_emotion_sits.length : Int)) (ofInt (s.cnt .emoSitCnt)),
    .num (s.dval .emotion_sit_mtld) ]

/-- The function `structStats::concreetHeader` (lines 2539-2608): the strings written to
the stream, in order. -/
def concreetHeader : List String :=
  ["Conc_nw_strikt_p,Conc_nw_strikt_d,", "Conc_nw_ruim_p,Conc_nw_ruim_d,",
   "Pers_nw_p,Pers_nw_d,", "PlantDier_nw_p,PlantDier_nw_d,", "Gebr_vw_nw_p,Gebr_vw_nw_d,",
   "Subst_conc_nw_p,Subst_conc_nw_d,", "Voed_verz_nw_p,Voed_verz_nw_d,",
   "Concr_ov_nw_p,Concr_ov_nw_d,", "Gebeuren_conc_nw_p,Gebeuren_conc_nw_d,",
   "Plaats_nw_p,Plaats_nw_d,", "Tijd_nw_p,Tijd_nw_d,", "Maat_nw_p,Maat_nw_d,",
   "Subst_abstr_nw_p,Subst_abstr_nw_d,", "Gebeuren_abstr_nw_p,Gebeuren_abstr_nw_d,",
   "Organisatie_nw_p,Organisatie_nw_d,", "Ov_abstr_nw_p,Ov_abstr_nw_d,", "Undefined_nw_p,",
   "Gedekte_nw_p,", "Alg_nw_d,Alg_nw_p,", "Alg_nw_afz_sit_d,Alg_nw_afz_sit_p,",
   "Alg_nw_rel_sit_d,Alg_nw_rel_sit_p,", "Alg_nw_hand_d,Alg_nw_hand_p,",
   "Alg_nw_kenn_d,Alg_nw_kenn_p,", "Alg_nw_disc_caus_d,Alg_nw_disc_caus_p,",
   "Alg_nw_ontw_d,Alg_nw_ontw_p,", "Waarn_mens_bvnw_p,Waarn_mens_bvnw_d,",
   "Emosoc_bvnw_p,Emosoc_bvnw_d,", "Waarn_nmens_bvnw_p,Waarn_nmens_bvnw_d,",
   "Vorm_omvang_bvnw_p,Vorm_omvang_bvnw_d,", "Kleur_bvnw_p,Kleur_bvnw_d,",
   "Stof_bvnw_p,Stof_bvnw_d,", "Geluid_bvnw_p,Geluid_bvnw_d,",
   "Waarn_nmens_ov_bvnw_p,Waarn_nmens_ov_bvnw_d,", "Technisch_bvnw_p,Technisch_bvnw_d,",
   "Tijd_bvnw_p,Tijd_bvnw_d,", "Plaats_bvnw_p,Plaats_bvnw_d,",
   "Spec_positief_bvnw_p,Spec_positief_bvnw_d,",
   "Spec_negatief_bvnw_p,Spec_negatief_bvnw_d,",
   "Alg_positief_bvnw_p,Alg_positief_bvnw_d,", "Alg_negatief_bvnw_p,Alg_negatief_bvnw_d,",
   "Alg_ev_zr_bvnw_p,Alg_ev_zr_bvnw_d,", "Ep_positief_bvnw_p,Ep_positief_bvnw_d,",
   "Ep_negatief_bvnw_p,Ep_negatief_bvnw_d,", "Ov_abstr_bvnw_p,Ov_abstr_bvnw_d,",
   "Spec_ev_bvnw_p,Spec_ev_bvnw_d,", "Alg_ev_bvnw_p,Alg_ev_bvnw_d,",
   "Ep_ev_bvnw_p,Ep_ev_bvnw_d,", "Conc_bvnw_strikt_p,Conc_bvnw_strikt_d,",
   "Conc_bvnw_ruim_p,Conc_bvnw_ruim_d,", "Subj_bvnw_p,Subj_bvnw_d,", "Undefined_bvnw_p,",
   "Gelabeld_bvnw_p,", "Gedekte_bvnw_p,", "Conc_ww_p,Conc_ww_d,", "Abstr_ww_p,Abstr_ww_d,",
   "Undefined_ww_p,", "Gedekte_ww_p,", "Alg_ww_d,Alg_ww_p,",
   "Alg_ww_afz_sit_d,Alg_ww_afz_sit_p,", "Alg_ww_rel_sit_d,Alg_ww_rel_sit_p,",
   "Alg_ww_hand_d,Alg_ww_hand_p,", "Alg_ww_kenn_d,Alg_ww_kenn_p,",
   "Alg_ww_disc_caus_d,Alg_ww_disc_caus_p,", "Alg_ww_ontw_d,Alg_ww_ontw_p,",
   "Conc_tot_p,Conc_tot_d,", "Alg_bijw_d,Alg_bijw_p,", "Spec_bijw_d,Spec_bijw_p,",
   "Gedekte_bw_p,"]

/-- The local `coveredNouns` of `concreetToCSV`. -/
def coveredNouns (s : structStats) : Int :=
  s.cnt .nounCnt + s.cnt .nameCnt - s.cnt .uncoveredNounCnt

/-- The local `coveredAdj` of `concreetToCSV`. -/
def coveredAdj (s : structStats) : Int :=
  s.cnt .adjCnt - s.cnt .uncoveredAdjCnt

/-- The local `coveredVerbs` of `concreetToCSV`. -/
def coveredVerbs (s : structStats) : Int :=
  s.cnt .verbCnt - s.cnt .uncoveredVerbCnt

/-- The local `totalCovered` of `concreetToCSV`. -/
def totalCovered (s : structStats) : Int :=
  coveredNouns s + coveredAdj s + coveredVerbs s

/-- The local `totalCnt` of `concreetToCSV`. -/
def totalCnt (s : structStats) : Int :=
  s.cnt .strictNounCnt + s.cnt .strictAdjCnt + s.cnt .concreteWwCnt

/-- The local `coveredAdverbs` of `concreetToCSV`. -/
def coveredAdverbs (s : structStats) : Int :=
  s.cnt .generalAdverbCnt + s.cnt .specificAdverbCnt

/-- The function `structStats::concreetToCSV` (lines 2610-2751): the fields written to the
stream, each followed by a comma, in order. -/
def concreetToCSV (s : structStats) : List Cell :=
  [ .proportion (ofInt (s.cnt .strictNounCnt)) (ofInt (coveredNouns s)),
    .density (ofInt (s.cnt .strictNounCnt)) (ofInt (s.cnt .wordCnt)),
    .proportion (ofInt (s.cnt .broadNounCnt)) (ofInt (coveredNouns s)),
    .density (ofInt (s.cnt .broadNounCnt)) (ofInt (s.cnt .wordCnt)),
    .proportion (ofInt (s.cnt .humanCnt)) (ofInt (coveredNouns s)),
    .density (ofInt (s.cnt .humanCnt)) (ofInt (s.cnt .wordCnt)),
    .proportion (ofInt (s.cnt .nonHumanCnt)) (ofInt (coveredNouns s)),
    .density (ofInt (s.cnt .nonHumanCnt)) (ofInt (s.cnt .wordCnt)),
    .proportion (ofInt (s.cnt .artefactCnt)) (ofInt (coveredNouns s)),
    .density (ofInt (s.cnt .artefactCnt)) (ofInt (s.cnt .wordCnt)),
    .proportion (ofInt (s.cnt .substanceConcCnt)) (ofInt (coveredNouns s)),
    .density (ofInt (s.cnt .substanceConcCnt)) (ofInt (s.cnt .wordCnt)),
    .proportion (ofInt (s.cnt .foodcareCnt)) (ofInt (coveredNouns s)),
    .density (ofInt (s.cnt .foodcareCnt)) (ofInt (s.cnt .wordCnt)),
    .proportion (ofInt (s.cnt .concrotherCnt)) (ofInt (coveredNouns s)),
    .density (ofInt (s.cnt .concrotherCnt)) (ofInt (s.cnt .wordCnt)),
    .proportion (ofInt (s.cnt .dynamicConcCnt)) (ofInt (coveredNouns s)),
    .density (ofInt (s.cnt .dynamicConcCnt)) (ofInt (s.cnt .wordCnt)),
    .proportion (ofInt (s.cnt .placeCnt)) (ofInt (coveredNouns s)),
    .density (ofInt (s.cnt .placeCnt)) (ofInt (s.cnt .wordCnt)),
    .proportion (ofInt (s.cnt .timeCnt)) (ofInt (coveredNouns s)),
    .density (ofInt (s.cnt .timeCnt)) (ofInt (s.cnt .wordCnt)),
    .proportion (ofInt (s.cnt .measureCnt)) (ofInt (coveredNouns s)),
    .density (ofInt (s.cnt .measureCnt)) (ofInt (s.cnt .wordCnt)),
    .proportion (ofInt (s.cnt .substanceAbstrCnt)) (ofInt (coveredNouns s)),
    .density (ofInt (s.cnt .substanceAbstrCnt)) (ofInt (s.cnt .wordCnt)),
    .proportion (ofInt (s.cnt .dynamicAbstrCnt)) (ofInt (coveredNouns s)),
    .density (ofInt (s.cnt .dynamicAbstrCnt)) (ofInt (s.cnt .wordCnt)),
    .proportion (ofInt (s.cnt .institutCnt)) (ofInt (coveredNouns s)),
    .density (ofInt (s.cnt .institutCnt)) (ofInt (s.cnt .wordCnt)),
    .proportion (ofInt (s.cnt .nonDynamicCnt)) (ofInt (coveredNouns s)),
    .density (ofInt (s.cnt .nonDynamicCnt)) (ofInt (s.cnt .wordCnt)),
    .proportion (ofInt (s.cnt .undefinedNounCnt)) (ofInt (coveredNouns s)),
    .proportion (ofInt (coveredNouns s)) (ofInt (s.cnt .nounCnt + s.cnt .nameCnt)),
    .density (ofInt (s.cnt .generalNounCnt)) (ofInt (s.cnt .wordCnt)),
    .proportion (ofInt (s.cnt .generalNounCnt)) (ofInt (coveredNouns s)),
    .density (ofInt (s.cnt .generalNounSepCnt)) (ofInt (s.cnt .wordCnt)),
    .proportion (ofInt (s.cnt .generalNounSepCnt)) (ofInt (coveredNouns s)),
    .density (ofInt (s.cnt .generalNounRelCnt)) (ofInt (s.cnt .wordCnt)),
    .proportion (ofInt (s.cnt .generalNounRelCnt)) (ofInt (coveredNouns s)),
    .density (ofInt (s.cnt .generalNounActCnt)) (ofInt (s.cnt .wordCnt)),
    .proportion (ofInt (s.cnt .generalNounActCnt)) (ofInt (coveredNouns s)),
    .density (ofInt (s.cnt .generalNounKnowCnt)) (ofInt (s.cnt .wordCnt)),
    .proportion (ofInt (s.cnt .generalNounKnowCnt)) (ofInt (coveredNouns s)),
    .density (ofInt (s.cnt .generalNounDiscCnt)) (ofInt (s.cnt .wordCnt)),
    .proportion (ofInt (s.cnt .generalNounDiscCnt)) (ofInt (coveredNouns s)),
    .density (ofInt (s.cnt .generalNounDeveCnt)) (ofInt (s.cnt .wordCnt)),
    .proportion (ofInt (s.cnt .generalNounDeveCnt)) (ofInt (coveredNouns s)) ]
  ++ [ .proportion (ofInt (s.cnt .humanAdjCnt)) (ofInt (coveredAdj s)),
       .density (ofInt (s.cnt .humanAdjCnt)) (ofInt (s.cnt .wordCnt)),
       .proportion (ofInt (s.cnt .emoAdjCnt)) (ofInt (coveredAdj s)),
       .density (ofInt (s.cnt .emoAdjCnt)) (ofInt (s.cnt .wordCnt)),
       .proportion (ofInt (s.cnt .nonhumanAdjCnt)) (ofInt (coveredAdj s)),
       .density (ofInt (s.cnt .nonhumanAdjCnt)) (ofInt (s.cnt .wordCnt)),
       .proportion (ofInt (s.cnt .shapeAdjCnt)) (ofInt (coveredAdj s)),
       .density (ofInt (s.cnt .shapeAdjCnt)) (ofInt (s.cnt .wordCnt)),
       .proportion (ofInt (s.cnt .colorAdjCnt)) (ofInt (coveredAdj s)),
       .density (ofInt (s.cnt .colorAdjCnt)) (ofInt (s.cnt .wordCnt)),
       .proportion (ofInt (s.cnt .matterAdjCnt)) (ofInt (coveredAdj s)),
       .density (ofInt (s.cnt .matterAdjCnt)) (ofInt (s.cnt .wordCnt)),
       .proportion (ofInt (s.cnt .soundAdjCnt)) (ofInt (coveredAdj s)),
       .density (ofInt (s.cnt .soundAdjCnt)) (ofInt (s.cnt .wordCnt)),
       .proportion (ofInt (s.cnt .nonhumanOtherAdjCnt)) (ofInt (coveredAdj s)),
       .density (ofInt (s.cnt .nonhumanOtherAdjCnt)) (ofInt (s.cnt .wordCnt)),
       .proportion (ofInt (s.cnt .techAdjCnt)) (ofInt (coveredAdj s)),
       .density (ofInt (s.cnt .techAdjCnt)) (ofInt (s.cnt .wordCnt)),
       .proportion (ofInt (s.cnt .timeAdjCnt)) (ofInt (coveredAdj s)),
       .density (ofInt (s.cnt .timeAdjCnt)) (ofInt (s.cnt .wordCnt)),
       .proportion (ofInt (s.cnt .placeAdjCnt)) (ofInt (coveredAdj s)),
       .density (ofInt (s.cnt .placeAdjCnt)) (ofInt (s.cnt .wordCnt)),
       .proportion (ofInt (s.cnt .specPosAdjCnt)) (ofInt (coveredAdj s)),
       .density (ofInt (s.cnt .specPosAdjCnt)) (ofInt (s.cnt .wordCnt)),
       .proportion (ofInt (s.cnt .specNegAdjCnt)) (ofInt (coveredAdj s)),
       .density (ofInt (s.cnt .specNegAdjCnt)) (ofInt (s.cnt .wordCnt)),
       .proportion (ofInt (s.cnt .posAdjCnt)) (ofInt (coveredAdj s)),
       .density (ofInt (s.cnt .posAdjCnt)) (ofInt (s.cnt .wordCnt)),
       .proportion (ofInt (s.cnt .negAdjCnt)) (ofInt (coveredAdj s)),
       .density (ofInt (s.cnt .negAdjCnt)) (ofInt (s.cnt .wordCnt)),
       .proportion (ofInt (s.cnt .evaluativeAdjCnt)) (ofInt (coveredAdj s)),
       .density (ofInt (s.cnt .evaluativeAdjCnt)) (ofInt (s.cnt .wordCnt)),
       .proportion (ofInt (s.cnt .epiPosAdjCnt)) (ofInt (coveredAdj s)),
       .density (ofInt (s.cnt .epiPosAdjCnt)) (ofInt (s.cnt .wordCnt)),
       .proportion (ofInt (s.cnt .epiNegAdjCnt)) (ofInt (coveredAdj s)),
       .density (ofInt (s.cnt .epiNegAdjCnt)) (ofInt (s.cnt .wordCnt)),
       .proportion (ofInt (s.cnt .abstractAdjCnt)) (ofInt (coveredAdj s)),
       .density (ofInt (s.cnt .abstractAdjCnt)) (ofInt (s.cnt .wordCnt)),
       .proportion (ofInt (s.cnt .specPosAdjCnt + s.cnt .specNegAdjCnt)) (ofInt (coveredAdj s)),
       .density (ofInt (s.cnt .specPosAdjCnt + s.cnt .specNegAdjCnt)) (ofInt (s.cnt .wordCnt)),
       .proportion (ofInt (s.cnt .posAdjCnt + s.cnt .negAdjCnt + s.cnt .evaluativeAdjCnt))
         (ofInt (coveredAdj s)),
       .density (ofInt (s.cnt .posAdjCnt + s.cnt .negAdjCnt + s.cnt .evaluativeAdjCnt))
         (ofInt (s.cnt .wordCnt)),
       .proportion (ofInt (s.cnt .epiPosAdjCnt + s.cnt .epiNegAdjCnt)) (ofInt (coveredAdj s)),
       .density (ofInt (s.cnt .epiPosAdjCnt + s.cnt .epiNegAdjCnt)) (ofInt (s.cnt .wordCnt)),
       .proportion (ofInt (s.cnt .strictAdjCnt)) (ofInt (coveredAdj s)),
       .density (ofInt (s.cnt .strictAdjCnt)) (ofInt (s.cnt .wordCnt)),
       .proportion (ofInt (s.cnt .broadAdjCnt)) (ofInt (coveredAdj s)),
       .density (ofInt (s.cnt .broadAdjCnt)) (ofInt (s.cnt .wordCnt)),
       .proportion (ofInt (s.cnt .subjectiveAdjCnt)) (ofInt (coveredAdj s)),
       .density (ofInt (s.cnt .subjectiveAdjCnt)) (ofInt (s.cnt .wordCnt)),
       .proportion (ofInt (s.cnt .undefinedAdjCnt)) (ofInt (coveredAdj s)),
       .proportion (ofInt (coveredAdj s - s.cnt .undefinedAdjCnt)) (ofInt (coveredAdj s)),
       .proportion (ofInt (coveredAdj s)) (ofInt (s.cnt .adjCnt)) ]
  ++ [ .proportion (ofInt (s.cnt .concreteWwCnt)) (ofInt (coveredVerbs s)),
       .density (ofInt (s.cnt .concreteWwCnt)) (ofInt (s.cnt .wordCnt)),
       .proportion (ofInt (s.cnt .abstractWwCnt)) (ofInt (coveredVerbs s)),
       .density (ofInt (s.cnt .abstractWwCnt)) (ofInt (s.cnt .wordCnt)),
       .proportion (ofInt (s.cnt .undefinedWwCnt)) (ofInt (coveredVerbs s)),
       .proportion (ofInt (coveredVerbs s)) (ofInt (s.cnt .verbCnt)),
       .density (ofInt (s.cnt .generalVerbCnt)) (ofInt (s.cnt .wordCnt)),
       .proportion (ofInt (s.cnt .generalVerbCnt)) (ofInt (coveredVerbs s)),
       .density (ofInt (s.cnt .generalVerbSepCnt)) (ofInt (s.cnt .wordCnt)),
       .proportion (ofInt (s.cnt .generalVerbSepCnt)) (ofInt (coveredVerbs s)),
       .density (ofInt (s.cnt .generalVerbRelCnt)) (ofInt (s.cnt .wordCnt)),
       .proportion (ofInt (s.cnt .generalVerbRelCnt)) (ofInt (coveredVerbs s)),
       .density (ofInt (s.cnt .generalVerbActCnt)) (ofInt (s.cnt .wordCnt)),
       .proportion (ofInt (s.cnt .generalVerbActCnt)) (ofInt (coveredVerbs s)),
       .density (ofInt (s.cnt .generalVerbKnowCnt)) (ofInt (s.cnt .wordCnt)),
       .proportion (ofInt (s.cnt .generalVerbKnowCnt)) (ofInt (coveredVerbs s)),
       .density (ofInt (s.cnt .generalVerbDiscCnt)) (ofInt (s.cnt .wordCnt)),
       .proportion (ofInt (s.cnt .generalVerbDiscCnt)) (ofInt (coveredVerbs s)),
       .density (ofInt (s.cnt .generalVerbDeveCnt)) (ofInt (s.cnt .wordCnt)),
       .proportion (ofInt (s.cnt .generalVerbDeveCnt)) (ofInt (coveredVerbs s)) ]
  ++ [ .proportion (ofInt (totalCnt s)) (ofInt (totalCovered s)),
       .density (ofInt (totalCnt s)) (ofInt (s.cnt .wordCnt)) ]
  ++ [ .density (ofInt (s.cnt .generalAdverbCnt)) (ofInt (s.cnt .wordCnt)),
       .proportion (ofInt (s.cnt .generalAdverbCnt)) (ofInt (coveredAdverbs s)),
       .density (ofInt (s.cnt .specificAdverbCnt)) (ofInt (s.cnt .wordCnt)),
       .proportion (ofInt (s.cnt .specificAdverbCnt)) (ofInt (coveredAdverbs s)),
       .proportion (ofInt (coveredAdverbs s)) (ofInt (s.cnt .bwCnt)) ]

/-- The function `structStats::persoonlijkheidHeader` (lines 2753-2757): the strings written to
the stream, in order. -/
def persoonlijkheidHeader : List String :=
  ["Pers_ref_d,Pers_vnw1_d,Pers_vnw2_d,Pers_vnw3_d,Pers_vnw_d,",
   "Pers_namen_p, Pers_namen_p2, Pers_namen_d, Plaatsnamen_d,",
   "Org_namen_d, Prod_namen_d, Event_namen_d,"]

/-- The function `structStats::persoonlijkheidToCSV` (lines 2759-2778): the fields written to the
stream, each followed by a comma, in order. -/
def persoonlijkheidToCSV (s : structStats) : List Cell :=
  [ .density (ofInt (s.cnt .persRefCnt)) (ofInt (s.cnt .wordCnt)),
    .density (ofInt (s.cnt .pron1Cnt)) (ofInt (s.cnt .wordCnt)),
    .density (ofInt (s.cnt .pron2Cnt)) (ofInt (s.cnt .wordCnt)),
    .density (ofInt (s.cnt .pron3Cnt)) (ofInt (s.cnt .wordCnt)),
    .density (ofInt (s.cnt .pron1Cnt + s.cnt .pron2Cnt + s.cnt .pron3Cnt))
      (ofInt (s.cnt .wordCnt)) ]
  ++ [ .proportion (ofInt (mapAt s.ners .PER_B)) (ofInt (s.cnt .nerCnt)),
       .proportion (ofInt (mapAt s.ners .PER_B)) (ofInt (s.cnt .nounCnt + s.cnt .nameCnt)),
       .density (ofInt (mapAt s.ners .PER_B)) (ofInt (s.cnt .wordCnt)) ]
  ++ [ .density (ofInt (mapAt s.ners .LOC_B)) (ofInt (s.cnt .wordCnt)) ]
  ++ [ .density (ofInt (mapAt s.ners .ORG_B)) (ofInt (s.cnt .wordCnt)) ]
  ++ [ .density (ofInt (mapAt s.ners .PRO_B)) (ofInt (s.cnt .wordCnt)) ]
  ++ [ .density (ofInt (mapAt s.ners .EVE_B)) (ofInt (s.cnt .wordCnt)) ]

/-- The function `structStats::verbHeader` (lines 2780-2794): the strings written to
the stream, in order. -/
def verbHeader : List String :=
  ["Actieww_p,Actieww_d,Toestww_p,Toestww_d,", "Procesww_p,Procesww_d,Undefined_ATP_ww_p,",
   "Ww_tt_p,Ww_tt_dz,Ww_mod_d_,Ww_mod_dz,",
   "Huww_tijd_d,Huww_tijd_dz,Koppelww_d,Koppelww_dz,", "Infin_bv_d,Infin_bv_dz,",
   "Infin_nw_d,Infin_nw_dz,", "Infin_vrij_d,Infin_vrij_dz,", "Vd_bv_d,Vd_bv_dz,",
   "Vd_nw_d,Vd_nw_dz,", "Vd_vrij_d,Vd_vrij_dz,", "Ovd_bv_d,Ovd_bv_dz,",
   "Ovd_nw_d,Ovd_nw_dz,", "Ovd_vrij_d,Ovd_vrij_dz,"]

/-- The function `structStats::verbToCSV` (lines 2796-2834): the fields written to the
stream, each followed by a comma, in order. -/
def verbToCSV (s : structStats) : List Cell :=
  [ .proportion (ofInt (s.cnt .actionCnt)) (ofInt (s.cnt .verbCnt)),
    .density (ofInt (s.cnt .actionCnt)) (ofInt (s.cnt .wordCnt)),
    .proportion (ofInt (s.cnt .stateCnt)) (ofInt (s.cnt .verbCnt)),
    .density (ofInt (s.cnt .stateCnt)) (ofInt (s.cnt .wordCnt)),
    .proportion (ofInt (s.cnt .processCnt)) (ofInt (s.cnt .verbCnt)),
    .density (ofInt (s.cnt .processCnt)) (ofInt (s.cnt .wordCnt)),
    .proportion (ofInt (s.cnt .undefinedATPCnt)) (ofInt (s.cnt .verbCnt - s.cnt .uncoveredVerbCnt)),
    .density (ofInt (s.cnt .presentCnt)) (ofInt (s.cnt .wordCnt)),
    .proportion (ofInt (s.cnt .presentCnt)) (ofInt (s.cnt .correctedClauseCnt)),
    .density (ofInt (s.cnt .modalCnt)) (ofInt (s.cnt .wordCnt)),
    .proportion (ofInt (s.cnt .modalCnt)) (ofInt (s.cnt .correctedClauseCnt)),
    .density (ofInt (s.cnt .timeVCnt)) (ofInt (s.cnt .wordCnt)),
    .proportion (ofInt (s.cnt .timeVCnt)) (ofInt (s.cnt .correctedClauseCnt)),
    .density (ofInt (s.cnt .koppelCnt)) (ofInt (s.cnt .wordCnt)),
    .proportion (ofInt (s.cnt .koppelCnt)) (ofInt (s.cnt .correctedClauseCnt)),
    .density (ofInt (s.cnt .infBvCnt)) (ofInt (s.cnt .wordCnt)),
    .proportion (ofInt (s.cnt .infBvCnt)) (ofInt (s.cnt .correctedClauseCnt)),
    .density (ofInt (s.cnt .infNwCnt)) (ofInt (s.cnt .wordCnt)),
    .proportion (ofInt (s.cnt .infNwCnt)) (ofInt (s.cnt .correctedClauseCnt)),
    .density (ofInt (s.cnt .infVrijCnt)) (ofInt (s.cnt .wordCnt)),
    .proportion (ofInt (s.cnt .infVrijCnt)) (ofInt (s.cnt .correctedClauseCnt)),
    .density (ofInt (s.cnt .vdBvCnt)) (ofInt (s.cnt .wordCnt)),
    .proportion (ofInt (s.cnt .vdBvCnt)) (ofInt (s.cnt .correctedClauseCnt)),
    .density (ofInt (s.cnt .vdNwCnt)) (ofInt (s.cnt .wordCnt)),
    .proportion (ofInt (s.cnt .vdNwCnt)) (ofInt (s.cnt .correctedClauseCnt)),
    .density (ofInt (s.cnt .vdVrijCnt)) (ofInt (s.cnt .wordCnt)),
    .proportion (ofInt (s.cnt .vdVrijCnt)) (ofInt (s.cnt .correctedClauseCnt)),
    .density (ofInt (s.cnt .odBvCnt)) (ofInt (s.cnt .wordCnt)),
    .proportion (ofInt (s.cnt .odBvCnt)) (ofInt (s.cnt .correctedClauseCnt)),
    .density (ofInt (s.cnt .odNwCnt)) (ofInt (s.cnt .wordCnt)),
    .proportion (ofInt (s.cnt .odNwCnt)) (ofInt (s.cnt .correctedClauseCnt)),
    .density (ofInt (s.cnt .odVrijCnt)) (ofInt (s.cnt .wordCnt)),
    .proportion (ofInt (s.cnt .odVrijCnt)) (ofInt (s.cnt .correctedClauseCnt)) ]

/-- The function `structStats::imperativeHeader` (lines 2836-2839): the strings written to
the stream, in order. -/
def imperativeHeader : List String :=
  ["Imp_ellips_p,Imp_ellips_d,", "Vragen_p,Vragen_d,"]

/-- The function `structStats::imperativeToCSV` (lines 2841-2846): the fields written to the
stream, each followed by a comma, in order. -/
def imperativeToCSV (s : structStats) : List Cell :=
  [ .proportion (ofInt (s.cnt .impCnt)) (ofInt (s.sentCnt)),
    .density (ofInt (s.cnt .impCnt)) (ofInt (s.cnt .wordCnt)),
    .proportion (ofInt (s.cnt .questCnt)) (ofInt (s.sentCnt)),
    .density (ofInt (s.cnt .questCnt)) (ofInt (s.cnt .wordCnt)) ]

/-- The function `structStats::wordSortHeader` (lines 2848-2853): the strings written to
the stream, in order. -/
def wordSortHeader : List String :=
  ["Bvnw_d,Vg_d,Vnw_d,Lidw_d,Vz_d,Bijw_d,Tw_d,Nw_d,Ww_d,Tuss_d,Spec_d,", "Interp_d,",
   "Afk_d,Afk_gen_d,Afk_int_d,Afk_jur_d,Afk_med_d,",
   "Afk_ond_d,Afk_pol_d,Afk_ov_d,Afk_zorg_d,"]

/-- The function `structStats::wordSortToCSV` (lines 2855-2885): the fields written to the
stream, each followed by a comma, in order. -/
def wordSortToCSV (s : structStats) : List Cell :=
  [ .density (ofInt (s.cnt .adjCnt)) (ofInt (s.cnt .wordCnt)),
    .density (ofInt (s.cnt .vgCnt)) (ofInt (s.cnt .wordCnt)),
    .density (ofInt (s.cnt .vnwCnt)) (ofInt (s.cnt .wordCnt)),
    .density (ofInt (s.cnt .lidCnt)) (ofInt (s.cnt .wordCnt)),
    .density (ofInt (s.cnt .vzCnt)) (ofInt (s.cnt .wordCnt)),
    .density (ofInt (s.cnt .bwCnt)) (ofInt (s.cnt .wordCnt)),
    .density (ofInt (s.cnt .twCnt)) (ofInt (s.cnt .wordCnt)),
    .density (ofInt (s.cnt .nounCnt)) (ofInt (s.cnt .wordCnt)),
    .density (ofInt (s.cnt .verbCnt)) (ofInt (s.cnt .wordCnt)),
    .density (ofInt (s.cnt .tswCnt)) (ofInt (s.cnt .wordCnt)),
    .density (ofInt (s.cnt .specCnt)) (ofInt (s.cnt .wordCnt)),
    .density (ofInt (s.cnt .letCnt)) (ofInt (s.cnt .wordCnt)) ]
  ++ [ .density (ofInt (mapAt s.afks .GENERIEK_A + mapAt s.afks .INTERNATIONAAL_A +
                        mapAt s.afks .JURIDISCH_A + mapAt s.afks .MEDIA_A +
                        mapAt s.afks .ONDERWIJS_A + mapAt s.afks .OVERHEID_A +
                        mapAt s.afks .OVERIGE_A + mapAt s.afks .ZORG_A))
        (ofInt (s.cnt .wordCnt)),
       .density (ofInt (mapAt s.afks .GENERIEK_A)) (ofInt (s.cnt .wordCnt)),
       .density (ofInt (mapAt s.afks .INTERNATIONAAL_A)) (ofInt (s.cnt .wordCnt)),
       .density (ofInt (mapAt s.afks .JURIDISCH_A)) (ofInt (s.cnt .wordCnt)),
       .density (ofInt (mapAt s.afks .MEDIA_A)) (ofInt (s.cnt .wordCnt)),
       .density (ofInt (mapAt s.afks .ONDERWIJS_A)) (ofInt (s.cnt .wordCnt)),
       .density (ofInt (mapAt s.afks .OVERHEID_A)) (ofInt (s.cnt .wordCnt)),
       .density (ofInt (mapAt s.afks .OVERIGE_A)) (ofInt (s.cnt .wordCnt)),
       .density (ofInt (mapAt s.afks .ZORG_A)) (ofInt (s.cnt .wordCnt)) ]

/-- The function `structStats::prepPhraseHeader` (lines 2887-2889): the strings written to
the stream, in order. -/
def prepPhraseHeader : List String :=
  ["Vzu_d,Vzu_dz,Arch_d,"]

/-- The function `structStats::prepPhraseToCSV` (lines 2891-2895): the fields written to the
stream, each followed by a comma, in order. -/
def prepPhraseToCSV (s : structStats) : List Cell :=
  [ .density (ofInt (s.cnt .prepExprCnt)) (ofInt (s.cnt .wordCnt)),
    .proportion (ofInt (s.cnt .prepExprCnt)) (ofInt (s.cnt .correctedClauseCnt)),
    .density (ofInt (s.cnt .archaicsCnt)) (ofInt (s.cnt .wordCnt)) ]

/-- The function `structStats::intensHeader` (lines 2897-2901): the strings written to
the stream, in order. -/
def intensHeader : List String :=
  ["Int_d,Int_bvnw_d,Int_bvbw_d,", "Int_bw_d,Int_combi_d,Int_nw_d,", "Int_tuss_d,Int_ww_d,"]

/-- The function `structStats::intensToCSV` (lines 2903-2912): the fields written to the
stream, each followed by a comma, in order. -/
def intensToCSV (s : structStats) : List Cell :=
  [ .density (ofInt (s.cnt .intensCnt)) (ofInt (s.cnt .wordCnt)),
    .density (ofInt (s.cnt .intensBvnwCnt)) (ofInt (s.cnt .wordCnt)),
    .density (ofInt (s.cnt .intensBvbwCnt)) (ofInt (s.cnt .wordCnt)),
    .density (ofInt (s.cnt .intensBwCnt)) (ofInt (s.cnt .wordCnt)),
    .density (ofInt (s.cnt .intensCombiCnt)) (ofInt (s.cnt .wordCnt)),
    .density (ofInt (s.cnt .intensNwCnt)) (ofInt (s.cnt .wordCnt)),
    .density (ofInt (s.cnt .intensTussCnt)) (ofInt (s.cnt .wordCnt)),
    .density (ofInt (s.cnt .intensWwCnt)) (ofInt (s.cnt .wordCnt)) ]

/-- The function `structStats::miscHeader` (lines 2914-2916): the strings written to
the stream, in order. -/
def miscHeader : List String :=
  ["Log_prob,Entropie,Perplexiteit,"]

/-- The function `structStats::miscToCSV` (lines 2918-2922): the fields written to the
stream, each followed by a comma, in order. -/
def miscToCSV (s : structStats) : List Cell :=
  [ .proportion (s.avg_prob10) (ofInt (s.sentCnt)),
    .proportion (s.entropy) (ofInt (s.sentCnt)),
    .proportion (s.perplexity) (ofInt (s.sentCnt)) ]

/-- The function `structStats::CSVheader` (lines 2132-2148). -/
def CSVheader (env : csvEnv) (intro : String) : List String :=
  [intro, ",Alpino_status,"] ++ wordDifficultiesHeader ++ compoundHeader
    ++ sentDifficultiesHeader env ++ infoHeader ++ coherenceHeader ++ concreetHeader
    ++ persoonlijkheidHeader ++ verbHeader ++ imperativeHeader ++ wordSortHeader
    ++ prepPhraseHeader ++ intensHeader ++ miscHeader

/-- The fields that `structStats::toCSV` writes before the blocks (lines 2168-2179): the
counts of sentences and words of a paragraph or document, or the quoted text of a
sentence, and `parseFailCnt`. -/
def toCSVPrefix (env : csvEnv) (s : structStats) : List Cell :=
  let os : List Cell :=
    if !env.isSentence then [ .int s.sentCnt, .int (s.cnt .wordCnt) ]
    else
      [ .str (String.singleton (Char.ofNat 34) ++ escape_quotes env.text
          ++ String.singleton (Char.ofNat 34)) ]
  os ++ [ .int s.parseFailCnt ]

/-- The function `structStats::toCSV` (lines 2167-2194). -/
def toCSV (settings : settingData) (env : csvEnv) (s : structStats) : List Cell :=
  toCSVPrefix env s ++ wordDifficultiesToCSV s ++ compoundToCSV s
    ++ sentDifficultiesToCSV env s ++ informationDensityToCSV settings env s
    ++ coherenceToCSV s ++ concreetToCSV s ++ persoonlijkheidToCSV s ++ verbToCSV s
    ++ imperativeToCSV s ++ wordSortToCSV s ++ prepPhraseToCSV s ++ intensToCSV s
    ++ miscToCSV s

/-- The kinds of CSV file that `docStats::toCSV` writes with the functions of
`structStats` (the file of the words is written by functions of `wordStats`). -/
inductive csvKind
  | DOC_CSV | PAR_CSV | SENT_CSV
  deriving DecidableEq, Repr

/-- The argument `intro` of the call of `CSVheader` in `docStats::toCSV`
(lines 5202, 5218, 5235). -/
def csvIntro : csvKind → String
  | .DOC_CSV => "Inputfile,Par_per_doc,Zin_per_doc,Word_per_doc"
  | .PAR_CSV => "Inputfile,Segment,Zin_per_par,Wrd_per_par"
  | .SENT_CSV => "Inputfile,Segment,Getokeniseerde_zin"

/-- The header line of a CSV file of `docStats::toCSV`. -/
def csvHeaderLine (what : csvKind) (env : csvEnv) : List String :=
  CSVheader env (csvIntro what)

/-- A row of a CSV file of `docStats::toCSV` (lines 5203-5204, 5219-5220, 5236-5237): the
name of the input, then the number of paragraphs (for the document) or the id of the node,
then the fields of `structStats::toCSV`. -/
def csvRowLine (what : csvKind) (name id : String) (paragraphs : Nat)
    (settings : settingData) (env : csvEnv) (s : structStats) : List Cell :=
  let os : List Cell :=
    match what with
    | .DOC_CSV => [ .str name, .int paragraphs ]
    | .PAR_CSV => [ .str name, .str id ]
    | .SENT_CSV => [ .str name, .str id ]
  os ++ toCSV settings env s

/-- An environment of a sentence node, with the dependency kinds numbered in the order of
the row function. -/
def sentenceEnv : csvEnv :=
  { isSentence := true, isDocument := false, text := "de kat", rarity := "0",
    word_overlapCnt := 0, lemma_overlapCnt := 0,
    dd := fun n => match n with
      | .SUB_VERB => 0 | .OBJ1_VERB => 1 | .OBJ2_VERB => 2 | .VERB_PP => 3 | .NOUN_DET => 4
      | .PREP_OBJ1 => 5 | .VERB_VC => 6 | .COMP_BODY => 7 | .CRD_CNJ => 8 | .VERB_COMP => 9
      | .NOUN_VC => 10 | .VERB_SVP => 11 | .VERB_PREDC_N => 12 | .VERB_PREDC_A => 13
      | .VERB_MOD_A => 14 | .VERB_MOD_BW => 15 | .VERB_NOUN => 16 }

/-- The fields of a text in which every field is followed by a comma. -/
def fieldsOf : List Char → List Char → List String
  | [], _ => []
  | c :: rest, cur =>
      if c = Char.ofNat 44 then String.mk cur :: fieldsOf rest []
      else fieldsOf rest (cur ++ [c])

/-- The names of the columns of a header: the fields of the text written to the stream. -/
def columnNames (os : List String) : List String :=
  fieldsOf (os.flatMap String.data) []

/-- A node whose MTLD over the enumerative connectives of word groups is 1 and whose MTLD
over the enumerative connectives of sentences is 2. -/
def nodeMtld : structStats :=
  { zeroNode with
    dval := fun d =>
      match d with
      | .reeks_wg_conn_mtld => some 1
      | .reeks_zin_conn_mtld => some 2
      | _ => none }

/-- A sentence whose parse failed, as the constructor leaves it: `parseFailCnt = 1`,
`sentCnt = 1`, the words pushed without being counted, no dependency distance, and
`al_gem`, `al_max` computed from the distances (lines 4657-4658). -/
def failedSentence : structStats :=
  let s := sentWordLoop { zeroNode with parseFailCnt := 1, sentCnt := 1, dLevel := -1 }
    [wordTop1000, wordPunct]
  { s with al_gem := getMeanAL s.distances, al_max := getHighestAL s.distances }

/-! ## The counters of the compounds and the corrected counters -/

/-- The statement `x += v` on an integer counter. -/
def addCnt (c : Counter) (v : Int) (s : structStats) : structStats :=
  setCnt c (s.cnt c + v) s

/-- The switch on a tier written in the noun branch of the word loop (for instance lines
4541-4552): the cases `top1000`; `top2000`, `top3000`, `top5000`; `top10000`, `top20000`,
without `break` between them.  The arguments are the statements of the three groups. -/
def tierSwitch (t : top_val) (at1000 at5000 at20000 : structStats → structStats)
    (s : structStats) : structStats :=
  match t with
  | .top1000 => at20000 (at5000 (at1000 s))
  | .top2000 => at20000 (at5000 s)
  | .top3000 => at20000 (at5000 s)
  | .top5000 => at20000 (at5000 s)
  | .top10000 => at20000 s
  | .top20000 => at20000 s
  | .notFound => s

/-- The switch on the tier of a word that is not a noun (lines 4643-4648): the cases
`top1000`, `top5000` and `top20000` only, without `break` between them. -/
def tierSwitchCorr (t : top_val) (s : structStats) : structStats :=
  match t with
  | .top1000 => bump .top20000CntCorr (bump .top5000CntCorr (bump .top1000CntCorr s))
  | .top5000 => bump .top20000CntCorr (bump .top5000CntCorr s)
  | .top20000 => bump .top20000CntCorr s
  | _ => s

/-- The block "Counts for compounds" of the word loop of `sentStats::sentStats`
(lines 4535-4649), run for every counted word, restricted to the statements that write an
integer counter; the sums of frequency logarithms (`double`) are left out. -/
def countCompounds (ws : wordStats) (s : structStats) : structStats :=
  if ws.tag = .N then
    let s := addCnt .charCntNoun ws.charCnt s
    let s := tierSwitch ws.top_freq (bump .top1000CntNoun) (bump .top5000CntNoun)
      (bump .top20000CntNoun) s
    if ws.is_compound then
      let s := bump .compoundCnt s
      let s := if ws.compound_parts = 3 then bump .compound3Cnt s else s
      let s := addCnt .charCntComp ws.charCnt s
      let s := addCnt .charCntHead ws.charCntHead s
      let s := addCnt .charCntSat ws.charCntSat s
      let s := addCnt .charCntNounCorr ws.charCntHead s
      let s := addCnt .charCntCorr ws.charCntHead s
      let s := tierSwitch ws.top_freq (bump .top1000CntComp) (bump .top5000CntComp)
        (bump .top20000CntComp) s
      let s := tierSwitch ws.top_freq_head
        (fun s => bump .top1000CntCorr (bump .top1000CntNounCorr (bump .top1000CntHead s)))
        (fun s => bump .top5000CntCorr (bump .top5000CntNounCorr (bump .top5000CntHead s)))
        (fun s => bump .top20000CntCorr (bump .top20000CntNounCorr (bump .top20000CntHead s)))
        s
      tierSwitch ws.top_freq_sat (bump .top1000CntSat) (bump .top5000CntSat)
        (bump .top20000CntSat) s
    else
      let s := addCnt .charCntNonComp ws.charCnt s
      let s := addCnt .charCntNounCorr ws.charCnt s
      let s := addCnt .charCntCorr ws.charCnt s
      tierSwitch ws.top_freq
        (fun s => bump .top1000CntCorr (bump .top1000CntNounCorr (bump .top1000CntNonComp s)))
        (fun s => bump .top5000CntCorr (bump .top5000CntNounCorr (bump .top5000CntNonComp s)))
        (fun s =>
          bump .top20000CntCorr (bump .top20000CntNounCorr (bump .top20000CntNonComp s)))
        s
  else
    let s := addCnt .charCntCorr ws.charCnt s
    tierSwitchCorr ws.top_freq s

/-- One round of the word loop of `sentStats::sentStats` as in `sentWordStep`, with the
block of the compounds and the corrected counters. -/
def sentWordStepCorr (s : structStats) (ws : wordStats) : structStats :=
  if s.parseFailCnt ≠ 0 then pushWord ws s
  else if ws.prop = .ISLET then pushWord ws (bump .letCnt s)
  else pushWord ws (countCompounds ws (countTopFreq ws (bump .wordCnt s)))

/-- A word with the given tag and tier. -/
def tierWord (tag : CGNType) (t : top_val) : wordStats :=
  { index := 0, prop := .JUSTAWORD, isContent := true, top_freq := t, tag := tag,
    charCnt := 5 }

/-! ## The bounds and the divisions of MTLD -/

/-- The state of the loop of `calculate_mtld` before the round at index `i`: the count of
tokens of the open segment is not negative and bounds the number of distinct tokens, the
factor is not negative, and the factor and the open count together are at most the number
`i` of tokens read. -/
def mtldInv (st : MtldState) (i : Nat) : Prop :=
  0 ≤ st.token_count ∧ (st.unique_tokens.length : Int) ≤ st.token_count
    ∧ 0 ≤ st.token_factor ∧ st.token_factor + (st.token_count : ℚ) ≤ (i : ℚ)

/-- The factor by which `calculate_mtld` divides (lines 3106-3111): the factor left by the
loop, or 1 when that is 0. -/
def mtldFactor (mtld_threshold : ℚ) (v : List String) : ℚ :=
  if (mtldLoop mtld_threshold v.length 0 v mtldInit).token_factor = 0 then 1
  else (mtldLoop mtld_threshold v.length 0 v mtldInit).token_factor

/-- A division `a / b` of two doubles with its divisor tested: `none` when `b` is zero. -/
def divChecked (a b : ℚ) : Option ℚ :=
  if b = 0 then none else some (a / b)

/-- The body of the loop of `calculate_mtld` (lines 3070-3105) with every division
tested: the division that gives `token_ttr` (line 3073) and the division of the partial
result by `1 - settings.mtld_threshold` (line 3098). -/
def mtldStepDiv (mtld_threshold : ℚ) (n : Nat) (st : MtldState) (i : Nat) (tok : String) :
    Option MtldState :=
  (divChecked (((st.unique_tokens.insert tok).length : ℚ)) ((st.token_count + 1 : Int) : ℚ)).bind
    (fun token_ttr =>
      if token_ttr ≤ mtld_threshold then
        some { token_count := 0
               unique_tokens := []
               token_factor := st.token_factor + 1
               token_ttr := 1 }
      else if i = n - 1 then
        (divChecked (1 - token_ttr) (1 - mtld_threshold)).map
          (fun threshold =>
            { token_count := st.token_count + 1
              unique_tokens := st.unique_tokens.insert tok
              token_factor := st.token_factor + threshold
              token_ttr := token_ttr })
      else
        some { token_count := st.token_count + 1
               unique_tokens := st.unique_tokens.insert tok
               token_factor := st.token_factor
               token_ttr := token_ttr })

/-- The loop of `calculate_mtld` with every division tested. -/
def mtldLoopDiv (mtld_threshold : ℚ) (n : Nat) :
    Nat → List String → MtldState → Option MtldState
  | _, [], st => some st
  | i, tok :: rest, st =>
      (mtldStepDiv mtld_threshold n st i tok).bind
        (fun st1 => mtldLoopDiv mtld_threshold n (i + 1) rest st1)

/-- The function `calculate_mtld` (lines 3062-3112) with every division tested, the final
division `v.size() / token_factor` (line 3111) included: `none` when a divisor is zero. -/
def calculate_mtld_div (mtld_threshold : ℚ) (v : List String) : Option ℚ :=
  if v.length = 0 then some 0
  else
    (mtldLoopDiv mtld_threshold v.length 0 v mtldInit).bind
      (fun st =>
        divChecked (v.length : ℚ) (if st.token_factor = 0 then 1 else st.token_factor))

/-- The setting of `mtld_threshold` in `settingData::init` (lines 707-715) from the value
`val` of the key `mtldThreshold`: the default when the key has no value, `none` when the
program exits (the value does not parse, or lies outside [0, 1]).  The function
`TiCC::stringTo`, declared outside the source file, is a parameter. -/
def initMtldThreshold (stringTo : String → Option ℚ) (val : String) : Option ℚ :=
  if val.isEmpty then some default_mtld_threshold
  else
    match stringTo val with
    | none => none
    | some mtld_threshold =>
        if mtld_threshold < 0 ∨ mtld_threshold > 1 then none else some mtld_threshold

/-! ## The counters of the intensifiers -/

/-- The switch on `ws->intensify_type` of the word loop of `sentStats::sentStats`
(lines 4481-4512). -/
def intensSwitch (ws : wordStats) (s : structStats) : structStats :=
  match ws.intensify_type with
  | .BVNW => bump .intensCnt (bump .intensBvnwCnt s)
  | .BVBW => bump .intensCnt (bump .intensBvbwCnt s)
  | .BW => bump .intensCnt (bump .intensBwCnt s)
  | .COMBI => bump .intensCnt (bump .intensCombiCnt s)
  | .NW => bump .intensCnt (bump .intensNwCnt s)
  | .TUSS => bump .intensCnt (bump .intensTussCnt s)
  | .WW => bump .intensCnt (bump .intensWwCnt s)
  | .NO_INTENSIFY => s

/-- One round of the word loop of `sentStats::sentStats` (lines 4043-4653), restricted to
its guards, to the pushes onto `sv`, to `letCnt++` and `wordCnt++` and to the switch that
writes the eight counters of the intensifiers; the other statements of the body write
other members. -/
def sentWordStepIntens (s : structStats) (ws : wordStats) : structStats :=
  if s.parseFailCnt ≠ 0 then pushWord ws s
  else if ws.prop = .ISLET then pushWord ws (bump .letCnt s)
  else pushWord ws (intensSwitch ws (bump .wordCnt s))

/-- The constructor `sentStats::sentStats` restricted to the statements that write the
eight counters of the intensifiers: the word loop from the state `s` reached after the
parse section, and the call of `resolveMultiWordIntensify` (line 4665). -/
def sentStatsIntens (settings : settingData) (s : structStats) (words : List wordStats) :
    Option sentStats :=
  resolveMultiWordIntensify settings
    { stats := words.foldl sentWordStepIntens s, sv := words }

/-- The equation between the total of the intensifiers and the seven counters by kind. -/
def intensBalanced (s : structStats) : Prop :=
  s.cnt .intensCnt
    = s.cnt .intensBvnwCnt + s.cnt .intensBvbwCnt + s.cnt .intensBwCnt
      + s.cnt .intensCombiCnt + s.cnt .intensNwCnt + s.cnt .intensTussCnt
      + s.cnt .intensWwCnt

instance intensBalancedDecidable (s : structStats) : Decidable (intensBalanced s) := by
  unfold intensBalanced
  infer_instance

/-- A word of the given kind of intensifier. -/
def intensWord (index : Nat) (text : String) (t : IntensifyType) : wordStats :=
  { index := index, prop := .JUSTAWORD, isContent := true, top_freq := .notFound,
    word := text, l_word := text, lemma_ := text, l_lemma := text, intensify_type := t }

/-! ## The bound of the overlap at document level -/

/-- The state of `calculate_doc_overlap` before its loop, with both counters of the
document at 0 as the constructor leaves them. -/
def docOverlapInit : DocOverlap :=
  { wordbuffer := [], lemmabuffer := [], doc_word_overlapCnt := 0, doc_lemma_overlapCnt := 0 }

/-- A document of three words with a punctuation word: "hij", ".", "hij". -/
def docHijHij : List wordStats :=
  [exampleWord 0 "hij" .VNW, { exampleWord 1 "." .LET with prop := .ISLET },
   exampleWord 2 "hij" .VNW]

/-! ## The match of a word with a buffer element -/

/-- The disjunction of the eight tests that the body of the loop of `argument_overlap`
(lines 1199-1241) makes between the word `w_or_l` and the buffer element `b`: the
element counts as an overlap when one of them holds. -/
def overlapTest (w_or_l b : String) : Bool :=
  decide (w_or_l = b)
    || (decide (w_or_l ∈ vnw_1s) && decide (b ∈ vnw_1s))
    || (decide (w_or_l ∈ vnw_2s) && decide (b ∈ vnw_2s))
    || (decide (w_or_l ∈ vnw_3sm) && decide (b ∈ vnw_3sm))
    || (decide (w_or_l ∈ vnw_3sf) && decide (b ∈ vnw_3sf))
    || (decide (w_or_l ∈ vnw_1p) && decide (b ∈ vnw_1p))
    || (decide (w_or_l ∈ vnw_2p) && decide (b ∈ vnw_2p))
    || (decide (w_or_l ∈ vnw_3p) && decide (b ∈ vnw_3p))

/-! ## The doubling of the quotes -/

/-- The text that the claim describes: every double quote replaced by two double quotes,
every other character kept in its place. -/
def doubleQuotes : List Char → List Char
  | [] => []
  | c :: rest =>
      if c = Char.ofNat 34 then Char.ofNat 34 :: Char.ofNat 34 :: doubleQuotes rest
      else c :: doubleQuotes rest

/-- The collapse of the doubled quotes of a text, read from the left: two double quotes in
a row become one. -/
def collapseQuotes : List Char → List Char
  | [] => []
  | [c] => [c]
  | c :: d :: rest =>
      if c = Char.ofNat 34 ∧ d = Char.ofNat 34 then c :: collapseQuotes rest
      else c :: collapseQuotes (d :: rest)
termination_by l => l.length

/-! ## The loader of the preposition expressions -/

/-- A line of the file of the preposition expressions after `TiCC::trim`, with the parts
that `TiCC::split_at_first_of( line, vec, " \t" )` finds in it (the function is not in
the source file; its result `n` is the number of parts). -/
structure vzLine where
  line : String
  vec : List String

/-- The three sets `vz2`, `vz3`, `vz4` that `fill_vzexpr` fills. -/
structure vzSets where
  vz2 : List String
  vz3 : List String
  vz4 : List String
  deriving DecidableEq, Repr

/-- The body of the loop of `fill_vzexpr` (lines 518-551) on one line: the sets after the
line, or the message of the `logic_error` that the `default` of the switch throws. -/
def fill_vzexprLine (S : vzSets) (l : vzLine) : Except String vzSets :=
  if l.line.isEmpty ∨ l.line.front = Char.ofNat 35 then .ok S
  else if l.vec.length = 0 ∨ l.vec.length > 4 then .ok S
  else
    match l.vec with
    | [v0, v1] => .ok { S with vz2 := setInsert S.vz2 (v0 ++ " " ++ v1) }
    | [v0, v1, v2] => .ok { S with vz3 := setInsert S.vz3 (v0 ++ " " ++ v1 ++ " " ++ v2) }
    | [v0, v1, v2, v3] =>
        .ok { S with vz4 := setInsert S.vz4 (v0 ++ " " ++ v1 ++ " " ++ v2 ++ " " ++ v3) }
    | _ => .error "switch out of range"

/-- The function `fill_vzexpr` on a stream (lines 515-554) over the lines of the file:
`.ok` with the sets when it returns true, `.error` when it throws. -/
def fill_vzexpr (S : vzSets) : List vzLine → Except String vzSets
  | [] => .ok S
  | l :: rest =>
      match fill_vzexprLine S l with
      | .error e => .error e
      | .ok S1 => fill_vzexpr S1 rest

/-! ## The loader of a frequency lexicon -/

/-- The test `data.freq > settings.freq_clip` on doubles: false on a NaN. -/
def freqAbove (freq : double) (freq_clip : ℚ) : Bool :=
  match freq with
  | some f => decide (f > freq_clip)
  | none => false

/-- The loop of `fill_freqlex` (lines 361-392) on the map `m` and the value of `total`,
over the lines of the file that are not empty after `TiCC::trim`, each by its parts at a
tab; `stol` and `stod` are `TiCC::stringTo<long int>` and `TiCC::stringTo<double>`, which
are not in the source file, `freq_clip` is `settings.freq_clip`.  A line that does not
have 4 parts is skipped; a line with the count 1, or with a frequency above a positive
`freq_clip`, ends the function. -/
def fill_freqlexLoop (stol : String → Int) (stod : String → double) (freq_clip : ℚ) :
    List (String × cf_data) → Int → List (List String) → List (String × cf_data) × Int
  | m, total, [] => (m, total)
  | m, total, parts :: rest =>
      match parts with
      | [p0, p1, _, p3] =>
          if stol p1 = 1 then (m, total)
          else if freq_clip > 0 ∧ freqAbove (stod p3) freq_clip = true then (m, total)
          else
            fill_freqlexLoop stol stod freq_clip
              (mapSet m p0 { count := stol p1, freq := stod p3 }) (total + stol p1) rest
      | _ => fill_freqlexLoop stol stod freq_clip m total rest

/-- The function `fill_freqlex` on a stream (lines 361-392): the map and `total` after
the call; `total` is set to 0 first, the map is used as it is passed. -/
def fill_freqlex (stol : String → Int) (stod : String → double) (freq_clip : ℚ)
    (m : List (String × cf_data)) (lines : List (List String)) :
    List (String × cf_data) × Int :=
  fill_freqlexLoop stol stod freq_clip m 0 lines

/-- The entries that `fill_freqlex` stores, in the order of their lines: the lines of 4
parts before the line that ends the function. -/
def freqlexStored (stol : String → Int) (stod : String → double) (freq_clip : ℚ) :
    List (List String) → List (String × cf_data)
  | [] => []
  | parts :: rest =>
      match parts with
      | [p0, p1, _, p3] =>
          if stol p1 = 1 then []
          else if freq_clip > 0 ∧ freqAbove (stod p3) freq_clip = true then []
          else (p0, { count := stol p1, freq := stod p3 })
                 :: freqlexStored stol stod freq_clip rest
      | _ => freqlexStored stol stod freq_clip rest

/-- The sum of the count fields of the entries of a map. -/
def countSum (m : List (String × cf_data)) : Int :=
  (m.map (fun e => e.2.count)).sum

/-- A reading of the counts of the examples: "5" and "7". -/
def exampleStol (s : String) : Int :=
  if s = "5" then 5 else if s = "7" then 7 else 0

/-- A file of a frequency lexicon in which the word "de" has two lines. -/
def freqLinesTwice : List (List String) :=
  [["de", "5", "50", "10"], ["de", "7", "100", "20"]]

/-- A file of a frequency lexicon with two words. -/
def freqLinesTwo : List (List String) :=
  [["de", "5", "50", "10"], ["kat", "7", "100", "20"]]

/-! ## The additions of doubles, rounded -/

/-- Rounding of a rational to the nearest integer, a tie to the even one. -/
def roundHalfEven (m : ℚ) : Int :=
  if m - (⌊m⌋ : ℚ) < 1 / 2 then ⌊m⌋
  else if m - (⌊m⌋ : ℚ) > 1 / 2 then ⌊m⌋ + 1
  else if ⌊m⌋ % 2 = 0 then ⌊m⌋ else ⌊m⌋ + 1

/-- The exponent of the last of the 53 bits of the binary64 numbers of the size of `q`:
`2 ^ (ulpExp q + 52) <= |q| < 2 ^ (ulpExp q + 53)`. -/
def ulpExp (q : ℚ) : Int := Int.log 2 |q| - 52

/-- The binary64 number nearest to `q`, a tie going to the number whose last bit is 0 (the
rounding of the additions of `double`).  The range of the exponent is not bounded: overflow
and subnormal numbers are outside the model. -/
def round64 (q : ℚ) : ℚ :=
  if q = 0 then 0 else (roundHalfEven (q / (2 : ℚ) ^ ulpExp q) : ℚ) * (2 : ℚ) ^ ulpExp q

/-- The value of a `double`: NaN, or a rational that is a binary64 number. -/
def isDouble : double → Prop
  | none => True
  | some q => round64 q = q

/-- The addition `x + y` of two doubles with its result rounded to binary64: NaN is
absorbing. -/
def daddR : double → double → double
  | some a, some b => some (round64 (a + b))
  | _, _ => none

/-- The NaN-guarded update of lines 1604-1621 with its addition rounded to binary64. -/
def nanGuardedAddR (x ssx : double) : double :=
  if !isnan ssx then
    if isnan x then ssx else daddR x ssx
  else x

/-- The function `structStats::merge` (lines 1519-1789) with the additions `x += ss->x` of
its `double` members (lines 1600-1621) rounded to binary64; the other members are those of
`merge`. -/
def mergeR (p ss : structStats) : structStats :=
  { merge p ss with
    dsum := fun r => daddR (p.dsum r) (ss.dsum r)
    avg_prob10 := nanGuardedAddR p.avg_prob10 ss.avg_prob10
    entropy := nanGuardedAddR p.entropy ss.entropy
    perplexity := nanGuardedAddR p.perplexity ss.perplexity }

/-- A node whose plain sums of doubles and whose sum `avg_prob10` are all `v`. -/
def nodeSum (v : ℚ) : structStats :=
  { zeroNode with dsum := fun _ => some v, avg_prob10 := some v }

end TScan


namespace TScan

/-! ## Lemmas on `merge` and `mergeAll` -/

@[simp] theorem mergeAll_nil (p : structStats) : mergeAll p [] = p := rfl

@[simp] theorem mergeAll_cons (p s : structStats) (cs : List structStats) :
    mergeAll p (s :: cs) = mergeAll (merge p s) cs := rfl

@[simp] theorem merge_cnt (p ss : structStats) (c : Counter) :
    (merge p ss).cnt c = p.cnt c + ss.cnt c := rfl

theorem merge_sentCnt (p ss : structStats) :
    (merge p ss).sentCnt = if ss.cnt .wordCnt ≠ 0 then p.sentCnt + ss.sentCnt else p.sentCnt :=
  rfl

theorem merge_parseFailCnt (p ss : structStats) :
    (merge p ss).parseFailCnt
      = if ss.parseFailCnt = -1 then -1 else p.parseFailCnt + ss.parseFailCnt := rfl

theorem merge_dLevel (p ss : structStats) :
    (merge p ss).dLevel
      = if ss.dLevel ≥ 0 then (if p.dLevel < 0 then ss.dLevel else p.dLevel + ss.dLevel)
        else p.dLevel := rfl

/-- Every unguarded counter after a run of merges: the start value plus the children's sum. -/
theorem mergeAll_cnt (cs : List structStats) (p : structStats) (c : Counter) :
    (mergeAll p cs).cnt c = p.cnt c + (cs.map (fun s => s.cnt c)).sum := by
  induction cs generalizing p with
  | nil => simp
  | cons s cs ih => simp [ih, add_assoc]

/-- The counter `sentCnt` after a run of merges: only children with words are counted. -/
theorem mergeAll_sentCnt (cs : List structStats) (p : structStats) :
    (mergeAll p cs).sentCnt
      = p.sentCnt + ((cs.filter (fun s => s.cnt .wordCnt ≠ 0)).map (fun s => s.sentCnt)).sum := by
  induction cs generalizing p with
  | nil => simp
  | cons s cs ih =>
    by_cases h : s.cnt .wordCnt = 0
    · simp [ih, merge_sentCnt, h]
    · simp [ih, merge_sentCnt, h, add_assoc]

/-- The counter `dLevel` after a run of merges into a parent that is not negative. -/
theorem mergeAll_dLevel (cs : List structStats) (p : structStats) (hp : 0 ≤ p.dLevel) :
    (mergeAll p cs).dLevel
      = p.dLevel + ((cs.filter (fun s => 0 ≤ s.dLevel)).map (fun s => s.dLevel)).sum := by
  induction cs generalizing p with
  | nil => simp
  | cons s cs ih =>
    by_cases h : 0 ≤ s.dLevel
    · have hm : (merge p s).dLevel = p.dLevel + s.dLevel := by
        rw [merge_dLevel]; simp [h, not_lt.mpr hp]
      have h0 : 0 ≤ (merge p s).dLevel := by rw [hm]; omega
      simp [ih _ h0, hm, h, add_assoc]
    · have hm : (merge p s).dLevel = p.dLevel := by
        rw [merge_dLevel]; simp [h]
      have h0 : 0 ≤ (merge p s).dLevel := by rw [hm]; exact hp
      simp [ih _ h0, hm, h]

/-- The counter `parseFailCnt` after a run of merges of parsed children. -/
theorem mergeAll_parseFailCnt (cs : List structStats) (p : structStats)
    (h : ∀ s ∈ cs, s.parseFailCnt ≠ -1) :
    (mergeAll p cs).parseFailCnt = p.parseFailCnt + (cs.map (fun s => s.parseFailCnt)).sum := by
  induction cs generalizing p with
  | nil => simp
  | cons s cs ih =>
    have hs : s.parseFailCnt ≠ -1 := h s (List.mem_cons_self _ _)
    have hcs : ∀ t ∈ cs, t.parseFailCnt ≠ -1 := fun t ht => h t (List.mem_cons_of_mem _ ht)
    simp [ih _ hcs, merge_parseFailCnt, hs, add_assoc]

/-- The counter `parseFailCnt` after a run of merges of unparsed children. -/
theorem mergeAll_parseFailCnt_unparsed (cs : List structStats) (p : structStats)
    (hne : cs ≠ []) (h : ∀ s ∈ cs, s.parseFailCnt = -1) :
    (mergeAll p cs).parseFailCnt = -1 := by
  induction cs generalizing p with
  | nil => exact absurd rfl hne
  | cons s cs ih =>
    have hs : s.parseFailCnt = -1 := h s (List.mem_cons_self _ _)
    have hcs : ∀ t ∈ cs, t.parseFailCnt = -1 := fun t ht => h t (List.mem_cons_of_mem _ ht)
    cases cs with
    | nil => simp [merge_parseFailCnt, hs]
    | cons t ts => simpa using ih (merge p s) (by simp) hcs

/-! ## C1: counters of a parent against the sums over its children -/

/-- C1 (counterexample).  The counters `sentCnt`, `parseFailCnt` and `dLevel` of a parent
that starts at zero are not the sums over its children: a sentence without words
(`sentCnt = 1`, `wordCnt = 0`) is not counted, an unparsed child (`parseFailCnt = -1`)
resets the parent to -1, and a child without D-level (`dLevel = -1`) is not added. -/
theorem merge_counter_sum_fails :
    (mergeAll zeroNode [{ zeroNode with sentCnt := 1 }]).sentCnt
        ≠ ([{ zeroNode with sentCnt := 1 }].map (fun s => s.sentCnt)).sum
    ∧ (mergeAll zeroNode
          [{ zeroNode with parseFailCnt := 1 }, { zeroNode with parseFailCnt := -1 }]).parseFailCnt
        ≠ ([{ zeroNode with parseFailCnt := 1 }, { zeroNode with parseFailCnt := -1 }].map
            (fun s => s.parseFailCnt)).sum
    ∧ (mergeAll zeroNode [{ zeroNode with dLevel := -1 }]).dLevel
        ≠ ([{ zeroNode with dLevel := -1 }].map (fun s => s.dLevel)).sum := by
  refine ⟨?_, ?_, ?_⟩ <;> decide

/-- C1 (amended).  For a parent whose counters start at zero and any list of children
merged into it: every counter that `merge` adds without a guard is the sum of that
counter over the children; `sentCnt` is the sum of `sentCnt` over the children that have
words; `dLevel` is the sum of `dLevel` over the children whose `dLevel` is not negative;
`parseFailCnt` is the sum over the children when none of them is unparsed (-1), and is -1
when there is a child and every child is unparsed. -/
theorem merge_counters_are_child_sums (p : structStats) (cs : List structStats)
    (hcnt : ∀ c, p.cnt c = 0) (hsent : p.sentCnt = 0) (hpf : p.parseFailCnt = 0)
    (hd : p.dLevel = 0) :
    (∀ c, (mergeAll p cs).cnt c = (cs.map (fun s => s.cnt c)).sum)
    ∧ (mergeAll p cs).sentCnt
        = ((cs.filter (fun s => s.cnt .wordCnt ≠ 0)).map (fun s => s.sentCnt)).sum
    ∧ (mergeAll p cs).dLevel
        = ((cs.filter (fun s => 0 ≤ s.dLevel)).map (fun s => s.dLevel)).sum
    ∧ ((∀ s ∈ cs, s.parseFailCnt ≠ -1) →
        (mergeAll p cs).parseFailCnt = (cs.map (fun s => s.parseFailCnt)).sum)
    ∧ (cs ≠ [] → (∀ s ∈ cs, s.parseFailCnt = -1) → (mergeAll p cs).parseFailCnt = -1) := by
  refine ⟨fun c => ?_, ?_, ?_, fun h => ?_, fun hne h => ?_⟩
  · rw [mergeAll_cnt, hcnt, zero_add]
  · rw [mergeAll_sentCnt, hsent, zero_add]
  · rw [mergeAll_dLevel cs p (by omega), hd, zero_add]
  · rw [mergeAll_parseFailCnt cs p h, hpf, zero_add]
  · exact mergeAll_parseFailCnt_unparsed cs p hne h

/-- C1 (witness).  The amended statement at the zero node with two parsed sentences, one
of three words and D-level 2, one without words. -/
theorem merge_counters_are_child_sums_witness :
    (∀ c, zeroNode.cnt c = 0) ∧ zeroNode.sentCnt = 0 ∧ zeroNode.parseFailCnt = 0
    ∧ zeroNode.dLevel = 0
    ∧ (mergeAll zeroNode
        [setCnt .wordCnt 3 { zeroNode with sentCnt := 1, dLevel := 2 },
         { zeroNode with sentCnt := 1, dLevel := -1 }]).cnt .wordCnt = 3
    ∧ (mergeAll zeroNode
        [setCnt .wordCnt 3 { zeroNode with sentCnt := 1, dLevel := 2 },
         { zeroNode with sentCnt := 1, dLevel := -1 }]).sentCnt = 1
    ∧ (mergeAll zeroNode
        [setCnt .wordCnt 3 { zeroNode with sentCnt := 1, dLevel := 2 },
         { zeroNode with sentCnt := 1, dLevel := -1 }]).dLevel = 2
    ∧ (mergeAll zeroNode
        [setCnt .wordCnt 3 { zeroNode with sentCnt := 1, dLevel := 2 },
         { zeroNode with sentCnt := 1, dLevel := -1 }]).parseFailCnt = 0 := by
  have h := merge_counters_are_child_sums zeroNode
    [setCnt .wordCnt 3 { zeroNode with sentCnt := 1, dLevel := 2 },
     { zeroNode with sentCnt := 1, dLevel := -1 }] (fun _ => rfl) rfl rfl rfl
  refine ⟨fun _ => rfl, rfl, rfl, rfl, ?_, ?_, ?_, ?_⟩
  · rw [h.1]; decide
  · rw [h.2.1]; decide
  · rw [h.2.2.1]; decide
  · rw [h.2.2.2.1 (by decide)]; decide

/-! ## C2: associativity of `merge` on the counters -/

/-- C2 (counterexample).  `merge` is not associative on `sentCnt` and on `parseFailCnt`:
with `A` the zero node, `B` a sentence without words and `C` a sentence of one word,
`merge(merge(A,B),C)` counts one sentence and `merge(A,merge(B,C))` two; with
`parseFailCnt` 1, -1, 1 in `A`, `B`, `C` the two sides hold 0 and 1. -/
theorem merge_assoc_fails :
    (merge (merge zeroNode { zeroNode with sentCnt := 1 })
        (setCnt .wordCnt 1 { zeroNode with sentCnt := 1 })).sentCnt
      ≠ (merge zeroNode (merge { zeroNode with sentCnt := 1 }
        (setCnt .wordCnt 1 { zeroNode with sentCnt := 1 }))).sentCnt
    ∧ (merge (merge { zeroNode with parseFailCnt := 1 } { zeroNode with parseFailCnt := -1 })
        { zeroNode with parseFailCnt := 1 }).parseFailCnt
      ≠ (merge { zeroNode with parseFailCnt := 1 } (merge { zeroNode with parseFailCnt := -1 }
        { zeroNode with parseFailCnt := 1 })).parseFailCnt := by
  refine ⟨?_, ?_⟩ <;> decide

/-- C2 (amended).  For all nodes `A`, `B`, `C`, every counter that `merge` adds without a
guard, and `dLevel`, has the same value in `merge(merge(A,B),C)` and in
`merge(A,merge(B,C))`; so has `sentCnt` when `B` has words and `C` has no negative word
count, and so has `parseFailCnt` when neither `B` nor `C` has a negative `parseFailCnt`. -/
theorem merge_assoc_counters (A B C : structStats) :
    (∀ c, (merge (merge A B) C).cnt c = (merge A (merge B C)).cnt c)
    ∧ (merge (merge A B) C).dLevel = (merge A (merge B C)).dLevel
    ∧ (0 < B.cnt .wordCnt → 0 ≤ C.cnt .wordCnt →
        (merge (merge A B) C).sentCnt = (merge A (merge B C)).sentCnt)
    ∧ (0 ≤ B.parseFailCnt → 0 ≤ C.parseFailCnt →
        (merge (merge A B) C).parseFailCnt = (merge A (merge B C)).parseFailCnt) := by
  refine ⟨fun c => ?_, ?_, fun hB hC => ?_, fun hB hC => ?_⟩
  · simp only [merge_cnt]; ring
  · simp only [merge_dLevel]
    split_ifs <;> omega
  · simp only [merge_sentCnt, merge_cnt]
    split_ifs <;> omega
  · simp only [merge_parseFailCnt]
    split_ifs <;> omega

/-- C2 (witness).  The amended statement at the zero node, a sentence of two words and a
sentence without words whose parse failed. -/
theorem merge_assoc_counters_witness :
    (0 : Int) < (setCnt .wordCnt 2 { zeroNode with sentCnt := 1 }).cnt .wordCnt
    ∧ (0 : Int) ≤ ({ zeroNode with sentCnt := 1, parseFailCnt := 1 } : structStats).cnt .wordCnt
    ∧ (0 : Int) ≤ (setCnt .wordCnt 2 { zeroNode with sentCnt := 1 }).parseFailCnt
    ∧ (0 : Int) ≤ ({ zeroNode with sentCnt := 1, parseFailCnt := 1 } : structStats).parseFailCnt
    ∧ (merge (merge zeroNode (setCnt .wordCnt 2 { zeroNode with sentCnt := 1 }))
          { zeroNode with sentCnt := 1, parseFailCnt := 1 }).sentCnt
        = (merge zeroNode (merge (setCnt .wordCnt 2 { zeroNode with sentCnt := 1 })
          { zeroNode with sentCnt := 1, parseFailCnt := 1 })).sentCnt
    ∧ (merge (merge zeroNode (setCnt .wordCnt 2 { zeroNode with sentCnt := 1 }))
          { zeroNode with sentCnt := 1, parseFailCnt := 1 }).parseFailCnt
        = (merge zeroNode (merge (setCnt .wordCnt 2 { zeroNode with sentCnt := 1 })
          { zeroNode with sentCnt := 1, parseFailCnt := 1 })).parseFailCnt :=
  ⟨by decide, by decide, by decide, by decide,
   (merge_assoc_counters zeroNode (setCnt .wordCnt 2 { zeroNode with sentCnt := 1 })
      { zeroNode with sentCnt := 1, parseFailCnt := 1 }).2.2.1 (by decide) (by decide),
   (merge_assoc_counters zeroNode (setCnt .wordCnt 2 { zeroNode with sentCnt := 1 })
      { zeroNode with sentCnt := 1, parseFailCnt := 1 }).2.2.2 (by decide) (by decide)⟩

/-! ## Lemmas on the maps, the multimap and the guarded sums -/

theorem find_mapAdd {K : Type} [DecidableEq K] (m : CountMap K) (k : K) (v : Int) (k1 : K) :
    (mapAdd m k v).find k1 = if k = k1 then some ((m.find k).getD 0 + v) else m.find k1 := by
  induction m with
  | nil =>
    by_cases h : k = k1 <;> simp [mapAdd, CountMap.find, h]
  | cons kv rest ih =>
    obtain ⟨k2, v2⟩ := kv
    by_cases h2 : k2 = k
    · subst h2
      by_cases h : k2 = k1 <;> simp [mapAdd, CountMap.find, h]
    · by_cases h : k = k1
      · subst h
        simp [mapAdd, CountMap.find, h2, ih]
      · by_cases h3 : k2 = k1
        · subst h3
          simp [mapAdd, CountMap.find, h2, h]
        · simp [mapAdd, CountMap.find, h2, h3, h, ih]

theorem find_aggregate {K : Type} [DecidableEq K] (inp out : CountMap K) (k : K) :
    (aggregate out inp).find k
      = if valuesAt inp k = [] then out.find k
        else some ((out.find k).getD 0 + (valuesAt inp k).sum) := by
  induction inp generalizing out with
  | nil => simp [aggregate, valuesAt]
  | cons kv rest ih =>
    obtain ⟨k2, v2⟩ := kv
    have hstep : aggregate out ((k2, v2) :: rest) = aggregate (mapAdd out k2 v2) rest := rfl
    rw [hstep, ih, find_mapAdd]
    by_cases h : k2 = k
    · subst h
      by_cases hr : valuesAt rest k2 = []
      · have : valuesAt ((k2, v2) :: rest) k2 = v2 :: valuesAt rest k2 := by
          simp [valuesAt]
        simp [this, hr]
      · have : valuesAt ((k2, v2) :: rest) k2 = v2 :: valuesAt rest k2 := by
          simp [valuesAt]
        simp [this, hr, add_assoc]
    · have : valuesAt ((k2, v2) :: rest) k = valuesAt rest k := by
        simp [valuesAt, h]
      simp [this, h]

/-- The bindings of a map after two rounds of `aggregate` do not depend on the order of the
two rounds. -/
theorem find_aggregate_comm {K : Type} [DecidableEq K] (out b c : CountMap K) (k : K) :
    (aggregate (aggregate out b) c).find k = (aggregate (aggregate out c) b).find k := by
  simp only [find_aggregate]
  by_cases hb : valuesAt b k = [] <;> by_cases hc : valuesAt c k = [] <;>
    simp [hb, hc, add_assoc, add_comm, add_left_comm]

theorem mmInsert_perm (m : DistMap) (k : DD_type) (v : Int) :
    (mmInsert m k v).Perm ((k, v) :: m) := by
  induction m with
  | nil => simp [mmInsert]
  | cons kv rest ih =>
    obtain ⟨k1, v1⟩ := kv
    by_cases h : k1 ≤ k
    · simp only [mmInsert, h, if_true]
      exact (List.Perm.cons _ ih).trans (List.Perm.swap _ _ _)
    · simp [mmInsert, h]

theorem aggregateDist_perm (inp out : DistMap) : (aggregateDist out inp).Perm (out ++ inp) := by
  induction inp generalizing out with
  | nil => simp [aggregateDist]
  | cons kv rest ih =>
    have hstep : aggregateDist out (kv :: rest) = aggregateDist (mmInsert out kv.1 kv.2) rest :=
      rfl
    rw [hstep]
    refine (ih _).trans ?_
    refine ((mmInsert_perm out kv.1 kv.2).append_right rest).trans ?_
    simpa using (@List.perm_middle _ kv out rest).symm

/-- The merged multimap holds the same pairs whatever the order of two merges. -/
theorem aggregateDist_comm (out b c : DistMap) :
    (aggregateDist (aggregateDist out b) c).Perm (aggregateDist (aggregateDist out c) b) := by
  have h1 : (aggregateDist (aggregateDist out b) c).Perm (out ++ b ++ c) :=
    (aggregateDist_perm c _).trans ((aggregateDist_perm b out).append_right c)
  have h2 : (aggregateDist (aggregateDist out c) b).Perm (out ++ c ++ b) :=
    (aggregateDist_perm b _).trans ((aggregateDist_perm c out).append_right b)
  refine h1.trans (List.Perm.trans ?_ h2.symm)
  rw [List.append_assoc, List.append_assoc]
  exact List.Perm.append_left out List.perm_append_comm

theorem getMeanAL_perm {l1 l2 : DistMap} (h : l1.Perm l2) : getMeanAL l1 = getMeanAL l2 := by
  unfold getMeanAL
  rw [h.length_eq]
  rw [List.Perm.foldl_eq' h (fun x _ y _ z => by ring) 0]

theorem getHighestAL_perm {l1 l2 : DistMap} (h : l1.Perm l2) :
    getHighestAL l1 = getHighestAL l2 := by
  unfold getHighestAL
  rw [List.Perm.foldl_eq' h (fun x _ y _ z => ?_) 0]
  dsimp only
  split_ifs <;> first | rfl | (exfalso; linarith) | linarith

theorem ulpExp_eq (q : ℚ) (k : Int) (hlo : (2 : ℚ) ^ (k + 52) ≤ |q|)
    (hhi : |q| < (2 : ℚ) ^ (k + 53)) : ulpExp q = k := by
  have hpos : 0 < |q| := lt_of_lt_of_le (by positivity) hlo
  have h1 : k + 52 ≤ Int.log 2 |q| := by
    rw [← Int.zpow_le_iff_le_log (by norm_num) hpos]
    exact_mod_cast hlo
  have h2 : Int.log 2 |q| < k + 53 := by
    rw [← Int.lt_zpow_iff_log_lt (by norm_num) hpos]
    exact_mod_cast hhi
  unfold ulpExp
  omega

/-- The rounding of a number between `2 ^ (k + 52)` and `2 ^ (k + 53)` in size: to the
nearest multiple of `2 ^ k`. -/
theorem round64_eq (q : ℚ) (k : Int) (hlo : (2 : ℚ) ^ (k + 52) ≤ |q|)
    (hhi : |q| < (2 : ℚ) ^ (k + 53)) :
    round64 q = (roundHalfEven (q / (2 : ℚ) ^ k) : ℚ) * (2 : ℚ) ^ k := by
  have hpos : 0 < |q| := lt_of_lt_of_le (by positivity) hlo
  have hq : q ≠ 0 := abs_pos.mp hpos
  unfold round64
  rw [if_neg hq, ulpExp_eq q k hlo hhi]

theorem round64_zero : round64 0 = 0 := by simp [round64]

theorem round64_one : round64 1 = 1 := by
  rw [round64_eq 1 (-52) (by norm_num) (by norm_num)]
  have hf : ⌊(1 : ℚ) / (2 : ℚ) ^ (-52 : Int)⌋ = 2 ^ 52 := by
    rw [Int.floor_eq_iff]
    constructor <;> norm_num
  unfold roundHalfEven
  rw [hf]
  norm_num

theorem round64_two_pow_53 : round64 (2 ^ 53) = 2 ^ 53 := by
  rw [round64_eq (2 ^ 53) 1 (by norm_num) (by norm_num)]
  have hf : ⌊((2 : ℚ) ^ 53) / (2 : ℚ) ^ (1 : Int)⌋ = 2 ^ 52 := by
    rw [Int.floor_eq_iff]
    constructor <;> norm_num
  unfold roundHalfEven
  rw [hf]
  norm_num

theorem round64_neg_two_pow_53 : round64 (-(2 ^ 53)) = -(2 ^ 53) := by
  rw [round64_eq (-(2 ^ 53)) 1 (by norm_num) (by norm_num)]
  have hf : ⌊(-((2 : ℚ) ^ 53)) / (2 : ℚ) ^ (1 : Int)⌋ = -(2 ^ 52) := by
    rw [Int.floor_eq_iff]
    constructor <;> norm_num
  unfold roundHalfEven
  rw [hf]
  norm_num

/-- The number 2^53 + 1 lies halfway between the binary64 numbers 2^53 and 2^53 + 2 and is
rounded to 2^53, whose last bit is 0. -/
theorem round64_tie : round64 (2 ^ 53 + 1) = 2 ^ 53 := by
  rw [round64_eq (2 ^ 53 + 1) 1 (by norm_num) (by norm_num)]
  have hf : ⌊((2 : ℚ) ^ 53 + 1) / (2 : ℚ) ^ (1 : Int)⌋ = 2 ^ 52 := by
    rw [Int.floor_eq_iff]
    constructor <;> norm_num
  unfold roundHalfEven
  rw [hf]
  norm_num

theorem daddR_zero_left (b : double) (hb : isDouble b) : daddR (some 0) b = b := by
  cases b with
  | none => rfl
  | some x =>
    have hx : round64 x = x := hb
    simp [daddR, hx]

theorem daddR_comm (a b : double) : daddR a b = daddR b a := by
  cases a <;> cases b <;> simp [daddR, add_comm]

/-- The rounded sums of a fresh parent (sum 0) do not depend on the order of two
children whose values are binary64 numbers. -/
theorem daddR_fresh (b c : double) (hb : isDouble b) (hc : isDouble c) :
    daddR (daddR (some 0) b) c = daddR (daddR (some 0) c) b := by
  rw [daddR_zero_left b hb, daddR_zero_left c hc, daddR_comm]

/-- The rounded NaN-guarded sums do not depend on the order of two children when one of
the three values is NaN. -/
theorem nanGuardedAddR_absent (p b c : double) (h : p = none ∨ b = none ∨ c = none) :
    nanGuardedAddR (nanGuardedAddR p b) c = nanGuardedAddR (nanGuardedAddR p c) b := by
  rcases h with rfl | rfl | rfl
  · cases b <;> cases c <;> simp [nanGuardedAddR, isnan, daddR, add_comm]
  · cases p <;> cases c <;> simp [nanGuardedAddR, isnan, daddR]
  · cases p <;> cases b <;> simp [nanGuardedAddR, isnan, daddR]

/-! ## C3: the order of two merges -/

/-- C3 (counterexample).  The order of two merges shows in `parseFailCnt`: merging an
unparsed child (-1) and then a child that failed to parse (1) into the zero node leaves
0, merging them in the other order leaves -1.  It also shows in the sums of doubles,
whose additions round: the parent's sum 2^53 and the children's sums 1 and -2^53 are
binary64 numbers; with the child of sum 1 first, 2^53 + 1 is rounded to 2^53 and the
result is 0, with the other child first the result is 1.  This holds of the plain sums
(`word_freq`) and of the NaN-guarded sums (`avg_prob10`). -/
theorem merge_order_fails :
    ((merge (merge zeroNode { zeroNode with parseFailCnt := -1 })
        { zeroNode with parseFailCnt := 1 }).parseFailCnt = 0
      ∧ (merge (merge zeroNode { zeroNode with parseFailCnt := 1 })
        { zeroNode with parseFailCnt := -1 }).parseFailCnt = -1)
    ∧ ((mergeR (mergeR zeroNode { zeroNode with parseFailCnt := -1 })
        { zeroNode with parseFailCnt := 1 }).parseFailCnt = 0
      ∧ (mergeR (mergeR zeroNode { zeroNode with parseFailCnt := 1 })
        { zeroNode with parseFailCnt := -1 }).parseFailCnt = -1)
    ∧ (isDouble (some (2 ^ 53)) ∧ isDouble (some 1) ∧ isDouble (some (-(2 ^ 53))))
    ∧ ((mergeR (mergeR (nodeSum (2 ^ 53)) (nodeSum 1)) (nodeSum (-(2 ^ 53)))).dsum .word_freq
          = some 0
      ∧ (mergeR (mergeR (nodeSum (2 ^ 53)) (nodeSum (-(2 ^ 53)))) (nodeSum 1)).dsum .word_freq
          = some 1)
    ∧ ((mergeR (mergeR (nodeSum (2 ^ 53)) (nodeSum 1)) (nodeSum (-(2 ^ 53)))).avg_prob10
          = some 0
      ∧ (mergeR (mergeR (nodeSum (2 ^ 53)) (nodeSum (-(2 ^ 53)))) (nodeSum 1)).avg_prob10
          = some 1) := by
  have hg : ∀ a b : ℚ, nanGuardedAddR (some a) (some b) = daddR (some a) (some b) := by
    intro a b
    simp [nanGuardedAddR, isnan]
  have i1 : daddR (some (2 ^ 53)) (some 1) = some (2 ^ 53) := by
    simp only [daddR, round64_tie]
  have i2 : daddR (some (2 ^ 53)) (some (-(2 ^ 53))) = some 0 := by
    simp only [daddR]
    rw [show ((2 : ℚ) ^ 53 + -(2 ^ 53)) = 0 by ring, round64_zero]
  have i3 : daddR (some 0) (some 1) = some 1 := by
    simp only [daddR]
    rw [zero_add, round64_one]
  have h1 : daddR (daddR (some (2 ^ 53)) (some 1)) (some (-(2 ^ 53))) = some 0 := by
    rw [i1, i2]
  have h2 : daddR (daddR (some (2 ^ 53)) (some (-(2 ^ 53)))) (some 1) = some 1 := by
    rw [i2, i3]
  refine ⟨⟨by decide, by decide⟩, ⟨by decide, by decide⟩,
    ⟨round64_two_pow_53, round64_one, round64_neg_two_pow_53⟩, ⟨h1, h2⟩, ⟨?_, ?_⟩⟩
  · show nanGuardedAddR (nanGuardedAddR (some (2 ^ 53)) (some 1)) (some (-(2 ^ 53))) = some 0
    rw [hg, i1, hg, i2]
  · show nanGuardedAddR (nanGuardedAddR (some (2 ^ 53)) (some (-(2 ^ 53)))) (some 1) = some 1
    rw [hg, i2, hg, i3]

/-- C3 (amended).  For every parent `P` and children `B` and `C`, with the additions of
doubles rounded to binary64, merging `B` then `C` gives the same value as merging `C` then
`B` for the integer counters, `sentCnt` and `dLevel`, the bindings of every map and the
pairs of the distance multimap (as a multiset), hence for `al_gem` and `al_max` when the
functions that compute them for the parent give one value on the permutations of a
multimap.  A plain sum of doubles is the same in both orders when the parent's sum is 0
and the children's sums are binary64 numbers, and a NaN-guarded sum when one of the three
values is NaN; `parseFailCnt` is the same when `B` and `C` are both unparsed (-1) or both
not. -/
theorem merge_order_independent (P B C : structStats) :
    agreeOnData (mergeR (mergeR P B) C) (mergeR (mergeR P C) B)
    ∧ ((∀ l1 l2 : DistMap, l1.Perm l2 → P.meanAL l1 = P.meanAL l2) →
        (mergeR (mergeR P B) C).al_gem = (mergeR (mergeR P C) B).al_gem)
    ∧ ((∀ l1 l2 : DistMap, l1.Perm l2 → P.highestAL l1 = P.highestAL l2) →
        (mergeR (mergeR P B) C).al_max = (mergeR (mergeR P C) B).al_max)
    ∧ (∀ r, P.dsum r = some 0 → isDouble (B.dsum r) → isDouble (C.dsum r) →
        (mergeR (mergeR P B) C).dsum r = (mergeR (mergeR P C) B).dsum r)
    ∧ ((P.avg_prob10 = none ∨ B.avg_prob10 = none ∨ C.avg_prob10 = none) →
        (mergeR (mergeR P B) C).avg_prob10 = (mergeR (mergeR P C) B).avg_prob10)
    ∧ ((P.entropy = none ∨ B.entropy = none ∨ C.entropy = none) →
        (mergeR (mergeR P B) C).entropy = (mergeR (mergeR P C) B).entropy)
    ∧ ((P.perplexity = none ∨ B.perplexity = none ∨ C.perplexity = none) →
        (mergeR (mergeR P B) C).perplexity = (mergeR (mergeR P C) B).perplexity)
    ∧ ((B.parseFailCnt = -1 ↔ C.parseFailCnt = -1) →
        (mergeR (mergeR P B) C).parseFailCnt = (mergeR (mergeR P C) B).parseFailCnt) := by
  refine ⟨⟨rfl, ?_, ?_, fun c => ?_,
    fun k => find_aggregate_comm _ _ _ k, fun k => find_aggregate_comm _ _ _ k,
    fun k => find_aggregate_comm _ _ _ k, fun k => find_aggregate_comm _ _ _ k,
    fun k => find_aggregate_comm _ _ _ k, fun k => find_aggregate_comm _ _ _ k,
    fun k => find_aggregate_comm _ _ _ k, fun k => find_aggregate_comm _ _ _ k,
    fun k => find_aggregate_comm _ _ _ k, fun k => find_aggregate_comm _ _ _ k,
    fun k => find_aggregate_comm _ _ _ k, fun k => find_aggregate_comm _ _ _ k,
    fun k => find_aggregate_comm _ _ _ k, fun k => find_aggregate_comm _ _ _ k,
    fun k => find_aggregate_comm _ _ _ k, fun k => find_aggregate_comm _ _ _ k,
    fun k => find_aggregate_comm _ _ _ k,
    aggregateDist_comm _ _ _⟩, fun h => h _ _ (aggregateDist_comm _ _ _),
    fun h => h _ _ (aggregateDist_comm _ _ _), fun r hP hB hC => ?_, fun h => ?_, fun h => ?_,
    fun h => ?_, fun h => ?_⟩
  · show (merge (mergeR P B) C).sentCnt = (merge (mergeR P C) B).sentCnt
    simp only [merge_sentCnt]
    show (if C.cnt .wordCnt ≠ 0 then (merge P B).sentCnt + C.sentCnt else (merge P B).sentCnt)
      = (if B.cnt .wordCnt ≠ 0 then (merge P C).sentCnt + B.sentCnt else (merge P C).sentCnt)
    simp only [merge_sentCnt]
    split_ifs <;> omega
  · show (merge (mergeR P B) C).dLevel = (merge (mergeR P C) B).dLevel
    simp only [merge_dLevel]
    show (if C.dLevel ≥ 0 then
        (if (merge P B).dLevel < 0 then C.dLevel else (merge P B).dLevel + C.dLevel)
        else (merge P B).dLevel)
      = (if B.dLevel ≥ 0 then
        (if (merge P C).dLevel < 0 then B.dLevel else (merge P C).dLevel + B.dLevel)
        else (merge P C).dLevel)
    simp only [merge_dLevel]
    split_ifs <;> omega
  · show P.cnt c + B.cnt c + C.cnt c = P.cnt c + C.cnt c + B.cnt c
    ring
  · show daddR (daddR (P.dsum r) (B.dsum r)) (C.dsum r)
      = daddR (daddR (P.dsum r) (C.dsum r)) (B.dsum r)
    rw [hP]
    exact daddR_fresh _ _ hB hC
  · exact nanGuardedAddR_absent _ _ _ h
  · exact nanGuardedAddR_absent _ _ _ h
  · exact nanGuardedAddR_absent _ _ _ h
  · show (merge (mergeR P B) C).parseFailCnt = (merge (mergeR P C) B).parseFailCnt
    simp only [merge_parseFailCnt]
    show (if C.parseFailCnt = -1 then -1 else (merge P B).parseFailCnt + C.parseFailCnt)
      = (if B.parseFailCnt = -1 then -1 else (merge P C).parseFailCnt + B.parseFailCnt)
    simp only [merge_parseFailCnt]
    split_ifs <;> omega

/-- C3 (witness).  The amended statement at the zero node with two children that share
the word "de" and have one dependency distance each; the functions of the zero node are
those of `sentStats`, which give one value on the permutations of a multimap, and the
sums of the three nodes are 0. -/
theorem merge_order_independent_witness :
    (nodeDe.parseFailCnt = -1 ↔ nodeDeKat.parseFailCnt = -1)
    ∧ zeroNode.dsum .word_freq = some 0
    ∧ isDouble (nodeDe.dsum .word_freq) ∧ isDouble (nodeDeKat.dsum .word_freq)
    ∧ agreeOnData (mergeR (mergeR zeroNode nodeDe) nodeDeKat)
        (mergeR (mergeR zeroNode nodeDeKat) nodeDe)
    ∧ (mergeR (mergeR zeroNode nodeDe) nodeDeKat).al_gem
        = (mergeR (mergeR zeroNode nodeDeKat) nodeDe).al_gem
    ∧ (mergeR (mergeR zeroNode nodeDe) nodeDeKat).al_max
        = (mergeR (mergeR zeroNode nodeDeKat) nodeDe).al_max
    ∧ (mergeR (mergeR zeroNode nodeDe) nodeDeKat).dsum .word_freq
        = (mergeR (mergeR zeroNode nodeDeKat) nodeDe).dsum .word_freq
    ∧ (mergeR (mergeR zeroNode nodeDe) nodeDeKat).parseFailCnt
        = (mergeR (mergeR zeroNode nodeDeKat) nodeDe).parseFailCnt :=
  have h := merge_order_independent zeroNode nodeDe nodeDeKat
  ⟨by decide, rfl, round64_zero, round64_zero, h.1,
   h.2.1 (fun _ _ hp => getMeanAL_perm hp),
   h.2.2.1 (fun _ _ hp => getHighestAL_perm hp),
   h.2.2.2.1 .word_freq rfl round64_zero round64_zero,
   h.2.2.2.2.2.2.2 (by decide)⟩

/-! ## C4: the NaN-guarded running sums -/

theorem nanGuardedAdd_absent (x : double) : nanGuardedAdd x none = x := by
  simp [nanGuardedAdd, isnan]

theorem nanGuardedAdd_adopt (v : ℚ) : nanGuardedAdd none (some v) = some v := by
  simp [nanGuardedAdd, isnan]

theorem nanGuardedAdd_sum (w v : ℚ) : nanGuardedAdd (some w) (some v) = some (w + v) := by
  simp [nanGuardedAdd, isnan, dadd]

/-- C4.  For each of `avg_prob10`, `entropy` and `perplexity`, with NaN read as absent:
when the child's value is absent `merge` leaves the parent's value unchanged; when the
child's is present and the parent's absent the parent adopts the child's value; when
both are present the parent's new value is their sum. -/
theorem merge_nan_sentinel_sums (p ss : structStats) :
    ((ss.avg_prob10 = none → (merge p ss).avg_prob10 = p.avg_prob10)
      ∧ (∀ v, ss.avg_prob10 = some v → p.avg_prob10 = none →
          (merge p ss).avg_prob10 = some v)
      ∧ (∀ v w, ss.avg_prob10 = some v → p.avg_prob10 = some w →
          (merge p ss).avg_prob10 = some (w + v)))
    ∧ ((ss.entropy = none → (merge p ss).entropy = p.entropy)
      ∧ (∀ v, ss.entropy = some v → p.entropy = none → (merge p ss).entropy = some v)
      ∧ (∀ v w, ss.entropy = some v → p.entropy = some w →
          (merge p ss).entropy = some (w + v)))
    ∧ ((ss.perplexity = none → (merge p ss).perplexity = p.perplexity)
      ∧ (∀ v, ss.perplexity = some v → p.perplexity = none →
          (merge p ss).perplexity = some v)
      ∧ (∀ v w, ss.perplexity = some v → p.perplexity = some w →
          (merge p ss).perplexity = some (w + v))) := by
  have ha : (merge p ss).avg_prob10 = nanGuardedAdd p.avg_prob10 ss.avg_prob10 := rfl
  have he : (merge p ss).entropy = nanGuardedAdd p.entropy ss.entropy := rfl
  have hp : (merge p ss).perplexity = nanGuardedAdd p.perplexity ss.perplexity := rfl
  refine ⟨⟨fun h => ?_, fun v h1 h2 => ?_, fun v w h1 h2 => ?_⟩,
    ⟨fun h => ?_, fun v h1 h2 => ?_, fun v w h1 h2 => ?_⟩,
    ⟨fun h => ?_, fun v h1 h2 => ?_, fun v w h1 h2 => ?_⟩⟩
  · rw [ha, h, nanGuardedAdd_absent]
  · rw [ha, h1, h2, nanGuardedAdd_adopt]
  · rw [ha, h1, h2, nanGuardedAdd_sum]
  · rw [he, h, nanGuardedAdd_absent]
  · rw [he, h1, h2, nanGuardedAdd_adopt]
  · rw [he, h1, h2, nanGuardedAdd_sum]
  · rw [hp, h, nanGuardedAdd_absent]
  · rw [hp, h1, h2, nanGuardedAdd_adopt]
  · rw [hp, h1, h2, nanGuardedAdd_sum]

/-- C4 (witness).  One merge showing the three cases: `avg_prob10` absent in the child,
`entropy` absent in the parent only, `perplexity` present in both. -/
theorem merge_nan_sentinel_sums_witness :
    (nodeLmChild.avg_prob10 = none
      ∧ (merge nodeLmParent nodeLmChild).avg_prob10 = nodeLmParent.avg_prob10)
    ∧ (nodeLmChild.entropy = some 5 ∧ nodeLmParent.entropy = none
      ∧ (merge nodeLmParent nodeLmChild).entropy = some 5)
    ∧ (nodeLmChild.perplexity = some 4 ∧ nodeLmParent.perplexity = some 3
      ∧ (merge nodeLmParent nodeLmChild).perplexity = some (3 + 4)) :=
  ⟨⟨rfl, (merge_nan_sentinel_sums nodeLmParent nodeLmChild).1.1 rfl⟩,
   ⟨rfl, rfl, (merge_nan_sentinel_sums nodeLmParent nodeLmChild).2.1.2.1 5 rfl rfl⟩,
   ⟨rfl, rfl, (merge_nan_sentinel_sums nodeLmParent nodeLmChild).2.2.2.2 4 3 rfl rfl⟩⟩

/-! ## C5, C6: MTLD of a sequence and of its reverse, and the empty sequence -/

/-- C5.  For every threshold and every token sequence, the value returned by
`average_mtld` is the mean of `calculate_mtld` of the sequence and `calculate_mtld` of the
reversed sequence (and the vector is left reversed). -/
theorem average_mtld_is_mean (mtld_threshold : ℚ) (seq : List String) :
    (average_mtld mtld_threshold seq).1
        = (calculate_mtld mtld_threshold seq + calculate_mtld mtld_threshold seq.reverse) / 2
    ∧ (average_mtld mtld_threshold seq).2 = seq.reverse :=
  ⟨rfl, rfl⟩

/-- C6.  For every threshold, `calculate_mtld` of the empty token sequence is 0. -/
theorem calculate_mtld_empty (mtld_threshold : ℚ) : calculate_mtld mtld_threshold [] = 0 := by
  simp [calculate_mtld]

/-! ## C7: MTLD of pairwise distinct tokens -/

theorem mtldStep_fresh (thr : ℚ) (hthr : thr < 1) (n i : Nat) (st : MtldState) (tok : String)
    (hst : mtldFresh st) (htok : tok ∉ st.unique_tokens) :
    mtldFresh (mtldStep thr n st i tok)
    ∧ (mtldStep thr n st i tok).unique_tokens = tok :: st.unique_tokens := by
  obtain ⟨hf, hlen⟩ := hst
  have hins : st.unique_tokens.insert tok = tok :: st.unique_tokens :=
    List.insert_of_not_mem htok
  have hpos : (0 : ℚ) < ((st.token_count + 1 : Int) : ℚ) := by
    have : (0 : Int) < st.token_count + 1 := by
      have := Int.natCast_nonneg st.unique_tokens.length
      omega
    exact_mod_cast this
  have httr : (((st.unique_tokens.insert tok).length : ℚ)) / ((st.token_count + 1 : Int) : ℚ)
      = 1 := by
    rw [hins, div_eq_one_iff_eq (ne_of_gt hpos)]
    have : ((tok :: st.unique_tokens).length : Int) = st.token_count + 1 := by
      simp [hlen]
    exact_mod_cast this
  have hnot : ¬ ((1 : ℚ) ≤ thr) := not_le.mpr hthr
  unfold mtldStep
  simp only [httr, hnot, if_false]
  by_cases hi : i = n - 1
  · simp [hi, mtldFresh, hf, hins, hlen]
  · simp [hi, mtldFresh, hf, hins, hlen]

theorem mtldLoop_fresh (thr : ℚ) (hthr : thr < 1) (n : Nat) (rest : List String) :
    ∀ (i : Nat) (st : MtldState), mtldFresh st → rest.Nodup →
      (∀ t ∈ rest, t ∉ st.unique_tokens) → mtldFresh (mtldLoop thr n i rest st) := by
  induction rest with
  | nil => intro i st hst _ _; exact hst
  | cons tok rest ih =>
    intro i st hst hnd hnew
    have hstep := mtldStep_fresh thr hthr n i st tok hst (hnew tok (List.mem_cons_self _ _))
    have hnd2 := List.nodup_cons.mp hnd
    refine ih (i + 1) _ hstep.1 hnd2.2 ?_
    intro t ht
    rw [hstep.2]
    intro hmem
    rcases List.mem_cons.mp hmem with h | h
    · exact hnd2.1 (h ▸ ht)
    · exact hnew t (List.mem_cons_of_mem _ ht) h

theorem mtldFresh_init : mtldFresh mtldInit := by
  simp [mtldFresh, mtldInit]

/-- C7.  With the default threshold 0.72 and a non-empty sequence of pairwise distinct
tokens, the factor is 0 after every prefix of the loop of `calculate_mtld` (it is never
incremented), it is then forced to 1, and `calculate_mtld` returns the length of the
sequence; in particular `calculate_mtld([x])` is 1 for every token `x`. -/
theorem calculate_mtld_distinct (seq : List String) (hne : seq ≠ []) (hnd : seq.Nodup) :
    (∀ k, (mtldLoop default_mtld_threshold seq.length 0 (seq.take k) mtldInit).token_factor = 0)
    ∧ calculate_mtld default_mtld_threshold seq = seq.length
    ∧ (∀ x : String, calculate_mtld default_mtld_threshold [x] = 1) := by
  have hthr : default_mtld_threshold < 1 := by
    unfold default_mtld_threshold; norm_num
  have hloop : ∀ (l : List String) (m : Nat), l.Nodup →
      (mtldLoop default_mtld_threshold m 0 l mtldInit).token_factor = 0 := fun l m hl =>
    (mtldLoop_fresh default_mtld_threshold hthr m l 0 mtldInit mtldFresh_init hl
      (by simp [mtldInit])).1
  have hcalc : ∀ l : List String, l ≠ [] → l.Nodup →
      calculate_mtld default_mtld_threshold l = l.length := by
    intro l hl hlnd
    have hlen : l.length ≠ 0 := fun h => hl (List.length_eq_zero.mp h)
    simp [calculate_mtld, hlen, hloop l l.length hlnd]
  refine ⟨fun k => hloop _ _ (hnd.sublist (List.take_sublist k seq)), hcalc seq hne hnd, ?_⟩
  intro x
  simpa using hcalc [x] (by simp) (by simp)

/-- C7 (witness).  The sequence "de", "kat" is non-empty and has distinct tokens. -/
theorem calculate_mtld_distinct_witness :
    ["de", "kat"] ≠ [] ∧ ["de", "kat"].Nodup
    ∧ calculate_mtld default_mtld_threshold ["de", "kat"] = (["de", "kat"].length : ℚ) :=
  ⟨by decide, by decide,
   (calculate_mtld_distinct ["de", "kat"] (by decide) (by decide)).2.1⟩

/-! ## C8, C9: the clause count and its floor -/

@[simp] theorem setCnt_cnt (c : Counter) (v : Int) (s : structStats) (c1 : Counter) :
    (setCnt c v s).cnt c1 = if c1 = c then v else s.cnt c1 := by
  simp [setCnt, Function.update_apply]

@[simp] theorem bump_cnt (c : Counter) (s : structStats) (c1 : Counter) :
    (bump c s).cnt c1 = if c1 = c then s.cnt c + 1 else s.cnt c1 := by
  simp [bump]

/-- C8.  For every parsed sentence, `resolveFiniteVerbs` sets the three finite-clause
counters to the sizes of the three queries, `clauseCnt` to their sum and
`correctedClauseCnt` to `max(clauseCnt, 1)`; a sentence without finite clause has
`correctedClauseCnt = 1`, and `correctedClauseCnt` is never 0. -/
theorem resolveFiniteVerbs_clause_floor (Node : Type) (getNodesByCat : String → List Node)
    (s : structStats) :
    (resolveFiniteVerbs getNodesByCat s).cnt .smainCnt = (getNodesByCat "smain").length
    ∧ (resolveFiniteVerbs getNodesByCat s).cnt .ssubCnt = (getNodesByCat "ssub").length
    ∧ (resolveFiniteVerbs getNodesByCat s).cnt .sv1Cnt = (getNodesByCat "sv1").length
    ∧ (resolveFiniteVerbs getNodesByCat s).cnt .clauseCnt
        = (resolveFiniteVerbs getNodesByCat s).cnt .smainCnt
          + (resolveFiniteVerbs getNodesByCat s).cnt .ssubCnt
          + (resolveFiniteVerbs getNodesByCat s).cnt .sv1Cnt
    ∧ (resolveFiniteVerbs getNodesByCat s).cnt .correctedClauseCnt
        = max ((resolveFiniteVerbs getNodesByCat s).cnt .clauseCnt) 1
    ∧ ((resolveFiniteVerbs getNodesByCat s).cnt .clauseCnt = 0 →
        (resolveFiniteVerbs getNodesByCat s).cnt .correctedClauseCnt = 1)
    ∧ (resolveFiniteVerbs getNodesByCat s).cnt .correctedClauseCnt ≠ 0 := by
  simp only [resolveFiniteVerbs, setCnt_cnt]
  simp only [reduceCtorEq, if_true, if_false]
  refine ⟨trivial, trivial, trivial, trivial, ?_, ?_, ?_⟩
  · split_ifs <;> omega
  · intro h; split_ifs <;> omega
  · split_ifs <;> omega

/-- C8 (witness).  A sentence whose parse has no `smain`, `ssub` or `sv1` node. -/
theorem resolveFiniteVerbs_clause_floor_witness :
    (resolveFiniteVerbs noClauses zeroNode).cnt .clauseCnt = 0
    ∧ (resolveFiniteVerbs noClauses zeroNode).cnt .correctedClauseCnt = 1 :=
  ⟨by decide,
   (resolveFiniteVerbs_clause_floor Nat noClauses zeroNode).2.2.2.2.2.1 (by decide)⟩

/-- Over children that each satisfy `correctedClauseCnt = max(clauseCnt, 1)`, the sum of
the corrected counts is the sum of the clause counts plus the number of children without
clause, and is at least the number of children. -/
theorem sum_correctedClauseCnt (cs : List structStats)
    (hinv : ∀ s ∈ cs, 0 ≤ s.cnt .clauseCnt
      ∧ s.cnt .correctedClauseCnt = max (s.cnt .clauseCnt) 1) :
    (cs.map (fun s => s.cnt .correctedClauseCnt)).sum
        = (cs.map (fun s => s.cnt .clauseCnt)).sum
          + ((cs.filter (fun s => s.cnt .clauseCnt = 0)).length : Int)
    ∧ (cs.length : Int) ≤ (cs.map (fun s => s.cnt .correctedClauseCnt)).sum := by
  induction cs with
  | nil => simp
  | cons s cs ih =>
    obtain ⟨h0, hmax⟩ := hinv s (List.mem_cons_self _ _)
    obtain ⟨ih1, ih2⟩ := ih (fun t ht => hinv t (List.mem_cons_of_mem _ ht))
    by_cases hz : s.cnt .clauseCnt = 0
    · have hc : s.cnt .correctedClauseCnt = 1 := by rw [hmax, hz]; rfl
      simp only [List.map_cons, List.sum_cons, List.filter_cons, hz, decide_True, if_true,
        List.length_cons, Nat.cast_add, Nat.cast_one, hc]
      omega
    · have hc : s.cnt .correctedClauseCnt = s.cnt .clauseCnt := by
        rw [hmax]; exact max_eq_left (by omega)
      simp only [List.map_cons, List.sum_cons, List.filter_cons, hz, decide_False,
        List.length_cons, Nat.cast_add, Nat.cast_one, hc]
      constructor
      · simp only [Bool.false_eq_true, if_false]; omega
      · omega

/-- C9 (counterexample).  Two parsed sentences without finite clause merged into the zero
node: the parent has `clauseCnt = 0` and `correctedClauseCnt = 2`, not `max(0, 1) = 1`. -/
theorem correctedClauseCnt_merge_fails :
    (mergeAll zeroNode [resolveFiniteVerbs noClauses zeroNode,
        resolveFiniteVerbs noClauses zeroNode]).cnt .correctedClauseCnt
      ≠ max ((mergeAll zeroNode [resolveFiniteVerbs noClauses zeroNode,
        resolveFiniteVerbs noClauses zeroNode]).cnt .clauseCnt) 1 := by
  decide

/-- C9 (amended).  `correctedClauseCnt = max(clauseCnt, 1)` holds for every parsed
sentence node.  `merge` adds the corrected counts of the children: at a node whose
counters start at zero and whose children satisfy the equation, `correctedClauseCnt` is
`clauseCnt` plus the number of children without clause, so it is at least
`max(clauseCnt, 1)` once a child is merged, and it need not be equal to it. -/
theorem correctedClauseCnt_floor (Node : Type) (getNodesByCat : String → List Node)
    (s p : structStats) (cs : List structStats)
    (hcl : p.cnt .clauseCnt = 0) (hcc : p.cnt .correctedClauseCnt = 0)
    (hinv : ∀ t ∈ cs, 0 ≤ t.cnt .clauseCnt
      ∧ t.cnt .correctedClauseCnt = max (t.cnt .clauseCnt) 1) :
    (0 ≤ (resolveFiniteVerbs getNodesByCat s).cnt .clauseCnt
      ∧ (resolveFiniteVerbs getNodesByCat s).cnt .correctedClauseCnt
          = max ((resolveFiniteVerbs getNodesByCat s).cnt .clauseCnt) 1)
    ∧ (mergeAll p cs).cnt .correctedClauseCnt
        = (mergeAll p cs).cnt .clauseCnt
          + ((cs.filter (fun t => t.cnt .clauseCnt = 0)).length : Int)
    ∧ (cs ≠ [] →
        max ((mergeAll p cs).cnt .clauseCnt) 1 ≤ (mergeAll p cs).cnt .correctedClauseCnt) := by
  obtain ⟨hsum, hlen⟩ := sum_correctedClauseCnt cs hinv
  refine ⟨⟨?_, ?_⟩, ?_, fun hne => ?_⟩
  · simp only [resolveFiniteVerbs, setCnt_cnt]
    simp only [reduceCtorEq, if_true, if_false]
    omega
  · simp only [resolveFiniteVerbs, setCnt_cnt]
    simp only [reduceCtorEq, if_true, if_false]
    split_ifs <;> omega
  · rw [mergeAll_cnt, mergeAll_cnt, hcl, hcc, hsum]; ring
  · rw [mergeAll_cnt, mergeAll_cnt, hcl, hcc, hsum]
    have hpos : 0 < cs.length := List.length_pos.mpr hne
    rw [hsum] at hlen
    omega

/-- C9 (witness).  The zero node with two parsed sentences, one of them without finite
clause: the children satisfy the equation and the parent is above the floor. -/
theorem correctedClauseCnt_floor_witness :
    zeroNode.cnt .clauseCnt = 0 ∧ zeroNode.cnt .correctedClauseCnt = 0
    ∧ (∀ t ∈ [resolveFiniteVerbs noClauses zeroNode,
          setCnt .correctedClauseCnt 2 (setCnt .clauseCnt 2 zeroNode)],
        0 ≤ t.cnt .clauseCnt ∧ t.cnt .correctedClauseCnt = max (t.cnt .clauseCnt) 1)
    ∧ max ((mergeAll zeroNode [resolveFiniteVerbs noClauses zeroNode,
          setCnt .correctedClauseCnt 2 (setCnt .clauseCnt 2 zeroNode)]).cnt .clauseCnt) 1
        ≤ (mergeAll zeroNode [resolveFiniteVerbs noClauses zeroNode,
          setCnt .correctedClauseCnt 2 (setCnt .clauseCnt 2 zeroNode)]).cnt
            .correctedClauseCnt :=
  ⟨rfl, rfl, by decide,
   (correctedClauseCnt_floor Nat noClauses zeroNode zeroNode
      [resolveFiniteVerbs noClauses zeroNode,
        setCnt .correctedClauseCnt 2 (setCnt .clauseCnt 2 zeroNode)]
      rfl rfl (by decide)).2.2 (List.cons_ne_nil _ _)⟩

/-! ## C10: the tier counters are cumulative -/

@[simp] theorem pushWord_cnt (ws : wordStats) (s : structStats) (c : Counter) :
    (pushWord ws s).cnt c = s.cnt c := rfl

/-- What one counted word adds to `wordCnt` and to the counters of each tier. -/
theorem sentWordStep_counted (s : structStats) (ws : wordStats)
    (hparsed : s.parseFailCnt = 0) (hword : ws.prop ≠ .ISLET) :
    (sentWordStep s ws).cnt .wordCnt = s.cnt .wordCnt + 1
    ∧ ∀ t ∈ tierCounters,
        (sentWordStep s ws).cnt t.2.1
            = s.cnt t.2.1 + (if tierRank ws.top_freq ≤ tierRank t.1 then 1 else 0)
        ∧ (sentWordStep s ws).cnt t.2.2
            = s.cnt t.2.2
              + (if tierRank ws.top_freq ≤ tierRank t.1 ∧ ws.isContent = true then 1 else 0) := by
  obtain ⟨idx, prop, isC, tf⟩ := ws
  simp only at hword
  simp only [sentWordStep, hparsed, hword, ne_eq, not_true_eq_false, if_false, pushWord_cnt]
  cases tf <;> cases isC <;>
    simp [countTopFreq, tierCounters, tierRank, bump_cnt]

/-- One round of the word loop keeps the nesting of the tier counters. -/
theorem sentWordStep_tierChain (s : structStats) (ws : wordStats) (h : tierChain s) :
    tierChain (sentWordStep s ws) := by
  obtain ⟨idx, prop, isC, tf⟩ := ws
  unfold tierChain at h ⊢
  unfold sentWordStep
  by_cases hp : s.parseFailCnt = 0
  · by_cases hl : prop = CGNProp.ISLET
    · simp only [hp, hl, ne_eq, not_true_eq_false, if_false, if_true, pushWord_cnt, bump_cnt,
        reduceCtorEq]
      exact h
    · simp only [hp, hl, ne_eq, not_true_eq_false, if_false, pushWord_cnt]
      cases tf <;> cases isC <;>
        simp only [countTopFreq, bump_cnt, reduceCtorEq, if_true, if_false,
          Bool.false_eq_true] <;> omega
  · simp only [hp, ne_eq, not_false_eq_true, if_true, pushWord_cnt]
    exact h

theorem sentWordLoop_tierChain (words : List wordStats) (s : structStats) (h : tierChain s) :
    tierChain (sentWordLoop s words) := by
  induction words generalizing s with
  | nil => exact h
  | cons ws rest ih => exact ih (sentWordStep s ws) (sentWordStep_tierChain s ws h)

theorem merge_tierChain (p ss : structStats) (hp : tierChain p) (hs : tierChain ss) :
    tierChain (merge p ss) := by
  unfold tierChain at hp hs ⊢
  simp only [merge_cnt]
  omega

@[simp] theorem bump_parseFailCnt (c : Counter) (s : structStats) :
    (bump c s).parseFailCnt = s.parseFailCnt := rfl

@[simp] theorem bump_sv (c : Counter) (s : structStats) : (bump c s).sv = s.sv := rfl

theorem countTopFreq_parseFailCnt (ws : wordStats) (s : structStats) :
    (countTopFreq ws s).parseFailCnt = s.parseFailCnt
    ∧ (countTopFreq ws s).sv = s.sv := by
  obtain ⟨idx, prop, isC, tf⟩ := ws
  cases tf <;> cases isC <;> simp [countTopFreq]

theorem sentWordStep_parseFailCnt (s : structStats) (ws : wordStats) :
    (sentWordStep s ws).parseFailCnt = s.parseFailCnt := by
  unfold sentWordStep
  split_ifs
  · rfl
  · rfl
  · show (countTopFreq ws (bump .wordCnt s)).parseFailCnt = s.parseFailCnt
    rw [(countTopFreq_parseFailCnt ws _).1]
    rfl

theorem sentWordStep_sv (s : structStats) (ws : wordStats) :
    (sentWordStep s ws).sv = s.sv ++ [ws.index] := by
  unfold sentWordStep
  split_ifs
  · rfl
  · rfl
  · show (countTopFreq ws (bump .wordCnt s)).sv ++ [ws.index] = s.sv ++ [ws.index]
    rw [(countTopFreq_parseFailCnt ws _).2]
    rfl

/-- What a punctuation mark or a word of a sentence that is not parsed adds to the
counters of the words and of the tiers: nothing. -/
theorem sentWordStep_uncounted (s : structStats) (ws : wordStats)
    (h : s.parseFailCnt ≠ 0 ∨ ws.prop = .ISLET) :
    (sentWordStep s ws).cnt .wordCnt = s.cnt .wordCnt
    ∧ ∀ t ∈ tierCounters,
        (sentWordStep s ws).cnt t.2.1 = s.cnt t.2.1
        ∧ (sentWordStep s ws).cnt t.2.2 = s.cnt t.2.2 := by
  unfold sentWordStep
  by_cases hp : s.parseFailCnt ≠ 0
  · rw [if_pos hp]
    exact ⟨rfl, fun t _ => ⟨rfl, rfl⟩⟩
  · rw [if_neg hp]
    have hl : ws.prop = .ISLET := h.resolve_left hp
    rw [if_pos hl]
    refine ⟨by simp, fun t ht => ?_⟩
    simp only [tierCounters, List.mem_cons, List.mem_singleton, List.not_mem_nil,
      or_false] at ht
    rcases ht with rfl | rfl | rfl | rfl | rfl | rfl <;> simp

/-- The word loop of a parsed sentence: the counters of the words and of the tiers after
the loop, by the numbers of counted words. -/
theorem sentWordLoop_counts (words : List wordStats) :
    ∀ s : structStats, s.parseFailCnt = 0 →
      (sentWordLoop s words).cnt .wordCnt
          = s.cnt .wordCnt + (words.countP (fun w => decide (w.prop ≠ .ISLET)) : Nat)
      ∧ ∀ t ∈ tierCounters,
          (sentWordLoop s words).cnt t.2.1
              = s.cnt t.2.1
                + (words.countP (fun w => decide (w.prop ≠ .ISLET
                    ∧ tierRank w.top_freq ≤ tierRank t.1)) : Nat)
          ∧ (sentWordLoop s words).cnt t.2.2
              = s.cnt t.2.2
                + (words.countP (fun w => decide (w.prop ≠ .ISLET
                    ∧ tierRank w.top_freq ≤ tierRank t.1 ∧ w.isContent = true)) : Nat) := by
  induction words with
  | nil => intro s _; exact ⟨by simp [sentWordLoop], fun t _ => by simp [sentWordLoop]⟩
  | cons w rest ih =>
    intro s hs
    have hstep : sentWordLoop s (w :: rest) = sentWordLoop (sentWordStep s w) rest := rfl
    have hpf : (sentWordStep s w).parseFailCnt = 0 := by
      rw [sentWordStep_parseFailCnt]; exact hs
    obtain ⟨ihw, iht⟩ := ih (sentWordStep s w) hpf
    rw [hstep]
    by_cases hl : w.prop = .ISLET
    · obtain ⟨hw0, ht0⟩ := sentWordStep_uncounted s w (Or.inr hl)
      refine ⟨?_, fun t ht => ?_⟩
      · rw [ihw, hw0, List.countP_cons]
        simp [hl]
      · obtain ⟨h1, h2⟩ := iht t ht
        obtain ⟨h3, h4⟩ := ht0 t ht
        rw [h1, h2, h3, h4, List.countP_cons, List.countP_cons]
        simp [hl]
    · obtain ⟨hw0, ht0⟩ := sentWordStep_counted s w hs hl
      refine ⟨?_, fun t ht => ?_⟩
      · rw [ihw, hw0, List.countP_cons]
        simp [hl]
        omega
      · obtain ⟨h1, h2⟩ := iht t ht
        obtain ⟨h3, h4⟩ := ht0 t ht
        rw [h1, h2, h3, h4, List.countP_cons, List.countP_cons]
        constructor
        · by_cases hr : tierRank w.top_freq ≤ tierRank t.1
          · simp [hl, hr]; omega
          · simp [hl, hr]
        · by_cases hr : tierRank w.top_freq ≤ tierRank t.1 ∧ w.isContent = true
          · simp [hl, hr]; omega
          · have hr2 : ¬ (w.prop ≠ .ISLET ∧ tierRank w.top_freq ≤ tierRank t.1
                ∧ w.isContent = true) := fun h => hr h.2
            simp [hr, hr2]

theorem sentWordLoop_sv (words : List wordStats) :
    ∀ s : structStats,
      (sentWordLoop s words).sv = s.sv ++ words.map (fun w => w.index) := by
  induction words with
  | nil => intro s; simp [sentWordLoop]
  | cons w rest ih =>
    intro s
    have hstep : sentWordLoop s (w :: rest) = sentWordLoop (sentWordStep s w) rest := rfl
    rw [hstep, ih, sentWordStep_sv]
    simp

/-- C10.  In the word loop of a parsed sentence a counted word (not punctuation) adds 1
to `wordCnt`, 1 to the counter of its own tier and of every looser tier and nothing to the
counters of the stricter tiers, and likewise to the content-word counters when it is a
content word.  The word loop that builds the sentence applies this round to each of its
words in order: every word is pushed onto `sv`, and after the loop of a parsed sentence
`wordCnt` has grown by the number of words that are not punctuation, the counter of each
tier by the number of those words of that tier or a stricter one, and the content counter
of each tier by the number of content words among them.  Hence the nesting `top1000Cnt <=
top2000Cnt <= top3000Cnt <= top5000Cnt <= top10000Cnt <= top20000Cnt <= wordCnt` holds
after the word loop of every sentence that starts with it, and `merge` of two nodes that
have it gives a node that has it. -/
theorem tier_counters_cumulative (s : structStats) (ws : wordStats) (words : List wordStats)
    (p ss : structStats) :
    (s.parseFailCnt = 0 → ws.prop ≠ .ISLET →
      (sentWordStep s ws).cnt .wordCnt = s.cnt .wordCnt + 1
      ∧ ∀ t ∈ tierCounters,
          (sentWordStep s ws).cnt t.2.1
              = s.cnt t.2.1 + (if tierRank ws.top_freq ≤ tierRank t.1 then 1 else 0)
          ∧ (sentWordStep s ws).cnt t.2.2
              = s.cnt t.2.2
                + (if tierRank ws.top_freq ≤ tierRank t.1 ∧ ws.isContent = true then 1 else 0))
    ∧ (tierChain s → tierChain (sentWordLoop s words))
    ∧ (tierChain p → tierChain ss → tierChain (merge p ss))
    ∧ sentWordLoop s (ws :: words) = sentWordLoop (sentWordStep s ws) words
    ∧ sentWordLoop s [] = s
    ∧ (sentWordLoop s words).sv = s.sv ++ words.map (fun w => w.index)
    ∧ (s.parseFailCnt = 0 →
        (sentWordLoop s words).cnt .wordCnt
            = s.cnt .wordCnt + (words.countP (fun w => decide (w.prop ≠ .ISLET)) : Nat)
        ∧ ∀ t ∈ tierCounters,
            (sentWordLoop s words).cnt t.2.1
                = s.cnt t.2.1
                  + (words.countP (fun w => decide (w.prop ≠ .ISLET
                      ∧ tierRank w.top_freq ≤ tierRank t.1)) : Nat)
            ∧ (sentWordLoop s words).cnt t.2.2
                = s.cnt t.2.2
                  + (words.countP (fun w => decide (w.prop ≠ .ISLET
                      ∧ tierRank w.top_freq ≤ tierRank t.1 ∧ w.isContent = true)) : Nat)) :=
  ⟨sentWordStep_counted s ws, sentWordLoop_tierChain words s, merge_tierChain p ss, rfl, rfl,
    sentWordLoop_sv words s, sentWordLoop_counts words s⟩

/-- C10 (witness).  A parsed sentence of a top1000 content word, a top5000 function word
and a punctuation mark, built from the zero node and merged into the zero node: the loop
counts two words, one of them in the tiers up to top3000 and both from top5000 on, one
content word in every tier, and pushes the three words. -/
theorem tier_counters_cumulative_witness :
    zeroNode.parseFailCnt = 0 ∧ wordTop1000.prop ≠ .ISLET ∧ tierChain zeroNode
    ∧ tierChain (sentWordLoop zeroNode [wordTop1000, wordTop5000, wordPunct])
    ∧ (sentWordStep zeroNode wordTop1000).cnt .wordCnt = zeroNode.cnt .wordCnt + 1
    ∧ tierChain (merge zeroNode (sentWordLoop zeroNode [wordTop1000, wordTop5000, wordPunct]))
    ∧ (sentWordLoop zeroNode [wordTop1000, wordTop5000, wordPunct]).cnt .wordCnt
        = zeroNode.cnt .wordCnt
          + ([wordTop1000, wordTop5000, wordPunct].countP
              (fun w => decide (w.prop ≠ .ISLET)) : Nat)
    ∧ ([.wordCnt, .top1000Cnt, .top2000Cnt, .top3000Cnt, .top5000Cnt, .top10000Cnt,
          .top20000Cnt, .top1000ContentCnt, .top5000ContentCnt, .top20000ContentCnt,
          .letCnt].map
        (sentWordLoop zeroNode [wordTop1000, wordTop5000, wordPunct]).cnt)
        = [2, 1, 1, 1, 2, 2, 2, 1, 1, 1, 1]
    ∧ (sentWordLoop zeroNode [wordTop1000, wordTop5000, wordPunct]).sv = [0, 1, 2] :=
  have hz : tierChain zeroNode := by simp [tierChain, zeroNode]
  have h := tier_counters_cumulative zeroNode wordTop1000 [wordTop1000, wordTop5000, wordPunct]
    zeroNode (sentWordLoop zeroNode [wordTop1000, wordTop5000, wordPunct])
  ⟨rfl, by decide, hz, h.2.1 hz, (h.1 rfl (by decide)).1, h.2.2.1 hz (h.2.1 hz),
    (h.2.2.2.2.2.2 rfl).1, by decide, by decide⟩

/-! ## C11: argument overlap -/

theorem overlapMatch_iff (w b : String) :
    overlapMatch w b ↔
      (w = b ∨ (w ∈ vnw_1s ∧ b ∈ vnw_1s) ∨ (w ∈ vnw_2s ∧ b ∈ vnw_2s)
        ∨ (w ∈ vnw_3sm ∧ b ∈ vnw_3sm) ∨ (w ∈ vnw_3sf ∧ b ∈ vnw_3sf)
        ∨ (w ∈ vnw_1p ∧ b ∈ vnw_1p) ∨ (w ∈ vnw_2p ∧ b ∈ vnw_2p)
        ∨ (w ∈ vnw_3p ∧ b ∈ vnw_3p)) := by
  unfold overlapMatch pronounClasses
  simp only [List.mem_cons, List.mem_singleton, exists_eq_or_imp, exists_eq_left,
    List.not_mem_nil, false_and, exists_false, or_false]
  constructor
  · rintro (h | h)
    · exact Or.inl h.symm
    · exact Or.inr h
  · rintro (h | h)
    · exact Or.inl h.symm
    · exact Or.inr h

theorem argumentOverlapLoop_hit (w b : String) (rest : List String) (n : Int)
    (hb : overlapMatch w b) : argumentOverlapLoop w (b :: rest) n = n + 1 := by
  rw [overlapMatch_iff] at hb
  unfold argumentOverlapLoop
  rcases hb with h | h | h | h | h | h | h | h <;>
    (split_ifs <;> rfl)

theorem argumentOverlapLoop_miss (w b : String) (rest : List String) (n : Int)
    (hb : ¬ overlapMatch w b) :
    argumentOverlapLoop w (b :: rest) n = argumentOverlapLoop w rest n := by
  rw [overlapMatch_iff] at hb
  simp only [not_or] at hb
  obtain ⟨h0, h1, h2, h3, h4, h5, h6, h7⟩ := hb
  conv_lhs => unfold argumentOverlapLoop
  rw [if_neg h0, if_neg h1, if_neg h2, if_neg h3, if_neg h4, if_neg h5, if_neg h6, if_neg h7]

theorem argumentOverlapLoop_eq (w : String) (buffer : List String) (n : Int) :
    argumentOverlapLoop w buffer n = if ∃ b ∈ buffer, overlapMatch w b then n + 1 else n := by
  induction buffer with
  | nil => simp [argumentOverlapLoop]
  | cons b rest ih =>
    by_cases hb : overlapMatch w b
    · rw [argumentOverlapLoop_hit w b rest n hb, if_pos ⟨b, List.mem_cons_self _ _, hb⟩]
    · rw [argumentOverlapLoop_miss w b rest n hb, ih]
      by_cases hr : ∃ x ∈ rest, overlapMatch w x
      · obtain ⟨x, hx, hm⟩ := hr
        rw [if_pos ⟨x, hx, hm⟩, if_pos ⟨x, List.mem_cons_of_mem _ hx, hm⟩]
      · have hnot : ¬ ∃ x ∈ b :: rest, overlapMatch w x := by
          rintro ⟨x, hx, hm⟩
          rcases List.mem_cons.mp hx with h | h
          · exact hb (h ▸ hm)
          · exact hr ⟨x, h, hm⟩
        rw [if_neg hr, if_neg hnot]

/-- C11.  For every string `w`, buffer and counter value `n`, `argument_overlap` leaves
the counter at `n + 1` when some element of the buffer equals `w` or lies with `w` in one
of the seven pronoun classes, and at `n` otherwise; so it never adds more than 1.  The
word "hem" with the buffer ["hij"] adds 1. -/
theorem argument_overlap_spec (w : String) (buffer : List String) (n : Int) :
    argument_overlap w buffer n = (if ∃ b ∈ buffer, overlapMatch w b then n + 1 else n)
    ∧ argument_overlap w buffer n ≤ n + 1
    ∧ argument_overlap "hem" ["hij"] n = n + 1 := by
  have h : argument_overlap w buffer n
      = if ∃ b ∈ buffer, overlapMatch w b then n + 1 else n := by
    unfold argument_overlap
    cases buffer with
    | nil => simp
    | cons b rest => simp only [List.isEmpty_cons, Bool.false_eq_true, if_false]
                     exact argumentOverlapLoop_eq w (b :: rest) n
  refine ⟨h, ?_, ?_⟩
  · rw [h]; split_ifs <;> omega
  · simp [argument_overlap, argumentOverlapLoop, vnw_1s, vnw_2s, vnw_3sm]

/-! ## C20: the frequency logarithm -/

/-- C20.  Over the real numbers, `freqLog(count, total)` is strictly decreasing in
`total` for a fixed `count`: for every `count >= 0` and `0 < t1 < t2`,
`freqLog(count, t1) > freqLog(count, t2)`; and `freqLog(0, 1000) = log10(1e6) = 6`. -/
theorem freqLog_strictly_decreasing (count t1 t2 : Int) (hc : 0 ≤ count) (h1 : 0 < t1)
    (h12 : t1 < t2) :
    freqLog count t2 < freqLog count t1 ∧ freqLog 0 1000 = 6 := by
  constructor
  · unfold freqLog
    have hc1 : (0 : ℝ) < ((count + 1 : Int) : ℝ) := by exact_mod_cast (by omega : 0 < count + 1)
    have ht1 : (0 : ℝ) < (t1 : ℝ) := by exact_mod_cast h1
    have ht2 : (0 : ℝ) < (t2 : ℝ) := by exact_mod_cast (by omega : 0 < t2)
    have ht12 : (t1 : ℝ) < (t2 : ℝ) := by exact_mod_cast h12
    have hpow : (0 : ℝ) < 10 ^ 9 := by positivity
    apply Real.logb_lt_logb (by norm_num)
    · exact mul_pos (div_pos hc1 ht2) hpow
    · exact mul_lt_mul_of_pos_right (div_lt_div_of_pos_left hc1 ht1 ht12) hpow
  · unfold freqLog
    have h : ((((0 + 1 : Int) : ℝ) / ((1000 : Int) : ℝ)) * 10 ^ 9) = (10 : ℝ) ^ (6 : ℕ) := by
      norm_num
    rw [h, Real.logb_pow, Real.logb_self_eq_one (by norm_num)]
    norm_num

/-- C20 (witness).  The count 0 with the totals 1000 and 2000. -/
theorem freqLog_strictly_decreasing_witness :
    (0 : Int) ≤ 0 ∧ (0 : Int) < 1000 ∧ (1000 : Int) < 2000
    ∧ freqLog 0 2000 < freqLog 0 1000 :=
  ⟨by decide, by decide, by decide,
   (freqLog_strictly_decreasing 0 1000 2000 (by decide) (by decide) (by decide)).1⟩

/-! ## Lemmas on the setters of the words -/

theorem setConnTypeAt_eq (sv : List wordStats) (k : Nat) (t : ConnType) (w : wordStats)
    (h : sv[k]? = some w) :
    setConnTypeAt sv k t = some (sv.set k { w with connType := t }) := by
  simp [setConnTypeAt, h]

theorem setMultiConnAt_eq (sv : List wordStats) (k : Nat) (w : wordStats)
    (h : sv[k]? = some w) :
    setMultiConnAt sv k = some (sv.set k { w with isMultiConn := true }) := by
  simp [setMultiConnAt, h]

theorem getElem?_of_lt (sv : List wordStats) (k : Nat) (h : k < sv.length) :
    ∃ w, sv[k]? = some w :=
  ⟨sv[k], List.getElem?_eq_getElem h⟩

theorem lt_of_getElem? {sv : List wordStats} {k : Nat} {w : wordStats}
    (h : sv[k]? = some w) : k < sv.length :=
  (List.getElem?_eq_some_iff.mp h).1

theorem getElem?_set_self {sv : List wordStats} {k : Nat} {w : wordStats} (w1 : wordStats)
    (h : sv[k]? = some w) : (sv.set k w1)[k]? = some w1 := by
  simp [List.getElem?_set, lt_of_getElem? h]

theorem getElem?_set_other (sv : List wordStats) {k j : Nat} (w1 : wordStats) (h : k ≠ j) :
    (sv.set k w1)[j]? = sv[j]? := by
  simp [List.getElem?_set, h]

theorem sameUpToConn_refl (sv : List wordStats) : sameUpToConn sv sv := rfl

theorem sameUpToConn_trans {a b c : List wordStats} (h1 : sameUpToConn a b)
    (h2 : sameUpToConn b c) : sameUpToConn a c := by
  unfold sameUpToConn at *
  rw [h2, h1]

theorem sameUpToConn_length {a b : List wordStats} (h : sameUpToConn a b) :
    b.length = a.length := by
  have := congrArg List.length h
  simpa using this

theorem sameUpToConn_getElem? {a b : List wordStats} (h : sameUpToConn a b) {k : Nat}
    {w : wordStats} (hw : a[k]? = some w) :
    ∃ w1, b[k]? = some w1 ∧ connErase w1 = connErase w := by
  have hk : k < b.length := by rw [sameUpToConn_length h]; exact lt_of_getElem? hw
  obtain ⟨w1, hw1⟩ := getElem?_of_lt b k hk
  refine ⟨w1, hw1, ?_⟩
  have h2 : (b.map connErase)[k]? = (a.map connErase)[k]? := by rw [h]
  simpa [List.getElem?_map, hw, hw1] using h2

theorem sameUpToConn_set {sv : List wordStats} {k : Nat} {w : wordStats} (w1 : wordStats)
    (hw : sv[k]? = some w) (he : connErase w1 = connErase w) :
    sameUpToConn sv (sv.set k w1) := by
  unfold sameUpToConn
  rw [List.map_set, he]
  apply List.ext_getElem?
  intro j
  by_cases hj : k = j
  · subst hj
    obtain ⟨hlt, heq⟩ := List.getElem?_eq_some_iff.mp hw
    simp [List.getElem?_set, List.getElem?_map, hlt, heq]
  · simp [List.getElem?_set, hj]

theorem connErase_setConn (w : wordStats) (t : ConnType) :
    connErase { w with connType := t } = connErase w := rfl

theorem connErase_setMulti (w : wordStats) :
    connErase { w with isMultiConn := true } = connErase w := rfl

theorem connErase_l_word {w w1 : wordStats} (h : connErase w1 = connErase w) :
    w1.l_word = w.l_word := by
  have := congrArg wordStats.l_word h
  simpa [connErase] using this

theorem connErase_tag {w w1 : wordStats} (h : connErase w1 = connErase w) :
    w1.tag = w.tag := by
  have := congrArg wordStats.tag h
  simpa [connErase] using this

/-- Setting the connective type of an existing word: the result, its shape and the word
at every position. -/
theorem setConnTypeAt_spec (sv : List wordStats) (k : Nat) (t : ConnType) (w : wordStats)
    (h : sv[k]? = some w) :
    ∃ sv1, setConnTypeAt sv k t = some sv1 ∧ sameUpToConn sv sv1
      ∧ sv1[k]? = some { w with connType := t }
      ∧ ∀ j, k ≠ j → sv1[j]? = sv[j]? :=
  ⟨_, setConnTypeAt_eq sv k t w h, sameUpToConn_set _ h (connErase_setConn w t),
    getElem?_set_self _ h, fun _ hj => getElem?_set_other sv _ hj⟩

theorem setMultiConnAt_spec (sv : List wordStats) (k : Nat) (w : wordStats)
    (h : sv[k]? = some w) :
    ∃ sv1, setMultiConnAt sv k = some sv1 ∧ sameUpToConn sv sv1
      ∧ sv1[k]? = some { w with isMultiConn := true }
      ∧ ∀ j, k ≠ j → sv1[j]? = sv[j]? :=
  ⟨_, setMultiConnAt_eq sv k w h, sameUpToConn_set _ h (connErase_setMulti w),
    getElem?_set_self _ h, fun _ hj => getElem?_set_other sv _ hj⟩

/-! ## C16: "als" before a numeral -/

theorem nearestAlsTrigger_succ (sv : List wordStats) (k : Nat) (wk : wordStats)
    (hk : sv[k]? = some wk) :
    nearestAlsTrigger sv (k + 1)
      = if isAlsTrigger wk = true then some wk else nearestAlsTrigger sv k := by
  unfold nearestAlsTrigger
  rw [List.take_succ, hk]
  simp only [Option.toList_some, List.reverse_append, List.reverse_cons, List.reverse_nil,
    List.nil_append, List.singleton_append, List.find?_cons]
  cases isAlsTrigger wk <;> simp

/-- The backward loop of `checkAls` from position `k` down, against the nearest trigger
word before `k`. -/
theorem checkAlsLookback_spec (index : Nat) (sv : List wordStats) (w : wordStats)
    (hw : sv[index]? = some w) :
    ∀ k, k ≤ index →
      (nearestAlsTrigger sv k = none → checkAlsLookback index k sv = some none)
      ∧ (∀ t, nearestAlsTrigger sv k = some t →
          ∃ sv1 w1, checkAlsLookback index k sv = some (some sv1) ∧ sameUpToConn sv sv1
            ∧ sv1[index]? = some w1
            ∧ w1.connType
                = if t.l_word ∈ compAlsSet then ConnType.COMPARATIEF
                  else ConnType.OPSOMMEND_WG) := by
  intro k
  induction k with
  | zero =>
    intro _
    refine ⟨fun _ => rfl, fun t ht => ?_⟩
    simp [nearestAlsTrigger] at ht
  | succ k ih =>
    intro hk
    have hlt : k < sv.length := by have := lt_of_getElem? hw; omega
    obtain ⟨wk, hwk⟩ := getElem?_of_lt sv k hlt
    obtain ⟨ihn, ihs⟩ := ih (by omega)
    have hne : k ≠ index := by omega
    rw [nearestAlsTrigger_succ sv k wk hwk]
    by_cases hc : wk.l_word ∈ compAlsSet
    · have htrig : isAlsTrigger wk = true := by simp [isAlsTrigger, hc]
      obtain ⟨sv1, h1, hs1, _, ho1⟩ := setConnTypeAt_spec sv k .COMPARATIEF wk hwk
      have hw1 : sv1[index]? = some w := by rw [ho1 index hne]; exact hw
      obtain ⟨sv2, h2, hs2, hg2, _⟩ := setConnTypeAt_spec sv1 index .COMPARATIEF w hw1
      refine ⟨fun h => by simp [htrig] at h, fun t ht => ?_⟩
      simp only [htrig, if_true, Option.some.injEq] at ht
      subst ht
      refine ⟨sv2, _, ?_, sameUpToConn_trans hs1 hs2, hg2, by simp [hc]⟩
      simp [checkAlsLookback, hwk, hc, h1, h2]
    · by_cases ho : wk.l_word ∈ opsomAlsSet
      · have htrig : isAlsTrigger wk = true := by simp [isAlsTrigger, ho]
        obtain ⟨sv1, h1, hs1, _, ho1⟩ := setConnTypeAt_spec sv k .OPSOMMEND_WG wk hwk
        have hw1 : sv1[index]? = some w := by rw [ho1 index hne]; exact hw
        obtain ⟨sv2, h2, hs2, hg2, _⟩ := setConnTypeAt_spec sv1 index .OPSOMMEND_WG w hw1
        refine ⟨fun h => by simp [htrig] at h, fun t ht => ?_⟩
        simp only [htrig, if_true, Option.some.injEq] at ht
        subst ht
        refine ⟨sv2, _, ?_, sameUpToConn_trans hs1 hs2, hg2, by simp [hc]⟩
        simp [checkAlsLookback, hwk, hc, ho, h1, h2]
      · have htrig : isAlsTrigger wk = false := by simp [isAlsTrigger, hc, ho]
        have hstep : checkAlsLookback index (k + 1) sv = checkAlsLookback index k sv := by
          simp [checkAlsLookback, hwk, hc, ho]
        simp only [htrig, Bool.false_eq_true, if_false]
        rw [hstep]
        exact ⟨ihn, ihs⟩

theorem checkAlsNumeral_numeral (sv : List wordStats) (index : Nat) (w next : wordStats)
    (hw : sv[index]? = some w) (hn : sv[index + 1]? = some next) (htw : next.tag = .TW) :
    ∃ sv1, checkAlsNumeral sv index = some (true, sv1) ∧ sameUpToConn sv sv1
      ∧ sv1[index]? = some { w with connType := .COMPARATIEF } := by
  obtain ⟨sv1, h1, hs1, hg1, _⟩ := setConnTypeAt_spec sv index .COMPARATIEF w hw
  refine ⟨sv1, ?_, hs1, hg1⟩
  simp [checkAlsNumeral, lt_of_getElem? hw, hn, htw, h1]

/-- C16 (counterexample).  In "zowel als twee" the token "als" before the numeral is
classified OPSOMMEND_WG by the backward search, and in "hij als twee" with "als" tagged
VG it is classified CAUSAAL: in both the look-ahead at the numeral is not reached. -/
theorem checkAls_numeral_fails :
    (checkAls [exampleWord 0 "zowel" .BW, exampleWord 1 "als" .VG, exampleWord 2 "twee" .TW]
        1).map (fun r => (r.1, r.2.map (fun w => w.connType)))
      = some (true, [.OPSOMMEND_WG, .OPSOMMEND_WG, .NOCONN])
    ∧ (checkAls [exampleWord 0 "hij" .VNW, exampleWord 1 "als" .VG, exampleWord 2 "twee" .TW]
        1).map (fun r => (r.1, r.2.map (fun w => w.connType)))
      = some (true, [.NOCONN, .CAUSAAL, .NOCONN]) := by
  constructor <;> decide

/-- C16 (amended).  For every sentence and every index whose token is "als" and whose
following token has tag TW, `checkAls` returns true and classifies "als" as follows:
by the nearest trigger word before it when there is one (COMPARATIEF for "net",
"evenmin", "zo", "zomin", OPSOMMEND_WG for "zowel"); else COMPARATIEF when "als" is the
first word or is not tagged VG; else (tagged VG) COMPARATIEF when the preceding token is
tagged ADJ and CAUSAAL when it is not. -/
theorem checkAls_before_numeral (sv : List wordStats) (index : Nat) (w next : wordStats)
    (hw : sv[index]? = some w) (hals : w.l_word = "als")
    (hn : sv[index + 1]? = some next) (htw : next.tag = .TW) :
    ∃ sv1 w1, checkAls sv index = some (true, sv1) ∧ sv1[index]? = some w1
      ∧ w1.connType
          = match nearestAlsTrigger sv index with
            | some t =>
                if t.l_word ∈ compAlsSet then ConnType.COMPARATIEF else ConnType.OPSOMMEND_WG
            | none =>
                if index = 0 then ConnType.COMPARATIEF
                else if w.tag = .VG then
                  (if sv[index - 1]?.map (fun p => p.tag) = some CGNType.ADJ
                    then ConnType.COMPARATIEF else ConnType.CAUSAAL)
                else ConnType.COMPARATIEF := by
  by_cases h0 : index = 0
  · subst h0
    obtain ⟨sv1, h1, _, hg1, ho1⟩ := setConnTypeAt_spec sv 0 .CAUSAAL w hw
    have hn1 : sv1[0 + 1]? = some next := by rw [ho1 1 (by decide)]; exact hn
    obtain ⟨sv2, h2, _, hg2⟩ := checkAlsNumeral_numeral sv1 0 _ next hg1 hn1 htw
    refine ⟨sv2, _, ?_, hg2, ?_⟩
    · simp [checkAls, hw, hals, h1, h2]
    · simp [nearestAlsTrigger]
  · obtain ⟨hnone, hsome⟩ := checkAlsLookback_spec index sv w hw index (le_refl _)
    cases hnear : nearestAlsTrigger sv index with
    | some t =>
      obtain ⟨sv1, w1, h1, _, hg1, hc1⟩ := hsome t hnear
      refine ⟨sv1, w1, ?_, hg1, ?_⟩
      · simp [checkAls, hw, hals, h0, h1]
      · simpa using hc1
    | none =>
      have hlook := hnone hnear
      by_cases hvg : w.tag = .VG
      · have hlt : index - 1 < sv.length := by have := lt_of_getElem? hw; omega
        obtain ⟨prev, hprev⟩ := getElem?_of_lt sv (index - 1) hlt
        by_cases hadj : prev.tag = .ADJ
        · obtain ⟨sv1, h1, _, hg1, _⟩ := setConnTypeAt_spec sv index .COMPARATIEF w hw
          refine ⟨sv1, _, ?_, hg1, ?_⟩
          · simp [checkAls, hw, hals, h0, hlook, hvg, hprev, hadj, h1]
          · simp [h0, hvg, hprev, hadj]
        · obtain ⟨sv1, h1, _, hg1, _⟩ := setConnTypeAt_spec sv index .CAUSAAL w hw
          refine ⟨sv1, _, ?_, hg1, ?_⟩
          · simp [checkAls, hw, hals, h0, hlook, hvg, hprev, hadj, h1]
          · simp [h0, hvg, hprev, hadj]
      · obtain ⟨sv1, h1, _, hg1⟩ := checkAlsNumeral_numeral sv index w next hw hn htw
        refine ⟨sv1, _, ?_, hg1, ?_⟩
        · simp [checkAls, hw, hals, h0, hlook, hvg, h1]
        · simp [h0, hvg]

/-- C16 (witness).  In "hij als twee" with "als" tagged BW the token "als" is classified
COMPARATIEF by the look-ahead at the numeral. -/
theorem checkAls_before_numeral_witness :
    [exampleWord 0 "hij" .VNW, exampleWord 1 "als" .BW, exampleWord 2 "twee" .TW][1]?
        = some (exampleWord 1 "als" .BW)
    ∧ (exampleWord 1 "als" .BW).l_word = "als"
    ∧ [exampleWord 0 "hij" .VNW, exampleWord 1 "als" .BW, exampleWord 2 "twee" .TW][1 + 1]?
        = some (exampleWord 2 "twee" .TW)
    ∧ (exampleWord 2 "twee" .TW).tag = .TW
    ∧ ∃ sv1 w1,
        checkAls [exampleWord 0 "hij" .VNW, exampleWord 1 "als" .BW, exampleWord 2 "twee" .TW] 1
          = some (true, sv1)
        ∧ sv1[1]? = some w1 ∧ w1.connType = ConnType.COMPARATIEF := by
  refine ⟨rfl, rfl, rfl, rfl, ?_⟩
  obtain ⟨sv1, w1, h1, h2, h3⟩ := checkAls_before_numeral
    [exampleWord 0 "hij" .VNW, exampleWord 1 "als" .BW, exampleWord 2 "twee" .TW] 1
    (exampleWord 1 "als" .BW) (exampleWord 2 "twee" .TW) rfl rfl rfl rfl
  refine ⟨sv1, w1, h1, h2, ?_⟩
  rw [h3]
  decide

/-! ## Lemmas on the connective scan -/

theorem setConnTypeAt_modify (sv : List wordStats) (k : Nat) (t : ConnType)
    (h : k < sv.length) :
    setConnTypeAt sv k t = some (sv.modify (fun w => { w with connType := t }) k) := by
  obtain ⟨w, hw⟩ := getElem?_of_lt sv k h
  rw [setConnTypeAt_eq sv k t w hw]
  congr 1
  apply List.ext_getElem?
  intro j
  by_cases hj : k = j
  · subst hj
    obtain ⟨_, heq⟩ := List.getElem?_eq_some_iff.mp hw
    simp [List.getElem?_set, List.getElem?_modify, h, heq]
  · simp [List.getElem?_set, List.getElem?_modify, hj]

theorem setMultiConnAt_modify (sv : List wordStats) (k : Nat) (h : k < sv.length) :
    setMultiConnAt sv k = some (sv.modify (fun w => { w with isMultiConn := true }) k) := by
  obtain ⟨w, hw⟩ := getElem?_of_lt sv k h
  rw [setMultiConnAt_eq sv k w hw]
  congr 1
  apply List.ext_getElem?
  intro j
  by_cases hj : k = j
  · subst hj
    obtain ⟨_, heq⟩ := List.getElem?_eq_some_iff.mp hw
    simp [List.getElem?_set, List.getElem?_modify, h, heq]
  · simp [List.getElem?_set, List.getElem?_modify, hj]

theorem sameUpToConn_modify (sv : List wordStats) (k : Nat) (f : wordStats → wordStats)
    (hf : ∀ w, connErase (f w) = connErase w) : sameUpToConn sv (sv.modify f k) := by
  unfold sameUpToConn
  apply List.ext_getElem?
  intro j
  simp only [List.getElem?_map, List.getElem?_modify]
  cases sv[j]? with
  | none => rfl
  | some w => by_cases hj : k = j <;> simp [hj, hf]

theorem sameUpToConn_modify_right {a b : List wordStats} (k : Nat)
    {f : wordStats → wordStats} (hf : ∀ w, connErase (f w) = connErase w)
    (h : sameUpToConn a b) : sameUpToConn a (b.modify f k) :=
  sameUpToConn_trans h (sameUpToConn_modify b k f hf)

/-- The six statements on a hit of three words: the result and the types it leaves. -/
theorem tagConn3_spec (sv : List wordStats) (i : Nat) (conn : ConnType)
    (h : i + 2 < sv.length) :
    tagConn3 sv i conn = some (taggedConn3 sv i conn)
      ∧ sameUpToConn sv (taggedConn3 sv i conn)
      ∧ connTypeAt (taggedConn3 sv i conn) i = some conn
      ∧ connTypeAt (taggedConn3 sv i conn) (i + 1) = some .NOCONN
      ∧ connTypeAt (taggedConn3 sv i conn) (i + 2) = some .NOCONN
      ∧ ∀ j, (j < i ∨ i + 2 < j) → (taggedConn3 sv i conn)[j]? = sv[j]? := by
  obtain ⟨w0, hw0⟩ := getElem?_of_lt sv i (by omega)
  obtain ⟨w1, hw1⟩ := getElem?_of_lt sv (i + 1) (by omega)
  obtain ⟨w2, hw2⟩ := getElem?_of_lt sv (i + 2) h
  refine ⟨?_, ?_, ?_, ?_, ?_, ?_⟩
  · unfold tagConn3 taggedConn3
    simp only [Option.bind_eq_bind]
    rw [setMultiConnAt_modify sv i (by omega), Option.some_bind,
      setMultiConnAt_modify _ (i + 1) (by simp; omega), Option.some_bind,
      setMultiConnAt_modify _ (i + 2) (by simp; omega), Option.some_bind,
      setConnTypeAt_modify _ i conn (by simp; omega), Option.some_bind,
      setConnTypeAt_modify _ (i + 1) .NOCONN (by simp; omega), Option.some_bind,
      setConnTypeAt_modify _ (i + 2) .NOCONN (by simp; omega)]
  · unfold taggedConn3
    repeat' (first
      | exact sameUpToConn_refl sv
      | (intro _; rfl)
      | refine sameUpToConn_modify_right _ ?_ ?_)
  · simp [taggedConn3, connTypeAt, List.getElem?_modify, hw0]
  · simp [taggedConn3, connTypeAt, List.getElem?_modify, hw1]
  · simp [taggedConn3, connTypeAt, List.getElem?_modify, hw2]
  · intro j hj
    have h0 : i ≠ j := by omega
    have h1 : i + 1 ≠ j := by omega
    have h2 : i + 2 ≠ j := by omega
    simp [taggedConn3, List.getElem?_modify, h0, h1, h2]

/-- The four statements on a hit of two words: the result and the types it leaves. -/
theorem tagConn2_spec (sv : List wordStats) (i : Nat) (conn : ConnType)
    (h : i + 1 < sv.length) :
    tagConn2 sv i conn = some (taggedConn2 sv i conn)
      ∧ sameUpToConn sv (taggedConn2 sv i conn)
      ∧ connTypeAt (taggedConn2 sv i conn) i = some conn
      ∧ connTypeAt (taggedConn2 sv i conn) (i + 1) = some .NOCONN
      ∧ ∀ j, (j < i ∨ i + 1 < j) → (taggedConn2 sv i conn)[j]? = sv[j]? := by
  obtain ⟨w0, hw0⟩ := getElem?_of_lt sv i (by omega)
  obtain ⟨w1, hw1⟩ := getElem?_of_lt sv (i + 1) h
  refine ⟨?_, ?_, ?_, ?_, ?_⟩
  · unfold tagConn2 taggedConn2
    simp only [Option.bind_eq_bind]
    rw [setMultiConnAt_modify sv i (by omega), Option.some_bind,
      setMultiConnAt_modify _ (i + 1) (by simp; omega), Option.some_bind,
      setConnTypeAt_modify _ i conn (by simp; omega), Option.some_bind,
      setConnTypeAt_modify _ (i + 1) .NOCONN (by simp; omega)]
  · unfold taggedConn2
    repeat' (first
      | exact sameUpToConn_refl sv
      | (intro _; rfl)
      | refine sameUpToConn_modify_right _ ?_ ?_)
  · simp [taggedConn2, connTypeAt, List.getElem?_modify, hw0]
  · simp [taggedConn2, connTypeAt, List.getElem?_modify, hw1]
  · intro j hj
    have h0 : i ≠ j := by omega
    have h1 : i + 1 ≠ j := by omega
    simp [taggedConn2, List.getElem?_modify, h0, h1]

theorem checkAlsNumeral_total (sv : List wordStats) (index : Nat) (w next : wordStats)
    (hw : sv[index]? = some w) (hn : sv[index + 1]? = some next) :
    ∃ b sv1, checkAlsNumeral sv index = some (b, sv1) ∧ sameUpToConn sv sv1 := by
  by_cases htw : next.tag = .TW
  · obtain ⟨sv1, h1, hs1, _⟩ := checkAlsNumeral_numeral sv index w next hw hn htw
    exact ⟨true, sv1, h1, hs1⟩
  · exact ⟨false, sv, by simp [checkAlsNumeral, lt_of_getElem? hw, hn, htw],
      sameUpToConn_refl sv⟩

/-- Inside a sentence `checkAls` returns, and changes connective types only. -/
theorem checkAls_total (sv : List wordStats) (index : Nat) (h : index + 1 < sv.length) :
    ∃ b sv1, checkAls sv index = some (b, sv1) ∧ sameUpToConn sv sv1 := by
  obtain ⟨w, hw⟩ := getElem?_of_lt sv index (by omega)
  obtain ⟨next, hn⟩ := getElem?_of_lt sv (index + 1) h
  by_cases hals : w.l_word = "als"
  · by_cases h0 : index = 0
    · subst h0
      obtain ⟨sv1, h1, hs1, hg1, ho1⟩ := setConnTypeAt_spec sv 0 .CAUSAAL w hw
      have hn1 : sv1[0 + 1]? = some next := by rw [ho1 1 (by decide)]; exact hn
      obtain ⟨b, sv2, h2, hs2⟩ := checkAlsNumeral_total sv1 0 _ next hg1 hn1
      exact ⟨b, sv2, by simp [checkAls, hw, hals, h1, h2], sameUpToConn_trans hs1 hs2⟩
    · obtain ⟨hnone, hsome⟩ := checkAlsLookback_spec index sv w hw index (le_refl _)
      cases hnear : nearestAlsTrigger sv index with
      | some t =>
        obtain ⟨sv1, w1, h1, hs1, _, _⟩ := hsome t hnear
        exact ⟨true, sv1, by simp [checkAls, hw, hals, h0, h1], hs1⟩
      | none =>
        have hlook := hnone hnear
        by_cases hvg : w.tag = .VG
        · obtain ⟨prev, hprev⟩ := getElem?_of_lt sv (index - 1) (by omega)
          by_cases hadj : prev.tag = .ADJ
          · obtain ⟨sv1, h1, hs1, _, _⟩ := setConnTypeAt_spec sv index .COMPARATIEF w hw
            exact ⟨true, sv1,
              by simp [checkAls, hw, hals, h0, hlook, hvg, hprev, hadj, h1], hs1⟩
          · obtain ⟨sv1, h1, hs1, _, _⟩ := setConnTypeAt_spec sv index .CAUSAAL w hw
            exact ⟨true, sv1,
              by simp [checkAls, hw, hals, h0, hlook, hvg, hprev, hadj, h1], hs1⟩
        · obtain ⟨b, sv1, h1, hs1⟩ := checkAlsNumeral_total sv index w next hw hn
          exact ⟨b, sv1, by simp [checkAls, hw, hals, h0, hlook, hvg, h1], hs1⟩
  · exact ⟨false, sv, by simp [checkAls, hw, hals], sameUpToConn_refl sv⟩

theorem probeConn2_spec (sv : List wordStats) (i : Nat) (conn : ConnType)
    (h : i + 1 < sv.length) :
    ∃ sv1, probeConn2 sv i conn = some sv1 ∧ sameUpToConn sv sv1
      ∧ (conn ≠ .NOCONN →
          connTypeAt sv1 i = some conn ∧ connTypeAt sv1 (i + 1) = some .NOCONN) := by
  by_cases hc : conn = .NOCONN
  · exact ⟨sv, by simp [probeConn2, hc], sameUpToConn_refl sv, fun hne => absurd hc hne⟩
  · obtain ⟨h1, hs1, ha, hb, _⟩ := tagConn2_spec sv i conn h
    exact ⟨_, by simp [probeConn2, hc, h1], hs1, fun _ => ⟨ha, hb⟩⟩

theorem probeConn3_spec (sv : List wordStats) (i : Nat) (conn : ConnType)
    (h : i + 2 < sv.length) :
    ∃ sv1, probeConn3 sv i conn = some sv1 ∧ sameUpToConn sv sv1
      ∧ (conn ≠ .NOCONN →
          connTypeAt sv1 i = some conn ∧ connTypeAt sv1 (i + 1) = some .NOCONN
          ∧ connTypeAt sv1 (i + 2) = some .NOCONN)
      ∧ (conn = .NOCONN → sv1 = sv) := by
  by_cases hc : conn = .NOCONN
  · exact ⟨sv, by simp [probeConn3, hc], sameUpToConn_refl sv, fun hne => absurd hc hne,
      fun _ => rfl⟩
  · obtain ⟨h1, hs1, ha, hb, hc3, _⟩ := tagConn3_spec sv i conn h
    exact ⟨_, by simp [probeConn3, hc, h1], hs1, fun _ => ⟨ha, hb, hc3⟩,
      fun he => absurd he hc⟩

theorem lwordAt_eq {sv : List wordStats} {k : Nat} {w : wordStats} (h : sv[k]? = some w) :
    lwordAt sv k = w.l_word := by
  simp [lwordAt, h]

/-- One round of the main loop of `resolveConnectives` inside the sentence: it returns,
it changes connective types only, and the types it leaves on a hit. -/
theorem connRound_spec (settings : settingData) (st : sentStats) (i : Nat)
    (h : i + 2 < st.sv.length) :
    ∃ st1, connRound settings st i = some st1 ∧ sameUpToConn st.sv st1.sv
      ∧ (checkMultiConnectives settings
            (lwordAt st.sv i ++ " " ++ lwordAt st.sv (i + 1) ++ " " ++ lwordAt st.sv (i + 2))
          ≠ .NOCONN →
          connTypeAt st1.sv i = some (checkMultiConnectives settings
            (lwordAt st.sv i ++ " " ++ lwordAt st.sv (i + 1) ++ " " ++ lwordAt st.sv (i + 2)))
          ∧ connTypeAt st1.sv (i + 1) = some .NOCONN
          ∧ connTypeAt st1.sv (i + 2) = some .NOCONN)
      ∧ (checkMultiConnectives settings
            (lwordAt st.sv i ++ " " ++ lwordAt st.sv (i + 1) ++ " " ++ lwordAt st.sv (i + 2))
          = .NOCONN →
          (∃ sv0, checkAls st.sv i = some (false, sv0)) →
          checkMultiConnectives settings (lwordAt st.sv i ++ " " ++ lwordAt st.sv (i + 1))
            ≠ .NOCONN →
          connTypeAt st1.sv i = some (checkMultiConnectives settings
            (lwordAt st.sv i ++ " " ++ lwordAt st.sv (i + 1)))
          ∧ connTypeAt st1.sv (i + 1) = some .NOCONN) := by
  obtain ⟨w0, hw0⟩ := getElem?_of_lt st.sv i (by omega)
  obtain ⟨w1, hw1⟩ := getElem?_of_lt st.sv (i + 1) (by omega)
  obtain ⟨w2, hw2⟩ := getElem?_of_lt st.sv (i + 2) h
  obtain ⟨b, svA, hA, hsA⟩ := checkAls_total st.sv i (by omega)
  have hlenA : svA.length = st.sv.length := sameUpToConn_length hsA
  -- the probe of the two-word window
  obtain ⟨svB, hB, hsB, hB2⟩ :
      ∃ svB, (if (!b) = true then
                probeConn2 svA i (checkMultiConnectives settings (w0.l_word ++ " " ++ w1.l_word))
              else some svA) = some svB
        ∧ sameUpToConn svA svB
        ∧ (b = false →
            checkMultiConnectives settings (w0.l_word ++ " " ++ w1.l_word) ≠ .NOCONN →
            connTypeAt svB i
                = some (checkMultiConnectives settings (w0.l_word ++ " " ++ w1.l_word))
              ∧ connTypeAt svB (i + 1) = some .NOCONN) := by
    cases b with
    | true => exact ⟨svA, by simp, sameUpToConn_refl _, fun hb => by simp at hb⟩
    | false =>
      obtain ⟨svB, hB, hsB, hB2⟩ := probeConn2_spec svA i
        (checkMultiConnectives settings (w0.l_word ++ " " ++ w1.l_word)) (by omega)
      exact ⟨svB, by simpa using hB, hsB, fun _ hne => hB2 hne⟩
  have hsAB : sameUpToConn st.sv svB := sameUpToConn_trans hsA hsB
  have hlenB : svB.length = st.sv.length := sameUpToConn_length hsAB
  obtain ⟨w2B, hw2B, he2⟩ := sameUpToConn_getElem? hsAB hw2
  have hl2 : w2B.l_word = w2.l_word := connErase_l_word he2
  obtain ⟨svC, hC, hsC, hC3, hC0⟩ := probeConn3_spec svB i
    (checkMultiConnectives settings (w0.l_word ++ " " ++ w1.l_word ++ " " ++ w2B.l_word))
    (by omega)
  rw [lwordAt_eq hw0, lwordAt_eq hw1, lwordAt_eq hw2]
  rw [hl2] at hC hC3 hC0
  refine ⟨⟨countNegLong (w0.l_word ++ " " ++ w1.l_word ++ " " ++ w2.l_word)
      (countNegLong (w0.l_word ++ " " ++ w1.l_word) st.stats), svC⟩, ?_,
    sameUpToConn_trans hsAB hsC, hC3, ?_⟩
  · unfold connRound
    cases b
    · simp only [Bool.not_false, if_true] at hB
      simp [hw0, hw1, hA, hB, hw2B, hl2, hC]
    · simp only [Bool.not_true, Bool.false_eq_true, if_false, Option.some.injEq] at hB
      subst hB
      simp [hw0, hw1, hA, hw2B, hl2, hC]
  · intro h3 ⟨sv0, hsv0⟩ h2
    have hb : b = false := by
      rw [hA] at hsv0
      simp only [Option.some.injEq, Prod.mk.injEq] at hsv0
      exact hsv0.1
    rw [hC0 h3]
    exact hB2 hb h2

theorem connLoop_spec (settings : settingData) (positions : List Nat) :
    ∀ st : sentStats, (∀ i ∈ positions, i + 2 < st.sv.length) →
      ∃ st1, connLoop settings positions st = some st1 ∧ sameUpToConn st.sv st1.sv := by
  induction positions with
  | nil => intro st _; exact ⟨st, rfl, sameUpToConn_refl _⟩
  | cons i rest ih =>
    intro st hpos
    obtain ⟨st1, h1, hs1, _⟩ := connRound_spec settings st i (hpos i (List.mem_cons_self _ _))
    have hlen : st1.sv.length = st.sv.length := sameUpToConn_length hs1
    obtain ⟨st2, h2, hs2⟩ := ih st1 (fun j hj => by
      rw [hlen]; exact hpos j (List.mem_cons_of_mem _ hj))
    exact ⟨st2, by simp [connLoop, h1, h2], sameUpToConn_trans hs1 hs2⟩

theorem connLastTwo_spec (settings : settingData) (st : sentStats) (h : 2 ≤ st.sv.length) :
    ∃ st1, connLastTwo settings st = some st1 ∧ sameUpToConn st.sv st1.sv
      ∧ (checkMultiConnectives settings
            (lwordAt st.sv (st.sv.length - 2) ++ " " ++ lwordAt st.sv (st.sv.length - 1))
          ≠ .NOCONN →
          connTypeAt st1.sv (st.sv.length - 2) = some (checkMultiConnectives settings
            (lwordAt st.sv (st.sv.length - 2) ++ " " ++ lwordAt st.sv (st.sv.length - 1)))
          ∧ connTypeAt st1.sv (st.sv.length - 1) = some .NOCONN) := by
  obtain ⟨wa, hwa⟩ := getElem?_of_lt st.sv (st.sv.length - 2) (by omega)
  obtain ⟨wb, hwb⟩ := getElem?_of_lt st.sv (st.sv.length - 1) (by omega)
  obtain ⟨sv1, h1, hs1, ht1⟩ := probeConn2_spec st.sv (st.sv.length - 2)
    (checkMultiConnectives settings (wa.l_word ++ " " ++ wb.l_word)) (by omega)
  have hidx : st.sv.length - 2 + 1 = st.sv.length - 1 := by omega
  rw [lwordAt_eq hwa, lwordAt_eq hwb]
  refine ⟨⟨countNegLong (wa.l_word ++ " " ++ wb.l_word) st.stats, sv1⟩, ?_, hs1, ?_⟩
  · unfold connLastTwo
    simp [hwa, hwb, h1]
  · intro hne
    have := ht1 hne
    rw [hidx] at this
    exact this

/-! ## C14: the token that a connective window tags -/

/-- C13 (the code at the failing input).  The lemmas a, b, c, d with "a b c" a time
expression and "b c d" a space expression: the main loop matches "a b c" and puts
TIME_SIT on the token c; the probe of the last three words then matches "b c d" and
overwrites the type of c with NO_SIT, so no time situation is counted. -/
theorem situation_tail_retags :
    (sitLoop overlapSitSettings 4 0 (exampleSentence ["a", "b", "c", "d"]).sv).map
        (fun sv => sv.map (fun w => w.sitType))
      = some [.NO_SIT, .NO_SIT, .TIME_SIT, .NO_SIT]
    ∧ (resolveSituations overlapSitSettings (exampleSentence ["a", "b", "c", "d"])).map
        (fun st => (st.sv.map (fun w => w.sitType), st.stats.cnt .timeSitCnt,
          st.stats.cnt .spaceSitCnt))
      = some ([.NO_SIT, .NO_SIT, .NO_SIT, .SPACE_SIT], 0, 1) := by
  constructor <;> decide

/-! ## C17: the intensifier scan -/

theorem sizeSub_one (n : Nat) (h1 : 1 ≤ n) (h2 : n < 2 ^ 64) : sizeSub n 1 = n - 1 := by
  unfold sizeSub
  have : n + 2 ^ 64 - 1 = (n - 1) + 2 ^ 64 := by omega
  rw [this, Nat.add_mod_right, Nat.mod_eq_of_lt (by omega)]

theorem surfaceExpr_one (sv : List wordStats) (i : Nat) (w : wordStats)
    (h : sv[i]? = some w) : surfaceExpr sv i 1 = w.word := by
  simp [surfaceExpr, h]

theorem surfaceExpr_succ (sv : List wordStats) (i j : Nat) (w : wordStats) (hj : 1 ≤ j)
    (h : sv[i + j]? = some w) :
    surfaceExpr sv i (j + 1) = surfaceExpr sv i j ++ " " ++ w.word := by
  obtain ⟨n, rfl⟩ : ∃ n, j = n + 1 := ⟨j - 1, by omega⟩
  have h2 : sv[i + n + 1]? = some w := h
  simp [surfaceExpr, h2]

/-- The inner loop ends at the first extension found in the lexicon. -/
theorem intensInner_hit (settings : settingData) (sv : List wordStats) (i : Nat) :
    ∀ (m j0 j : Nat), 1 ≤ j0 → j0 ≤ j → j < j0 + m → i + j < sv.length →
      inIntensify settings (surfaceExpr sv i (j + 1)) = true →
      (∀ j1, j0 ≤ j1 → j1 < j → inIntensify settings (surfaceExpr sv i (j1 + 1)) = false) →
      intensInner settings sv i (List.range' j0 m) (surfaceExpr sv i j0) = some (some j) := by
  intro m
  induction m with
  | zero => intro j0 j _ h1 h2; omega
  | succ m ih =>
    intro j0 j hj0 hle hlt hlen hin hmin
    obtain ⟨w, hw⟩ := getElem?_of_lt sv (i + j0) (by omega)
    have hexpr := surfaceExpr_succ sv i j0 w hj0 hw
    rw [List.range'_succ]
    unfold intensInner
    simp only [show i + j0 < sv.length by omega, if_true, hw]
    rw [← hexpr]
    by_cases hj : j = j0
    · subst hj
      have hin2 : (settings.intensify.lookup (surfaceExpr sv i (j + 1))).isSome = true := hin
      simp [hin2]
    · have hmiss := hmin j0 (le_refl _) (by omega)
      have hmiss2 : (settings.intensify.lookup (surfaceExpr sv i (j0 + 1))).isSome = false :=
        hmiss
      simp only [hmiss2, Bool.false_eq_true, if_false]
      exact ih (j0 + 1) j (by omega) (by omega) (by omega) hlen hin
        (fun j1 h1 h2 => hmin j1 (by omega) h2)

/-- The inner loop ends without a hit when no extension is in the lexicon. -/
theorem intensInner_miss (settings : settingData) (sv : List wordStats) (i : Nat) :
    ∀ (m j0 : Nat), 1 ≤ j0 →
      (∀ j, j0 ≤ j → j < j0 + m → i + j < sv.length →
        inIntensify settings (surfaceExpr sv i (j + 1)) = false) →
      intensInner settings sv i (List.range' j0 m) (surfaceExpr sv i j0) = some none := by
  intro m
  induction m with
  | zero => intro j0 _ _; rfl
  | succ m ih =>
    intro j0 hj0 hall
    rw [List.range'_succ]
    unfold intensInner
    by_cases hlen : i + j0 < sv.length
    · obtain ⟨w, hw⟩ := getElem?_of_lt sv (i + j0) hlen
      have hexpr := surfaceExpr_succ sv i j0 w hj0 hw
      have hmiss : (settings.intensify.lookup (surfaceExpr sv i (j0 + 1))).isSome = false :=
        hall j0 (le_refl _) (by omega) hlen
      simp only [hlen, if_true, hw]
      rw [← hexpr]
      simp only [hmiss, Bool.false_eq_true, if_false]
      exact ih (j0 + 1) (by omega) (fun j h1 h2 h3 => hall j (by omega) (by omega) h3)
    · simp [hlen]

/-- The rounds given to the outer loop do not matter once they are enough. -/
theorem intensLoop_fuel (settings : settingData) (sv : List wordStats)
    (h1 : 1 ≤ sv.length) (h2 : sv.length < 2 ^ 64) :
    ∀ (f1 f2 i : Nat) (s : structStats), sv.length ≤ i + f1 + 1 → sv.length ≤ i + f2 + 1 →
      intensLoop settings sv f1 i s = intensLoop settings sv f2 i s := by
  have hsub := sizeSub_one sv.length h1 h2
  intro f1
  induction f1 with
  | zero =>
    intro f2 i s hf1 _
    have hc : ¬ i < sv.length - 1 := by omega
    cases f2 <;> simp [intensLoop, hsub, hc]
  | succ f1 ih =>
    intro f2 i s _ hf2
    by_cases hc : i < sv.length - 1
    · obtain ⟨f3, rfl⟩ : ∃ f3, f2 = f3 + 1 := ⟨f2 - 1, by omega⟩
      simp only [intensLoop, hsub, hc, if_true]
      cases sv[i]? with
      | none => rfl
      | some w =>
        simp only []
        cases intensInner settings sv i (List.range' 1 (max_length_intensify - 1)) w.word with
        | none => rfl
        | some r =>
          cases r with
          | none => exact ih f3 (i + 1) s (by omega) (by omega)
          | some j => exact ih f3 (i + j + 1) _ (by omega) (by omega)
    · cases f2 <;> simp [intensLoop, hsub, hc]

theorem intensInner_total (settings : settingData) (sv : List wordStats) (i : Nat) :
    ∀ (js : List Nat) (mw : String), ∃ r, intensInner settings sv i js mw = some r := by
  intro js
  induction js with
  | nil => intro mw; exact ⟨none, rfl⟩
  | cons j rest ih =>
    intro mw
    unfold intensInner
    by_cases hlen : i + j < sv.length
    · obtain ⟨w, hw⟩ := getElem?_of_lt sv (i + j) hlen
      simp only [hlen, if_true, hw]
      by_cases hin : (settings.intensify.lookup (mw ++ " " ++ w.word)).isSome = true
      · exact ⟨some j, by simp [hin]⟩
      · obtain ⟨r, hr⟩ := ih (mw ++ " " ++ w.word)
        exact ⟨r, by simp [hin, hr]⟩
    · exact ⟨none, by simp [hlen]⟩

theorem intensLoop_total (settings : settingData) (sv : List wordStats)
    (h1 : 1 ≤ sv.length) (h2 : sv.length < 2 ^ 64) :
    ∀ (fuel i : Nat) (s : structStats), sv.length ≤ i + fuel + 1 →
      ∃ s1, intensLoop settings sv fuel i s = some s1 := by
  have hsub := sizeSub_one sv.length h1 h2
  intro fuel
  induction fuel with
  | zero =>
    intro i s hf
    have hc : ¬ i < sv.length - 1 := by omega
    exact ⟨s, by simp [intensLoop, hsub, hc]⟩
  | succ fuel ih =>
    intro i s hf
    by_cases hc : i < sv.length - 1
    · obtain ⟨w, hw⟩ := getElem?_of_lt sv i (by omega)
      obtain ⟨r, hr⟩ := intensInner_total settings sv i
        (List.range' 1 (max_length_intensify - 1)) w.word
      cases r with
      | none =>
        obtain ⟨s1, hs1⟩ := ih (i + 1) s (by omega)
        exact ⟨s1, by simp [intensLoop, hsub, hc, hw, hr, hs1]⟩
      | some j =>
        obtain ⟨s1, hs1⟩ := ih (i + j + 1) (addIntens (j + 1) s) (by omega)
        exact ⟨s1, by simp [intensLoop, hsub, hc, hw, hr, hs1]⟩
    · exact ⟨s, by simp [intensLoop, hsub, hc]⟩

/-- C17.  For every sentence with at least one token, `resolveMultiWordIntensify` is the
loop from position 0 and returns.  At a start position `i` that is not the last one: when
`L` (2 <= L <= 5) is the least length for which the space-joined raw surface forms of the
`L` tokens from `i` are in the intensifier lexicon, the loop adds `L` to `intensCombiCnt`
and to `intensCnt` and goes on at position `i + L`; when there is no such length it
changes no counter and goes on at `i + 1`.  From the last position on the loop ends. -/
theorem intensifier_scan (settings : settingData) (sv : List wordStats) (s : structStats)
    (i : Nat) (h1 : 1 ≤ sv.length) (h2 : sv.length < 2 ^ 64) :
    resolveMultiWordIntensify settings { stats := s, sv := sv }
        = (intensLoop settings sv (sv.length + 1) 0 s).map
            (fun s1 => { stats := s1, sv := sv })
    ∧ (∃ s1, intensLoop settings sv (sv.length + 1) i s = some s1)
    ∧ (∀ L, i + 1 < sv.length → 2 ≤ L → L ≤ 5 → i + L ≤ sv.length →
        inIntensify settings (surfaceExpr sv i L) = true →
        (∀ L1, 2 ≤ L1 → L1 < L → inIntensify settings (surfaceExpr sv i L1) = false) →
        intensLoop settings sv (sv.length + 1) i s
            = intensLoop settings sv (sv.length + 1) (i + L) (addIntens L s)
          ∧ (addIntens L s).cnt .intensCombiCnt = s.cnt .intensCombiCnt + L
          ∧ (addIntens L s).cnt .intensCnt = s.cnt .intensCnt + L)
    ∧ (i + 1 < sv.length →
        (∀ L, 2 ≤ L → L ≤ 5 → i + L ≤ sv.length →
          inIntensify settings (surfaceExpr sv i L) = false) →
        intensLoop settings sv (sv.length + 1) i s
          = intensLoop settings sv (sv.length + 1) (i + 1) s)
    ∧ (sv.length ≤ i + 1 → intensLoop settings sv (sv.length + 1) i s = some s) := by
  have hsub := sizeSub_one sv.length h1 h2
  refine ⟨rfl, intensLoop_total settings sv h1 h2 _ i s (by omega), ?_, ?_, ?_⟩
  · intro L hi hL2 hL5 hLlen hin hmin
    obtain ⟨w, hw⟩ := getElem?_of_lt sv i (by omega)
    obtain ⟨j, rfl⟩ : ∃ j, L = j + 1 := ⟨L - 1, by omega⟩
    have hinner : intensInner settings sv i (List.range' 1 (max_length_intensify - 1)) w.word
        = some (some j) := by
      rw [← surfaceExpr_one sv i w hw]
      exact intensInner_hit settings sv i 4 1 j (le_refl _) (by omega) (by omega) (by omega)
        hin (fun j1 hj1 hj1j => hmin (j1 + 1) (by omega) (by omega))
    refine ⟨?_, ?_, ?_⟩
    · have hc : i < sv.length - 1 := by omega
      have hstep : intensLoop settings sv (sv.length + 1) i s
          = intensLoop settings sv sv.length (i + j + 1) (addIntens (j + 1) s) := by
        simp [intensLoop, hsub, hc, hw, hinner]
      rw [hstep]
      exact intensLoop_fuel settings sv h1 h2 _ _ _ _ (by omega) (by omega)
    · simp [addIntens]
    · simp [addIntens]
  · intro hi hall
    obtain ⟨w, hw⟩ := getElem?_of_lt sv i (by omega)
    have hinner : intensInner settings sv i (List.range' 1 (max_length_intensify - 1)) w.word
        = some none := by
      rw [← surfaceExpr_one sv i w hw]
      exact intensInner_miss settings sv i 4 1 (le_refl _)
        (fun j hj1 hj2 hj3 => hall (j + 1) (by omega) (by omega) (by omega))
    have hc : i < sv.length - 1 := by omega
    have hstep : intensLoop settings sv (sv.length + 1) i s
        = intensLoop settings sv sv.length (i + 1) s := by
      simp [intensLoop, hsub, hc, hw, hinner]
    rw [hstep]
    exact intensLoop_fuel settings sv h1 h2 _ _ _ _ (by omega) (by omega)
  · intro hi
    have hc : ¬ i < sv.length - 1 := by omega
    simp [intensLoop, hsub, hc]

/-- C17 (witness).  In "heel erg mooi" with "heel erg" in the lexicon, the scan at
position 0 adds 2 to both counters and goes on at position 2, where it ends. -/
theorem intensifier_scan_witness :
    1 ≤ (exampleSentence ["heel", "erg", "mooi"]).sv.length
    ∧ (exampleSentence ["heel", "erg", "mooi"]).sv.length < 2 ^ 64
    ∧ (resolveMultiWordIntensify exampleIntensSettings
          (exampleSentence ["heel", "erg", "mooi"])).map
        (fun st => (st.stats.cnt .intensCombiCnt, st.stats.cnt .intensCnt))
      = some (2, 2)
    ∧ intensLoop exampleIntensSettings (exampleSentence ["heel", "erg", "mooi"]).sv
          ((exampleSentence ["heel", "erg", "mooi"]).sv.length + 1) 0 zeroNode
        = intensLoop exampleIntensSettings (exampleSentence ["heel", "erg", "mooi"]).sv
          ((exampleSentence ["heel", "erg", "mooi"]).sv.length + 1) (0 + 2)
          (addIntens 2 zeroNode) := by
  have hthm := intensifier_scan exampleIntensSettings
    (exampleSentence ["heel", "erg", "mooi"]).sv zeroNode 0 (by decide) (by decide)
  refine ⟨by decide, by decide, by decide, ?_⟩
  exact (hthm.2.2.1 2 (by decide) (by decide) (by decide) (by decide) (by decide)
    (fun L1 h2 hlt => by omega)).1

/-! ## C18: the preposition-expression scan -/

/-- The body of the loop of `resolvePrepExpr` at a position with a word after it. -/
theorem prepRound_eq (settings : settingData) (sv : List wordStats) (i : Nat)
    (s : structStats) (h : i + 1 < sv.length) :
    prepRound settings sv i s
      = if lwordAt sv i ++ " " ++ lwordAt sv (i + 1) ∈ settings.vzexpr2 then
          some (bump .prepExprCnt s, i + 1)
        else if i < sv.length - 2 then
          if lwordAt sv i ++ " " ++ lwordAt sv (i + 1) ++ " " ++ lwordAt sv (i + 2)
              ∈ settings.vzexpr3 then
            some (bump .prepExprCnt s, i + 2)
          else if i < sv.length - 3 then
            if lwordAt sv i ++ " " ++ lwordAt sv (i + 1) ++ " " ++ lwordAt sv (i + 2) ++ " "
                ++ lwordAt sv (i + 3) ∈ settings.vzexpr4 then
              some (bump .prepExprCnt s, i + 3)
            else some (s, i)
          else some (s, i)
        else some (s, i) := by
  obtain ⟨w0, hw0⟩ := getElem?_of_lt sv i (by omega)
  obtain ⟨w1, hw1⟩ := getElem?_of_lt sv (i + 1) h
  rw [lwordAt_eq hw0, lwordAt_eq hw1]
  unfold prepRound
  simp only [Option.bind_eq_bind, hw0, hw1, Option.some_bind]
  by_cases h2 : w0.l_word ++ " " ++ w1.l_word ∈ settings.vzexpr2
  · simp [h2]
  · simp only [h2, if_false]
    by_cases hi2 : i < sv.length - 2
    · obtain ⟨w2, hw2⟩ := getElem?_of_lt sv (i + 2) (by omega)
      rw [lwordAt_eq hw2]
      simp only [hi2, if_true, hw2, Option.some_bind]
      by_cases h3 : w0.l_word ++ " " ++ w1.l_word ++ " " ++ w2.l_word ∈ settings.vzexpr3
      · simp [h3]
      · simp only [h3, if_false]
        by_cases hi3 : i < sv.length - 3
        · obtain ⟨w3, hw3⟩ := getElem?_of_lt sv (i + 3) (by omega)
          rw [lwordAt_eq hw3]
          simp only [hi3, if_true, hw3, Option.some_bind]
        · simp [hi3]
    · simp [hi2]

/-- The rounds given to the loop of `resolvePrepExpr` do not matter once they are enough. -/
theorem prepLoop_fuel (settings : settingData) (sv : List wordStats) :
    ∀ (f1 f2 i : Nat) (s : structStats), sv.length ≤ i + f1 + 1 → sv.length ≤ i + f2 + 1 →
      prepLoop settings sv f1 i s = prepLoop settings sv f2 i s := by
  intro f1
  induction f1 with
  | zero =>
    intro f2 i s hf1 _
    have hc : ¬ i < sv.length - 1 := by omega
    cases f2 <;> simp [prepLoop, hc]
  | succ f1 ih =>
    intro f2 i s _ hf2
    by_cases hc : i < sv.length - 1
    · obtain ⟨f3, rfl⟩ : ∃ f3, f2 = f3 + 1 := ⟨f2 - 1, by omega⟩
      simp only [prepLoop, hc, if_true]
      rw [prepRound_eq settings sv i s (by omega)]
      split_ifs <;> exact ih f3 _ _ (by omega) (by omega)
    · cases f2 <;> simp [prepLoop, hc]

theorem prepLoop_total (settings : settingData) (sv : List wordStats) :
    ∀ (fuel i : Nat) (s : structStats), sv.length ≤ i + fuel + 1 →
      ∃ s1, prepLoop settings sv fuel i s = some s1 := by
  intro fuel
  induction fuel with
  | zero =>
    intro i s hf
    have hc : ¬ i < sv.length - 1 := by omega
    exact ⟨s, by simp [prepLoop, hc]⟩
  | succ fuel ih =>
    intro i s hf
    by_cases hc : i < sv.length - 1
    · simp only [prepLoop, hc, if_true]
      rw [prepRound_eq settings sv i s (by omega)]
      split_ifs <;> exact ih _ _ (by omega)
    · exact ⟨s, by simp [prepLoop, hc]⟩

/-- C18 (counterexample).  With "a b" and "c d" in `vzexpr2` and "a b c" in `vzexpr3`, the
tokens a, b, c, d give `prepExprCnt = 2`: the two-token entry "a b" is taken at position
0, not the three-token entry "a b c", and "c d" is found after it. -/
theorem prepExpr_longest_fails :
    (resolvePrepExpr examplePrepSettings (exampleSentence ["a", "b", "c", "d"])).map
        (fun st => st.stats.cnt .prepExprCnt) = some 2 := by
  decide

/-- C18 (amended).  The preposition-expression scan is shortest-match-first.  For every
sentence of more than two words the scan returns; at a start position `i` that is not
the last one: when the two tokens at `i` are an entry of `vzexpr2` the scan counts one
expression and goes on at `i + 2`, whether or not a longer expression matches at `i`;
when they are not and the three tokens at `i` are an entry of `vzexpr3` it counts one and
goes on at `i + 3`; when neither is and the four tokens at `i` are an entry of `vzexpr4`
it counts one and goes on at `i + 4`. -/
theorem prepExpr_shortest_match_first (settings : settingData) (sv : List wordStats)
    (s : structStats) (i : Nat) (hlen : 2 < sv.length) (hi : i + 1 < sv.length) :
    resolvePrepExpr settings { stats := s, sv := sv }
        = (prepLoop settings sv sv.length 0 s).map (fun s1 => { stats := s1, sv := sv })
    ∧ (∃ s1, prepLoop settings sv sv.length i s = some s1)
    ∧ (lwordAt sv i ++ " " ++ lwordAt sv (i + 1) ∈ settings.vzexpr2 →
        prepLoop settings sv sv.length i s
          = prepLoop settings sv sv.length (i + 2) (bump .prepExprCnt s))
    ∧ (lwordAt sv i ++ " " ++ lwordAt sv (i + 1) ∉ settings.vzexpr2 →
        i + 2 < sv.length →
        lwordAt sv i ++ " " ++ lwordAt sv (i + 1) ++ " " ++ lwordAt sv (i + 2)
          ∈ settings.vzexpr3 →
        prepLoop settings sv sv.length i s
          = prepLoop settings sv sv.length (i + 3) (bump .prepExprCnt s))
    ∧ (lwordAt sv i ++ " " ++ lwordAt sv (i + 1) ∉ settings.vzexpr2 →
        i + 3 < sv.length →
        lwordAt sv i ++ " " ++ lwordAt sv (i + 1) ++ " " ++ lwordAt sv (i + 2)
          ∉ settings.vzexpr3 →
        lwordAt sv i ++ " " ++ lwordAt sv (i + 1) ++ " " ++ lwordAt sv (i + 2) ++ " "
          ++ lwordAt sv (i + 3) ∈ settings.vzexpr4 →
        prepLoop settings sv sv.length i s
          = prepLoop settings sv sv.length (i + 4) (bump .prepExprCnt s)) := by
  obtain ⟨f, hf⟩ : ∃ f, sv.length = f + 1 := ⟨sv.length - 1, by omega⟩
  have hc : i < sv.length - 1 := by omega
  have hstep : prepLoop settings sv sv.length i s
      = match prepRound settings sv i s with
        | none => none
        | some (s1, i1) => prepLoop settings sv f (i1 + 1) s1 := by
    conv_lhs => rw [hf]
    simp only [prepLoop]
    rw [if_pos hc]
  refine ⟨by simp [resolvePrepExpr, hlen], prepLoop_total settings sv _ i s (by omega),
    ?_, ?_, ?_⟩
  · intro h2
    rw [hstep, prepRound_eq settings sv i s hi, if_pos h2]
    exact prepLoop_fuel settings sv _ _ _ _ (by omega) (by omega)
  · intro h2 hi2 h3
    have hi2' : i < sv.length - 2 := by omega
    rw [hstep, prepRound_eq settings sv i s hi, if_neg h2, if_pos hi2', if_pos h3]
    exact prepLoop_fuel settings sv _ _ _ _ (by omega) (by omega)
  · intro h2 hi3 h3 h4
    have hi2' : i < sv.length - 2 := by omega
    have hi3' : i < sv.length - 3 := by omega
    rw [hstep, prepRound_eq settings sv i s hi, if_neg h2, if_pos hi2', if_neg h3, if_pos hi3',
      if_pos h4]
    exact prepLoop_fuel settings sv _ _ _ _ (by omega) (by omega)

/-- C18 (witness).  The tokens a, b, c, d with "a b" in `vzexpr2` and "a b c" in `vzexpr3`:
at position 0 the scan counts the two-token expression and goes on at position 2. -/
theorem prepExpr_shortest_match_first_witness :
    2 < (exampleSentence ["a", "b", "c", "d"]).sv.length
    ∧ 0 + 1 < (exampleSentence ["a", "b", "c", "d"]).sv.length
    ∧ lwordAt (exampleSentence ["a", "b", "c", "d"]).sv 0 ++ " "
        ++ lwordAt (exampleSentence ["a", "b", "c", "d"]).sv (0 + 1)
        ∈ examplePrepSettings.vzexpr2
    ∧ lwordAt (exampleSentence ["a", "b", "c", "d"]).sv 0 ++ " "
        ++ lwordAt (exampleSentence ["a", "b", "c", "d"]).sv (0 + 1) ++ " "
        ++ lwordAt (exampleSentence ["a", "b", "c", "d"]).sv (0 + 2)
        ∈ examplePrepSettings.vzexpr3
    ∧ prepLoop examplePrepSettings (exampleSentence ["a", "b", "c", "d"]).sv
          (exampleSentence ["a", "b", "c", "d"]).sv.length 0 zeroNode
        = prepLoop examplePrepSettings (exampleSentence ["a", "b", "c", "d"]).sv
          (exampleSentence ["a", "b", "c", "d"]).sv.length (0 + 2)
          (bump .prepExprCnt zeroNode) :=
  ⟨by decide, by decide, by decide, by decide,
   (prepExpr_shortest_match_first examplePrepSettings
      (exampleSentence ["a", "b", "c", "d"]).sv zeroNode 0 (by decide) (by decide)).2.2.1
      (by decide)⟩

/-! ## C19: the window of the overlap at document level -/

theorem lastN_length {α : Type} (n : Nat) (l : List α) :
    (lastN n l).length = min n l.length := by
  unfold lastN
  rw [List.length_drop]
  omega

/-- Pushing an element on a buffer that holds the last `n` elements, after erasing the
first element when the buffer is full, gives the last `n` elements again. -/
theorem lastN_push {α : Type} (n : Nat) (hn : 1 ≤ n) (l : List α) (x : α) :
    (if (lastN n l).length ≥ n then (lastN n l).tail else lastN n l) ++ [x]
      = lastN n (l ++ [x]) := by
  unfold lastN
  by_cases h : n ≤ l.length
  · have hlen : (List.drop (l.length - n) l).length ≥ n := by rw [List.length_drop]; omega
    rw [if_pos hlen, List.tail_drop, List.length_append, List.length_singleton,
      List.drop_append_of_le_length (by omega)]
    congr 2
    omega
  · have hlen : ¬ (List.drop (l.length - n) l).length ≥ n := by rw [List.length_drop]; omega
    rw [if_neg hlen, List.length_append, List.length_singleton]
    have h0 : l.length - n = 0 := by omega
    have h1 : l.length + 1 - n = 0 := by omega
    rw [h0, h1]
    rfl

theorem nonPunct_append (ws : List wordStats) (w : wordStats) :
    nonPunct (ws ++ [w]) = if w.prop = .ISLET then nonPunct ws else nonPunct ws ++ [w] := by
  unfold nonPunct
  by_cases h : w.prop = .ISLET <;> simp [List.filter_append, h]

theorem docOverlapLoop_append (settings : settingData) (ws : List wordStats) (w : wordStats)
    (st : DocOverlap) :
    docOverlapLoop settings (ws ++ [w]) st
      = (docOverlapLoop settings ws st).bind (fun st1 => docOverlapStep settings st1 w) := by
  induction ws generalizing st with
  | nil =>
    simp only [List.nil_append, docOverlapLoop, Option.some_bind]
    cases docOverlapStep settings st w <;> rfl
  | cons v rest ih =>
    simp only [List.cons_append, docOverlapLoop]
    cases docOverlapStep settings st v with
    | none => rfl
    | some st1 => exact ih st1

/-- One round of the loop of `calculate_doc_overlap` on a state whose buffers hold the
last `overlapSize` forms of a list of words. -/
theorem docOverlapStep_window (settings : settingData) (hos : 1 ≤ settings.overlapSize)
    (P : List wordStats) (st : DocOverlap) (w : wordStats)
    (hwb : st.wordbuffer = lastN settings.overlapSize (P.map (fun v => v.l_word)))
    (hlb : st.lemmabuffer = lastN settings.overlapSize (P.map (fun v => v.l_lemma))) :
    ∃ st1, docOverlapStep settings st w = some st1
      ∧ st1.wordbuffer
          = lastN settings.overlapSize
              ((if w.prop = .ISLET then P else P ++ [w]).map (fun v => v.l_word))
      ∧ st1.lemmabuffer
          = lastN settings.overlapSize
              ((if w.prop = .ISLET then P else P ++ [w]).map (fun v => v.l_lemma))
      ∧ st1.doc_word_overlapCnt
          = (if w.prop ≠ .ISLET ∧ settings.overlapSize ≤ P.length
                ∧ isOverlapCandidate w = true then
              argument_overlap w.l_word st.wordbuffer st.doc_word_overlapCnt
            else st.doc_word_overlapCnt)
      ∧ st1.doc_lemma_overlapCnt
          = (if w.prop ≠ .ISLET ∧ settings.overlapSize ≤ P.length
                ∧ isOverlapCandidate w = true then
              argument_overlap w.l_lemma st.lemmabuffer st.doc_lemma_overlapCnt
            else st.doc_lemma_overlapCnt) := by
  by_cases hlet : w.prop = .ISLET
  · exact ⟨st, by simp [docOverlapStep, hlet], by simp [hlet, hwb], by simp [hlet, hlb],
      by simp [hlet], by simp [hlet]⟩
  · have hpw := lastN_push settings.overlapSize hos (P.map (fun v => v.l_word)) w.l_word
    have hpl := lastN_push settings.overlapSize hos (P.map (fun v => v.l_lemma)) w.l_lemma
    have hlenw : st.wordbuffer.length = min settings.overlapSize P.length := by
      rw [hwb, lastN_length, List.length_map]
    have hlenl : st.lemmabuffer.length = min settings.overlapSize P.length := by
      rw [hlb, lastN_length, List.length_map]
    rw [← hwb] at hpw
    rw [← hlb] at hpl
    simp only [hlet, if_false, List.map_append, List.map_cons, List.map_nil]
    by_cases hfull : settings.overlapSize ≤ P.length
    · have hge : st.wordbuffer.length ≥ settings.overlapSize := by rw [hlenw]; omega
      have hgel : st.lemmabuffer.length ≥ settings.overlapSize := by rw [hlenl]; omega
      rw [if_pos hge] at hpw
      rw [if_pos hgel] at hpl
      obtain ⟨b, wb, hb⟩ : ∃ b wb, st.wordbuffer = b :: wb := by
        cases hx : st.wordbuffer with
        | nil => rw [hx] at hge; simp at hge; omega
        | cons b wb => exact ⟨b, wb, rfl⟩
      obtain ⟨c, lb, hc⟩ : ∃ c lb, st.lemmabuffer = c :: lb := by
        cases hx : st.lemmabuffer with
        | nil => rw [hx] at hgel; simp at hgel; omega
        | cons c lb => exact ⟨c, lb, rfl⟩
      rw [hb, List.tail_cons] at hpw
      rw [hc, List.tail_cons] at hpl
      by_cases hcand : isOverlapCandidate w = true
      · refine ⟨⟨wb ++ [w.l_word], lb ++ [w.l_lemma],
          argument_overlap w.l_word st.wordbuffer st.doc_word_overlapCnt,
          argument_overlap w.l_lemma st.lemmabuffer st.doc_lemma_overlapCnt⟩,
          ?_, hpw, hpl, ?_, ?_⟩
        · have hge2 : (b :: wb).length ≥ settings.overlapSize := hb ▸ hge
          simp only [docOverlapStep, hlet, if_false, hcand, hb, hc, if_true]
          rw [if_pos hge2]
          rfl
        · simp [hlet, hfull, hcand]
        · simp [hlet, hfull, hcand]
      · refine ⟨⟨wb ++ [w.l_word], lb ++ [w.l_lemma], st.doc_word_overlapCnt,
          st.doc_lemma_overlapCnt⟩, ?_, hpw, hpl, ?_, ?_⟩
        · have hge2 : (b :: wb).length ≥ settings.overlapSize := hb ▸ hge
          simp only [docOverlapStep, hlet, if_false, hcand, hb, hc, Bool.false_eq_true]
          rw [if_pos hge2]
          rfl
        · simp [hcand]
        · simp [hcand]
    · have hge : ¬ st.wordbuffer.length ≥ settings.overlapSize := by rw [hlenw]; omega
      have hgel : ¬ st.lemmabuffer.length ≥ settings.overlapSize := by rw [hlenl]; omega
      rw [if_neg hge] at hpw
      rw [if_neg hgel] at hpl
      refine ⟨⟨st.wordbuffer ++ [w.l_word], st.lemmabuffer ++ [w.l_lemma],
        st.doc_word_overlapCnt, st.doc_lemma_overlapCnt⟩, ?_, hpw, hpl, ?_, ?_⟩
      · simp only [docOverlapStep, hlet, if_false, hge, Option.map_some']
      · simp [hfull]
      · simp [hfull]

/-- The loop of `calculate_doc_overlap` runs to the end on every list of words, and its
buffers then hold the forms of the last `overlapSize` words that are not punctuation. -/
theorem docOverlapLoop_window (settings : settingData) (hos : 1 ≤ settings.overlapSize)
    (c1 c2 : Int) (ws : List wordStats) :
    ∃ st, docOverlapLoop settings ws ⟨[], [], c1, c2⟩ = some st
      ∧ st.wordbuffer = lastN settings.overlapSize ((nonPunct ws).map (fun v => v.l_word))
      ∧ st.lemmabuffer
          = lastN settings.overlapSize ((nonPunct ws).map (fun v => v.l_lemma)) := by
  induction ws using List.reverseRecOn with
  | nil => exact ⟨⟨[], [], c1, c2⟩, rfl, by simp [nonPunct, lastN], by simp [nonPunct, lastN]⟩
  | append_singleton ws w ih =>
    obtain ⟨st, hl, hw, hlb⟩ := ih
    obtain ⟨st1, hs, h1, h2, _, _⟩ :=
      docOverlapStep_window settings hos (nonPunct ws) st w hw hlb
    refine ⟨st1, ?_, ?_, ?_⟩
    · rw [docOverlapLoop_append, hl]
      exact hs
    · rw [nonPunct_append]
      exact h1
    · rw [nonPunct_append]
      exact h2

/-- C19 (counterexample).  With a window of one word, the document "zijn hij" has the verb
"zijn", which is not an overlap candidate, followed by the pronoun "hij", which is one. No
overlap candidate precedes "hij", so a window of overlap candidates would be empty there
and would give no overlap; `calculate_doc_overlap` counts one overlap of forms and one of
lemmas, because "zijn" did enter the window. -/
theorem doc_overlap_window_candidates_only_fails :
    isOverlapCandidate (exampleWord 0 "zijn" .WW) = false
    ∧ isOverlapCandidate (exampleWord 1 "hij" .VNW) = true
    ∧ ([exampleWord 0 "zijn" .WW].filter isOverlapCandidate).map (fun v => v.l_word) = []
    ∧ argument_overlap "hij" [] 0 = 0
    ∧ (calculate_doc_overlap docOverlapSettings
          [exampleWord 0 "zijn" .WW, exampleWord 1 "hij" .VNW] 0 0).map
        (fun st => (st.wordbuffer, st.doc_word_overlapCnt, st.doc_lemma_overlapCnt))
        = some (["hij"], 1, 1) := by
  decide

/-- C19 (amended).  For a window size of at least one and a document `ws` of at least that
many words, followed by one more word `w`, `calculate_doc_overlap` returns on both
documents. After `ws` the window holds the forms and the lemmas of the last `overlapSize`
words of `ws` that are not punctuation, overlap candidates or not. The word `w` is compared
with that window, by `argument_overlap`, exactly when it is not punctuation, the window is
full and `w` is an overlap candidate; otherwise the counters stay as they were after `ws`.
After `w` the window again holds the last `overlapSize` words that are not punctuation, so
`w` enters it whether it is an overlap candidate or not. -/
theorem doc_overlap_window_all_words (settings : settingData) (ws : List wordStats)
    (w : wordStats) (c1 c2 : Int) (hos : 1 ≤ settings.overlapSize)
    (hlen : settings.overlapSize ≤ ws.length) :
    ∃ st st1, calculate_doc_overlap settings ws c1 c2 = some st
      ∧ calculate_doc_overlap settings (ws ++ [w]) c1 c2 = some st1
      ∧ st.wordbuffer = lastN settings.overlapSize ((nonPunct ws).map (fun v => v.l_word))
      ∧ st.lemmabuffer = lastN settings.overlapSize ((nonPunct ws).map (fun v => v.l_lemma))
      ∧ st1.doc_word_overlapCnt
          = (if w.prop ≠ .ISLET ∧ settings.overlapSize ≤ (nonPunct ws).length
                ∧ isOverlapCandidate w = true then
              argument_overlap w.l_word st.wordbuffer st.doc_word_overlapCnt
            else st.doc_word_overlapCnt)
      ∧ st1.doc_lemma_overlapCnt
          = (if w.prop ≠ .ISLET ∧ settings.overlapSize ≤ (nonPunct ws).length
                ∧ isOverlapCandidate w = true then
              argument_overlap w.l_lemma st.lemmabuffer st.doc_lemma_overlapCnt
            else st.doc_lemma_overlapCnt)
      ∧ st1.wordbuffer
          = lastN settings.overlapSize ((nonPunct (ws ++ [w])).map (fun v => v.l_word))
      ∧ st1.lemmabuffer
          = lastN settings.overlapSize ((nonPunct (ws ++ [w])).map (fun v => v.l_lemma)) := by
  obtain ⟨st, hl, hw, hlb⟩ := docOverlapLoop_window settings hos c1 c2 ws
  obtain ⟨st1, hs, h1, h2, h3, h4⟩ :=
    docOverlapStep_window settings hos (nonPunct ws) st w hw hlb
  have hlen1 : ¬ ws.length < settings.overlapSize := by omega
  have hlen2 : ¬ (ws ++ [w]).length < settings.overlapSize := by
    rw [List.length_append, List.length_singleton]
    omega
  refine ⟨st, st1, ?_, ?_, hw, hlb, h3, h4, ?_, ?_⟩
  · unfold calculate_doc_overlap
    rw [if_neg hlen1]
    exact hl
  · unfold calculate_doc_overlap
    rw [if_neg hlen2, docOverlapLoop_append, hl]
    exact hs
  · rw [nonPunct_append]
    exact h1
  · rw [nonPunct_append]
    exact h2

/-- C19 (witness).  The amended statement at the document "zijn" followed by "hij", with a
window of one word. -/
theorem doc_overlap_window_all_words_witness :
    1 ≤ docOverlapSettings.overlapSize
    ∧ docOverlapSettings.overlapSize ≤ [exampleWord 0 "zijn" .WW].length
    ∧ ∃ st st1, calculate_doc_overlap docOverlapSettings [exampleWord 0 "zijn" .WW] 0 0
          = some st
      ∧ calculate_doc_overlap docOverlapSettings
          ([exampleWord 0 "zijn" .WW] ++ [exampleWord 1 "hij" .VNW]) 0 0 = some st1
      ∧ st.wordbuffer
          = lastN docOverlapSettings.overlapSize
              ((nonPunct [exampleWord 0 "zijn" .WW]).map (fun v => v.l_word))
      ∧ st.lemmabuffer
          = lastN docOverlapSettings.overlapSize
              ((nonPunct [exampleWord 0 "zijn" .WW]).map (fun v => v.l_lemma))
      ∧ st1.doc_word_overlapCnt
          = (if (exampleWord 1 "hij" .VNW).prop ≠ .ISLET
                ∧ docOverlapSettings.overlapSize ≤ (nonPunct [exampleWord 0 "zijn" .WW]).length
                ∧ isOverlapCandidate (exampleWord 1 "hij" .VNW) = true then
              argument_overlap (exampleWord 1 "hij" .VNW).l_word st.wordbuffer
                st.doc_word_overlapCnt
            else st.doc_word_overlapCnt)
      ∧ st1.doc_lemma_overlapCnt
          = (if (exampleWord 1 "hij" .VNW).prop ≠ .ISLET
                ∧ docOverlapSettings.overlapSize ≤ (nonPunct [exampleWord 0 "zijn" .WW]).length
                ∧ isOverlapCandidate (exampleWord 1 "hij" .VNW) = true then
              argument_overlap (exampleWord 1 "hij" .VNW).l_lemma st.lemmabuffer
                st.doc_lemma_overlapCnt
            else st.doc_lemma_overlapCnt)
      ∧ st1.wordbuffer
          = lastN docOverlapSettings.overlapSize
              ((nonPunct ([exampleWord 0 "zijn" .WW] ++ [exampleWord 1 "hij" .VNW])).map
                (fun v => v.l_word))
      ∧ st1.lemmabuffer
          = lastN docOverlapSettings.overlapSize
              ((nonPunct ([exampleWord 0 "zijn" .WW] ++ [exampleWord 1 "hij" .VNW])).map
                (fun v => v.l_lemma)) :=
  ⟨by decide, by decide,
    doc_overlap_window_all_words docOverlapSettings [exampleWord 0 "zijn" .WW]
      (exampleWord 1 "hij" .VNW) 0 0 (by decide) (by decide)⟩

/-! ## C21: the frequency of a word without lexicon entry -/

theorem freqLogDouble_pos (freq total : Int) (hf : 0 ≤ freq) (ht : 0 < total) :
    freqLogDouble freq total = .log10 ((((freq + 1 : Int) : ℚ) / (total : ℚ)) * 10 ^ 9) := by
  have hq : (0 : ℚ) < (((freq + 1 : Int) : ℚ) / (total : ℚ)) * 10 ^ 9 := by
    have h1 : (0 : ℚ) < ((freq + 1 : Int) : ℚ) := by exact_mod_cast (by omega : 0 < freq + 1)
    have h2 : (0 : ℚ) < (total : ℚ) := by exact_mod_cast ht
    positivity
  unfold freqLogDouble
  rw [if_neg (by omega), if_neg (not_lt.mpr hq.le), if_neg hq.ne']

/-- On a count of at least 0 and a positive total the double that `freqLog` returns stands
for the real number `freqLog freq total`. -/
theorem freqLogDouble_value (freq total : Int) (hf : 0 ≤ freq) (ht : 0 < total) :
    (freqLogDouble freq total).value = some (freqLog freq total) := by
  rw [freqLogDouble_pos freq total hf ht]
  simp [logDouble.value, freqLog]

/-- C21 (counterexample).  A function word ("de", not a content word) without entry in the
word-frequency lexicon is constructed with `word_freq_log` NaN: `freqLookup` is not called.
A content word without entry is constructed with `word_freq_log` plus infinity when the
total of the lexicon is 0. -/
theorem word_freq_log_every_word_fails :
    freqSettings.word_freq_lex.lookup sourceDe.l_word = none
    ∧ wordStatsFreq freqSettings sourceDe false
        = .ok { word_freq := 0, lemma_freq := 0, word_freq_log := .nan,
                lemma_freq_log := .nan }
    ∧ ({} : settingData).word_freq_lex.lookup sourceKat.l_word = none
    ∧ wordStatsFreq {} sourceKat false
        = .ok { word_freq := 0, lemma_freq := 0, word_freq_log := .posInf,
                lemma_freq_log := .posInf } :=
  ⟨rfl, rfl, rfl, rfl⟩

/-- C21 (amended).  For every content word that is not punctuation, carries exactly one
Frog POS annotation, is constructed without parse failure and has no entry in the
word-frequency lexicon, with a positive total of the lexicon: the constructor returns with
`word_freq = 0` and `word_freq_log = freqLog(0, word_total)`, which is not NaN and stands
for the real number `log10((1 / word_total) * 1e9)`. -/
theorem word_freq_log_of_missing_content_word (settings : settingData) (src : wordSource)
    (hpos : src.posCount = 1) (hlet : src.prop ≠ .ISLET) (hcont : src.isContent = true)
    (hmiss : settings.word_freq_lex.lookup src.l_word = none)
    (htotal : 0 < settings.word_total) :
    ∃ w, wordStatsFreq settings src false = .ok w
      ∧ w.word_freq = 0
      ∧ w.word_freq_log = freqLogDouble 0 settings.word_total
      ∧ w.word_freq_log ≠ .nan
      ∧ w.word_freq_log.value = some (freqLog 0 settings.word_total) := by
  have hw : wordFreqLookup settings src.l_word = 0 := by
    simp [wordFreqLookup, hmiss]
  have hstep : ∃ w, wordStatsFreq settings src false = .ok w ∧ w.word_freq = 0
      ∧ w.word_freq_log = freqLogDouble 0 settings.word_total := by
    unfold wordStatsFreq freqLookup
    simp only [Bool.false_eq_true, if_false, hpos, ne_eq, not_true_eq_false, hlet,
      not_false_eq_true, if_true, hcont, hw]
    split <;> exact ⟨_, rfl, rfl, rfl⟩
  obtain ⟨w, h1, h2, h3⟩ := hstep
  refine ⟨w, h1, h2, h3, ?_, ?_⟩
  · rw [h3, freqLogDouble_pos 0 _ (le_refl 0) htotal]
    exact fun h => logDouble.noConfusion h
  · rw [h3]
    exact freqLogDouble_value 0 _ (le_refl 0) htotal

/-- C21 (witness).  The content word "kat" with empty lexicons and a total of 1000. -/
theorem word_freq_log_of_missing_content_word_witness :
    sourceKat.posCount = 1 ∧ sourceKat.prop ≠ .ISLET ∧ sourceKat.isContent = true
    ∧ freqSettings.word_freq_lex.lookup sourceKat.l_word = none
    ∧ 0 < freqSettings.word_total
    ∧ ∃ w, wordStatsFreq freqSettings sourceKat false = .ok w
      ∧ w.word_freq = 0
      ∧ w.word_freq_log = freqLogDouble 0 freqSettings.word_total
      ∧ w.word_freq_log ≠ .nan
      ∧ w.word_freq_log.value = some (freqLog 0 freqSettings.word_total) :=
  ⟨rfl, by decide, rfl, rfl, by decide,
    word_freq_log_of_missing_content_word freqSettings sourceKat rfl (by decide) rfl rfl
      (by decide)⟩

/-! ## Lemmas on the maps of the lexicons -/

theorem lookup_filter_ne {V : Type} (m : List (String × V)) (k k1 : String) (h : k1 ≠ k) :
    (m.filter (fun e => e.1 != k)).lookup k1 = m.lookup k1 := by
  induction m with
  | nil => rfl
  | cons e rest ih =>
    obtain ⟨a, b⟩ := e
    by_cases ha : a = k
    · subst ha
      have hk : (k1 == a) = false := by simpa using h
      simp [List.filter, List.lookup, hk, ih]
    · have hne : (a != k) = true := by simpa using ha
      simp only [List.filter, hne, List.lookup]
      rw [ih]

theorem lookup_mapSet_self {V : Type} (m : List (String × V)) (k : String) (v : V) :
    (mapSet m k v).lookup k = some v := by
  simp [mapSet, List.lookup]

theorem lookup_mapSet_ne {V : Type} (m : List (String × V)) (k k1 : String) (v : V)
    (h : k1 ≠ k) : (mapSet m k v).lookup k1 = m.lookup k1 := by
  have hk : (k1 == k) = false := by simpa using h
  simp only [mapSet, List.lookup, hk]
  exact lookup_filter_ne m k k1 h

/-- A property of the values of a map is kept by an assignment of a value that has it. -/
theorem mapSet_values {V : Type} (P : V → Prop) (m : List (String × V)) (k : String) (v : V)
    (hm : ∀ k1 v1, m.lookup k1 = some v1 → P v1) (hv : P v) :
    ∀ k1 v1, (mapSet m k v).lookup k1 = some v1 → P v1 := by
  intro k1 v1 h
  by_cases hk : k1 = k
  · subst hk
    rw [lookup_mapSet_self] at h
    exact Option.some.inj h ▸ hv
  · rw [lookup_mapSet_ne m k k1 v hk] at h
    exact hm k1 v1 h

/-- The verb lexicon that `fillWW` loads holds no entry of type `UNFOUND_VERB`. -/
theorem fillWW_values (classifyWW : String → String → SEMType) (lines : List (List String))
    (m : List (String × SEMType))
    (hm : ∀ k v, m.lookup k = some v → v ≠ .UNFOUND_VERB) :
    ∀ k v, (fillWW classifyWW m lines).lookup k = some v → v ≠ .UNFOUND_VERB := by
  induction lines generalizing m with
  | nil => exact hm
  | cons parts rest ih =>
    apply ih
    unfold fillWWLine
    split
    · split
      · exact mapSet_values _ m _ _ hm (by assumption)
      · exact hm
    · exact hm

/-- The adjective lexicon that `fillADJ` loads holds the values of `classifyADJ` only. -/
theorem fillADJ_values (P : SEMType → Prop) (lowercase : String → String)
    (c1 : String → SEMType) (c2 : String → String → SEMType) (h1 : ∀ a, P (c1 a))
    (h2 : ∀ a b, P (c2 a b)) (lines : List (List String)) (m : List (String × SEMType))
    (hm : ∀ k v, m.lookup k = some v → P v) :
    ∀ k v, (fillADJ lowercase c1 c2 m lines).lookup k = some v → P v := by
  induction lines generalizing m with
  | nil => exact hm
  | cons parts rest ih =>
    apply ih
    unfold fillADJLine
    split
    · split
      · exact mapSet_values _ m _ _ hm (h1 _)
      · exact hm
    · split
      · exact mapSet_values _ m _ _ hm (h2 _ _)
      · exact hm
    · exact hm

/-! ## C22: the chain of lookups of a verb -/

/-- C22.  For every word with tag WW that is not a name, `checkSemProps` returns the first
hit of the chain: the verb lexicon at `full_lemma` (when that is not empty), the adjective
lexicon at the lowercase word (when the position is PRENOM and the word is a participle,
ISVD or ISOD), the verb lexicon at the lowercase lemma; and `UNFOUND_VERB` when all three
miss.  With lexicons that hold no entry of type `UNFOUND_VERB` (`fillWW` stores none), it
returns `UNFOUND_VERB` exactly when all three miss. -/
theorem checkSemProps_verb_chain (settings : settingData) (w : wordStats)
    (htag : w.tag = .WW) (hname : w.prop ≠ .ISNAME)
    (hverb : ∀ k v, settings.verb_sem.lookup k = some v → v ≠ .UNFOUND_VERB)
    (hadj : ∀ k v, settings.adj_sem.lookup k = some v → v ≠ .UNFOUND_VERB) :
    checkSemProps settings w = (firstHit (verbChain settings w)).getD .UNFOUND_VERB
    ∧ (checkSemProps settings w = .UNFOUND_VERB
        ↔ ∀ h ∈ verbChain settings w, h = none) := by
  have hchain : checkSemProps settings w
      = (firstHit (verbChain settings w)).getD .UNFOUND_VERB := by
    unfold checkSemProps verbChain
    rw [if_neg hname, if_neg (by rw [htag]; decide), if_pos htag]
    by_cases hf : w.full_lemma ≠ ""
    · cases h1 : settings.verb_sem.lookup w.full_lemma with
      | some v => simp [firstHit, hf, h1]
      | none =>
        by_cases hp : w.position = .PRENOM ∧ (w.prop = .ISVD ∨ w.prop = .ISOD)
        · cases h2 : settings.adj_sem.lookup w.l_word with
          | some v => simp [firstHit, hf, h1, hp, h2]
          | none =>
            cases h3 : settings.verb_sem.lookup w.l_lemma <;>
              simp [firstHit, hf, h1, hp, h2, h3]
        · cases h3 : settings.verb_sem.lookup w.l_lemma <;>
            simp [firstHit, hf, h1, hp, h3]
    · by_cases hp : w.position = .PRENOM ∧ (w.prop = .ISVD ∨ w.prop = .ISOD)
      · cases h2 : settings.adj_sem.lookup w.l_word with
        | some v => simp [firstHit, hf, hp, h2]
        | none =>
          cases h3 : settings.verb_sem.lookup w.l_lemma <;>
            simp [firstHit, hf, hp, h2, h3]
      · cases h3 : settings.verb_sem.lookup w.l_lemma <;>
          simp [firstHit, hf, hp, h3]
  refine ⟨hchain, ?_⟩
  rw [hchain]
  have hvals : ∀ h ∈ verbChain settings w, ∀ v, h = some v → v ≠ .UNFOUND_VERB := by
    intro h hmem v hv
    simp only [verbChain, List.mem_cons, List.mem_singleton, List.not_mem_nil, or_false]
      at hmem
    rcases hmem with rfl | rfl | rfl
    · split at hv
      · exact hverb _ _ hv
      · cases hv
    · split at hv
      · exact hadj _ _ hv
      · cases hv
    · exact hverb _ _ hv
  generalize verbChain settings w = chain at hvals
  induction chain with
  | nil => simp [firstHit]
  | cons h rest ih =>
    cases h with
    | none =>
      simp only [firstHit, List.mem_cons, forall_eq_or_imp, true_and]
      exact ih (fun h hm => hvals h (List.mem_cons_of_mem _ hm))
    | some v =>
      have hv := hvals (some v) (List.mem_cons_self _ _) v rfl
      simp [firstHit, hv]

/-- C22 (witness).  The prenominal participle "gelopen" with lemma "lopen": `full_lemma`
is empty, the adjective lexicon holds "gelopen", so the chain stops at the adjective
lexicon. -/
theorem checkSemProps_verb_chain_witness :
    wordGelopen.tag = .WW ∧ wordGelopen.prop ≠ .ISNAME
    ∧ checkSemProps verbLexSettings wordGelopen
        = (firstHit (verbChain verbLexSettings wordGelopen)).getD .UNFOUND_VERB
    ∧ checkSemProps verbLexSettings wordGelopen = .HUMAN_ADJ :=
  ⟨rfl, by decide,
    (checkSemProps_verb_chain verbLexSettings wordGelopen rfl (by decide)
      (fillWW_values _ _ [] (fun _ _ h => by simp [List.lookup] at h))
      (fillADJ_values (fun v => v ≠ .UNFOUND_VERB) _ _ _ (fun _ => by decide)
        (fun _ _ => by decide) _ [] (fun _ _ h => by simp [List.lookup] at h))).1,
    by decide⟩

/-! ## C23: the letter case of the keys of the lexicons -/

theorem foldl_congr_forall₂ {α β : Type} (R : α → α → Prop) (f : β → α → β)
    (hf : ∀ m a b, R a b → f m a = f m b) (l1 l2 : List α) (h : List.Forall₂ R l1 l2)
    (m : β) : l1.foldl f m = l2.foldl f m := by
  induction h generalizing m with
  | nil => rfl
  | cons hab _ ih =>
    simp only [List.foldl_cons]
    rw [hf m _ _ hab]
    exact ih _

/-- The parts of two lines that differ in the case of the key only. -/
theorem caseVariant_cases (lowercase : String → String) (a b : List String)
    (h : caseVariant lowercase a b) :
    (a = [] ∧ b = [])
    ∨ ∃ p0 q0 rest, a = p0 :: rest ∧ b = q0 :: rest ∧ lowercase p0 = lowercase q0 := by
  obtain ⟨hlen, htail, hhead⟩ := h
  cases a with
  | nil =>
    cases b with
    | nil => exact Or.inl ⟨rfl, rfl⟩
    | cons q0 tb => simp at hlen
  | cons p0 ta =>
    cases b with
    | nil => simp at hlen
    | cons q0 tb =>
      simp only [List.tail_cons] at htail
      simp only [List.head?_cons, Option.map_some', Option.some.injEq] at hhead
      exact Or.inr ⟨p0, q0, ta, rfl, by rw [htail], hhead⟩

/-- C23 (counterexample).  The lemmas "fiets" and "Fiets" differ in letter case only
(lookup time): with the noun lexicon loaded from the entry "fiets" the noun with lemma
"fiets" is classified and the noun with lemma "Fiets" is not found.  The entries "fiets"
and "Fiets" differ in letter case only (load time): the noun with lemma "fiets" is found in
the lexicon loaded from the first and not in the one loaded from the second.  The
intensifier lexicon loaded from the entry "Heel" classifies the lemma "heel" and not the
lemma "Heel". -/
theorem lexicon_case_insensitive_fails :
    asciiLower "fiets" = asciiLower "Fiets"
    ∧ (checkNoun caseSettings (lemmaWord "fiets" .N)).sem_type = .CONCRETE_ARTEFACT_NOUN
    ∧ (checkNoun caseSettings (lemmaWord "Fiets" .N)).sem_type = .UNFOUND_NOUN
    ∧ (checkNoun { noun_sem := nounLex "fiets" } (lemmaWord "fiets" .N)).sem_type
        = .CONCRETE_ARTEFACT_NOUN
    ∧ (checkNoun { noun_sem := nounLex "Fiets" } (lemmaWord "fiets" .N)).sem_type
        = .UNFOUND_NOUN
    ∧ asciiLower "heel" = asciiLower "Heel"
    ∧ checkIntensify caseSettings true (lemmaWord "heel" .BW) = .BW
    ∧ checkIntensify caseSettings true (lemmaWord "Heel" .BW) = .NO_INTENSIFY := by
  refine ⟨by decide, by decide, by decide, by decide, by decide, by decide, by decide,
    by decide⟩

/-- C23 (amended).  The adjective, intensifier, general-noun, general-verb and adverb
lexicons are case-insensitive on the key at load time: two inputs whose lines differ in the
letter case of the key only load the same lexicon.  The lookups of `checkSemProps` for a
word that is not a name (the adjective and the verb lexicon) are case-insensitive at lookup
time: two words that differ in the letter case of surface form and lemma only get the same
classification. -/
theorem lexicon_case_insensitive_parts (lowercase trim : String → String)
    (c1 : String → SEMType) (c2 : String → String → SEMType)
    (ci : String → IntensifyType) (cg : String → GeneralType) (ca : String → AdverbType)
    (l1 l2 : List (List String)) (settings : settingData) (w1 w2 : wordStats)
    (hl : List.Forall₂ (caseVariant lowercase) l1 l2)
    (hw : caseVariantWord lowercase w1 w2) (hname : w1.prop ≠ .ISNAME) :
    (∀ m, fillADJ lowercase c1 c2 m l1 = fillADJ lowercase c1 c2 m l2)
    ∧ (∀ m, fill_intensify lowercase trim ci m l1 = fill_intensify lowercase trim ci m l2)
    ∧ (∀ m, fill_general lowercase trim cg m l1 = fill_general lowercase trim cg m l2)
    ∧ (∀ m, fill_adverbs lowercase trim ca m l1 = fill_adverbs lowercase trim ca m l2)
    ∧ checkSemProps settings w1 = checkSemProps settings w2 := by
  refine ⟨fun m => ?_, fun m => ?_, fun m => ?_, fun m => ?_, ?_⟩
  · refine foldl_congr_forall₂ _ _ (fun m a b hab => ?_) l1 l2 hl m
    rcases caseVariant_cases lowercase a b hab with ⟨rfl, rfl⟩ | ⟨p0, q0, rest, rfl, rfl, h⟩
    · rfl
    · rcases rest with _ | ⟨p1, _ | ⟨p2, _ | ⟨p3, t⟩⟩⟩ <;> simp [fillADJLine, h]
  · refine foldl_congr_forall₂ _ _ (fun m a b hab => ?_) l1 l2 hl m
    rcases caseVariant_cases lowercase a b hab with ⟨rfl, rfl⟩ | ⟨p0, q0, rest, rfl, rfl, h⟩
    · rfl
    · rcases rest with _ | ⟨p1, _ | ⟨p2, t⟩⟩ <;> simp [fill_intensifyLine, h]
  · refine foldl_congr_forall₂ _ _ (fun m a b hab => ?_) l1 l2 hl m
    rcases caseVariant_cases lowercase a b hab with ⟨rfl, rfl⟩ | ⟨p0, q0, rest, rfl, rfl, h⟩
    · rfl
    · rcases rest with _ | ⟨p1, _ | ⟨p2, t⟩⟩ <;> simp [fill_generalLine, h]
  · refine foldl_congr_forall₂ _ _ (fun m a b hab => ?_) l1 l2 hl m
    rcases caseVariant_cases lowercase a b hab with ⟨rfl, rfl⟩ | ⟨p0, q0, rest, rfl, rfl, h⟩
    · rfl
    · rcases rest with _ | ⟨p1, _ | ⟨p2, t⟩⟩ <;> simp [fill_adverbsLine, h]
  · obtain ⟨⟨ha1, ha2⟩, ⟨hb1, hb2⟩, hword, hlemma, htag, hprop, hpos, hfull⟩ := hw
    have hlw : w1.l_word = w2.l_word := by rw [ha1, hb1, hword]
    have hll : w1.l_lemma = w2.l_lemma := by rw [ha2, hb2, hlemma]
    have hname2 : w2.prop ≠ .ISNAME := hprop ▸ hname
    unfold checkSemProps
    rw [if_neg hname, if_neg hname2, hlw, hll, htag, hprop, hpos, hfull]

/-- C23 (witness).  The adjective entries "Gelopen" and "gelopen" load the same lexicon, and
the adjectives "Gelopen" and "gelopen" get the same classification. -/
theorem lexicon_case_insensitive_parts_witness :
    List.Forall₂ (caseVariant asciiLower) [["Gelopen", "mens"]] [["gelopen", "mens"]]
    ∧ caseVariantWord asciiLower (lemmaWord "Gelopen" .ADJ) (lemmaWord "gelopen" .ADJ)
    ∧ (lemmaWord "Gelopen" .ADJ).prop ≠ .ISNAME
    ∧ fillADJ asciiLower (fun _ => .HUMAN_ADJ) (fun _ _ => .HUMAN_ADJ) []
          [["Gelopen", "mens"]]
        = fillADJ asciiLower (fun _ => .HUMAN_ADJ) (fun _ _ => .HUMAN_ADJ) []
          [["gelopen", "mens"]]
    ∧ checkSemProps verbLexSettings (lemmaWord "Gelopen" .ADJ)
        = checkSemProps verbLexSettings (lemmaWord "gelopen" .ADJ)
    ∧ checkSemProps verbLexSettings (lemmaWord "gelopen" .ADJ) = .HUMAN_ADJ := by
  have hl : List.Forall₂ (caseVariant asciiLower) [["Gelopen", "mens"]]
      [["gelopen", "mens"]] :=
    List.Forall₂.cons ⟨rfl, rfl, by decide⟩ List.Forall₂.nil
  have hw : caseVariantWord asciiLower (lemmaWord "Gelopen" .ADJ)
      (lemmaWord "gelopen" .ADJ) :=
    ⟨⟨rfl, rfl⟩, ⟨rfl, rfl⟩, by decide, by decide, rfl, rfl, rfl, rfl⟩
  have h := lexicon_case_insensitive_parts asciiLower id (fun _ => .HUMAN_ADJ)
    (fun _ _ => .HUMAN_ADJ) (fun _ => .BW) (fun _ => .NO_GENERAL) (fun _ => .GENERAL)
    [["Gelopen", "mens"]] [["gelopen", "mens"]] verbLexSettings
    (lemmaWord "Gelopen" .ADJ) (lemmaWord "gelopen" .ADJ) hl hw (by decide)
  exact ⟨hl, hw, by decide, h.1 [], h.2.2.2.2, by decide⟩

/-! ## C24: connective entries without a tag -/

theorem mem_setInsert (s : List String) (x y : String) (h : y ∈ s) : y ∈ setInsert s x := by
  unfold setInsert
  split
  · exact h
  · exact List.mem_append_left _ h

theorem mem_setInsert_self (s : List String) (x : String) : x ∈ setInsert s x := by
  unfold setInsert
  split
  · assumption
  · simp

theorem mem_update_setInsert (c1 : CGNType → List String) (t u : CGNType) (x y : String)
    (h : y ∈ c1 u) : y ∈ Function.update c1 t (setInsert (c1 t) x) u := by
  by_cases hu : u = t
  · subst hu
    rw [Function.update_same]
    exact mem_setInsert _ _ _ h
  · rw [Function.update_noteq hu]
    exact h

/-- A line of `fill_connectors` removes no single word. -/
theorem fill_connectorsLine_mono (toCGN : String → CGNType)
    (c : (CGNType → List String) × List String) (l : connLine) (u : CGNType) (y : String)
    (h : y ∈ c.1 u) : y ∈ (fill_connectorsLine toCGN c l).1 u := by
  unfold fill_connectorsLine
  split
  · exact h
  · split
    · split
      · exact h
      · split
        · exact mem_update_setInsert _ _ _ _ _ h
        · exact h
    · split
      · exact h
      · split
        · exact mem_update_setInsert _ _ _ _ _ h
        · split <;> exact h
    · exact h

theorem fill_connectors_fold_mono (toCGN : String → CGNType) (lines : List connLine)
    (c : (CGNType → List String) × List String) (u : CGNType) (y : String)
    (h : y ∈ c.1 u) : y ∈ (lines.foldl (fill_connectorsLine toCGN) c).1 u := by
  induction lines generalizing c with
  | nil => exact h
  | cons l rest ih => exact ih _ (fill_connectorsLine_mono toCGN c l u y h)

theorem connChain_step (L : CGNType → List String) (T k : ConnType) (tag : CGNType)
    (x : String) (rest : List ((CGNType → List String) × ConnType))
    (hrest : k = match rest.find? (holdsWord tag x) with
      | some p => p.2
      | none => .NOCONN) :
    (if x ∈ L tag then T else if x ∈ L .UNASS then T else k)
      = match ((L, T) :: rest).find? (holdsWord tag x) with
        | some p => p.2
        | none => .NOCONN := by
  by_cases h1 : x ∈ L tag
  · rw [if_pos h1, List.find?_cons_of_pos _ (by simp [holdsWord, h1])]
  · rw [if_neg h1]
    by_cases h2 : x ∈ L .UNASS
    · rw [if_pos h2, List.find?_cons_of_pos _ (by simp [holdsWord, h2])]
    · rw [if_neg h2, List.find?_cons_of_neg _ (by simp [holdsWord, h1, h2])]
      exact hrest

/-- The chain of `checkConnective`: no connective for a tag other than VG, VZ and BW, else
the type of the first lexicon that holds the lowercase word under the tag or under
`UNASS`. -/
theorem checkConnective_chain (settings : settingData) (w : wordStats) :
    checkConnective settings w
      = (if w.tag ≠ .VG ∧ w.tag ≠ .VZ ∧ w.tag ≠ .BW then .NOCONN
         else match (connLexicons settings).find? (holdsWord w.tag w.l_word) with
           | some p => p.2
           | none => .NOCONN) := by
  unfold checkConnective connLexicons
  by_cases hg : w.tag ≠ .VG ∧ w.tag ≠ .VZ ∧ w.tag ≠ .BW
  · rw [if_pos hg, if_pos hg]
  · rw [if_neg hg, if_neg hg]
    refine connChain_step _ _ _ _ _ _ ?_
    refine connChain_step _ _ _ _ _ _ ?_
    refine connChain_step _ _ _ _ _ _ ?_
    refine connChain_step _ _ _ _ _ _ ?_
    refine connChain_step _ _ _ _ _ _ ?_
    refine connChain_step _ _ _ _ _ _ ?_
    rfl

/-- A line with one word and no tag stores the word under `UNASS`. -/
theorem fill_connectorsLine_untagged (toCGN : String → CGNType)
    (c : (CGNType → List String) × List String) (l : connLine) (e : String)
    (hline : l.line.front ≠ '#') (hvec : l.vec = [e]) (hdum : l.dum.length = 1) :
    e ∈ (fill_connectorsLine toCGN c l).1 .UNASS := by
  unfold fill_connectorsLine
  rw [if_neg hline, hvec]
  have h1 : ¬ (l.dum.length < 1 ∨ l.dum.length > 4) := by omega
  simp only [h1, if_false, hdum, if_true, Function.update_same]
  exact mem_setInsert_self _ _

/-- C24 (counterexample).  The temporal lexicon and the causal lexicon are each loaded from
the untagged line "toen", which is stored under `UNASS`: for the word "toen" with tag N
`checkConnective` returns NOCONN, and with tag VG it returns TEMPOREEL, not the type of
the causal lexicon. -/
theorem checkConnective_any_tag_fails :
    "toen" ∈ wildcardSettings.temporals1 .UNASS
    ∧ "toen" ∈ wildcardSettings.causals1 .UNASS
    ∧ checkConnective wildcardSettings (exampleWord 0 "toen" .N) = .NOCONN
    ∧ checkConnective wildcardSettings (exampleWord 0 "toen" .ADJ) = .NOCONN
    ∧ checkConnective wildcardSettings (exampleWord 0 "toen" .VG) = .TEMPOREEL := by
  refine ⟨by decide, by decide, by decide, by decide, by decide⟩

/-- C24 (amended).  A line of a connective file with one word `e` and no tag stores `e`
under the wildcard category `UNASS`, and the lines after it do not remove it.  For a word
with tag VG, VZ or BW whose lowercase form is stored under `UNASS` in a connective
lexicon, `checkConnective` returns the type of that lexicon when no lexicon read before it
(in the order temporal, enumerative of word groups, enumerative of sentences, contrastive,
comparative, causal) holds the form under the tag of the word or under `UNASS`.  For a word
with any other tag it returns NOCONN. -/
theorem checkConnective_wildcard (toCGN : String → CGNType) (c1 : CGNType → List String)
    (lines1 lines2 : List connLine) (l : connLine) (e : String) (settings : settingData)
    (w w1 : wordStats) (pre post : List ((CGNType → List String) × ConnType))
    (L : CGNType → List String) (T : ConnType)
    (hline : l.line.front ≠ '#') (hvec : l.vec = [e]) (hdum : l.dum.length = 1)
    (htag : w.tag = .VG ∨ w.tag = .VZ ∨ w.tag = .BW)
    (hL : connLexicons settings = pre ++ (L, T) :: post)
    (hpre : ∀ p ∈ pre, holdsWord w.tag w.l_word p = false)
    (hmem : w.l_word ∈ L .UNASS)
    (htag1 : w1.tag ≠ .VG ∧ w1.tag ≠ .VZ ∧ w1.tag ≠ .BW) :
    e ∈ (fill_connectors toCGN c1 (lines1 ++ l :: lines2)).1 .UNASS
    ∧ checkConnective settings w = T
    ∧ checkConnective settings w1 = .NOCONN := by
  refine ⟨?_, ?_, ?_⟩
  · unfold fill_connectors
    rw [List.foldl_append, List.foldl_cons]
    apply fill_connectors_fold_mono
    exact fill_connectorsLine_untagged toCGN _ l e hline hvec hdum
  · rw [checkConnective_chain, if_neg (by rcases htag with h | h | h <;> simp [h]), hL]
    have hfind : (pre ++ (L, T) :: post).find? (holdsWord w.tag w.l_word) = some (L, T) := by
      rw [List.find?_append]
      have hnone : pre.find? (holdsWord w.tag w.l_word) = none := by
        rw [List.find?_eq_none]
        intro p hp
        simp [hpre p hp]
      rw [hnone]
      simp [holdsWord, hmem]
    rw [hfind]
  · rw [checkConnective_chain, if_pos htag1]

/-- C24 (witness).  The causal lexicon is loaded from the untagged line "dus": the adverb
"dus" is a causal connective, the noun "dus" is none. -/
theorem checkConnective_wildcard_witness :
    "dus" ∈ (fill_connectors exampleToCGN (fun _ => []) ([] ++ untaggedLine "dus" :: [])).1
        .UNASS
    ∧ checkConnective causalSettings (exampleWord 0 "dus" .BW) = .CAUSAAL
    ∧ checkConnective causalSettings (exampleWord 0 "dus" .N) = .NOCONN :=
  checkConnective_wildcard exampleToCGN (fun _ => []) [] [] (untaggedLine "dus") "dus"
    causalSettings (exampleWord 0 "dus" .BW) (exampleWord 0 "dus" .N)
    [(causalSettings.temporals1, .TEMPOREEL), (causalSettings.opsommers_wg, .OPSOMMEND_WG),
     (causalSettings.opsommers_zin, .OPSOMMEND_ZIN), (causalSettings.contrast1, .CONTRASTIEF),
     (causalSettings.compars1, .COMPARATIEF)] [] causalSettings.causals1 .CAUSAAL
    (by decide) rfl rfl (by decide) rfl (by decide) (by decide) (by decide)

/-! ## C25: the tiers that `fill_topvals` stores -/

theorem tierOfCount_eq_rankTier (n : Nat) : tierOfCount n = rankTier n := by
  unfold tierOfCount rankTier
  split_ifs <;> first | rfl | omega

/-- The loop of `fill_topvals` leaves the binding of a word that is on none of its lines. -/
theorem fill_topvalsLoop_other (lines : List (List String)) (m : List (String × top_val))
    (c : Nat) (k : String) (hk : k ∉ lines.map lineKey) :
    (fill_topvalsLoop m c lines).lookup k = m.lookup k := by
  induction lines generalizing m c with
  | nil => rfl
  | cons parts rest ih =>
    have hrest : k ∉ rest.map lineKey := fun h => hk (List.mem_cons_of_mem _ h)
    have hparts : k ≠ lineKey parts := fun h => hk (by simp [h])
    unfold fill_topvalsLoop
    split
    · rw [ih _ _ hrest]
      exact lookup_mapSet_ne _ _ _ _ (by simpa [lineKey] using hparts)
    · exact ih _ _ hrest

/-- The loop of `fill_topvals` on well-formed lines with pairwise distinct words: the word
of the line at index `i` is stored with the tier of the count of that line. -/
theorem fill_topvalsLoop_spec (lines : List (List String)) (m : List (String × top_val))
    (c i : Nat) (parts : List String) (hwf : ∀ l ∈ lines, l.length = 4)
    (hdist : (lines.map lineKey).Nodup) (hi : lines[i]? = some parts) :
    (fill_topvalsLoop m c lines).lookup (lineKey parts) = some (tierOfCount (c + i + 1)) := by
  induction lines generalizing m c i with
  | nil => simp at hi
  | cons l rest ih =>
    have hl : l.length = 4 := hwf l (List.mem_cons_self _ _)
    rw [List.map_cons, List.nodup_cons] at hdist
    obtain ⟨p0, p1, p2, p3, rfl⟩ : ∃ p0 p1 p2 p3, l = [p0, p1, p2, p3] := by
      rcases l with _ | ⟨p0, _ | ⟨p1, _ | ⟨p2, _ | ⟨p3, _ | ⟨p4, t⟩⟩⟩⟩⟩ <;> simp at hl
      exact ⟨p0, p1, p2, p3, rfl⟩
    simp only [fill_topvalsLoop]
    cases i with
    | zero =>
      simp only [List.getElem?_cons_zero, Option.some.injEq] at hi
      subst hi
      rw [fill_topvalsLoop_other rest _ _ _ hdist.1]
      simp only [lineKey, List.headD_cons]
      exact lookup_mapSet_self _ _ _
    | succ j =>
      simp only [List.getElem?_cons_succ] at hi
      rw [ih _ (c + 1) j (fun l hl => hwf l (List.mem_cons_of_mem _ hl)) hdist.2 hi]
      congr 2
      omega

theorem exampleKey_injective : Function.Injective exampleKey := by
  intro i j h
  have := congrArg String.length h
  simpa [exampleKey, String.length] using this

theorem topFreqLookup_of_lookup (settings : settingData) (w : String) (v : top_val)
    (h : settings.top_freq_lex.lookup w = some v) : topFreqLookup settings w = v := by
  simp [topFreqLookup, h]

theorem bigTopLines_length : bigTopLines.length = 20001 := by simp [bigTopLines]

theorem bigTopLines_last : bigTopLines[20000]? = some [exampleKey 20000, "0", "0", "0"] := by
  simp [bigTopLines, List.getElem?_map, List.getElem?_range]

theorem bigTopLines_wf : ∀ l ∈ bigTopLines, l.length = 4 := by
  intro l hl
  simp only [bigTopLines, List.mem_map] at hl
  obtain ⟨i, _, rfl⟩ := hl
  rfl

theorem bigTopLines_nodup : (bigTopLines.map lineKey).Nodup := by
  have : bigTopLines.map lineKey = (List.range 20001).map exampleKey := by
    simp [bigTopLines, lineKey, Function.comp_def]
  rw [this]
  exact (List.nodup_range _).map exampleKey_injective

theorem bigTopLines_lookup :
    (fill_topvals [] bigTopLines).lookup (exampleKey 20000) = some .top20000 := by
  have h := fill_topvalsLoop_spec bigTopLines [] 0 20000 _ bigTopLines_wf bigTopLines_nodup
    bigTopLines_last
  simp only [lineKey, List.headD_cons] at h
  rw [fill_topvals, h]
  decide

/-- C25 (counterexample).  In a frequency list of 20001 well-formed lines with pairwise
distinct words, the word on line 20001 is stored with tier `top20000`: the lookup of the
word does not give `notFound`. -/
theorem fill_topvals_beyond_20000_fails :
    bigTopLines.length = 20001
    ∧ bigTopLines[20000]? = some [exampleKey 20000, "0", "0", "0"]
    ∧ (fill_topvals [] bigTopLines).lookup (exampleKey 20000) = some .top20000
    ∧ topFreqLookup bigTopSettings (exampleKey 20000) ≠ .notFound := by
  have hlook := bigTopLines_lookup
  have hlex : bigTopSettings.top_freq_lex = fill_topvals [] bigTopLines := by
    simp only [bigTopSettings]
  have htop : topFreqLookup bigTopSettings (exampleKey 20000) = .top20000 :=
    topFreqLookup_of_lookup bigTopSettings _ _ (hlex ▸ hlook)
  refine ⟨bigTopLines_length, bigTopLines_last, hlook, ?_⟩
  rw [htop]
  exact fun h => top_val.noConfusion h

/-- C25 (amended).  For every input of `fill_topvals` whose lines all have 4 parts, with
pairwise distinct words, the word on the n-th line (counted from 1) is stored with tier
top1000 if n <= 1000, top2000 if 1000 < n <= 2000, top3000 if 2000 < n <= 3000, top5000 if
3000 < n <= 5000, top10000 if 5000 < n <= 10000, and top20000 if 10000 < n, without upper
bound: every word of the input gets a tier. -/
theorem fill_topvals_tiers (lines : List (List String)) (i : Nat) (parts : List String)
    (hwf : ∀ l ∈ lines, l.length = 4) (hdist : (lines.map lineKey).Nodup)
    (hi : lines[i]? = some parts) :
    (fill_topvals [] lines).lookup (lineKey parts) = some (rankTier (i + 1))
    ∧ topFreqLookup { top_freq_lex := fill_topvals [] lines } (lineKey parts)
        = rankTier (i + 1)
    ∧ rankTier (i + 1) ≠ .notFound := by
  have h : (fill_topvals [] lines).lookup (lineKey parts) = some (rankTier (i + 1)) := by
    rw [fill_topvals, fill_topvalsLoop_spec lines [] 0 i parts hwf hdist hi,
      tierOfCount_eq_rankTier]
    congr 2
    omega
  refine ⟨h, topFreqLookup_of_lookup _ _ _ h, ?_⟩
  · unfold rankTier
    split_ifs <;> exact fun h => top_val.noConfusion h

/-- C25 (witness).  A list of two lines: the word "het" on line 2 is stored with tier
`top1000`. -/
theorem fill_topvals_tiers_witness :
    (∀ l ∈ [["de", "1", "2", "3"], ["het", "1", "2", "3"]], l.length = 4)
    ∧ ([["de", "1", "2", "3"], ["het", "1", "2", "3"]].map lineKey).Nodup
    ∧ [["de", "1", "2", "3"], ["het", "1", "2", "3"]][1]? = some ["het", "1", "2", "3"]
    ∧ (fill_topvals [] [["de", "1", "2", "3"], ["het", "1", "2", "3"]]).lookup "het"
        = some .top1000 :=
  ⟨by decide, by decide, rfl,
    (fill_topvals_tiers [["de", "1", "2", "3"], ["het", "1", "2", "3"]] 1
      ["het", "1", "2", "3"] (by decide) (by decide) rfl).1⟩

/-! ## C26: the columns of header and row -/

theorem fieldCount_append (a b : List String) :
    fieldCount (a ++ b) = fieldCount a + fieldCount b := by
  simp [fieldCount, List.map_append, List.sum_append]

theorem wordDifficulties_fields (s : structStats) :
    fieldCount wordDifficultiesHeader = 30 ∧ (wordDifficultiesToCSV s).length = 30 :=
  ⟨by decide, rfl⟩

theorem compound_fields (s : structStats) :
    fieldCount compoundHeader = 40 ∧ (compoundToCSV s).length = 40 :=
  ⟨by decide, rfl⟩

theorem sentDifficulties_fields (env : csvEnv) (s : structStats) :
    fieldCount (sentDifficultiesHeader env) = (if env.isSentence then 55 else 56)
    ∧ (sentDifficultiesToCSV env s).length = (if env.isSentence then 55 else 56) := by
  constructor
  · unfold sentDifficultiesHeader
    cases env.isSentence <;> decide
  · unfold sentDifficultiesToCSV
    by_cases hp : s.parseFailCnt > 0 <;> cases env.isSentence <;> simp [hp]

theorem info_fields (settings : settingData) (env : csvEnv) (s : structStats) :
    fieldCount infoHeader = 33 ∧ (informationDensityToCSV settings env s).length = 33 := by
  constructor
  · decide
  · unfold informationDensityToCSV
    by_cases hi : s.index = 0 <;> cases env.isSentence <;> cases env.isDocument <;> simp [hi]

theorem coherence_fields (s : structStats) :
    fieldCount coherenceHeader = 36 ∧ (coherenceToCSV s).length = 36 :=
  ⟨by decide, rfl⟩

theorem concreet_fields (s : structStats) :
    fieldCount concreetHeader = 128 ∧ (concreetToCSV s).length = 128 :=
  ⟨by decide, rfl⟩

theorem persoonlijkheid_fields (s : structStats) :
    fieldCount persoonlijkheidHeader = 12 ∧ (persoonlijkheidToCSV s).length = 12 :=
  ⟨by decide, rfl⟩

theorem verb_fields (s : structStats) :
    fieldCount verbHeader = 33 ∧ (verbToCSV s).length = 33 :=
  ⟨by decide, rfl⟩

theorem imperative_fields (s : structStats) :
    fieldCount imperativeHeader = 4 ∧ (imperativeToCSV s).length = 4 :=
  ⟨by decide, rfl⟩

theorem wordSort_fields (s : structStats) :
    fieldCount wordSortHeader = 21 ∧ (wordSortToCSV s).length = 21 :=
  ⟨by decide, rfl⟩

theorem prepPhrase_fields (s : structStats) :
    fieldCount prepPhraseHeader = 3 ∧ (prepPhraseToCSV s).length = 3 :=
  ⟨by decide, rfl⟩

theorem intens_fields (s : structStats) :
    fieldCount intensHeader = 8 ∧ (intensToCSV s).length = 8 :=
  ⟨by decide, rfl⟩

theorem misc_fields (s : structStats) :
    fieldCount miscHeader = 3 ∧ (miscToCSV s).length = 3 :=
  ⟨by decide, rfl⟩

theorem csv_prefix_fields (what : csvKind) (env : csvEnv) (s : structStats)
    (hkind : env.isSentence = decide (what = .SENT_CSV)) :
    fieldCount [csvIntro what, ",Alpino_status,"] = 2 + (toCSVPrefix env s).length := by
  have hdoc : fieldCount [csvIntro .DOC_CSV, ",Alpino_status,"] = 5 := by decide
  have hpar : fieldCount [csvIntro .PAR_CSV, ",Alpino_status,"] = 5 := by decide
  have hsent : fieldCount [csvIntro .SENT_CSV, ",Alpino_status,"] = 4 := by decide
  unfold toCSVPrefix
  cases what
  · rw [hdoc, hkind]; rfl
  · rw [hpar, hkind]; rfl
  · rw [hsent, hkind]; rfl

/-- C26.  For each of the 13 blocks the header function writes as many fields (commas) as
the row function, whatever the node and the value of `parseFailCnt`: 30, 40, 55 for a
sentence and 56 otherwise, 33, 36, 128, 12, 33, 4, 21, 3, 8 and 3.  In a file of
`docStats::toCSV` whose nodes are sentences exactly when it is the file of the sentences,
the header intro with `Alpino_status` has as many fields as the row has before its blocks
(the two fields written by `docStats::toCSV` and those of `toCSV`), so the header line and
every row have the same number of fields. -/
theorem csv_header_row_aligned (what : csvKind) (name id : String) (paragraphs : Nat)
    (settings : settingData) (env : csvEnv) (s : structStats)
    (hkind : env.isSentence = decide (what = .SENT_CSV)) :
    (fieldCount wordDifficultiesHeader = 30 ∧ (wordDifficultiesToCSV s).length = 30)
    ∧ (fieldCount compoundHeader = 40 ∧ (compoundToCSV s).length = 40)
    ∧ (fieldCount (sentDifficultiesHeader env) = (if env.isSentence then 55 else 56)
        ∧ (sentDifficultiesToCSV env s).length = (if env.isSentence then 55 else 56))
    ∧ (fieldCount infoHeader = 33 ∧ (informationDensityToCSV settings env s).length = 33)
    ∧ (fieldCount coherenceHeader = 36 ∧ (coherenceToCSV s).length = 36)
    ∧ (fieldCount concreetHeader = 128 ∧ (concreetToCSV s).length = 128)
    ∧ (fieldCount persoonlijkheidHeader = 12 ∧ (persoonlijkheidToCSV s).length = 12)
    ∧ (fieldCount verbHeader = 33 ∧ (verbToCSV s).length = 33)
    ∧ (fieldCount imperativeHeader = 4 ∧ (imperativeToCSV s).length = 4)
    ∧ (fieldCount wordSortHeader = 21 ∧ (wordSortToCSV s).length = 21)
    ∧ (fieldCount prepPhraseHeader = 3 ∧ (prepPhraseToCSV s).length = 3)
    ∧ (fieldCount intensHeader = 8 ∧ (intensToCSV s).length = 8)
    ∧ (fieldCount miscHeader = 3 ∧ (miscToCSV s).length = 3)
    ∧ fieldCount [csvIntro what, ",Alpino_status,"] = 2 + (toCSVPrefix env s).length
    ∧ fieldCount (csvHeaderLine what env)
        = (csvRowLine what name id paragraphs settings env s).length := by
  have h1 := wordDifficulties_fields s
  have h2 := compound_fields s
  have h3 := sentDifficulties_fields env s
  have h4 := info_fields settings env s
  have h5 := coherence_fields s
  have h6 := concreet_fields s
  have h7 := persoonlijkheid_fields s
  have h8 := verb_fields s
  have h9 := imperative_fields s
  have h10 := wordSort_fields s
  have h11 := prepPhrase_fields s
  have h12 := intens_fields s
  have h13 := misc_fields s
  have h0 := csv_prefix_fields what env s hkind
  refine ⟨h1, h2, h3, h4, h5, h6, h7, h8, h9, h10, h11, h12, h13, h0, ?_⟩
  have hrow : (csvRowLine what name id paragraphs settings env s).length
      = 2 + (toCSV settings env s).length := by
    unfold csvRowLine
    cases what <;> simp only [List.length_append, List.length_cons, List.length_nil]
  rw [hrow]
  unfold csvHeaderLine CSVheader toCSV
  simp only [fieldCount_append, List.length_append]
  rw [h0, h1.1, h1.2, h2.1, h2.2, h3.1, h3.2, h4.1, h4.2, h5.1, h5.2, h6.1, h6.2, h7.1, h7.2,
    h8.1, h8.2, h9.1, h9.2, h10.1, h10.2, h11.1, h11.2, h12.1, h12.2, h13.1, h13.2]
  split <;> omega

/-- C26 (witness).  The file of the sentences with a sentence node: the header line and
the row have the same number of fields, 4 of them before the blocks. -/
theorem csv_header_row_aligned_witness :
    sentenceEnv.isSentence = decide (csvKind.SENT_CSV = .SENT_CSV)
    ∧ fieldCount [csvIntro .SENT_CSV, ",Alpino_status,"] = 4
    ∧ fieldCount (csvHeaderLine .SENT_CSV sentenceEnv)
        = (csvRowLine .SENT_CSV "in.txt" "s.1" 1 {} sentenceEnv zeroNode).length :=
  ⟨rfl, by decide,
    (csv_header_row_aligned .SENT_CSV "in.txt" "s.1" 1 {} sentenceEnv zeroNode
      rfl).2.2.2.2.2.2.2.2.2.2.2.2.2.2⟩

/-! ## C27: the MTLD of the enumerative connectives in the coherence block -/

/-- C27 (the code at the failing input).  The eighth column of the coherence block is named
`Conn_reeks_wg_MTLD` and the twelfth `Conn_reeks_zin_MTLD`; for every node the row writes
`reeks_zin_conn_mtld` in both.  For a node with `reeks_wg_conn_mtld = 1` and
`reeks_zin_conn_mtld = 2` the value under `Conn_reeks_wg_MTLD` is 2. -/
theorem coherence_reeks_wg_mtld_column :
    (columnNames coherenceHeader)[7]? = some "Conn_reeks_wg_MTLD"
    ∧ (columnNames coherenceHeader)[11]? = some "Conn_reeks_zin_MTLD"
    ∧ (∀ s : structStats,
        (coherenceToCSV s)[7]? = some (.num (s.dval .reeks_zin_conn_mtld))
        ∧ (coherenceToCSV s)[11]? = some (.num (s.dval .reeks_zin_conn_mtld)))
    ∧ nodeMtld.dval .reeks_wg_conn_mtld = some 1
    ∧ (coherenceToCSV nodeMtld)[7]? = some (.num (some 2)) := by
  refine ⟨by decide, by decide, fun s => ⟨rfl, rfl⟩, rfl, rfl⟩

/-! ## C28: the parse-dependent columns of a sentence whose parse failed -/

/-- C28 (the code at the failing input).  For a sentence whose parse failed
(`parseFailCnt = 1`, no dependency distance) the row of the sentence-difficulty block
writes "NA" in the ten columns of the subordinate clauses and the seven of the finite verbs
and conjunctions, in the seventeen `AL_*` columns and in `AL_gem`; under `D_level` it writes
the field `proportion( dLevel, sentCnt )`, which no test of `parseFailCnt` guards; and under
`AL_max` it writes the number 0, not "NA", because `getHighestAL` starts from 0. -/
theorem sentDifficulties_parse_failed_row :
    failedSentence.parseFailCnt = 1
    ∧ failedSentence.distances = []
    ∧ ((sentDifficultiesToCSV sentenceEnv failedSentence).drop 5).take 17
        = List.replicate 17 Cell.NA
    ∧ (columnNames (sentDifficultiesHeader sentenceEnv))[24]? = some "D_level"
    ∧ (sentDifficultiesToCSV sentenceEnv failedSentence)[24]?
        = some (.proportion (some (-1)) (some 1))
    ∧ ((sentDifficultiesToCSV sentenceEnv failedSentence).drop 36).take 18
        = List.replicate 18 Cell.NA
    ∧ (columnNames (sentDifficultiesHeader sentenceEnv))[53]? = some "AL_gem"
    ∧ (columnNames (sentDifficultiesHeader sentenceEnv))[54]? = some "AL_max"
    ∧ failedSentence.al_max = some 0
    ∧ (sentDifficultiesToCSV sentenceEnv failedSentence)[54]? = some (.num (some 0))
    ∧ (sentDifficultiesToCSV sentenceEnv failedSentence)[54]? ≠ some Cell.NA := by
  refine ⟨by decide, by decide, by decide, by decide, by decide, by decide, by decide,
    by decide, by decide, by decide, by decide⟩

/-! ## C29: a word without POS annotation -/

theorem collectPuncts_bad (w : List wordSource) (i : Nat)
    (hbad : ∃ src ∈ w, src.posCount ≠ 1) :
    collectPuncts w i = .error "word doesn't have Frog POS tag info" := by
  induction w generalizing i with
  | nil => simp at hbad
  | cons src rest ih =>
    unfold collectPuncts
    by_cases h : src.posCount ≠ 1
    · rw [if_pos h]
    · rw [if_neg h]
      have hrest : ∃ src ∈ rest, src.posCount ≠ 1 := by
        obtain ⟨x, hx, hx1⟩ := hbad
        rcases List.mem_cons.mp hx with rfl | hmem
        · exact absurd hx1 h
        · exact ⟨x, hmem, hx1⟩
      rw [ih (i + 1) hrest]

theorem wordStatsFreq_ok (settings : settingData) (src : wordSource)
    (h : src.posCount = 1) : ∃ ws, wordStatsFreq settings src false = .ok ws := by
  unfold wordStatsFreq
  simp only [Bool.false_eq_true, if_false, h, ne_eq, not_true_eq_false]
  split
  · split <;> exact ⟨_, rfl⟩
  · exact ⟨_, rfl⟩

theorem constructWords_bad (settings : settingData) (w : List wordSource)
    (hbad : ∃ src ∈ w, src.posCount ≠ 1) :
    constructWords settings false w = .error "word doesn't have Frog POS tag info" := by
  induction w with
  | nil => simp at hbad
  | cons src rest ih =>
    unfold constructWords
    by_cases h : src.posCount ≠ 1
    · have : wordStatsFreq settings src false
          = .error "word doesn't have Frog POS tag info" := by
        unfold wordStatsFreq
        simp only [Bool.false_eq_true, if_false]
        rw [if_pos h]
      rw [this]
    · have h1 : src.posCount = 1 := by simpa using h
      obtain ⟨ws, hws⟩ := wordStatsFreq_ok settings src h1
      have hrest : ∃ src ∈ rest, src.posCount ≠ 1 := by
        obtain ⟨x, hx, hx1⟩ := hbad
        rcases List.mem_cons.mp hx with rfl | hmem
        · exact absurd hx1 h
        · exact ⟨x, hmem, hx1⟩
      rw [hws, ih hrest]

theorem constructWords_fail (settings : settingData) (w : List wordSource) :
    constructWords settings true w = .ok (w.map (fun _ => {})) := by
  induction w with
  | nil => rfl
  | cons src rest ih =>
    unfold constructWords
    rw [ih]
    rfl

theorem np_lengthLoop_bad (cv : List chunkSource)
    (hbad : ∃ c ∈ cv, c.cls = "NP" ∧ ∃ d, c.det = some d ∧ d.posCount ≠ 1) :
    ∀ acc : Int × Int × Int,
      np_lengthLoop cv acc = .error "word doesn't have Frog POS tag info" := by
  induction cv with
  | nil => simp at hbad
  | cons c rest ih =>
    intro acc
    obtain ⟨npcount, indefcount, size⟩ := acc
    have hrest : (¬ (c.cls = "NP" ∧ ∃ d, c.det = some d ∧ d.posCount ≠ 1)) →
        ∃ c1 ∈ rest, c1.cls = "NP" ∧ ∃ d, c1.det = some d ∧ d.posCount ≠ 1 := by
      intro hc
      obtain ⟨x, hx, hx1⟩ := hbad
      rcases List.mem_cons.mp hx with rfl | hmem
      · exact absurd hx1 hc
      · exact ⟨x, hmem, hx1⟩
    unfold np_lengthLoop
    by_cases hnp : c.cls = "NP"
    · rw [if_pos hnp]
      cases hd : c.det with
      | none =>
        simp only []
        exact ih (hrest (fun hc => by
          obtain ⟨_, d, hd1, _⟩ := hc
          rw [hd] at hd1
          exact absurd hd1 (by simp))) _
      | some d =>
        simp only []
        by_cases hp : d.posCount ≠ 1
        · rw [if_pos hp]
        · rw [if_neg hp]
          have hr := hrest (fun hc => by
            obtain ⟨_, d1, hd1, hp1⟩ := hc
            rw [hd] at hd1
            exact hp ((Option.some.inj hd1) ▸ hp1))
          split_ifs
          · exact ih hr _
          · exact ih hr _
    · rw [if_neg hnp]
      exact ih (hrest (fun hc => hnp hc.1)) _

theorem np_lengthLoop_ok (cv : List chunkSource)
    (hok : ∀ c ∈ cv, c.cls = "NP" → ∀ d, c.det = some d → d.posCount = 1) :
    ∀ acc : Int × Int × Int, ∃ np, np_lengthLoop cv acc = .ok np := by
  induction cv with
  | nil => intro acc; exact ⟨acc, rfl⟩
  | cons c rest ih =>
    intro acc
    obtain ⟨npcount, indefcount, size⟩ := acc
    have hrest : ∀ c1 ∈ rest, c1.cls = "NP" → ∀ d, c1.det = some d → d.posCount = 1 :=
      fun c1 h1 => hok c1 (List.mem_cons_of_mem _ h1)
    unfold np_lengthLoop
    by_cases hnp : c.cls = "NP"
    · rw [if_pos hnp]
      cases hd : c.det with
      | none => exact ih hrest _
      | some d =>
        simp only []
        have hp : ¬ d.posCount ≠ 1 := by
          have := hok c (List.mem_cons_self _ _) hnp d hd
          simpa using this
        rw [if_neg hp]
        split_ifs
        · exact ih hrest _
        · exact ih hrest _
    · rw [if_neg hnp]
      exact ih hrest _

/-- C29 (counterexample).  A sentence whose parse failed, whose only word has no Frog POS
annotation and which has no chunk: the node is built, with `parseFailCnt = 1`, and no
error is raised. -/
theorem pos_missing_parse_failed_fails :
    sourceNoPos.posCount ≠ 1
    ∧ sentStatsWords {} .failed [sourceNoPos] []
        = .ok (1, [{ word_freq := 0, lemma_freq := 0, word_freq_log := .nan,
                     lemma_freq_log := .nan }], (0, 0, 0)) :=
  ⟨by decide, rfl⟩

/-- C29 (amended).  For every sentence that holds a word without exactly one Frog POS
annotation: when the sentence was parsed or no parser is in use, building the sentence
statistics raises the error "word doesn't have Frog POS tag info".  When the parse of the
sentence failed, the words are constructed without the test; the same error is then
raised at the end of the constructor, by `np_length`, when the first element of an NP
chunk of the sentence does not have exactly one Frog POS annotation, and otherwise the
node is built, with `parseFailCnt = 1`. -/
theorem pos_missing_is_fatal_unless_parse_failed (settings : settingData) (st : ParseState)
    (w : List wordSource) (cv : List chunkSource) (hbad : ∃ src ∈ w, src.posCount ≠ 1) :
    (st ≠ .failed →
      sentStatsWords settings st w cv = .error "word doesn't have Frog POS tag info")
    ∧ (st = .failed →
        (∃ c ∈ cv, c.cls = "NP" ∧ ∃ d, c.det = some d ∧ d.posCount ≠ 1) →
        sentStatsWords settings st w cv = .error "word doesn't have Frog POS tag info")
    ∧ (st = .failed →
        (∀ c ∈ cv, c.cls = "NP" → ∀ d, c.det = some d → d.posCount = 1) →
        ∃ np, sentStatsWords settings st w cv = .ok (1, w.map (fun _ => {}), np)) := by
  have hd : decide (ParseState.failed.parseFailCnt = 1) = true := by decide
  refine ⟨?_, ?_, ?_⟩
  · intro hst
    cases st with
    | parsed =>
      unfold sentStatsWords
      rw [if_pos rfl, collectPuncts_bad w 0 hbad]
    | failed => exact absurd rfl hst
    | notUsed =>
      unfold sentStatsWords
      rw [if_neg (by decide)]
      have hd0 : decide (ParseState.notUsed.parseFailCnt = 1) = false := by decide
      simp only [hd0, constructWords_bad settings w hbad]
  · intro hst hchunk
    subst hst
    unfold sentStatsWords np_length
    rw [if_neg (by decide)]
    simp only [hd, constructWords_fail settings w, np_lengthLoop_bad cv hchunk]
  · intro hst hchunk
    subst hst
    obtain ⟨np, hnp⟩ := np_lengthLoop_ok cv hchunk (0, 0, 0)
    refine ⟨np, ?_⟩
    unfold sentStatsWords np_length
    rw [if_neg (by decide)]
    simp only [hd, constructWords_fail settings w, hnp]
    rfl

/-- C29 (witness).  Without parser, the sentence "kat" followed by a word without POS
annotation raises the error.  After a failed parse the sentence of one word without POS
annotation raises it when that word starts an NP chunk, and gives a node when its only
chunk starts with an annotated article. -/
theorem pos_missing_is_fatal_unless_parse_failed_witness :
    (∃ src ∈ [sourceKat, sourceNoPos], src.posCount ≠ 1)
    ∧ sentStatsWords freqSettings .notUsed [sourceKat, sourceNoPos] []
        = .error "word doesn't have Frog POS tag info"
    ∧ sentStatsWords freqSettings .failed [sourceNoPos] [chunkNoPos]
        = .error "word doesn't have Frog POS tag info"
    ∧ sentStatsWords freqSettings .failed [sourceNoPos] [chunkEenKat]
        = .ok (1, [{}], (1, 1, 2)) :=
  ⟨⟨sourceNoPos, by simp, by decide⟩,
    (pos_missing_is_fatal_unless_parse_failed freqSettings .notUsed [sourceKat, sourceNoPos] []
      ⟨sourceNoPos, by simp, by decide⟩).1 (by decide),
    (pos_missing_is_fatal_unless_parse_failed freqSettings .failed [sourceNoPos] [chunkNoPos]
      ⟨sourceNoPos, by simp, by decide⟩).2.1 rfl
      ⟨chunkNoPos, by simp, rfl, _, rfl, by decide⟩,
    rfl⟩

/-! ## C30: the corrected tier counters -/

/-- C30 (the code at the failing input).  A counted verb of tier `top2000` increments
`top2000Cnt` and `top5000Cnt` and leaves `top5000CntCorr` and `top20000CntCorr` at 0; a
counted verb of tier `top3000` does the same, and one of tier `top10000` leaves
`top20000CntCorr` at 0.  A noun of tier `top2000` that is no compound increments
`top5000CntCorr` and `top20000CntCorr`.  For every state of the counters the verb of tier
`top2000` leaves the three corrected tier counters as they are. -/
theorem corrected_tier_counters_skip_tiers :
    ((sentWordStepCorr zeroNode (tierWord .WW .top2000)).cnt .wordCnt = 1
      ∧ (sentWordStepCorr zeroNode (tierWord .WW .top2000)).cnt .top2000Cnt = 1
      ∧ (sentWordStepCorr zeroNode (tierWord .WW .top2000)).cnt .top5000Cnt = 1
      ∧ (sentWordStepCorr zeroNode (tierWord .WW .top2000)).cnt .top5000CntCorr = 0
      ∧ (sentWordStepCorr zeroNode (tierWord .WW .top2000)).cnt .top20000CntCorr = 0)
    ∧ ((sentWordStepCorr zeroNode (tierWord .WW .top3000)).cnt .top5000CntCorr = 0
      ∧ (sentWordStepCorr zeroNode (tierWord .WW .top3000)).cnt .top20000CntCorr = 0)
    ∧ (sentWordStepCorr zeroNode (tierWord .WW .top10000)).cnt .top20000CntCorr = 0
    ∧ ((sentWordStepCorr zeroNode (tierWord .N .top2000)).cnt .top5000CntCorr = 1
      ∧ (sentWordStepCorr zeroNode (tierWord .N .top2000)).cnt .top20000CntCorr = 1)
    ∧ ((sentWordStepCorr zeroNode (tierWord .WW .top5000)).cnt .top5000CntCorr = 1
      ∧ (sentWordStepCorr zeroNode (tierWord .WW .top5000)).cnt .top20000CntCorr = 1)
    ∧ (∀ s : structStats,
        (countCompounds (tierWord .WW .top2000) s).cnt .top1000CntCorr = s.cnt .top1000CntCorr
        ∧ (countCompounds (tierWord .WW .top2000) s).cnt .top5000CntCorr
            = s.cnt .top5000CntCorr
        ∧ (countCompounds (tierWord .WW .top2000) s).cnt .top20000CntCorr
            = s.cnt .top20000CntCorr) := by
  refine ⟨by decide, by decide, by decide, by decide, by decide, fun s => ?_⟩
  simp [countCompounds, tierWord, tierSwitchCorr, addCnt, setCnt_cnt]

/-! ## C31, C35: the bounds and the divisions of MTLD -/

theorem length_insert_le (l : List String) (tok : String) :
    ((l.insert tok).length : Int) ≤ (l.length : Int) + 1 := by
  by_cases h : tok ∈ l
  · rw [List.insert_of_mem h]; omega
  · rw [List.insert_of_not_mem h, List.length_cons]; omega

/-- One round of the loop of `calculate_mtld`, for every threshold: the state keeps its
bounds, the factor grows by at most 1, and no divisor is zero (the partial result is
reached with `token_ttr` above the threshold, and `token_ttr` is at most 1). -/
theorem mtldStep_inv (thr : ℚ) (n i : Nat) (st : MtldState) (tok : String)
    (h : mtldInv st i) :
    (i ≠ n - 1 → mtldInv (mtldStep thr n st i tok) (i + 1))
    ∧ 0 ≤ (mtldStep thr n st i tok).token_factor
    ∧ (mtldStep thr n st i tok).token_factor ≤ (i : ℚ) + 1
    ∧ mtldStepDiv thr n st i tok = some (mtldStep thr n st i tok) := by
  obtain ⟨hc, hu, hf, hsum⟩ := h
  have hlen : ((st.unique_tokens.insert tok).length : Int) ≤ st.token_count + 1 := by
    have := length_insert_le st.unique_tokens tok
    omega
  have hposI : (0 : Int) < st.token_count + 1 := by omega
  have hpos : (0 : ℚ) < ((st.token_count + 1 : Int) : ℚ) := by exact_mod_cast hposI
  have hcq : (0 : ℚ) ≤ (st.token_count : ℚ) := by exact_mod_cast hc
  have hlenq : (((st.unique_tokens.insert tok).length : ℚ)) ≤ ((st.token_count + 1 : Int) : ℚ) := by
    exact_mod_cast hlen
  have httr1 : (((st.unique_tokens.insert tok).length : ℚ)) / ((st.token_count + 1 : Int) : ℚ)
      ≤ 1 := (div_le_one hpos).mpr hlenq
  have hcast : ((st.token_count + 1 : Int) : ℚ) = (st.token_count : ℚ) + 1 := by push_cast; ring
  have hdiv : divChecked (((st.unique_tokens.insert tok).length : ℚ))
      ((st.token_count + 1 : Int) : ℚ)
      = some ((((st.unique_tokens.insert tok).length : ℚ)) / ((st.token_count + 1 : Int) : ℚ)) := by
    unfold divChecked
    rw [if_neg (ne_of_gt hpos)]
  unfold mtldStepDiv mtldStep
  rw [hdiv]
  simp only [Option.some_bind]
  by_cases h1 : (((st.unique_tokens.insert tok).length : ℚ)) / ((st.token_count + 1 : Int) : ℚ)
      ≤ thr
  · simp only [h1, if_true]
    refine ⟨fun _ => ⟨le_refl _, ?_, ?_, ?_⟩, ?_, ?_, trivial⟩
    · show (([] : List String).length : Int) ≤ 0
      simp
    · show (0 : ℚ) ≤ st.token_factor + 1
      linarith
    · show st.token_factor + 1 + ((0 : Int) : ℚ) ≤ ((i + 1 : Nat) : ℚ)
      push_cast; linarith
    · show (0 : ℚ) ≤ st.token_factor + 1
      linarith
    · show st.token_factor + 1 ≤ (i : ℚ) + 1
      linarith
  · simp only [h1, if_false]
    have hlt : thr < (((st.unique_tokens.insert tok).length : ℚ))
        / ((st.token_count + 1 : Int) : ℚ) := not_le.mp h1
    have hthr1 : thr < 1 := lt_of_lt_of_le hlt httr1
    have hden : (0 : ℚ) < 1 - thr := by linarith
    by_cases h2 : i = n - 1
    · simp only [h2, if_true]
      have hd2 : divChecked (1 - (((st.unique_tokens.insert tok).length : ℚ))
            / ((st.token_count + 1 : Int) : ℚ)) (1 - thr)
          = some ((1 - (((st.unique_tokens.insert tok).length : ℚ))
            / ((st.token_count + 1 : Int) : ℚ)) / (1 - thr)) := by
        unfold divChecked
        rw [if_neg (ne_of_gt hden)]
      have hp0 : 0 ≤ (1 - (((st.unique_tokens.insert tok).length : ℚ))
            / ((st.token_count + 1 : Int) : ℚ)) / (1 - thr) :=
        div_nonneg (by linarith) (le_of_lt hden)
      have hp1 : (1 - (((st.unique_tokens.insert tok).length : ℚ))
            / ((st.token_count + 1 : Int) : ℚ)) / (1 - thr) ≤ 1 :=
        (div_le_one hden).mpr (by linarith)
      rw [hd2]
      refine ⟨fun hne => absurd rfl hne, ?_, ?_, rfl⟩
      · show 0 ≤ st.token_factor + _
        linarith
      · show st.token_factor + _ ≤ ((n - 1 : Nat) : ℚ) + 1
        rw [← h2]
        linarith
    · simp only [h2, if_false]
      refine ⟨fun _ => ⟨le_of_lt hposI, hlen, hf, ?_⟩, hf, ?_, trivial⟩
      · show st.token_factor + ((st.token_count + 1 : Int) : ℚ) ≤ ((i + 1 : Nat) : ℚ)
        rw [hcast]; push_cast; linarith
      · show st.token_factor ≤ (i : ℚ) + 1
        linarith

/-- The loop of `calculate_mtld` from a state within its bounds: the factor it leaves
lies between 0 and the number of tokens, and no divisor is zero. -/
theorem mtldLoop_inv (thr : ℚ) (n : Nat) (rest : List String) :
    ∀ (i : Nat) (st : MtldState), mtldInv st i → i + rest.length = n →
      0 ≤ (mtldLoop thr n i rest st).token_factor
      ∧ (mtldLoop thr n i rest st).token_factor ≤ (n : ℚ)
      ∧ mtldLoopDiv thr n i rest st = some (mtldLoop thr n i rest st) := by
  induction rest with
  | nil =>
    intro i st h hn
    obtain ⟨hc, _, hf, hsum⟩ := h
    have hcq : (0 : ℚ) ≤ (st.token_count : ℚ) := by exact_mod_cast hc
    have hin : i = n := by simpa using hn
    subst hin
    exact ⟨hf, by show st.token_factor ≤ _; linarith, rfl⟩
  | cons tok rest ih =>
    intro i st h hn
    obtain ⟨hinv, h0, h1, hdiv⟩ := mtldStep_inv thr n i st tok h
    have hstepDiv : mtldLoopDiv thr n i (tok :: rest) st
        = mtldLoopDiv thr n (i + 1) rest (mtldStep thr n st i tok) := by
      simp only [mtldLoopDiv, hdiv, Option.some_bind]
    rw [hstepDiv]
    show 0 ≤ (mtldLoop thr n (i + 1) rest (mtldStep thr n st i tok)).token_factor
      ∧ (mtldLoop thr n (i + 1) rest (mtldStep thr n st i tok)).token_factor ≤ (n : ℚ)
      ∧ _
    cases rest with
    | nil =>
      have hin : i + 1 = n := by simpa using hn
      refine ⟨h0, ?_, rfl⟩
      show (mtldStep thr n st i tok).token_factor ≤ (n : ℚ)
      have hnq : (n : ℚ) = (i : ℚ) + 1 := by rw [← hin]; push_cast; rfl
      rw [hnq]
      exact h1
    | cons t2 rest2 =>
      have hne : i ≠ n - 1 := by
        simp only [List.length_cons] at hn
        omega
      exact ih (i + 1) _ (hinv hne) (by simp only [List.length_cons] at hn ⊢; omega)

theorem mtldInv_init : mtldInv mtldInit 0 := by
  simp [mtldInv, mtldInit]

/-- C31.  For every threshold (in [0, 1] or not) and every non-empty token sequence, read
in exact rational arithmetic: the factor by which `calculate_mtld` divides is positive and
at most the number of tokens, `calculate_mtld` is the number of tokens divided by that
factor, and it is at least 1. -/
theorem calculate_mtld_ge_one (thr : ℚ) (v : List String) (hne : v ≠ []) :
    0 < mtldFactor thr v
    ∧ mtldFactor thr v ≤ (v.length : ℚ)
    ∧ calculate_mtld thr v = (v.length : ℚ) / mtldFactor thr v
    ∧ 1 ≤ calculate_mtld thr v := by
  obtain ⟨h0, h1, _⟩ := mtldLoop_inv thr v.length v 0 mtldInit mtldInv_init (by simp)
  have hlen : v.length ≠ 0 := fun h => hne (List.length_eq_zero.mp h)
  have hlen1 : (1 : ℚ) ≤ (v.length : ℚ) := by
    have : 1 ≤ v.length := Nat.one_le_iff_ne_zero.mpr hlen
    exact_mod_cast this
  have hpos : 0 < mtldFactor thr v := by
    unfold mtldFactor
    split_ifs with hz
    · norm_num
    · exact lt_of_le_of_ne h0 (Ne.symm hz)
  have hle : mtldFactor thr v ≤ (v.length : ℚ) := by
    unfold mtldFactor
    split_ifs with hz
    · exact hlen1
    · exact h1
  have hcalc : calculate_mtld thr v = (v.length : ℚ) / mtldFactor thr v := by
    simp only [calculate_mtld, mtldFactor, hlen, if_false]
  refine ⟨hpos, hle, hcalc, ?_⟩
  rw [hcalc]
  exact (one_le_div hpos).mpr hle

/-- C31 (witness).  With the threshold 0.72 the sequence "a", "a" closes one factor at
its second token: the factor is 1 and the value 2. -/
theorem calculate_mtld_ge_one_witness :
    ["a", "a"] ≠ [] ∧ 1 ≤ calculate_mtld default_mtld_threshold ["a", "a"] :=
  ⟨by decide, (calculate_mtld_ge_one default_mtld_threshold ["a", "a"] (by decide)).2.2.2⟩

/-- C35.  For every threshold that `settingData::init` accepts and every token sequence,
`calculate_mtld` divides by no zero: the run with every divisor tested (the count of
tokens under `token_ttr`, `1 - mtld_threshold` under the partial result, the factor under
the number of tokens) ends with the value of `calculate_mtld`.  An accepted threshold lies
in [0, 1], and the value 1.0 is accepted (the divisor `1 - mtld_threshold` is then zero, so
that division is not reached). -/
theorem calculate_mtld_no_zero_divisor (stringTo : String → Option ℚ) (val : String)
    (thr : ℚ) (v : List String) (h : initMtldThreshold stringTo val = some thr) :
    0 ≤ thr ∧ thr ≤ 1
    ∧ calculate_mtld_div thr v = some (calculate_mtld thr v)
    ∧ initMtldThreshold (fun _ => some 1) "1.0" = some 1
    ∧ divChecked 1 (1 - 1) = none := by
  have hrange : 0 ≤ thr ∧ thr ≤ 1 := by
    unfold initMtldThreshold at h
    by_cases he : val.isEmpty = true
    · rw [if_pos he] at h
      have : thr = default_mtld_threshold := (Option.some.inj h).symm
      rw [this]
      unfold default_mtld_threshold
      constructor <;> norm_num
    · rw [if_neg he] at h
      cases hs : stringTo val with
      | none => rw [hs] at h; exact absurd h (by simp)
      | some t =>
        rw [hs] at h
        simp only [] at h
        by_cases ht : t < 0 ∨ t > 1
        · rw [if_pos ht] at h; exact absurd h (by simp)
        · rw [if_neg ht] at h
          have hteq : t = thr := Option.some.inj h
          rw [← hteq]
          simp only [not_or, not_lt] at ht
          exact ht
  refine ⟨hrange.1, hrange.2, ?_, ?_, ?_⟩
  · by_cases hlen : v.length = 0
    · simp [calculate_mtld_div, calculate_mtld, hlen]
    · obtain ⟨h0, _, hdiv⟩ :=
        mtldLoop_inv thr v.length v 0 mtldInit mtldInv_init (by simp)
      have hfac : (if (mtldLoop thr v.length 0 v mtldInit).token_factor = 0 then (1 : ℚ)
          else (mtldLoop thr v.length 0 v mtldInit).token_factor) ≠ 0 := by
        split_ifs with hz
        · norm_num
        · exact hz
      simp only [calculate_mtld_div, calculate_mtld, hlen, if_false, hdiv, Option.some_bind,
        divChecked, hfac]
  · unfold initMtldThreshold
    rw [if_neg (by decide)]
    norm_num
  · simp [divChecked]

/-- C35 (witness).  The threshold 1.0 is accepted, and with it the sequence "a", "b"
closes a factor at each token: the tested run ends with the value 1. -/
theorem calculate_mtld_no_zero_divisor_witness :
    initMtldThreshold (fun _ => some 1) "1.0" = some 1
    ∧ calculate_mtld_div 1 ["a", "b"] = some (calculate_mtld 1 ["a", "b"]) :=
  ⟨by unfold initMtldThreshold; rw [if_neg (by decide)]; norm_num,
   (calculate_mtld_no_zero_divisor (fun _ => some 1) "1.0" 1 ["a", "b"]
      (by unfold initMtldThreshold; rw [if_neg (by decide)]; norm_num)).2.2.1⟩

/-! ## C32: the total of the intensifiers -/

theorem intensSwitch_balanced (ws : wordStats) (s : structStats) (h : intensBalanced s) :
    intensBalanced (intensSwitch ws s) := by
  unfold intensBalanced at h ⊢
  unfold intensSwitch
  cases ws.intensify_type <;> simp [bump, setCnt_cnt] <;> omega

theorem sentWordStepIntens_balanced (s : structStats) (ws : wordStats)
    (h : intensBalanced s) : intensBalanced (sentWordStepIntens s ws) := by
  unfold sentWordStepIntens
  split_ifs
  · exact h
  · unfold intensBalanced at h ⊢
    simpa [pushWord, bump, setCnt_cnt] using h
  · have h1 : intensBalanced (bump .wordCnt s) := by
      unfold intensBalanced at h ⊢
      simpa [bump, setCnt_cnt] using h
    exact intensSwitch_balanced ws _ h1

theorem addIntens_balanced (n : Nat) (s : structStats) (h : intensBalanced s) :
    intensBalanced (addIntens n s) := by
  unfold intensBalanced at h ⊢
  simp [addIntens, setCnt_cnt]
  omega

theorem intensLoop_balanced (settings : settingData) (sv : List wordStats) :
    ∀ (fuel i : Nat) (s s1 : structStats), intensBalanced s →
      intensLoop settings sv fuel i s = some s1 → intensBalanced s1 := by
  intro fuel
  induction fuel with
  | zero =>
    intro i s s1 h hl
    rw [intensLoop] at hl
    rcases Classical.em (i < sizeSub sv.length 1) with hc | hc
    · rw [if_pos hc] at hl
      exact absurd hl (by simp)
    · rw [if_neg hc] at hl
      exact Option.some.inj hl ▸ h
  | succ fuel ih =>
    intro i s s1 h hl
    rw [intensLoop] at hl
    rcases Classical.em (i < sizeSub sv.length 1) with hc | hc
    · rw [if_pos hc] at hl
      cases hw : sv[i]? with
      | none => rw [hw] at hl; exact absurd hl (by simp)
      | some w =>
        rw [hw] at hl
        simp only [] at hl
        cases hr : intensInner settings sv i (List.range' 1 (max_length_intensify - 1)) w.word with
        | none => rw [hr] at hl; exact absurd hl (by simp)
        | some r =>
          rw [hr] at hl
          cases r with
          | none => exact ih (i + 1) s s1 h hl
          | some j => exact ih (i + j + 1) _ s1 (addIntens_balanced (j + 1) s h) hl
    · rw [if_neg hc] at hl
      exact Option.some.inj hl ▸ h

theorem merge_balanced (p ss : structStats) (hp : intensBalanced p) (hs : intensBalanced ss) :
    intensBalanced (merge p ss) := by
  unfold intensBalanced at hp hs ⊢
  simp only [merge_cnt]
  omega

theorem mergeAll_balanced (cs : List structStats) :
    ∀ p : structStats, intensBalanced p → (∀ c ∈ cs, intensBalanced c) →
      intensBalanced (mergeAll p cs) := by
  induction cs with
  | nil => intro p hp _; exact hp
  | cons c cs ih =>
    intro p hp hcs
    exact ih (merge p c) (merge_balanced p c hp (hcs c (List.mem_cons_self _ _)))
      (fun d hd => hcs d (List.mem_cons_of_mem _ hd))

theorem foldl_sentWordStepIntens_balanced (words : List wordStats) :
    ∀ s : structStats, intensBalanced s →
      intensBalanced (words.foldl sentWordStepIntens s) := by
  induction words with
  | nil => intro s h; exact h
  | cons w rest ih => intro s h; exact ih _ (sentWordStepIntens_balanced s w h)

/-- C32.  The equation intensCnt = intensBvnwCnt + intensBvbwCnt + intensBwCnt +
intensCombiCnt + intensNwCnt + intensTussCnt + intensWwCnt is kept by the switch of the
word loop on the kind of intensifier, by every result of `resolveMultiWordIntensify` and
by `merge`.  So it holds in the node of every sentence of at least one word whose
construction starts from counters in which it holds (they are all 0 there), the
construction returning a node; and it holds in every node obtained by merging nodes in
which it holds into a node in which it holds. -/
theorem intens_total_is_sum_of_kinds (settings : settingData) (s p : structStats)
    (words : List wordStats) (children : List structStats)
    (hs : intensBalanced s) (hp : intensBalanced p)
    (hlen1 : 1 ≤ words.length) (hlen2 : words.length < 2 ^ 64)
    (hch : ∀ c ∈ children, intensBalanced c) :
    (∀ ws : wordStats, intensBalanced (intensSwitch ws s))
    ∧ (∀ st st1 : sentStats, intensBalanced st.stats →
        resolveMultiWordIntensify settings st = some st1 → intensBalanced st1.stats)
    ∧ (∀ ss : structStats, intensBalanced ss → intensBalanced (merge p ss))
    ∧ (∃ st, sentStatsIntens settings s words = some st ∧ intensBalanced st.stats)
    ∧ intensBalanced (mergeAll p children) := by
  have hres : ∀ st st1 : sentStats, intensBalanced st.stats →
      resolveMultiWordIntensify settings st = some st1 → intensBalanced st1.stats := by
    intro st st1 hb hr
    unfold resolveMultiWordIntensify at hr
    cases hl : intensLoop settings st.sv (st.sv.length + 1) 0 st.stats with
    | none => rw [hl] at hr; exact absurd hr (by simp)
    | some s1 =>
      rw [hl] at hr
      have : st1 = { stats := s1, sv := st.sv } := (Option.some.inj hr).symm
      rw [this]
      exact intensLoop_balanced settings st.sv _ 0 st.stats s1 hb hl
  refine ⟨fun ws => intensSwitch_balanced ws s hs, hres,
    fun ss hss => merge_balanced p ss hp hss, ?_, mergeAll_balanced children p hp hch⟩
  obtain ⟨s1, hs1⟩ := intensLoop_total settings words hlen1 hlen2 (words.length + 1) 0
    (words.foldl sentWordStepIntens s) (by omega)
  have hrun : sentStatsIntens settings s words = some { stats := s1, sv := words } := by
    simp [sentStatsIntens, resolveMultiWordIntensify, hs1]
  exact ⟨_, hrun, hres _ _ (foldl_sentWordStepIntens_balanced words s hs) hrun⟩

/-- C32 (witness).  The sentence "heel erg mooi", with "heel" an adverbial intensifier and
"heel erg" in the lexicon: the switch counts 1, the scan of the expressions adds 2 to the
total and to the combinations, and the equation holds in the sentence and in the
paragraph that merges it. -/
theorem intens_total_is_sum_of_kinds_witness :
    intensBalanced zeroNode
    ∧ 1 ≤ [intensWord 0 "heel" .BW, intensWord 1 "erg" .NO_INTENSIFY,
        intensWord 2 "mooi" .NO_INTENSIFY].length
    ∧ ((sentStatsIntens exampleIntensSettings zeroNode
          [intensWord 0 "heel" .BW, intensWord 1 "erg" .NO_INTENSIFY,
            intensWord 2 "mooi" .NO_INTENSIFY]).map
        (fun st => (st.stats.cnt .intensCnt, st.stats.cnt .intensBwCnt,
          st.stats.cnt .intensCombiCnt))) = some (3, 1, 2)
    ∧ ∃ st, sentStatsIntens exampleIntensSettings zeroNode
          [intensWord 0 "heel" .BW, intensWord 1 "erg" .NO_INTENSIFY,
            intensWord 2 "mooi" .NO_INTENSIFY] = some st
        ∧ intensBalanced st.stats :=
  ⟨by decide, by decide, by decide,
   (intens_total_is_sum_of_kinds exampleIntensSettings zeroNode zeroNode
      [intensWord 0 "heel" .BW, intensWord 1 "erg" .NO_INTENSIFY,
        intensWord 2 "mooi" .NO_INTENSIFY] [zeroNode]
      (by decide) (by decide) (by decide) (by decide)
      (fun c hc => by
        rw [List.mem_singleton] at hc
        rw [hc]
        decide)).2.2.2.1⟩

/-! ## C33: the bound of the overlap at document level -/

theorem argument_overlap_bounds (w : String) (buffer : List String) (n : Int) :
    n ≤ argument_overlap w buffer n ∧ argument_overlap w buffer n ≤ n + 1 := by
  have h : argument_overlap w buffer n
      = if ∃ b ∈ buffer, overlapMatch w b then n + 1 else n := by
    unfold argument_overlap
    cases buffer with
    | nil => simp
    | cons b rest =>
      simp only [List.isEmpty_cons, Bool.false_eq_true, if_false]
      exact argumentOverlapLoop_eq w (b :: rest) n
  rw [h]
  split_ifs <;> omega

/-- The loop of `calculate_doc_overlap` from empty buffers runs to the end on every list
of words; its buffers then hold the forms of the last `overlapSize` words that are not
punctuation, and each counter has grown by at most the number of such words beyond the
first `overlapSize`. -/
theorem docOverlapLoop_bound (settings : settingData) (hos : 1 ≤ settings.overlapSize)
    (c1 c2 : Int) (ws : List wordStats) :
    ∃ st, docOverlapLoop settings ws ⟨[], [], c1, c2⟩ = some st
      ∧ st.wordbuffer = lastN settings.overlapSize ((nonPunct ws).map (fun v => v.l_word))
      ∧ st.lemmabuffer
          = lastN settings.overlapSize ((nonPunct ws).map (fun v => v.l_lemma))
      ∧ c1 ≤ st.doc_word_overlapCnt
      ∧ st.doc_word_overlapCnt
          ≤ c1 + (((nonPunct ws).length - settings.overlapSize : Nat) : Int)
      ∧ c2 ≤ st.doc_lemma_overlapCnt
      ∧ st.doc_lemma_overlapCnt
          ≤ c2 + (((nonPunct ws).length - settings.overlapSize : Nat) : Int) := by
  induction ws using List.reverseRecOn with
  | nil =>
    exact ⟨⟨[], [], c1, c2⟩, rfl, by simp [nonPunct, lastN], by simp [nonPunct, lastN],
      le_refl _, by simp [nonPunct], le_refl _, by simp [nonPunct]⟩
  | append_singleton ws w ih =>
    obtain ⟨st, hl, hw, hlb, ha, hb, hc, hd⟩ := ih
    obtain ⟨st1, hs, h1, h2, h3, h4⟩ :=
      docOverlapStep_window settings hos (nonPunct ws) st w hw hlb
    have hbw := argument_overlap_bounds w.l_word st.wordbuffer st.doc_word_overlapCnt
    have hbl := argument_overlap_bounds w.l_lemma st.lemmabuffer st.doc_lemma_overlapCnt
    have hnp := nonPunct_append ws w
    refine ⟨st1, ?_, ?_, ?_, ?_, ?_, ?_, ?_⟩
    · rw [docOverlapLoop_append, hl]
      exact hs
    · rw [hnp]; exact h1
    · rw [hnp]; exact h2
    · rw [h3]; split_ifs <;> omega
    · rw [h3, hnp]
      by_cases hlet : w.prop = .ISLET
      · simp only [hlet, ne_eq, not_true_eq_false, false_and, if_false, if_true]
        exact hb
      · simp only [hlet, if_false, List.length_append, List.length_singleton]
        split_ifs with hcond
        · obtain ⟨_, hfull, _⟩ := hcond
          omega
        · omega
    · rw [h4]; split_ifs <;> omega
    · rw [h4, hnp]
      by_cases hlet : w.prop = .ISLET
      · simp only [hlet, ne_eq, not_true_eq_false, false_and, if_false, if_true]
        exact hd
      · simp only [hlet, if_false, List.length_append, List.length_singleton]
        split_ifs with hcond
        · obtain ⟨_, hfull, _⟩ := hcond
          omega
        · omega

/-- C33.  For a window size of at least one and every document `ws`, with `N` the number
of its words that are not punctuation: `calculate_doc_overlap`, started with both
counters at 0, returns and leaves each counter between 0 and max(0, N - overlapSize).
The same holds after every part of the loop: on every list of words `P` (a prefix of the
document, say) the loop ends with at most `overlapSize` entries in each buffer and each
counter at most max(0, N(P) - overlapSize); in particular both counters are still 0 while
no more than `overlapSize` words that are not punctuation have been read. -/
theorem doc_overlap_counts_bounded (settings : settingData) (ws P : List wordStats)
    (hos : 1 ≤ settings.overlapSize) :
    (∃ st, calculate_doc_overlap settings ws 0 0 = some st
      ∧ 0 ≤ st.doc_word_overlapCnt
      ∧ st.doc_word_overlapCnt
          ≤ max 0 (((nonPunct ws).length : Int) - (settings.overlapSize : Int))
      ∧ 0 ≤ st.doc_lemma_overlapCnt
      ∧ st.doc_lemma_overlapCnt
          ≤ max 0 (((nonPunct ws).length : Int) - (settings.overlapSize : Int))
      ∧ st.wordbuffer.length ≤ settings.overlapSize
      ∧ st.lemmabuffer.length ≤ settings.overlapSize)
    ∧ (∃ st, docOverlapLoop settings P docOverlapInit = some st
      ∧ st.wordbuffer.length ≤ settings.overlapSize
      ∧ st.lemmabuffer.length ≤ settings.overlapSize
      ∧ st.doc_word_overlapCnt
          ≤ max 0 (((nonPunct P).length : Int) - (settings.overlapSize : Int))
      ∧ st.doc_lemma_overlapCnt
          ≤ max 0 (((nonPunct P).length : Int) - (settings.overlapSize : Int))
      ∧ ((nonPunct P).length ≤ settings.overlapSize →
          st.doc_word_overlapCnt = 0 ∧ st.doc_lemma_overlapCnt = 0)) := by
  have hmax : ∀ (a b : Nat), (((a - b : Nat) : Int)) = max 0 ((a : Int) - (b : Int)) := by
    intro a b
    omega
  constructor
  · unfold calculate_doc_overlap
    by_cases hlen : ws.length < settings.overlapSize
    · rw [if_pos hlen]
      refine ⟨_, rfl, le_refl _, le_max_left _ _, le_refl _, le_max_left _ _, ?_, ?_⟩
      · exact Nat.zero_le _
      · exact Nat.zero_le _
    · rw [if_neg hlen]
      obtain ⟨st, hl, hw, hlb, ha, hb, hc, hd⟩ := docOverlapLoop_bound settings hos 0 0 ws
      refine ⟨st, hl, ha, ?_, hc, ?_, ?_, ?_⟩
      · rw [← hmax]; omega
      · rw [← hmax]; omega
      · rw [hw, lastN_length]; exact Nat.min_le_left _ _
      · rw [hlb, lastN_length]; exact Nat.min_le_left _ _
  · obtain ⟨st, hl, hw, hlb, ha, hb, hc, hd⟩ := docOverlapLoop_bound settings hos 0 0 P
    refine ⟨st, hl, ?_, ?_, ?_, ?_, ?_⟩
    · rw [hw, lastN_length]; exact Nat.min_le_left _ _
    · rw [hlb, lastN_length]; exact Nat.min_le_left _ _
    · rw [← hmax]; omega
    · rw [← hmax]; omega
    · intro hN
      constructor <;> omega

/-- C33 (witness).  With a window of one word, the document "hij . hij" has two words that
are not punctuation; the second "hij" overlaps with the first, and both counters end at
1 = 2 - 1. -/
theorem doc_overlap_counts_bounded_witness :
    1 ≤ docOverlapSettings.overlapSize
    ∧ (calculate_doc_overlap docOverlapSettings docHijHij 0 0).map
        (fun st => (st.doc_word_overlapCnt, st.doc_lemma_overlapCnt)) = some (1, 1)
    ∧ (nonPunct docHijHij).length = 2
    ∧ ∃ st, calculate_doc_overlap docOverlapSettings docHijHij 0 0 = some st
      ∧ 0 ≤ st.doc_word_overlapCnt
      ∧ st.doc_word_overlapCnt
          ≤ max 0 (((nonPunct docHijHij).length : Int) - (docOverlapSettings.overlapSize : Int))
      ∧ 0 ≤ st.doc_lemma_overlapCnt
      ∧ st.doc_lemma_overlapCnt
          ≤ max 0 (((nonPunct docHijHij).length : Int) - (docOverlapSettings.overlapSize : Int))
      ∧ st.wordbuffer.length ≤ docOverlapSettings.overlapSize
      ∧ st.lemmabuffer.length ≤ docOverlapSettings.overlapSize :=
  ⟨by decide, by decide, by decide,
   (doc_overlap_counts_bounded docOverlapSettings docHijHij docHijHij (by decide)).1⟩

/-! ## C34: the match relation of the overlap -/

theorem overlapTest_iff (w b : String) : overlapTest w b = true ↔ overlapMatch w b := by
  rw [overlapMatch_iff]
  unfold overlapTest
  simp only [Bool.or_eq_true, Bool.and_eq_true, decide_eq_true_eq, or_assoc]

/-- A string that lies in two of the pronoun sets is "zij" or "ze", or the two sets are the
same one. -/
theorem pronounClasses_overlap :
    ∀ C ∈ pronounClasses, ∀ D ∈ pronounClasses, ∀ b ∈ C, b ∈ D →
      C = D ∨ b = "zij" ∨ b = "ze" := by
  decide

/-- C34 (counterexample).  The sets `vnw_3sf` and `vnw_3p` both hold "zij": "haar" matches
"zij" and "zij" matches "hen", but "haar" does not match "hen", so `argument_overlap` counts
"haar" against the buffer ["zij"] and "zij" against ["hen"] but not "haar" against
["hen"]. -/
theorem overlap_match_transitive_fails :
    overlapTest "haar" "zij" = true ∧ overlapTest "zij" "hen" = true
    ∧ overlapTest "haar" "hen" = false
    ∧ "zij" ∈ vnw_3sf ∧ "zij" ∈ vnw_3p ∧ "ze" ∈ vnw_3sf ∧ "ze" ∈ vnw_3p
    ∧ argument_overlap "haar" ["zij"] 0 = 1 ∧ argument_overlap "zij" ["hen"] 0 = 1
    ∧ argument_overlap "haar" ["hen"] 0 = 0 := by
  decide

/-- C34 (amended).  The test of `argument_overlap` between a word and a buffer element is
the match relation (the loop counts at the first element that passes it), and this
relation is reflexive and symmetric, for every pair of strings; it is transitive through
every middle string other than "zij" and "ze", the two strings that the sets `vnw_3sf` and
`vnw_3p` share. -/
theorem overlap_match_reflexive_symmetric (a b c : String) (rest : List String) (n : Int) :
    argumentOverlapLoop a (b :: rest) n
        = (if overlapTest a b = true then n + 1 else argumentOverlapLoop a rest n)
    ∧ overlapTest a a = true
    ∧ overlapTest a b = overlapTest b a
    ∧ (b ≠ "zij" → b ≠ "ze" →
        overlapTest a b = true → overlapTest b c = true → overlapTest a c = true) := by
  refine ⟨?_, ?_, ?_, ?_⟩
  · by_cases h : overlapTest a b = true
    · rw [if_pos h]
      exact argumentOverlapLoop_hit a b rest n ((overlapTest_iff a b).mp h)
    · rw [if_neg h]
      exact argumentOverlapLoop_miss a b rest n (fun hm => h ((overlapTest_iff a b).mpr hm))
  · simp [overlapTest]
  · have hsymm : ∀ x y : String, overlapTest x y = true → overlapTest y x = true := by
      intro x y h
      rw [overlapTest_iff] at h ⊢
      rcases h with h | ⟨cls, hc, hx, hy⟩
      · exact Or.inl h.symm
      · exact Or.inr ⟨cls, hc, hy, hx⟩
    cases hab : overlapTest a b with
    | true => exact (hsymm a b hab).symm
    | false =>
      cases hba : overlapTest b a with
      | true => rw [hsymm b a hba] at hab; exact absurd hab (by simp)
      | false => rfl
  · intro hzij hze hab hbc
    rw [overlapTest_iff] at hab hbc ⊢
    rcases hab with hab | ⟨C, hC, haC, hbC⟩
    · rw [hab] at hbc; exact hbc
    · rcases hbc with hbc | ⟨D, hD, hbD, hcD⟩
      · rw [hbc]; exact Or.inr ⟨C, hC, haC, hbC⟩
      · rcases pronounClasses_overlap C hC D hD b hbC hbD with h | h | h
        · subst h; exact Or.inr ⟨C, hC, haC, hcD⟩
        · exact absurd h hzij
        · exact absurd h hze

/-- C34 (witness).  Through the middle string "hij": "hem" matches "hij", "hij" matches
"zijn", and "hem" matches "zijn".  The pair "haar", "zij" matches in both directions. -/
theorem overlap_match_reflexive_symmetric_witness :
    "hij" ≠ "zij" ∧ "hij" ≠ "ze"
    ∧ overlapTest "hem" "hij" = true ∧ overlapTest "hij" "zijn" = true
    ∧ overlapTest "hem" "zijn" = true
    ∧ overlapTest "haar" "zij" = true
    ∧ overlapTest "haar" "zij" = overlapTest "zij" "haar" :=
  ⟨by decide, by decide, by decide, by decide,
   (overlap_match_reflexive_symmetric "hem" "hij" "zijn" [] 0).2.2.2
      (by decide) (by decide) (by decide) (by decide),
   by decide,
   (overlap_match_reflexive_symmetric "haar" "zij" "hen" [] 0).2.2.1⟩

/-! ## C36: the accesses of the intensifier scan -/

/-- C36.  For a sentence with no tokens the loop bound `sv.size() - 1` of
`resolveMultiWordIntensify` wraps around to 2^64 - 1, the loop is entered at `i = 0` and
reads `sv[0]`, which is no element of the empty vector: the scan has no defined result.
The scans `resolveConnectives` and `resolvePrepExpr` of the same class test the size first
and return on the empty sentence.  On every sentence of at least one token every access
of `resolveMultiWordIntensify` is inside the vector and the scan returns. -/
theorem intensifier_scan_empty_sentence (settings : settingData) (s : structStats) :
    sizeSub ([] : List wordStats).length 1 = 2 ^ 64 - 1
    ∧ ([] : List wordStats)[0]? = none
    ∧ resolveMultiWordIntensify settings { stats := s, sv := [] } = none
    ∧ (resolveConnectives settings { stats := s, sv := [] }).isSome = true
    ∧ (resolvePrepExpr settings { stats := s, sv := [] }).isSome = true
    ∧ (∀ sv : List wordStats, 1 ≤ sv.length → sv.length < 2 ^ 64 →
        ∃ st, resolveMultiWordIntensify settings { stats := s, sv := sv } = some st) := by
  have hsub : sizeSub ([] : List wordStats).length 1 = 2 ^ 64 - 1 := by
    unfold sizeSub
    norm_num
  have hlt : 0 < sizeSub ([] : List wordStats).length 1 := by
    rw [hsub]; norm_num
  refine ⟨hsub, rfl, ?_, rfl, rfl, ?_⟩
  · unfold resolveMultiWordIntensify
    have hloop : intensLoop settings ([] : List wordStats)
        (([] : List wordStats).length + 1) 0 s = none := by
      show intensLoop settings ([] : List wordStats) (0 + 1) 0 s = none
      rw [intensLoop, if_pos hlt]
      rfl
    rw [hloop]
    rfl
  · intro sv h1 h2
    obtain ⟨s1, hs1⟩ := intensLoop_total settings sv h1 h2 (sv.length + 1) 0 s (by omega)
    exact ⟨{ stats := s1, sv := sv }, by simp [resolveMultiWordIntensify, hs1]⟩

/-! ## C37: the accesses of the connective scan -/

/-- C37.  For every sentence `resolveConnectives` returns: every element access that it
makes, and that the calls of `checkAls` it issues make, is inside `sv`.  It calls
`checkAls( i )` only for `i + 2 < sv.size()`, and for such an index `checkAls` returns.
The guard `index < sv.size()` of `checkAls` alone does not protect its look-ahead: called
on the last index of a sentence, here the one word "als", it reads `sv[index+1]` outside
the vector. -/
theorem resolveConnectives_in_bounds (settings : settingData) (st : sentStats) (i : Nat)
    (hi : i + 2 < st.sv.length) :
    (∀ st0 : sentStats, ∃ st1, resolveConnectives settings st0 = some st1)
    ∧ i ∈ List.range (st.sv.length - 2)
    ∧ (∃ r, checkAls st.sv i = some r)
    ∧ (∃ st1, connRound settings st i = some st1)
    ∧ checkAls [exampleWord 0 "als" .VG] 0 = none := by
  refine ⟨?_, ?_, ?_, ?_, rfl⟩
  · intro st0
    unfold resolveConnectives
    by_cases hlen : st0.sv.length > 1
    · obtain ⟨st1, h1, hs1⟩ := connLoop_spec settings (List.range (st0.sv.length - 2)) st0
        (fun j hj => by
          have := List.mem_range.mp hj
          omega)
      have hlen1 : st1.sv.length = st0.sv.length := sameUpToConn_length hs1
      obtain ⟨st2, h2, _⟩ := connLastTwo_spec settings st1 (by omega)
      exact ⟨{ stats := st2.sv.foldl connCount st2.stats, sv := st2.sv },
        by simp [hlen, h1, h2]⟩
    · exact ⟨{ stats := st0.sv.foldl connCount st0.stats, sv := st0.sv }, by simp [hlen]⟩
  · exact List.mem_range.mpr (by omega)
  · obtain ⟨b, sv1, h, _⟩ := checkAls_total st.sv i (by omega)
    exact ⟨_, h⟩
  · obtain ⟨st1, h, _⟩ := connRound_spec settings st i hi
    exact ⟨st1, h⟩

/-- C37 (witness).  In the sentence "zo groot als een huis" the call `checkAls( 2 )` is
issued (2 + 2 < 5) and returns, and the scan returns. -/
theorem resolveConnectives_in_bounds_witness :
    2 + 2 < (exampleSentence ["zo", "groot", "als", "een", "huis"]).sv.length
    ∧ (∃ r, checkAls (exampleSentence ["zo", "groot", "als", "een", "huis"]).sv 2 = some r)
    ∧ (resolveConnectives exampleConnSettings
          (exampleSentence ["zo", "groot", "als", "een", "huis"])).isSome = true :=
  ⟨by decide,
   (resolveConnectives_in_bounds exampleConnSettings
      (exampleSentence ["zo", "groot", "als", "een", "huis"]) 2 (by decide)).2.2.1,
   by decide⟩

/-! ## C38: the doubling of the quotes -/

theorem collapseQuotes_pair (l : List Char) :
    collapseQuotes (Char.ofNat 34 :: Char.ofNat 34 :: l) = Char.ofNat 34 :: collapseQuotes l := by
  rw [collapseQuotes]
  simp

theorem collapseQuotes_other (c : Char) (l : List Char) (hc : c ≠ Char.ofNat 34) :
    collapseQuotes (c :: l) = c :: collapseQuotes l := by
  cases l with
  | nil => simp [collapseQuotes]
  | cons d rest =>
    rw [collapseQuotes]
    simp [hc]

theorem escape_data (l : List Char) :
    l.flatMap (fun c => if c = Char.ofNat 34 then [Char.ofNat 34, c] else [c])
      = doubleQuotes l := by
  induction l with
  | nil => rfl
  | cons c rest ih =>
    by_cases hc : c = Char.ofNat 34
    · simp [List.flatMap_cons, doubleQuotes, hc, ih]
    · simp [List.flatMap_cons, doubleQuotes, hc, ih]

theorem doubleQuotes_length (l : List Char) :
    (doubleQuotes l).length = l.length + l.count (Char.ofNat 34) := by
  induction l with
  | nil => rfl
  | cons c rest ih =>
    by_cases hc : c = Char.ofNat 34
    · subst hc
      simp only [doubleQuotes, if_true, List.length_cons, ih, List.count_cons_self]
      omega
    · simp only [doubleQuotes, hc, if_false, List.length_cons, ih]
      rw [List.count_cons_of_ne (fun h => hc h.symm)]
      omega

theorem collapse_doubleQuotes (l : List Char) : collapseQuotes (doubleQuotes l) = l := by
  induction l with
  | nil => simp [doubleQuotes, collapseQuotes]
  | cons c rest ih =>
    by_cases hc : c = Char.ofNat 34
    · subst hc
      simp only [doubleQuotes, if_true]
      rw [collapseQuotes_pair, ih]
    · simp only [doubleQuotes, hc, if_false]
      rw [collapseQuotes_other c _ hc, ih]

/-- C38.  For every string `before`, `escape_quotes(before)` is `before` with every double
quote replaced by two double quotes and every other character kept in its place; its
length is the length of `before` plus the number of double quotes in `before`, and the
collapse of its doubled quotes gives `before` back.  The field that `structStats::toCSV`
writes for a sentence is this text between two double quotes. -/
theorem escape_quotes_doubles (before : String) (s : structStats) (env : csvEnv) :
    (escape_quotes before).data = doubleQuotes before.data
    ∧ (escape_quotes before).length = before.length + before.data.count (Char.ofNat 34)
    ∧ String.mk (collapseQuotes (escape_quotes before).data) = before
    ∧ toCSVPrefix { env with isSentence := true } s
        = [ .str (String.singleton (Char.ofNat 34) ++ escape_quotes env.text
              ++ String.singleton (Char.ofNat 34)), .int s.parseFailCnt ] := by
  have hdata : (escape_quotes before).data = doubleQuotes before.data := by
    unfold escape_quotes
    exact escape_data before.data
  refine ⟨hdata, ?_, ?_, ?_⟩
  · show (escape_quotes before).data.length = before.data.length + _
    rw [hdata, doubleQuotes_length]
  · rw [hdata, collapse_doubleQuotes]
  · simp [toCSVPrefix]

/-! ## C39: a line of one word in the file of the preposition expressions -/

/-- C39.  A line of `fill_vzexpr` that is no comment and holds one word is not skipped:
the guard before the switch tests `n == 0 || n > 4`, the switch has the cases 2, 3 and 4,
and for `n == 1` its `default` throws `logic_error( "switch out of range" )`, so the
function does not return.  A line of no part or of more than four parts is skipped and
leaves the three sets unchanged, and a comment line is skipped. -/
theorem fill_vzexpr_one_word_line_throws (S : vzSets) (ln tok a b c d e : String)
    (more : List String) (rest : List vzLine) :
    fill_vzexprLine S { line := ln, vec := [tok] }
        = (if ln.isEmpty ∨ ln.front = Char.ofNat 35 then .ok S
           else .error "switch out of range")
    ∧ fill_vzexpr S ({ line := "ondanks", vec := ["ondanks"] } :: rest)
        = .error "switch out of range"
    ∧ fill_vzexprLine S { line := ln, vec := [] } = .ok S
    ∧ fill_vzexprLine S { line := ln, vec := a :: b :: c :: d :: e :: more } = .ok S
    ∧ fill_vzexpr S [{ line := "in het kader van de", vec := ["in", "het", "kader", "van", "de"] },
          { line := "met het oog op", vec := ["met", "het", "oog", "op"] }]
        = .ok { S with vz4 := setInsert S.vz4 "met het oog op" } := by
  have hne : ¬ (("ondanks" : String).isEmpty ∨ ("ondanks" : String).front = Char.ofNat 35) := by
    decide
  have hne5 : ¬ (("in het kader van de" : String).isEmpty
      ∨ ("in het kader van de" : String).front = Char.ofNat 35) := by decide
  have hne4 : ¬ (("met het oog op" : String).isEmpty
      ∨ ("met het oog op" : String).front = Char.ofNat 35) := by decide
  refine ⟨?_, ?_, ?_, ?_, ?_⟩
  · unfold fill_vzexprLine
    by_cases h : ln.isEmpty ∨ ln.front = Char.ofNat 35
    · rw [if_pos h, if_pos h]
    · rw [if_neg h, if_neg h]
      simp
  · have h1 : fill_vzexprLine S { line := "ondanks", vec := ["ondanks"] }
        = .error "switch out of range" := by
      unfold fill_vzexprLine
      rw [if_neg hne]
      simp
    rw [fill_vzexpr, h1]
  · unfold fill_vzexprLine
    by_cases h : ln.isEmpty ∨ ln.front = Char.ofNat 35
    · rw [if_pos h]
    · rw [if_neg h]
      simp
  · unfold fill_vzexprLine
    by_cases h : ln.isEmpty ∨ ln.front = Char.ofNat 35
    · rw [if_pos h]
    · rw [if_neg h]
      simp
  · have h1 : fill_vzexprLine S
        { line := "in het kader van de", vec := ["in", "het", "kader", "van", "de"] }
        = .ok S := by
      unfold fill_vzexprLine
      rw [if_neg hne5]
      simp
    have h2 : fill_vzexprLine S
        { line := "met het oog op", vec := ["met", "het", "oog", "op"] }
        = .ok { S with vz4 := setInsert S.vz4 "met het oog op" } := by
      unfold fill_vzexprLine
      rw [if_neg hne4]
      simp
    rw [fill_vzexpr, h1]
    simp only []
    rw [fill_vzexpr, h2]
    rfl

/-! ## C40: the total of a frequency lexicon -/

theorem fill_freqlexLoop_stored (stol : String → Int) (stod : String → double)
    (freq_clip : ℚ) (lines : List (List String)) :
    ∀ (m : List (String × cf_data)) (total : Int),
      fill_freqlexLoop stol stod freq_clip m total lines
        = ((freqlexStored stol stod freq_clip lines).foldl (fun m1 e => mapSet m1 e.1 e.2) m,
           total + countSum (freqlexStored stol stod freq_clip lines)) := by
  induction lines with
  | nil => intro m total; simp [fill_freqlexLoop, freqlexStored, countSum]
  | cons parts rest ih =>
    intro m total
    rcases parts with _ | ⟨p0, _ | ⟨p1, _ | ⟨p2, _ | ⟨p3, _ | ⟨p4, more⟩⟩⟩⟩⟩
    · simp only [fill_freqlexLoop, freqlexStored]; exact ih m total
    · simp only [fill_freqlexLoop, freqlexStored]; exact ih m total
    · simp only [fill_freqlexLoop, freqlexStored]; exact ih m total
    · simp only [fill_freqlexLoop, freqlexStored]; exact ih m total
    · simp only [fill_freqlexLoop, freqlexStored]
      by_cases h1 : stol p1 = 1
      · simp [h1, countSum]
      · by_cases h2 : freq_clip > 0 ∧ freqAbove (stod p3) freq_clip = true
        · simp [h1, h2, countSum]
        · simp only [h1, h2, if_false]
          rw [ih]
          simp only [List.foldl_cons, countSum, List.map_cons, List.sum_cons]
          congr 1
          omega
    · simp only [fill_freqlexLoop, freqlexStored]; exact ih m total

theorem mapSet_fresh (m : List (String × cf_data)) (k : String) (v : cf_data)
    (hk : k ∉ m.map (fun e => e.1)) : mapSet m k v = (k, v) :: m := by
  unfold mapSet
  congr 1
  rw [List.filter_eq_self]
  intro e he
  have : e.1 ≠ k := fun h => hk (List.mem_map.mpr ⟨e, he, h⟩)
  simpa using this

theorem foldl_mapSet_fresh (l : List (String × cf_data)) :
    ∀ m : List (String × cf_data), (l.map (fun e => e.1)).Nodup →
      (∀ k ∈ l.map (fun e => e.1), k ∉ m.map (fun e => e.1)) →
      countSum (l.foldl (fun m1 e => mapSet m1 e.1 e.2) m) = countSum l + countSum m := by
  induction l with
  | nil => intro m _ _; simp [countSum]
  | cons e rest ih =>
    intro m hnd hfresh
    rw [List.map_cons, List.nodup_cons] at hnd
    have he : e.1 ∉ m.map (fun e => e.1) := hfresh e.1 (by simp)
    rw [List.foldl_cons, mapSet_fresh m e.1 e.2 he]
    rw [ih _ hnd.2 (fun k hk => by
      intro hmem
      rw [List.map_cons, List.mem_cons] at hmem
      rcases hmem with h | h
      · exact hnd.1 (h ▸ hk)
      · exact hfresh k (by rw [List.map_cons]; exact List.mem_cons_of_mem _ hk) h)]
    simp only [countSum, List.map_cons, List.sum_cons]
    omega

/-- C40 (counterexample).  In a file with the two lines "de 5 50 10" and "de 7 100 20"
both counts are added to `total`, and the second assignment `m["de"]` replaces the entry
of the first: `total` is 12 and the map holds the one entry of count 7. -/
theorem fill_freqlex_total_duplicate_fails :
    (fill_freqlex exampleStol (fun _ => none) 0 [] freqLinesTwice).2 = 12
    ∧ countSum (fill_freqlex exampleStol (fun _ => none) 0 [] freqLinesTwice).1 = 7
    ∧ ((fill_freqlex exampleStol (fun _ => none) 0 [] freqLinesTwice).1.map
        (fun e => (e.1, e.2.count))) = [("de", 7)] := by
  decide

/-- C40 (amended).  After `fill_freqlex` on an empty map, for every input, `total` equals
the sum of the count fields of the entries it stored, one for each line of 4 parts before
the line that ends the function, and the map is the result of these assignments in order;
`total` equals the sum of the count fields of the entries in the map when no two of these
lines have the same word. -/
theorem fill_freqlex_total (stol : String → Int) (stod : String → double) (freq_clip : ℚ)
    (lines : List (List String)) :
    (fill_freqlex stol stod freq_clip [] lines).2
        = countSum (freqlexStored stol stod freq_clip lines)
    ∧ (fill_freqlex stol stod freq_clip [] lines).1
        = (freqlexStored stol stod freq_clip lines).foldl (fun m1 e => mapSet m1 e.1 e.2) []
    ∧ (((freqlexStored stol stod freq_clip lines).map (fun e => e.1)).Nodup →
        (fill_freqlex stol stod freq_clip [] lines).2
          = countSum (fill_freqlex stol stod freq_clip [] lines).1) := by
  have h := fill_freqlexLoop_stored stol stod freq_clip lines [] 0
  have h1 : (fill_freqlex stol stod freq_clip [] lines).2
      = countSum (freqlexStored stol stod freq_clip lines) := by
    unfold fill_freqlex
    rw [h]
    simp
  have h2 : (fill_freqlex stol stod freq_clip [] lines).1
      = (freqlexStored stol stod freq_clip lines).foldl (fun m1 e => mapSet m1 e.1 e.2) [] := by
    unfold fill_freqlex
    rw [h]
  refine ⟨h1, h2, fun hnd => ?_⟩
  rw [h1, h2, foldl_mapSet_fresh _ [] hnd (fun k _ => by simp)]
  simp [countSum]

/-- C40 (witness).  The file with the lines "de 5 50 10" and "kat 7 100 20" stores two
different words: `total` is 12, the sum of the counts in the map.  In the file with two
lines of the word "de" the function stores two entries, of counts 5 and 7, and `total` is
their sum 12. -/
theorem fill_freqlex_total_witness :
    ((freqlexStored exampleStol (fun _ => none) 0 freqLinesTwo).map (fun e => e.1)).Nodup
    ∧ (fill_freqlex exampleStol (fun _ => none) 0 [] freqLinesTwo).2 = 12
    ∧ (fill_freqlex exampleStol (fun _ => none) 0 [] freqLinesTwo).2
        = countSum (fill_freqlex exampleStol (fun _ => none) 0 [] freqLinesTwo).1
    ∧ (freqlexStored exampleStol (fun _ => none) 0 freqLinesTwice).map
        (fun e => (e.1, e.2.count)) = [("de", 5), ("de", 7)]
    ∧ (fill_freqlex exampleStol (fun _ => none) 0 [] freqLinesTwice).2
        = countSum (freqlexStored exampleStol (fun _ => none) 0 freqLinesTwice) :=
  ⟨by decide, by decide,
   (fill_freqlex_total exampleStol (fun _ => none) 0 freqLinesTwo).2.2 (by decide),
   by decide,
   (fill_freqlex_total exampleStol (fun _ => none) 0 freqLinesTwice).1⟩

end TScan
